import Mathlib

/-!
# Garter: a static type validator for a typed Python subset

A verification development over `Python/garter.c`.

The C code works on reference-counted heap objects that are mutated in place
(late binding of a `List`/`Dict` payload writes the `meta` field of an existing
`GarterType`).  The embedding keeps this: a `GarterType *` is a `TypePtr`, the
objects created by `GarterType_New` live in a `Heap`, and every function that
can allocate or late-bind takes the heap and returns the new one.

What is not represented: reference counts and deallocation (objects are never
reused), source locations (`lineno`, `col_offset`) and the rendered text of a
diagnostic (a diagnostic is identified by `Diag`, one constructor per message
of the source), and out-of-memory failures of the allocator.
An assertion failure, a NULL dereference, a read through a pointer that does
not address an object, and a recursion that does not end are all reported as a
crash (`none` / `.crash`).
-/

namespace Garter

/-! ## GarterType -/

/-- The enum `GarterTypeKind`. -/
inductive GarterTypeKind where
  | GT_INT
  | GT_FLOAT
  | GT_BOOL
  | GT_STR
  | GT_DICT
  | GT_LIST
  | GT_CLASS
  deriving DecidableEq, Repr

/-- A non-NULL `GarterType *`.  The four primitive types are the static objects
`_GarterType_INT`, ..., `_GarterType_STR`; every other type object was created
by `GarterType_New` and is addressed by its position in the heap. -/
inductive TypePtr where
  | INT
  | FLOAT
  | BOOL
  | STR
  | obj (addr : Nat)
  deriving DecidableEq, Repr

/-- A non-NULL `meta` field (`PyObject *meta`): for a LIST a type, for a DICT a
2-tuple of types, for a CLASS any other object, known by its identity.  Two
tuple values are taken to be the same object when their items are the same
objects; tuples are only compared this way under the kind `GT_CLASS`, where the
validator never stores one. -/
inductive Meta where
  | type (t : TypePtr)
  | tuple (key value : TypePtr)
  | object (id : Nat)
  deriving DecidableEq, Repr

/-- The struct `GarterType` without its object header; `meta = none` is the
NULL pointer. -/
structure GarterType where
  kind : GarterTypeKind
  meta : Option Meta
  deriving DecidableEq, Repr

/-- The objects created so far by `GarterType_New`, by address. -/
abbrev Heap := List GarterType

/-- The object a pointer addresses; `none` when it addresses nothing. -/
def Heap.deref (h : Heap) : TypePtr → Option GarterType
  | .INT => some ⟨.GT_INT, none⟩
  | .FLOAT => some ⟨.GT_FLOAT, none⟩
  | .BOOL => some ⟨.GT_BOOL, none⟩
  | .STR => some ⟨.GT_STR, none⟩
  | .obj addr => h[addr]?

/-- The static `GarterType_INT`. -/
def GarterType_INT : TypePtr := .INT

/-- The static `GarterType_FLOAT`. -/
def GarterType_FLOAT : TypePtr := .FLOAT

/-- The static `GarterType_BOOL`. -/
def GarterType_BOOL : TypePtr := .BOOL

/-- The static `GarterType_STR`. -/
def GarterType_STR : TypePtr := .STR

/-- `GarterType_New(kind, meta)`: a fresh object at the next free address. -/
def GarterType_New (h : Heap) (kind : GarterTypeKind) (meta : Option Meta) :
    TypePtr × Heap :=
  (.obj h.length, h ++ [⟨kind, meta⟩])

/-- `GarterType_Kind(obj)`. -/
def GarterType_Kind (h : Heap) (obj : TypePtr) : Option GarterTypeKind :=
  (h.deref obj).map GarterType.kind

/-- `GarterType_Meta(obj)`; the inner option is the possibly NULL field. -/
def GarterType_Meta (h : Heap) (obj : TypePtr) : Option (Option Meta) :=
  (h.deref obj).map GarterType.meta

/-- The recursion of `GarterType_IsComplete`, cut off after `fuel` nested
calls.  The argument is a possibly NULL pointer. -/
def GarterType_IsComplete_fuel : Nat → Heap → Option TypePtr → Option Bool
  | _, _, none => some false
  | 0, _, some _ => none
  | fuel + 1, h, some obj =>
    match h.deref obj with
    | none => none
    | some o =>
      match o.kind with
      | .GT_LIST =>
        match o.meta with
        | none => GarterType_IsComplete_fuel fuel h none
        | some (.type m) => GarterType_IsComplete_fuel fuel h (some m)
        | some _ => none
      | .GT_DICT =>
        match o.meta with
        | none => some false
        | some (.tuple k v) =>
          match GarterType_IsComplete_fuel fuel h (some k) with
          | none => none
          | some false => some false
          | some true => GarterType_IsComplete_fuel fuel h (some v)
        | some _ => none
      | .GT_CLASS =>
        match o.meta with
        | none => some false
        | some _ => some true
      | _ => some true

/-- `GarterType_IsComplete(obj)`.  A chain of distinct objects is never longer
than the heap, so `h.length + 1` nested calls are enough unless the heap is
cyclic below `obj`, where the C recursion does not end either. -/
def GarterType_IsComplete (h : Heap) (obj : Option TypePtr) : Option Bool :=
  GarterType_IsComplete_fuel (h.length + 1) h obj

/-- `GarterType_LateBindMeta(obj, meta)`: stores `meta` in the object at `obj`.
The call sites only pass a LIST or DICT object whose `meta` is NULL; a static
object is left alone. -/
def GarterType_LateBindMeta (h : Heap) (obj : TypePtr) (meta : Meta) : Heap :=
  match obj with
  | .obj addr =>
    match h[addr]? with
    | some o => h.set addr ⟨o.kind, some meta⟩
    | none => h
  | _ => h

/-- The recursion of `GarterType_Equal`, cut off after `fuel` nested calls.
Returns the verdict and the heap after the late bindings it performed. -/
def GarterType_Equal_fuel : Nat → Heap → TypePtr → TypePtr → Option (Bool × Heap)
  | 0, _, _, _ => none
  | fuel + 1, h, a, b =>
    if a = b then some (true, h)
    else
      match h.deref a, h.deref b with
      | some oa, some ob =>
        if oa.kind ≠ ob.kind then some (false, h)
        else
          match oa.kind with
          | .GT_DICT =>
            match oa.meta, ob.meta with
            | none, none => some (true, h)
            | none, some bMeta => some (true, GarterType_LateBindMeta h a bMeta)
            | some aMeta, none => some (true, GarterType_LateBindMeta h b aMeta)
            | some (.tuple ak av), some (.tuple bk bv) =>
              match GarterType_Equal_fuel fuel h ak bk with
              | none => none
              | some (keys_match, h1) =>
                match GarterType_Equal_fuel fuel h1 av bv with
                | none => none
                | some (vals_match, h2) => some (keys_match && vals_match, h2)
            | some _, some _ => none
          | .GT_LIST =>
            match oa.meta, ob.meta with
            | none, none => some (true, h)
            | none, some bMeta => some (true, GarterType_LateBindMeta h a bMeta)
            | some aMeta, none => some (true, GarterType_LateBindMeta h b aMeta)
            | some (.type am), some (.type bm) => GarterType_Equal_fuel fuel h am bm
            | some _, some _ => none
          | .GT_CLASS => some (decide (oa.meta = ob.meta), h)
          | _ => some (true, h)
      | _, _ => none

/-- `GarterType_Equal(a, b)`, with the same bound on the nesting as
`GarterType_IsComplete`: it is only reached when the heap has a cycle, or gets
one from a late binding of this call. -/
def GarterType_Equal (h : Heap) (a b : TypePtr) : Option (Bool × Heap) :=
  GarterType_Equal_fuel (h.length + 1) h a b

/-! ## The abstract syntax (`Python-ast.h`)

Only the node kinds and fields the validator reads are kept.  A sequence
(`asdl_seq`) holds non-NULL nodes, as the parser builds them, except the keys
of a `Dict`, where NULL stands for a `**` item. -/

/-- The enum `operator` of binary operators. -/
inductive operator where
  | Add | Sub | Mult | MatMult | Div | Mod | Pow
  | LShift | RShift | BitOr | BitXor | BitAnd | FloorDiv
  deriving DecidableEq, Repr

/-- The enum `unaryop`. -/
inductive unaryop where
  | Invert | Not | UAdd | USub
  deriving DecidableEq, Repr

/-- The enum `boolop`. -/
inductive boolop where
  | And | Or
  deriving DecidableEq, Repr

/-- The object in `Num.n`: an integer (`PyLong_Check`), a float
(`PyFloat_Check`), or another number such as a complex literal.  The value of
a float is not looked at. -/
inductive num where
  | PyLong (n : Int)
  | PyFloat
  | PyComplex
  deriving DecidableEq, Repr

/-- The object in `NameConstant.value`. -/
inductive singleton where
  | Py_True
  | Py_False
  | Py_None
  deriving DecidableEq, Repr

/-- `PyBool_Check(value)`. -/
def PyBool_Check : singleton → Bool
  | .Py_True => true
  | .Py_False => true
  | .Py_None => false

/-- Expression nodes (`expr_ty`).  `Other kind` is any node kind without a case
of its own in the validator (Lambda, Set, Compare, Call, FormattedValue, Bytes,
Attribute, Subscript, Starred, Tuple, ...). -/
inductive expr where
  | BoolOp (op : boolop) (values : List expr)
  | BinOp (left : expr) (op : operator) (right : expr)
  | UnaryOp (op : unaryop) (operand : expr)
  | IfExp (test body : expr) (orelse : Option expr)
  | Dict (keys : List (Option expr)) (values : List expr)
  | Num (n : num)
  | Str
  | JoinedStr
  | NameConstant (value : singleton)
  | Ellipsis
  | Name (id : String)
  | List (elts : List expr)
  | Other (kind : Nat)

/-- Statement nodes (`stmt_ty`).  `Assign` carries the optional `type`
annotation of the Garter grammar.  The fields of the kinds the validator
rejects outright are dropped; `Other` is any kind without a case of its own
(Delete, With, Raise, Try, Import, Pass, ...). -/
inductive stmt where
  | FunctionDef
  | ClassDef
  | Return
  | Assign (targets : List expr) (value : expr) (type : Option expr)
  | AugAssign (target : expr) (op : operator) (value : expr)
  | For
  | While
  | If (test : expr) (body orelse : List stmt)
  | Assert
  | Global
  | Nonlocal
  | Expr (value : expr)
  | Break
  | Continue
  | Other (kind : Nat)

/-- Module nodes (`mod_ty`); `Other` is a kind outside the enum. -/
inductive mod where
  | Module (body : List stmt)
  | Interactive (body : List stmt)
  | Expression (body : expr)
  | Suite (body : List stmt)
  | Other (kind : Nat)

/-! ## Diagnostics -/

/-- The errors the validator posts: one constructor per `Garter_ERROR` message
or `PyErr_SetString` call of the source, named after the taxonomy of the
specification where it has a name for it. -/
inductive Diag where
  /-- Message "Variable with name %V has already been defined". -/
  | Redeclared (name : String)
  /-- Message "Complex expressions are not legal on the left hand side of a variable
  declaration". -/
  | ComplexLHS
  /-- Message "Unrecognized type name %V". -/
  | UnknownTypeName (name : String)
  /-- Message "Dictionary types may only have one key-value type-pair". -/
  | DictTypeArity
  /-- Message "List type literals may only have a single item". -/
  | ListTypeArity
  /-- Raises ValueError "None disallowed as a type". -/
  | NoneAsType
  /-- Message "Illegal type form". -/
  | IllegalTypeForm
  /-- Message "Invalid (non-bool) type for if expression test". -/
  | IfTestNotBool
  /-- Message "Type of else arm must match body arm". -/
  | ElseArmMismatch
  /-- Message "Arrays must all contain elements of the same type. Element %d contained
  an inconsistent type". -/
  | ListElementMismatch (i : Nat)
  /-- Message "ASD", the message of `validate_dict_expr`. -/
  | DictExprUnimplemented
  /-- Message "Invalid operand to unary ... operator", with the operator it names. -/
  | InvalidUnaryOperand (op : unaryop)
  /-- Message "Invalid type operands to ... operator", with the operator the message
  names. -/
  | InvalidBinaryOperands (op : operator)
  /-- Message "Matrix multiplication operator `@` is not supported by Garter". -/
  | MatMultUnsupported
  /-- Message "Unrecognized number type!". -/
  | UnrecognizedNumber
  /-- Message "Undefined identifier %V". -/
  | Undefined (name : String)
  /-- Message "Operands to BoolOp must be bool". -/
  | BoolOpOperandNotBool
  /-- Message "Unrecognized NameConstant". -/
  | UnrecognizedConstant
  /-- Message "Unrecognized expression kind %d". -/
  | UnrecognizedExprKind
  /-- Message "Assignments may only have a single target in garter". -/
  | MultipleTargets
  /-- Message "Incomplete type in declaration". -/
  | IncompleteType
  /-- Message "Declarations must occur at the global level or in function roots". -/
  | DeclInNonRoot
  /-- Message "Incorrect type in assignment". -/
  | TypeMismatch
  /-- Message "UNIMPLEMENTED %s:%d". -/
  | Unimplemented
  /-- Message "Statement kind not supported by Garter". -/
  | StmtKindUnsupported
  /-- Raises ValueError "Suite is not valid in the CPython compiler". -/
  | SuiteInvalid
  /-- Raises SystemError "impossible module node". -/
  | ImpossibleModule
  /-- Raises ValueError "Expected GarterScope object as scope argument to
  Garter_Validate()". -/
  | ExpectedScope
  /-- Raises ValueError "Expected Unicode object as filename argument to
  Garter_Validate()". -/
  | ExpectedFilename
  deriving DecidableEq, Repr

/-! ## GarterScope -/

/-- The dictionary `items` of a scope (`Dict{String => GarterType}`), in
insertion order, keys unique. -/
abbrev Items := List (String × TypePtr)

/-- `PyDict_GetItem(items, name)`; `none` is NULL. -/
def PyDict_GetItem (items : Items) (name : String) : Option TypePtr :=
  items.lookup name

/-- `PyDict_Contains(items, name)`. -/
def PyDict_Contains (items : Items) (name : String) : Bool :=
  (items.lookup name).isSome

/-- `PyDict_SetItem(items, name, type)`: replaces the value of an existing key,
appends a new key. -/
def PyDict_SetItem (items : Items) (name : String) (type : TypePtr) : Items :=
  if PyDict_Contains items name then
    items.map fun kv => if kv.1 = name then (name, type) else kv
  else items ++ [(name, type)]

/-- `PyDict_Copy(items)`. -/
def PyDict_Copy (items : Items) : Items := items

/-- The struct `GarterScope`: the enclosing scope (`none` is NULL at the global
scope), the bindings, and the file name of an ongoing validation.  The
validator only writes the `items` of the scope it is handed and the `filename`
of a global scope, so a scope is passed as a value and a function that changes
it returns the new value. -/
inductive GarterScope where
  | mk (up : Option GarterScope) (items : Items) (filename : Option String)

/-- `GarterScope_New(up)`. -/
def GarterScope_New (up : Option GarterScope) : GarterScope :=
  .mk up [] none

/-- `GarterScope_Up(obj)`. -/
def GarterScope_Up : GarterScope → Option GarterScope
  | .mk up _ _ => up

/-- `GarterScope_Items(obj)`. -/
def GarterScope_Items : GarterScope → Items
  | .mk _ items _ => items

/-- The field `filename` of this scope node. -/
def GarterScope.filename : GarterScope → Option String
  | .mk _ _ filename => filename

/-- The scope with its field `items` replaced. -/
def GarterScope.setItems : GarterScope → Items → GarterScope
  | .mk up _ filename, items => .mk up items filename

/-- The scope with its field `filename` replaced. -/
def GarterScope.setFilename : GarterScope → Option String → GarterScope
  | .mk up items _, filename => .mk up items filename

/-- `GarterScope_Global(obj)`: climbs to the scope without parent. -/
def GarterScope_Global : GarterScope → GarterScope
  | .mk none items filename => .mk none items filename
  | .mk (some up) _ _ => GarterScope_Global up

/-- `GarterScope_FileName(obj)`. -/
def GarterScope_FileName (obj : GarterScope) : Option String :=
  (GarterScope_Global obj).filename

/-- `GarterScope_ValidationBegin(obj, filename)`: stores the file name and
returns the copy of the bindings together with the updated scope; `none` when
the assertion (no parent, no file name set) fails. -/
def GarterScope_ValidationBegin (obj : GarterScope) (filename : String) :
    Option (Items × GarterScope) :=
  if (GarterScope_Up obj).isNone && (GarterScope_FileName obj).isNone then
    some (PyDict_Copy (GarterScope_Items obj), obj.setFilename (some filename))
  else none

/-- `GarterScope_ValidationOk(obj)`: clears the file name; `none` when the
assertion (no parent, a file name is set) fails. -/
def GarterScope_ValidationOk (obj : GarterScope) : Option GarterScope :=
  if (GarterScope_Up obj).isNone && (GarterScope_FileName obj).isSome then
    some (obj.setFilename none)
  else none

/-- `GarterScope_ValidationFail(obj, backup)`: as `GarterScope_ValidationOk`,
then puts the copy of the bindings back. -/
def GarterScope_ValidationFail (obj : GarterScope) (backup : Items) :
    Option GarterScope :=
  match GarterScope_ValidationOk obj with
  | some o => some (o.setItems backup)
  | none => none

/-! ## Results of the judgments -/

/-- What a function returning an owned `PyObject *` does: returns a value,
returns NULL with a diagnostic posted, or crashes.  In the first two cases the
heap after the call is given. -/
inductive Res (α : Type) where
  | ok (value : α) (h : Heap)
  | fail (d : Diag) (h : Heap)
  | crash

/-- What a function returning a `GBoolean` does: returns `GTrue`, returns
`GFalse` with a diagnostic posted, or crashes.  In the first two cases the
scope and the heap after the call are given. -/
inductive StmtRes where
  | ok (scope : GarterScope) (h : Heap)
  | fail (d : Diag) (scope : GarterScope) (h : Heap)
  | crash

/-! ## Main validation logic -/

/-- `validate_decl_target(scope, expr, type)`. -/
def validate_decl_target (scope : GarterScope) (h : Heap) (e : expr)
    (type : TypePtr) : StmtRes :=
  match e with
  | .Name name =>
    if PyDict_Contains (GarterScope_Items scope) name then
      .fail (.Redeclared name) scope h
    else
      .ok (scope.setItems (PyDict_SetItem (GarterScope_Items scope) name type)) h
  | _ => .fail .ComplexLHS scope h

/-- `validate_type(scope, expr)`.  The scope is only used to locate the
diagnostic.  Of the NULL checks only the one on the key of a Dict can fire. -/
def validate_type (scope : GarterScope) (h : Heap) : expr → Res TypePtr
  | .Name name =>
    if name = "int" then .ok GarterType_INT h
    else if name = "float" then .ok GarterType_FLOAT h
    else if name = "str" then .ok GarterType_STR h
    else if name = "bool" then .ok GarterType_BOOL h
    else .fail (.UnknownTypeName name) h
  | .Dict [key] [value] =>
    match key with
    | none => .fail .NoneAsType h
    | some key =>
      match validate_type scope h key with
      | .crash => .crash
      | .fail d h1 => .fail d h1
      | .ok key_type h1 =>
        match validate_type scope h1 value with
        | .crash => .crash
        | .fail d h2 => .fail d h2
        | .ok value_type h2 =>
          let r := GarterType_New h2 .GT_DICT (some (.tuple key_type value_type))
          .ok r.1 r.2
  | .Dict _ _ => .fail .DictTypeArity h
  | .List [elt] =>
    match validate_type scope h elt with
    | .crash => .crash
    | .fail d h1 => .fail d h1
    | .ok meta h1 =>
      let r := GarterType_New h1 .GT_LIST (some (.type meta))
      .ok r.1 r.2
  | .List _ => .fail .ListTypeArity h
  | _ => .fail .IllegalTypeForm h

/-- `validate_if_expr(scope, expr)`, given the judgment of the test and, as
functions of the heap they start from, the judgments of the body and of the
else-arm (`none` when `orelse` is NULL). -/
def validate_if_expr (test : Res TypePtr) (body : Heap → Res TypePtr)
    (orelse : Option (Heap → Res TypePtr)) : Res TypePtr :=
  match test with
  | .crash => .crash
  | .fail d h1 => .fail d h1
  | .ok test h1 =>
    match GarterType_Kind h1 test with
    | none => .crash
    | some test_kind =>
      if test_kind ≠ .GT_BOOL then .fail .IfTestNotBool h1
      else
        match body h1 with
        | .crash => .crash
        | .fail d h2 => .fail d h2
        | .ok body h2 =>
          match orelse with
          | none => .ok body h2
          | some orelse =>
            match orelse h2 with
            | .crash => .crash
            | .fail d h3 => .fail d h3
            | .ok orelse h3 =>
              match GarterType_Equal h3 body orelse with
              | none => .crash
              | some (false, h4) => .fail .ElseArmMismatch h4
              | some (true, h4) => .ok body h4

/-- The end of `validate_list_expr(scope, expr)`, after its loop: the new LIST
type around the element type, which is NULL for the empty literal. -/
def validate_list_expr (loop : Res (Option TypePtr)) : Res TypePtr :=
  match loop with
  | .crash => .crash
  | .fail d h1 => .fail d h1
  | .ok elt_type h1 =>
    let r := GarterType_New h1 .GT_LIST (elt_type.map Meta.type)
    .ok r.1 r.2

/-- `validate_dict_expr(scope, expr)`, the variant that is compiled. -/
def validate_dict_expr (h : Heap) : Res TypePtr :=
  .fail .DictExprUnimplemented h

/-- `validate_unaryop_expr(scope, expr)`, given the judgment of the operand. -/
def validate_unaryop_expr (op : unaryop) (operand_type : Res TypePtr) :
    Res TypePtr :=
  match operand_type with
  | .crash => .crash
  | .fail d h1 => .fail d h1
  | .ok operand_type h1 =>
    match GarterType_Kind h1 operand_type with
    | none => .crash
    | some operand_kind =>
      match op with
      | .Invert =>
        if operand_kind = .GT_INT then .ok GarterType_INT h1
        else .fail (.InvalidUnaryOperand .Invert) h1
      | .Not =>
        if operand_kind = .GT_BOOL then .ok GarterType_BOOL h1
        else .fail (.InvalidUnaryOperand .Not) h1
      | .UAdd =>
        if operand_kind = .GT_INT ∨ operand_kind = .GT_FLOAT then
          .ok operand_type h1
        else .fail (.InvalidUnaryOperand .UAdd) h1
      | .USub =>
        if operand_kind = .GT_INT ∨ operand_kind = .GT_FLOAT then
          .ok operand_type h1
        else .fail (.InvalidUnaryOperand .USub) h1

/-- The test `lhs_kind == GT_INT && rhs_kind == GT_INT` of
`validate_binop_expr`. -/
def both_int (lhs_kind rhs_kind : GarterTypeKind) : Bool :=
  decide (lhs_kind = .GT_INT) && decide (rhs_kind = .GT_INT)

/-- The test of `validate_binop_expr` for a float result: FLOAT with FLOAT, INT
with FLOAT, or FLOAT with INT. -/
def float_mix (lhs_kind rhs_kind : GarterTypeKind) : Bool :=
  (decide (lhs_kind = .GT_FLOAT) && decide (rhs_kind = .GT_FLOAT)) ||
  (decide (lhs_kind = .GT_INT) && decide (rhs_kind = .GT_FLOAT)) ||
  (decide (lhs_kind = .GT_FLOAT) && decide (rhs_kind = .GT_INT))

/-- The test of the `Div` and `FloorDiv` cases: each side is INT or FLOAT. -/
def both_numeric (lhs_kind rhs_kind : GarterTypeKind) : Bool :=
  (decide (lhs_kind = .GT_INT) || decide (lhs_kind = .GT_FLOAT)) &&
  (decide (rhs_kind = .GT_INT) || decide (rhs_kind = .GT_FLOAT))

/-- `validate_binop_expr(scope, expr)`, given the judgment of the left operand
and, as a function of the heap it starts from, the judgment of the right
operand.  The diagnostic of the `Mult` case names the operator `-`, as its
message does. -/
def validate_binop_expr (lhs_type : Res TypePtr) (op : operator)
    (rhs : Heap → Res TypePtr) : Res TypePtr :=
  match lhs_type with
  | .crash => .crash
  | .fail d h1 => .fail d h1
  | .ok lhs_type h1 =>
    match rhs h1 with
    | .crash => .crash
    | .fail d h2 => .fail d h2
    | .ok rhs_type h2 =>
      match GarterType_Kind h2 lhs_type, GarterType_Kind h2 rhs_type with
      | some lhs_kind, some rhs_kind =>
        match op with
        | .Add =>
          if both_int lhs_kind rhs_kind then .ok GarterType_INT h2
          else if float_mix lhs_kind rhs_kind then .ok GarterType_FLOAT h2
          else if lhs_kind = .GT_STR ∧ rhs_kind = .GT_STR then
            .ok GarterType_STR h2
          else if lhs_kind = .GT_LIST then
            match GarterType_Equal h2 lhs_type rhs_type with
            | none => .crash
            | some (true, h3) => .ok lhs_type h3
            | some (false, h3) => .fail (.InvalidBinaryOperands .Add) h3
          else .fail (.InvalidBinaryOperands .Add) h2
        | .Sub =>
          if both_int lhs_kind rhs_kind then .ok GarterType_INT h2
          else if float_mix lhs_kind rhs_kind then .ok GarterType_FLOAT h2
          else .fail (.InvalidBinaryOperands .Sub) h2
        | .Mult =>
          if both_int lhs_kind rhs_kind then .ok GarterType_INT h2
          else if float_mix lhs_kind rhs_kind then .ok GarterType_FLOAT h2
          else .fail (.InvalidBinaryOperands .Sub) h2
        | .MatMult => .fail .MatMultUnsupported h2
        | .Div =>
          if both_numeric lhs_kind rhs_kind then .ok GarterType_FLOAT h2
          else .fail (.InvalidBinaryOperands .Div) h2
        | .Mod =>
          if both_int lhs_kind rhs_kind then .ok GarterType_INT h2
          else if float_mix lhs_kind rhs_kind then .ok GarterType_FLOAT h2
          else .fail (.InvalidBinaryOperands .Mod) h2
        | .Pow =>
          if both_int lhs_kind rhs_kind then .ok GarterType_INT h2
          else if float_mix lhs_kind rhs_kind then .ok GarterType_FLOAT h2
          else .fail (.InvalidBinaryOperands .Pow) h2
        | .LShift =>
          if both_int lhs_kind rhs_kind then .ok GarterType_INT h2
          else .fail (.InvalidBinaryOperands .LShift) h2
        | .RShift =>
          if both_int lhs_kind rhs_kind then .ok GarterType_INT h2
          else .fail (.InvalidBinaryOperands .RShift) h2
        | .BitOr =>
          if both_int lhs_kind rhs_kind then .ok GarterType_INT h2
          else .fail (.InvalidBinaryOperands .BitOr) h2
        | .BitXor =>
          if both_int lhs_kind rhs_kind then .ok GarterType_INT h2
          else .fail (.InvalidBinaryOperands .BitXor) h2
        | .BitAnd =>
          if both_int lhs_kind rhs_kind then .ok GarterType_INT h2
          else .fail (.InvalidBinaryOperands .BitAnd) h2
        | .FloorDiv =>
          if both_numeric lhs_kind rhs_kind then .ok GarterType_INT h2
          else .fail (.InvalidBinaryOperands .FloorDiv) h2
      | _, _ => .crash

mutual
/-- `validate_expr(scope, expr, lvalue)`.  The parameter `lvalue` is never
read and is left out. -/
def validate_expr (scope : GarterScope) (h : Heap) : expr → Res TypePtr
  | .Num n =>
    match n with
    | .PyLong _ => .ok GarterType_INT h
    | .PyFloat => .ok GarterType_FLOAT h
    | .PyComplex => .fail .UnrecognizedNumber h
  | .JoinedStr => .ok GarterType_STR h
  | .Str => .ok GarterType_STR h
  | .Name name =>
    match PyDict_GetItem (GarterScope_Items scope) name with
    | some ret => .ok ret h
    | none => .fail (.Undefined name) h
  | .BoolOp _ values =>
    match validate_expr_BoolOp_loop scope h values with
    | .crash => .crash
    | .fail d h1 => .fail d h1
    | .ok _ h1 => .ok GarterType_BOOL h1
  | .NameConstant value =>
    if PyBool_Check value then .ok GarterType_BOOL h
    else .fail .UnrecognizedConstant h
  | .List elts => validate_list_expr (validate_list_expr_loop scope h none 0 elts)
  | .Dict _ _ => validate_dict_expr h
  | .BinOp left op right =>
    validate_binop_expr (validate_expr scope h left) op
      (fun h1 => validate_expr scope h1 right)
  | .UnaryOp op operand =>
    validate_unaryop_expr op (validate_expr scope h operand)
  | .IfExp test body none =>
    validate_if_expr (validate_expr scope h test)
      (fun h1 => validate_expr scope h1 body) none
  | .IfExp test body (some orelse) =>
    validate_if_expr (validate_expr scope h test)
      (fun h1 => validate_expr scope h1 body)
      (some (fun h2 => validate_expr scope h2 orelse))
  | .Ellipsis => .fail .UnrecognizedExprKind h
  | .Other _ => .fail .UnrecognizedExprKind h
/-- The loop of the `BoolOp_kind` case of `validate_expr` over the operands
from the current one on. -/
def validate_expr_BoolOp_loop (scope : GarterScope) (h : Heap) :
    List expr → Res Unit
  | [] => .ok () h
  | operand :: rest =>
    match validate_expr scope h operand with
    | .crash => .crash
    | .fail d h1 => .fail d h1
    | .ok ty h1 =>
      match GarterType_Kind h1 ty with
      | none => .crash
      | some ty_kind =>
        if ty_kind ≠ .GT_BOOL then .fail .BoolOpOperandNotBool h1
        else validate_expr_BoolOp_loop scope h1 rest
/-- The loop of `validate_list_expr` over the elements from index `i` on, with
the current `elt_type` (NULL before the first element).  When `elt_type` is
set, the judgment of the element is handed to `GarterType_Equal` without a NULL
check, so a failed element there is a NULL dereference. -/
def validate_list_expr_loop (scope : GarterScope) (h : Heap)
    (elt_type : Option TypePtr) (i : Nat) : List expr → Res (Option TypePtr)
  | [] => .ok elt_type h
  | elt :: rest =>
    match elt_type with
    | none =>
      match validate_expr scope h elt with
      | .crash => .crash
      | .fail d h1 => .fail d h1
      | .ok this_type h1 =>
        validate_list_expr_loop scope h1 (some this_type) (i + 1) rest
    | some elt_type =>
      match validate_expr scope h elt with
      | .crash => .crash
      | .fail _ _ => .crash
      | .ok this_type h1 =>
        match GarterType_Equal h1 this_type elt_type with
        | none => .crash
        | some (false, h2) => .fail (.ListElementMismatch i) h2
        | some (true, h2) =>
          validate_list_expr_loop scope h2 (some elt_type) (i + 1) rest
end

/-- The first step of the branch `if (type)` of `validate_assign_stmt`: the
declared type is the type of the value when the annotation is the ellipsis, the
elaborated annotation otherwise. -/
def validate_assign_stmt_target_type (scope : GarterScope) (h1 : Heap)
    (type : expr) (value_type : TypePtr) : Res TypePtr :=
  match type with
  | .Ellipsis => .ok value_type h1
  | _ => validate_type scope h1 type

/-- `validate_assign_stmt(scope, stmt, groot)` on the fields `targets`, `value`
and `type` of the Assign node.  The target is a node, so the branch for a NULL
target is not there. -/
def validate_assign_stmt (scope : GarterScope) (h : Heap) (targets : List expr)
    (value : expr) (type : Option expr) (groot : Bool) : StmtRes :=
  match targets with
  | [target] =>
    match validate_expr scope h value with
    | .crash => .crash
    | .fail d h1 => .fail d scope h1
    | .ok value_type h1 =>
      match type with
      | some type =>
        match validate_assign_stmt_target_type scope h1 type value_type with
        | .crash => .crash
        | .fail d h2 => .fail d scope h2
        | .ok target_type h2 =>
          match GarterType_IsComplete h2 (some target_type) with
          | none => .crash
          | some false => .fail .IncompleteType scope h2
          | some true =>
            match validate_decl_target scope h2 target target_type with
            | .crash => .crash
            | .fail d scope1 h3 => .fail d scope1 h3
            | .ok scope1 h3 =>
              if !groot then .fail .DeclInNonRoot scope1 h3
              else
                match GarterType_Equal h3 target_type value_type with
                | none => .crash
                | some (false, h4) => .fail .TypeMismatch scope1 h4
                | some (true, h4) => .ok scope1 h4
      | none =>
        match validate_expr scope h1 target with
        | .crash => .crash
        | .fail d h2 => .fail d scope h2
        | .ok target_type h2 =>
          match GarterType_Equal h2 target_type value_type with
          | none => .crash
          | some (false, h3) => .fail .TypeMismatch scope h3
          | some (true, h3) => .ok scope h3
  | _ => .fail .MultipleTargets scope h

mutual
/-- `validate_stmt(scope, stmt, sroot)`. -/
def validate_stmt (scope : GarterScope) (h : Heap) (sroot : Bool) :
    stmt → StmtRes
  | .FunctionDef => .fail .Unimplemented scope h
  | .ClassDef => .fail .Unimplemented scope h
  | .Return => .fail .Unimplemented scope h
  | .Assign targets value type =>
    validate_assign_stmt scope h targets value type sroot
  | .AugAssign target op value =>
    validate_assign_stmt scope h [target] (.BinOp target op value) none sroot
  | .If test body orelse =>
    match validate_expr scope h test with
    | .crash => .crash
    | .fail d h1 => .fail d scope h1
    | .ok test h1 =>
      match GarterType_Kind h1 test with
      | none => .crash
      | some test_kind =>
        if test_kind ≠ .GT_BOOL then .fail .IfTestNotBool scope h1
        else
          match validate_stmts scope h1 false body with
          | .crash => .crash
          | .fail d scope2 h2 => .fail d scope2 h2
          | .ok scope2 h2 => validate_stmts scope2 h2 false orelse
  | .For => .fail .Unimplemented scope h
  | .While => .fail .Unimplemented scope h
  | .Assert => .fail .Unimplemented scope h
  | .Global => .fail .Unimplemented scope h
  | .Nonlocal => .fail .Unimplemented scope h
  | .Expr value =>
    match validate_expr scope h value with
    | .crash => .crash
    | .fail d h1 => .fail d scope h1
    | .ok _ h1 => .ok scope h1
  | .Break => .ok scope h
  | .Continue => .ok scope h
  | .Other _ => .fail .StmtKindUnsupported scope h
/-- `validate_stmts(scope, seq, sroot)`.  Every item of the sequence is a
statement, so the branch for a NULL item is not there. -/
def validate_stmts (scope : GarterScope) (h : Heap) (sroot : Bool) :
    List stmt → StmtRes
  | [] => .ok scope h
  | s :: rest =>
    match validate_stmt scope h sroot s with
    | .crash => .crash
    | .fail d scope1 h1 => .fail d scope1 h1
    | .ok scope1 h1 => validate_stmts scope1 h1 sroot rest
end

/-- `validate_mod(scope, mod)`. -/
def validate_mod (scope : GarterScope) (h : Heap) : mod → StmtRes
  | .Module body => validate_stmts scope h true body
  | .Interactive body => validate_stmts scope h true body
  | .Expression body =>
    match validate_expr scope h body with
    | .crash => .crash
    | .fail d h1 => .fail d scope h1
    | .ok _ h1 => .ok scope h1
  | .Suite _ => .fail .SuiteInvalid scope h
  | .Other _ => .fail .ImpossibleModule scope h

/-! ## The public entry points -/

/-- A Python object handed to `Garter_Validate`: a scope, a string, or an
object of another type. -/
inductive PyObject where
  | Scope (scope : GarterScope)
  | Unicode (s : String)
  | Other

/-- What a call of `Garter_Validate` leaves behind when it returns: the int
returned, the error posted if any, the scope object and the heap. -/
structure Outcome where
  success : Bool
  error : Option Diag
  scope : PyObject
  heap : Heap

/-- `Garter_NewGlobalScope()`. -/
def Garter_NewGlobalScope : PyObject :=
  .Scope (GarterScope_New none)

/-- `Garter_Validate(mod, filename, scope)`; `none` when the call crashes. -/
def Garter_Validate (m : mod) (filename : PyObject) (scope : PyObject)
    (h : Heap) : Option Outcome :=
  match scope with
  | .Scope s =>
    match filename with
    | .Unicode fname =>
      match GarterScope_ValidationBegin s fname with
      | none => none
      | some (bkp, s1) =>
        match validate_mod s1 h m with
        | .crash => none
        | .ok s2 h2 =>
          match GarterScope_ValidationOk s2 with
          | none => none
          | some s3 => some ⟨true, none, .Scope s3, h2⟩
        | .fail d s2 h2 =>
          match GarterScope_ValidationFail s2 bkp with
          | none => none
          | some s3 => some ⟨false, some d, .Scope s3, h2⟩
    | _ => some ⟨false, some .ExpectedFilename, scope, h⟩
  | _ => some ⟨false, some .ExpectedScope, scope, h⟩

/-! ## Notions used to state the properties

None of the definitions below is code of the validator: they describe heaps,
scopes and runs. -/

/-- The structure of a type as the data model of the specification gives it: a
tag with its payload, read through the pointers.  An absent payload of a List
or Dict is `listUnbound` or `dictUnbound`; the payload of a Class is its `meta`
field. -/
inductive Shape where
  | int
  | float
  | bool
  | str
  | listUnbound
  | listOf (elt : Shape)
  | dictUnbound
  | dictOf (key value : Shape)
  | cls (identity : Option Meta)
  deriving DecidableEq, Repr

/-- Completeness of a structure: every payload is present, recursively. -/
def Shape.complete : Shape → Bool
  | .listUnbound => false
  | .listOf elt => elt.complete
  | .dictUnbound => false
  | .dictOf key value => key.complete && value.complete
  | .cls identity => identity.isSome
  | _ => true

/-- The number of nested payloads of a structure. -/
def Shape.depth : Shape → Nat
  | .listOf elt => elt.depth + 1
  | .dictOf key value => max key.depth value.depth + 1
  | _ => 0

/-- The structure of the type at `obj`, read through at most `fuel` objects in
a row; `none` when a pointer addresses nothing, a `meta` field has the wrong
form for its kind, or the fuel runs out. -/
def GarterType_shape_fuel : Nat → Heap → TypePtr → Option Shape
  | 0, _, _ => none
  | fuel + 1, h, obj =>
    match h.deref obj with
    | none => none
    | some o =>
      match o.kind with
      | .GT_INT => some .int
      | .GT_FLOAT => some .float
      | .GT_BOOL => some .bool
      | .GT_STR => some .str
      | .GT_LIST =>
        match o.meta with
        | none => some .listUnbound
        | some (.type m) => (GarterType_shape_fuel fuel h m).map Shape.listOf
        | some _ => none
      | .GT_DICT =>
        match o.meta with
        | none => some .dictUnbound
        | some (.tuple k v) =>
          match GarterType_shape_fuel fuel h k, GarterType_shape_fuel fuel h v with
          | some ks, some vs => some (.dictOf ks vs)
          | _, _ => none
        | some _ => none
      | .GT_CLASS => some (.cls o.meta)

/-- The structure of the type at `obj` in the heap `h`. -/
def GarterType_shape (h : Heap) (obj : TypePtr) : Option Shape :=
  GarterType_shape_fuel (h.length + 1) h obj

/-- The type object of a given structure, made the way the validator makes its
types: the static object for a primitive type, a fresh `GarterType_New` object
for every other node, payloads first. -/
def Shape.build (h : Heap) : Shape → TypePtr × Heap
  | .int => (GarterType_INT, h)
  | .float => (GarterType_FLOAT, h)
  | .bool => (GarterType_BOOL, h)
  | .str => (GarterType_STR, h)
  | .listUnbound => GarterType_New h .GT_LIST none
  | .listOf elt =>
    let r := Shape.build h elt
    GarterType_New r.2 .GT_LIST (some (.type r.1))
  | .dictUnbound => GarterType_New h .GT_DICT none
  | .dictOf key value =>
    let rk := Shape.build h key
    let rv := Shape.build rk.2 value
    GarterType_New rv.2 .GT_DICT (some (.tuple rk.1 rv.1))
  | .cls identity => GarterType_New h .GT_CLASS identity

/-- The addresses of the heap objects below `obj`, each as often as it is
reached, read through at most `fuel` objects in a row; `none` as for
`GarterType_shape_fuel`. -/
def GarterType_cells_fuel : Nat → Heap → TypePtr → Option (List Nat)
  | 0, _, _ => none
  | fuel + 1, h, obj =>
    match obj with
    | .obj addr =>
      match h[addr]? with
      | none => none
      | some o =>
        match o.kind with
        | .GT_LIST =>
          match o.meta with
          | none => some [addr]
          | some (.type m) => (GarterType_cells_fuel fuel h m).map (addr :: ·)
          | some _ => none
        | .GT_DICT =>
          match o.meta with
          | none => some [addr]
          | some (.tuple k v) =>
            match GarterType_cells_fuel fuel h k, GarterType_cells_fuel fuel h v with
            | some ks, some vs => some (addr :: (ks ++ vs))
            | _, _ => none
          | some _ => none
        | _ => some [addr]
    | _ => some []

/-- The heap `h2` comes from `h1` by creating objects and by late binding: every
object of `h1` is still there with its kind, and with its whole content unless
its `meta` was NULL. -/
def Heap.grows (h1 h2 : Heap) : Prop :=
  h1.length ≤ h2.length ∧
  ∀ (addr : Nat) (o : GarterType), h1[addr]? = some o →
    ∃ o2, h2[addr]? = some o2 ∧ o2.kind = o.kind ∧ (o.meta.isSome → o2 = o)

/-- A property of the heap a judgment returns with, on success and on failure
alike. -/
def Res.post {α : Type} (P : Heap → Prop) : Res α → Prop
  | .ok _ h => P h
  | .fail _ h => P h
  | .crash => True

/-- A property of the scope and heap a statement judgment returns with, on
success and on failure alike. -/
def StmtRes.post (P : GarterScope → Heap → Prop) : StmtRes → Prop
  | .ok scope h => P scope h
  | .fail _ scope h => P scope h
  | .crash => True

/-- Every name bound in `items` is bound to a type that is complete in `h`. -/
def bindings_complete (h : Heap) (items : Items) : Prop :=
  ∀ name type, PyDict_GetItem items name = some type →
    GarterType_IsComplete h (some type) = some true

/-- The scope `scope2` with heap `h2` comes from `scope1` with heap `h1` by
declarations: the heap has grown, and the bindings are the old ones followed by
bindings of names that were not bound, to types that are complete. -/
def declares (scope1 : GarterScope) (h1 : Heap) (scope2 : GarterScope)
    (h2 : Heap) : Prop :=
  h1.grows h2 ∧
  ∃ added : Items,
    scope2 = scope1.setItems (GarterScope_Items scope1 ++ added) ∧
    ∀ kv ∈ added, PyDict_Contains (GarterScope_Items scope1) kv.1 = false ∧
      GarterType_IsComplete h2 (some kv.2) = some true

/-- The scope objects and heaps that a program can hold: a new global scope,
and what a call of `Garter_Validate` on such a scope leaves behind. -/
inductive Reachable : PyObject → Heap → Prop where
  | new (h : Heap) : Reachable Garter_NewGlobalScope h
  | validate (m : mod) (filename scope : PyObject) (h : Heap) (out : Outcome) :
      Reachable scope h → Garter_Validate m filename scope h = some out →
      Reachable out.scope out.heap

/-- Two types of given structures as separate objects: the first built on the
heap `h`, the second built after it.  The result is the pointer to the first,
the pointer to the second, and the heap holding both. -/
def Shape.build_pair (h : Heap) (sa sb : Shape) : TypePtr × TypePtr × Heap :=
  ((Shape.build h sa).1, (Shape.build (Shape.build h sa).2 sb).1,
    (Shape.build (Shape.build h sa).2 sb).2)

/-- The structure `s2` is the structure `s1` with absent List or Dict payloads
filled in, here or deeper: nothing that `s1` has is lost or changed. -/
def Shape.refines : Shape → Shape → Bool
  | .int, .int => true
  | .float, .float => true
  | .bool, .bool => true
  | .str, .str => true
  | .listUnbound, .listUnbound => true
  | .listUnbound, .listOf _ => true
  | .listOf elt1, .listOf elt2 => Shape.refines elt1 elt2
  | .dictUnbound, .dictUnbound => true
  | .dictUnbound, .dictOf _ _ => true
  | .dictOf key1 value1, .dictOf key2 value2 =>
    Shape.refines key1 key2 && Shape.refines value1 value2
  | .cls identity1, .cls identity2 => decide (identity1 = identity2)
  | _, _ => false

/-- The heap `h2` comes from `h1` by late binding only: every object is what it
was, or was a LIST or DICT object with a NULL `meta` and now has a `meta`. -/
def Heap.fills (h1 h2 : Heap) : Prop :=
  h2.length = h1.length ∧
  ∀ (addr : Nat) (o : GarterType), h1[addr]? = some o →
    h2[addr]? = some o ∨
    (o.meta = none ∧ (o.kind = .GT_LIST ∨ o.kind = .GT_DICT) ∧
      ∃ m, h2[addr]? = some ⟨o.kind, some m⟩)

/-- The kind of the type objects that have a given structure. -/
def Shape.kind : Shape → GarterTypeKind
  | .int => .GT_INT
  | .float => .GT_FLOAT
  | .bool => .GT_BOOL
  | .str => .GT_STR
  | .listUnbound => .GT_LIST
  | .listOf _ => .GT_LIST
  | .dictUnbound => .GT_DICT
  | .dictOf _ _ => .GT_DICT
  | .cls _ => .GT_CLASS

/-- The judgments of a sequence of expressions, each started from the heap the
one before it left, when every one of them succeeds with a type that is
complete at that point: the types, in order, and the last heap.  `none` when a
judgment fails or crashes or gives an incomplete type. -/
def judge_complete_seq (scope : GarterScope) (h : Heap) :
    List expr → Option (List TypePtr × Heap)
  | [] => some ([], h)
  | e :: rest =>
    match validate_expr scope h e with
    | .ok t h1 =>
      match GarterType_IsComplete h1 (some t) with
      | some true =>
        match judge_complete_seq scope h1 rest with
        | some (ts, h2) => some (t :: ts, h2)
        | none => none
      | _ => none
    | _ => none

/-- The reference definition of type-annotation elaboration, `parse_type` of
the specification, on structures: the four scalar names give the scalars, a
List literal with exactly one element gives the List of the elaborated
element, a Dict literal with exactly one key and one value gives the Dict of
the elaborated key and value, and `none` is a rejection (any other name, any
other arity, any other form, a part that does not elaborate). -/
def parse_type : expr → Option Shape
  | .Name name =>
    if name = "int" then some .int
    else if name = "float" then some .float
    else if name = "bool" then some .bool
    else if name = "str" then some .str
    else none
  | .Dict [some key] [value] =>
    match parse_type key, parse_type value with
    | some ks, some vs => some (.dictOf ks vs)
    | _, _ => none
  | .List [elt] =>
    match parse_type elt with
    | some s => some (.listOf s)
    | none => none
  | _ => none

/-- Structural equality of two structures, spelled out: the same tag and,
recursively, identical payloads: the same element type for a List, the same
key and value types for a Dict, the same identity for a Class. -/
def Shape.same : Shape → Shape → Bool
  | .int, .int => true
  | .float, .float => true
  | .bool, .bool => true
  | .str, .str => true
  | .listUnbound, .listUnbound => true
  | .listOf elt1, .listOf elt2 => Shape.same elt1 elt2
  | .dictUnbound, .dictUnbound => true
  | .dictOf key1 value1, .dictOf key2 value2 =>
    Shape.same key1 key2 && Shape.same value1 value2
  | .cls identity1, .cls identity2 => decide (identity1 = identity2)
  | _, _ => false

/-- The judgment does not fail with the diagnostic `d`: it succeeds, fails
with another diagnostic, or crashes. -/
def Res.no_fail {α : Type} (d : Diag) : Res α → Prop
  | .fail d1 _ => d1 ≠ d
  | _ => True

mutual
/-- The statement is a declaration (an Assign carrying an annotation), or an If
with a declaration in its body or orelse, directly or nested in inner Ifs. -/
def stmt.has_decl : stmt → Bool
  | .Assign _ _ (some _) => true
  | .If _ body orelse => stmts_has_decl body || stmts_has_decl orelse
  | _ => false
/-- One of the statements is or contains a declaration. -/
def stmts_has_decl : List stmt → Bool
  | [] => false
  | s :: rest => s.has_decl || stmts_has_decl rest
end

/-- The structure of `k + 1` nested Lists of which the innermost has no
payload: the type of `[]` for `k = 0`, of `[[]]` for `k = 1`, and so on. -/
def Shape.chain : Nat → Shape
  | 0 => .listUnbound
  | k + 1 => .listOf (Shape.chain k)

/-- The number of List layers a structure starts with. -/
def Shape.list_layers : Shape → Nat
  | .listOf elt => elt.list_layers + 1
  | _ => 0

/-- What the type of an expression is in a scope whose bound types are
complete: a complete structure, or `k + 1` nested Lists of which the innermost
has no payload yet. -/
inductive AType where
  | complete (s : Shape)
  | chain (k : Nat)
  deriving DecidableEq, Repr

/-- The structure of such a type. -/
def AType.shape : AType → Shape
  | .complete s => s
  | .chain k => Shape.chain k

/-- The kind of such a type. -/
def AType.kind : AType → GarterTypeKind
  | .complete s => s.kind
  | .chain _ => .GT_LIST

/-- What `GarterType_Equal` makes of two such types: `none` when it returns
false, and otherwise the type both sides have afterwards. -/
def AType.merge : AType → AType → Option AType
  | .complete s, .complete t => if s = t then some (.complete s) else none
  | .chain k, .chain m => some (.chain (max k m))
  | .chain k, .complete s => if k < s.list_layers then some (.complete s) else none
  | .complete s, .chain k => if k < s.list_layers then some (.complete s) else none

/-- What is known of the element type while the elements of a list literal are
compared: nothing yet, a type, or a mismatch. -/
inductive Join where
  | nothing
  | type (a : AType)
  | mismatch
  deriving DecidableEq, Repr

/-- Putting together what two runs of comparisons have found. -/
def Join.op : Join → Join → Join
  | .nothing, y => y
  | x, .nothing => x
  | .mismatch, _ => .mismatch
  | _, .mismatch => .mismatch
  | .type a, .type b =>
    match a.merge b with
    | some j => .type j
    | none => .mismatch

/-- The type of a list literal whose elements have the type `a`. -/
def AType.list : AType → AType
  | .complete s => .complete (.listOf s)
  | .chain k => .chain (k + 1)

/-- The outcome of a judgment when only the structure of the types is
followed: a value, a failure with its diagnostic, or a crash. -/
inductive ARes (α : Type) where
  | ok (value : α)
  | fail (d : Diag)
  | crash

/-- The unary operator table of `validate_unaryop_expr`, on the structure of
the operand type. -/
def shape_unaryop_expr (op : unaryop) (operand : ARes AType) : ARes AType :=
  match operand with
  | .crash => .crash
  | .fail d => .fail d
  | .ok a =>
    match op with
    | .Invert =>
      if a.kind = .GT_INT then .ok (.complete .int)
      else .fail (.InvalidUnaryOperand .Invert)
    | .Not =>
      if a.kind = .GT_BOOL then .ok (.complete .bool)
      else .fail (.InvalidUnaryOperand .Not)
    | .UAdd =>
      if a.kind = .GT_INT ∨ a.kind = .GT_FLOAT then .ok a
      else .fail (.InvalidUnaryOperand .UAdd)
    | .USub =>
      if a.kind = .GT_INT ∨ a.kind = .GT_FLOAT then .ok a
      else .fail (.InvalidUnaryOperand .USub)

/-- The binary operator table of `validate_binop_expr`, on the structures of
the operand types. -/
def shape_binop_expr (lhs : ARes AType) (op : operator) (rhs : ARes AType) :
    ARes AType :=
  match lhs with
  | .crash => .crash
  | .fail d => .fail d
  | .ok la =>
    match rhs with
    | .crash => .crash
    | .fail d => .fail d
    | .ok ra =>
      match op with
      | .Add =>
        if both_int la.kind ra.kind then .ok (.complete .int)
        else if float_mix la.kind ra.kind then .ok (.complete .float)
        else if la.kind = .GT_STR ∧ ra.kind = .GT_STR then .ok (.complete .str)
        else if la.kind = .GT_LIST then
          match la.merge ra with
          | some j => .ok j
          | none => .fail (.InvalidBinaryOperands .Add)
        else .fail (.InvalidBinaryOperands .Add)
      | .Sub =>
        if both_int la.kind ra.kind then .ok (.complete .int)
        else if float_mix la.kind ra.kind then .ok (.complete .float)
        else .fail (.InvalidBinaryOperands .Sub)
      | .Mult =>
        if both_int la.kind ra.kind then .ok (.complete .int)
        else if float_mix la.kind ra.kind then .ok (.complete .float)
        else .fail (.InvalidBinaryOperands .Sub)
      | .MatMult => .fail .MatMultUnsupported
      | .Div =>
        if both_numeric la.kind ra.kind then .ok (.complete .float)
        else .fail (.InvalidBinaryOperands .Div)
      | .Mod =>
        if both_int la.kind ra.kind then .ok (.complete .int)
        else if float_mix la.kind ra.kind then .ok (.complete .float)
        else .fail (.InvalidBinaryOperands .Mod)
      | .Pow =>
        if both_int la.kind ra.kind then .ok (.complete .int)
        else if float_mix la.kind ra.kind then .ok (.complete .float)
        else .fail (.InvalidBinaryOperands .Pow)
      | .LShift =>
        if both_int la.kind ra.kind then .ok (.complete .int)
        else .fail (.InvalidBinaryOperands .LShift)
      | .RShift =>
        if both_int la.kind ra.kind then .ok (.complete .int)
        else .fail (.InvalidBinaryOperands .RShift)
      | .BitOr =>
        if both_int la.kind ra.kind then .ok (.complete .int)
        else .fail (.InvalidBinaryOperands .BitOr)
      | .BitXor =>
        if both_int la.kind ra.kind then .ok (.complete .int)
        else .fail (.InvalidBinaryOperands .BitXor)
      | .BitAnd =>
        if both_int la.kind ra.kind then .ok (.complete .int)
        else .fail (.InvalidBinaryOperands .BitAnd)
      | .FloorDiv =>
        if both_numeric la.kind ra.kind then .ok (.complete .int)
        else .fail (.InvalidBinaryOperands .FloorDiv)

/-- The rule of `validate_if_expr`, on the structures of the types. -/
def shape_if_expr (test body : ARes AType) (orelse : Option (ARes AType)) :
    ARes AType :=
  match test with
  | .crash => .crash
  | .fail d => .fail d
  | .ok t =>
    if t.kind ≠ .GT_BOOL then .fail .IfTestNotBool
    else
      match body with
      | .crash => .crash
      | .fail d => .fail d
      | .ok b =>
        match orelse with
        | none => .ok b
        | some orelse =>
          match orelse with
          | .crash => .crash
          | .fail d => .fail d
          | .ok o =>
            match b.merge o with
            | none => .fail .ElseArmMismatch
            | some j => .ok j

/-- The end of `validate_list_expr`, on the structure of the element type. -/
def shape_list_expr (loop : ARes (Option AType)) : ARes AType :=
  match loop with
  | .crash => .crash
  | .fail d => .fail d
  | .ok none => .ok (.chain 0)
  | .ok (some a) => .ok a.list

mutual
/-- The expression judgment with only the structure of the types followed, in
the scope `scope` whose bound types are read in the heap `h0`. -/
def shape_expr (scope : GarterScope) (h0 : Heap) : expr → ARes AType
  | .Num n =>
    match n with
    | .PyLong _ => .ok (.complete .int)
    | .PyFloat => .ok (.complete .float)
    | .PyComplex => .fail .UnrecognizedNumber
  | .JoinedStr => .ok (.complete .str)
  | .Str => .ok (.complete .str)
  | .Name name =>
    match PyDict_GetItem (GarterScope_Items scope) name with
    | some ret =>
      match GarterType_shape h0 ret with
      | some s => .ok (.complete s)
      | none => .crash
    | none => .fail (.Undefined name)
  | .BoolOp _ values =>
    match shape_expr_BoolOp_loop scope h0 values with
    | .crash => .crash
    | .fail d => .fail d
    | .ok _ => .ok (.complete .bool)
  | .NameConstant value =>
    if PyBool_Check value then .ok (.complete .bool)
    else .fail .UnrecognizedConstant
  | .List elts => shape_list_expr (shape_list_expr_loop scope h0 none 0 elts)
  | .Dict _ _ => .fail .DictExprUnimplemented
  | .BinOp left op right =>
    shape_binop_expr (shape_expr scope h0 left) op (shape_expr scope h0 right)
  | .UnaryOp op operand => shape_unaryop_expr op (shape_expr scope h0 operand)
  | .IfExp test body none =>
    shape_if_expr (shape_expr scope h0 test) (shape_expr scope h0 body) none
  | .IfExp test body (some orelse) =>
    shape_if_expr (shape_expr scope h0 test) (shape_expr scope h0 body)
      (some (shape_expr scope h0 orelse))
  | .Ellipsis => .fail .UnrecognizedExprKind
  | .Other _ => .fail .UnrecognizedExprKind
/-- The loop of the BoolOp case, on structures. -/
def shape_expr_BoolOp_loop (scope : GarterScope) (h0 : Heap) :
    List expr → ARes Unit
  | [] => .ok ()
  | operand :: rest =>
    match shape_expr scope h0 operand with
    | .crash => .crash
    | .fail d => .fail d
    | .ok a =>
      if a.kind ≠ .GT_BOOL then .fail .BoolOpOperandNotBool
      else shape_expr_BoolOp_loop scope h0 rest
/-- The loop of `validate_list_expr`, on structures. -/
def shape_list_expr_loop (scope : GarterScope) (h0 : Heap)
    (elt : Option AType) (i : Nat) : List expr → ARes (Option AType)
  | [] => .ok elt
  | e :: rest =>
    match elt with
    | none =>
      match shape_expr scope h0 e with
      | .crash => .crash
      | .fail d => .fail d
      | .ok a => shape_list_expr_loop scope h0 (some a) (i + 1) rest
    | some acc =>
      match shape_expr scope h0 e with
      | .crash => .crash
      | .fail _ => .crash
      | .ok a =>
        match a.merge acc with
        | none => .fail (.ListElementMismatch i)
        | some j => shape_list_expr_loop scope h0 (some j) (i + 1) rest
end

/-- The type object `T` is the first of `k + 1` nested List objects of which
the last has no payload, all of them at addresses with the property `P`. -/
def is_chain (P : Nat → Prop) (h : Heap) : Nat → TypePtr → Prop
  | 0, T => ∃ c, T = .obj c ∧ P c ∧ h[c]? = some ⟨.GT_LIST, none⟩
  | k + 1, T => ∃ c T2, T = .obj c ∧ P c ∧
      h[c]? = some ⟨.GT_LIST, some (.type T2)⟩ ∧ is_chain P h k T2

/-- The type object `T` has, in the heap `h`, the type `a`: its structure is
read as the complete structure `a` names, or it is a chain of List objects at
addresses with the property `P`. -/
def Realizes (P : Nat → Prop) (h : Heap) (T : TypePtr) : AType → Prop
  | .complete s => GarterType_shape h T = some s ∧ s.complete = true
  | .chain k => is_chain P h k T ∧ k < h.length

/-- The heap `h2` has every object of `h` below the address `base` as it was. -/
def Heap.frame (base : Nat) (h h2 : Heap) : Prop :=
  h.length ≤ h2.length ∧ ∀ x, x < base → h2[x]? = h[x]?

/-- The judgment `r`, started on the heap `h`, goes as the judgment on
structures `a` says: the same outcome and diagnostic, the objects below `base`
untouched, and a value related to the structure by `V`. -/
def Res.sim {α β : Type} (V : Heap → α → β → Prop) (base : Nat) (h : Heap) :
    Res α → ARes β → Prop
  | .ok v h2, .ok a => h.grows h2 ∧ h.frame base h2 ∧ V h2 v a
  | .fail d h2, .fail d2 => d = d2 ∧ h.grows h2 ∧ h.frame base h2
  | .crash, .crash => True
  | _, _ => False

/-- The element type of the loop of `validate_list_expr` and its structure. -/
def Realizes_opt (P : Nat → Prop) (h : Heap) :
    Option TypePtr → Option AType → Prop
  | none, none => True
  | some T, some a => Realizes P h T a
  | _, _ => False

/-- What the judgment on structures of one element contributes to the
comparison of the elements of a list literal. -/
def shape_join (scope : GarterScope) (h0 : Heap) (e : expr) : Join :=
  match shape_expr scope h0 e with
  | .ok a => .type a
  | _ => .mismatch

/-! ## Example programs -/

/-- The integer literal `n`. -/
def int_lit (n : Int) : expr := .Num (.PyLong n)

/-- The float literal `3.0`. -/
def float_lit : expr := .Num .PyFloat

/-- The statement `name : ann = value`. -/
def decl_stmt (name : String) (ann value : expr) : stmt :=
  .Assign [.Name name] value (some ann)

/-- The statement `name = value`. -/
def assign_stmt (name : String) (value : expr) : stmt :=
  .Assign [.Name name] value none

/-- A global scope in which `x` is bound to the type int. -/
def scope_x_int : GarterScope := .mk none [("x", GarterType_INT)] none

/-- The program `y : int = 1`. -/
def prog_decl_y : mod :=
  .Module [decl_stmt "y" (.Name "int") (int_lit 1)]

/-- The program `y : int = 1` followed by `y = 3.0`. -/
def prog_decl_then_mismatch : mod :=
  .Module [decl_stmt "y" (.Name "int") (int_lit 1), assign_stmt "y" float_lit]

/-- The program `xs : [int] = [1, 2, 3]` followed by `xs = xs + [4]`. -/
def prog_list_append : mod :=
  .Module [decl_stmt "xs" (.List [.Name "int"])
      (.List [int_lit 1, int_lit 2, int_lit 3]),
    assign_stmt "xs" (.BinOp (.Name "xs") .Add (.List [int_lit 4]))]

/-- A scope node without bindings whose parent is `scope_x_int`. -/
def scope_under_x_int : GarterScope := .mk (some scope_x_int) [] none

/-- The global scope after `a : int = 1` and `b : int = 2`. -/
def scope_a_b_int : GarterScope :=
  .mk none [("a", GarterType_INT), ("b", GarterType_INT)] none

/-! ## Properties -/

theorem Heap.grows_refl (h : Heap) : h.grows h :=
  ⟨Nat.le_refl _, fun _ o ho => ⟨o, ho, rfl, fun _ => rfl⟩⟩

theorem Heap.grows_trans {h1 h2 h3 : Heap} (h12 : h1.grows h2)
    (h23 : h2.grows h3) : h1.grows h3 := by
  refine ⟨Nat.le_trans h12.1 h23.1, fun addr o ho => ?_⟩
  obtain ⟨o2, ho2, hk2, hm2⟩ := h12.2 addr o ho
  obtain ⟨o3, ho3, hk3, hm3⟩ := h23.2 addr o2 ho2
  refine ⟨o3, ho3, hk3.trans hk2, fun hs => ?_⟩
  have e2 : o2 = o := hm2 hs
  subst e2
  exact hm3 hs

theorem GarterType_New_grows (h : Heap) (kind : GarterTypeKind)
    (meta : Option Meta) : h.grows (GarterType_New h kind meta).2 := by
  refine ⟨by simp [GarterType_New], fun addr o ho => ⟨o, ?_, rfl, fun _ => rfl⟩⟩
  have hlt : addr < h.length := by
    by_contra hc
    rw [List.getElem?_eq_none (by omega)] at ho
    cases ho
  simp only [GarterType_New]
  rw [List.getElem?_append_left hlt]
  exact ho

theorem GarterType_LateBindMeta_length (h : Heap) (obj : TypePtr) (meta : Meta) :
    (GarterType_LateBindMeta h obj meta).length = h.length := by
  unfold GarterType_LateBindMeta
  split
  · split <;> simp
  · rfl

theorem GarterType_LateBindMeta_grows (h : Heap) (obj : TypePtr) (meta : Meta)
    (o : GarterType) (ho : h.deref obj = some o) (hm : o.meta = none) :
    h.grows (GarterType_LateBindMeta h obj meta) := by
  refine ⟨by rw [GarterType_LateBindMeta_length], fun addr o1 ho1 => ?_⟩
  unfold GarterType_LateBindMeta
  cases obj with
  | obj a =>
    simp only [Heap.deref] at ho
    simp only [ho]
    by_cases hEq : a = addr
    · subst hEq
      rw [ho] at ho1
      cases ho1
      refine ⟨⟨o.kind, some meta⟩, ?_, rfl, fun hs => ?_⟩
      · rw [List.getElem?_set_self]
        have hlt : a < h.length := by
          by_contra hc
          rw [List.getElem?_eq_none (by omega)] at ho
          cases ho
        simp [hlt]
      · rw [hm] at hs
        cases hs
    · refine ⟨o1, ?_, rfl, fun _ => rfl⟩
      rw [List.getElem?_set_ne hEq]
      exact ho1
  | _ => exact ⟨o1, ho1, rfl, fun _ => rfl⟩

theorem Heap.grows_deref {h1 h2 : Heap} (hg : h1.grows h2) (p : TypePtr)
    (o : GarterType) (ho : h1.deref p = some o) :
    ∃ o2, h2.deref p = some o2 ∧ o2.kind = o.kind ∧ (o.meta.isSome → o2 = o) := by
  cases p with
  | obj a => exact hg.2 a o ho
  | _ =>
    simp only [Heap.deref] at ho ⊢
    exact ⟨o, ho, rfl, fun _ => rfl⟩

theorem GarterType_Equal_fuel_grows :
    ∀ (fuel : Nat) (h : Heap) (a b : TypePtr) (r : Bool) (h2 : Heap),
      GarterType_Equal_fuel fuel h a b = some (r, h2) →
      h.grows h2 ∧ h2.length = h.length := by
  intro fuel
  induction fuel with
  | zero => intro h a b r h2 heq; simp [GarterType_Equal_fuel] at heq
  | succ n ih =>
    intro h a b r h2 heq
    unfold GarterType_Equal_fuel at heq
    split at heq
    · cases heq; exact ⟨Heap.grows_refl _, rfl⟩
    · split at heq
      · rename_i oa ob hoa hob
        split at heq
        · cases heq; exact ⟨Heap.grows_refl _, rfl⟩
        · split at heq
          · split at heq
            · cases heq; exact ⟨Heap.grows_refl _, rfl⟩
            · rename_i hma hmb
              cases heq
              exact ⟨GarterType_LateBindMeta_grows h a _ oa hoa hma,
                GarterType_LateBindMeta_length _ _ _⟩
            · rename_i hma hmb
              cases heq
              exact ⟨GarterType_LateBindMeta_grows h b _ ob hob hmb,
                GarterType_LateBindMeta_length _ _ _⟩
            · split at heq
              · cases heq
              · rename_i km h1 hk
                split at heq
                · cases heq
                · rename_i vm h3 hv
                  cases heq
                  have g1 := ih _ _ _ _ _ hk
                  have g2 := ih _ _ _ _ _ hv
                  exact ⟨Heap.grows_trans g1.1 g2.1, g2.2.trans g1.2⟩
            · cases heq
          · split at heq
            · cases heq; exact ⟨Heap.grows_refl _, rfl⟩
            · rename_i hma hmb
              cases heq
              exact ⟨GarterType_LateBindMeta_grows h a _ oa hoa hma,
                GarterType_LateBindMeta_length _ _ _⟩
            · rename_i hma hmb
              cases heq
              exact ⟨GarterType_LateBindMeta_grows h b _ ob hob hmb,
                GarterType_LateBindMeta_length _ _ _⟩
            · exact ih _ _ _ _ _ heq
            · cases heq
          · cases heq; exact ⟨Heap.grows_refl _, rfl⟩
          · cases heq; exact ⟨Heap.grows_refl _, rfl⟩
      · cases heq

theorem GarterType_Equal_grows (h : Heap) (a b : TypePtr) (r : Bool) (h2 : Heap)
    (heq : GarterType_Equal h a b = some (r, h2)) :
    h.grows h2 ∧ h2.length = h.length :=
  GarterType_Equal_fuel_grows _ h a b r h2 heq

theorem GarterType_IsComplete_fuel_mono :
    ∀ (n : Nat) (h : Heap) (p : Option TypePtr) (b : Bool),
      GarterType_IsComplete_fuel n h p = some b →
      ∀ m, n ≤ m → GarterType_IsComplete_fuel m h p = some b := by
  intro n
  induction n with
  | zero =>
    intro h p b hb m _
    cases p with
    | none => cases m <;> simpa [GarterType_IsComplete_fuel] using hb
    | some obj => simp [GarterType_IsComplete_fuel] at hb
  | succ n ih =>
    intro h p b hb m hm
    obtain ⟨m, rfl⟩ : ∃ k, m = k + 1 := ⟨m - 1, by omega⟩
    have hnm : n ≤ m := by omega
    cases p with
    | none => simpa [GarterType_IsComplete_fuel] using hb
    | some obj =>
      unfold GarterType_IsComplete_fuel at hb ⊢
      cases hd : h.deref obj with
      | none => simp [hd] at hb
      | some o =>
        obtain ⟨kind, meta⟩ := o
        simp only [hd] at hb ⊢
        cases kind <;> simp only at hb ⊢ <;> try exact hb
        · cases meta with
          | none => exact hb
          | some mt =>
            cases mt with
            | tuple k v =>
              simp only at hb ⊢
              cases hk : GarterType_IsComplete_fuel n h (some k) with
              | none => simp [hk] at hb
              | some bk =>
                rw [ih h _ _ hk m hnm]
                rw [hk] at hb
                cases bk
                · exact hb
                · exact ih h _ _ hb m hnm
            | _ => simp at hb
        · cases meta with
          | none =>
            simp only at hb ⊢
            exact ih h _ _ hb m hnm
          | some mt =>
            cases mt with
            | type t => simp only at hb ⊢; exact ih h _ _ hb m hnm
            | _ => simp at hb

theorem GarterType_IsComplete_fuel_grows :
    ∀ (n : Nat) (h h2 : Heap) (p : Option TypePtr), h.grows h2 →
      GarterType_IsComplete_fuel n h p = some true →
      GarterType_IsComplete_fuel n h2 p = some true := by
  intro n
  induction n with
  | zero =>
    intro h h2 p _ hb
    cases p <;> simp [GarterType_IsComplete_fuel] at hb
  | succ n ih =>
    intro h h2 p hg hb
    cases p with
    | none => simp [GarterType_IsComplete_fuel] at hb
    | some obj =>
      unfold GarterType_IsComplete_fuel at hb ⊢
      cases hd : h.deref obj with
      | none => simp [hd] at hb
      | some o =>
        obtain ⟨o2, hd2, hk2, hm2⟩ := Heap.grows_deref hg obj o hd
        obtain ⟨kind, meta⟩ := o
        obtain ⟨kind2, meta2⟩ := o2
        simp only at hk2
        subst hk2
        simp only [hd, hd2] at hb ⊢
        cases kind2 <;> simp only at hb ⊢ <;> try exact hb
        · cases meta with
          | none => simp at hb
          | some mt =>
            have e := hm2 rfl
            cases e
            cases mt with
            | tuple k v =>
              simp only at hb ⊢
              cases hk : GarterType_IsComplete_fuel n h (some k) with
              | none => simp [hk] at hb
              | some bk =>
                rw [hk] at hb
                cases bk
                · simp at hb
                · rw [ih h h2 _ hg hk]
                  exact ih h h2 _ hg hb
            | _ => simp at hb
        · cases meta with
          | none => simp [GarterType_IsComplete_fuel] at hb
          | some mt =>
            have e := hm2 rfl
            cases e
            cases mt with
            | type t => simp only at hb ⊢; exact ih h h2 _ hg hb
            | _ => simp at hb
        · cases meta with
          | none => simp at hb
          | some mt =>
            have e := hm2 rfl
            cases e
            rfl

theorem GarterType_IsComplete_grows {h h2 : Heap} (hg : h.grows h2)
    (p : Option TypePtr) (hb : GarterType_IsComplete h p = some true) :
    GarterType_IsComplete h2 p = some true := by
  unfold GarterType_IsComplete at hb ⊢
  exact GarterType_IsComplete_fuel_grows _ h h2 p hg
    (GarterType_IsComplete_fuel_mono _ h p true hb _ (by have := hg.1; omega))

theorem GarterType_shape_fuel_mono :
    ∀ (n : Nat) (h : Heap) (p : TypePtr) (s : Shape),
      GarterType_shape_fuel n h p = some s →
      ∀ m, n ≤ m → GarterType_shape_fuel m h p = some s := by
  intro n
  induction n with
  | zero => intro h p s hs; simp [GarterType_shape_fuel] at hs
  | succ n ih =>
    intro h p s hs m hm
    obtain ⟨m, rfl⟩ : ∃ k, m = k + 1 := ⟨m - 1, by omega⟩
    have hnm : n ≤ m := by omega
    unfold GarterType_shape_fuel at hs ⊢
    cases hd : h.deref p with
    | none => simp [hd] at hs
    | some o =>
      obtain ⟨kind, meta⟩ := o
      simp only [hd] at hs ⊢
      cases kind <;> simp only at hs ⊢ <;> try exact hs
      · cases meta with
        | none => exact hs
        | some mt =>
          cases mt with
          | tuple k v =>
            simp only at hs ⊢
            cases hk : GarterType_shape_fuel n h k with
            | none => simp [hk] at hs
            | some ks =>
              cases hv : GarterType_shape_fuel n h v with
              | none => simp [hk, hv] at hs
              | some vs =>
                rw [ih h _ _ hk m hnm, ih h _ _ hv m hnm]
                simpa [hk, hv] using hs
          | _ => simp at hs
      · cases meta with
        | none => exact hs
        | some mt =>
          cases mt with
          | type t =>
            simp only at hs ⊢
            cases ht : GarterType_shape_fuel n h t with
            | none => simp [ht] at hs
            | some ts =>
              rw [ih h _ _ ht m hnm]
              simpa [ht] using hs
          | _ => simp at hs

theorem GarterType_IsComplete_fuel_of_shape :
    ∀ (n : Nat) (h : Heap) (p : TypePtr) (s : Shape),
      GarterType_shape_fuel n h p = some s →
      GarterType_IsComplete_fuel n h (some p) = some s.complete := by
  intro n
  induction n with
  | zero => intro h p s hs; simp [GarterType_shape_fuel] at hs
  | succ n ih =>
    intro h p s hs
    unfold GarterType_shape_fuel at hs
    unfold GarterType_IsComplete_fuel
    cases hd : h.deref p with
    | none => simp [hd] at hs
    | some o =>
      obtain ⟨kind, meta⟩ := o
      simp only [hd] at hs ⊢
      cases kind <;> simp only at hs ⊢
      · cases hs; rfl
      · cases hs; rfl
      · cases hs; rfl
      · cases hs; rfl
      · cases meta with
        | none => cases hs; rfl
        | some mt =>
          cases mt with
          | tuple k v =>
            simp only at hs ⊢
            cases hk : GarterType_shape_fuel n h k with
            | none => simp [hk] at hs
            | some ks =>
              cases hv : GarterType_shape_fuel n h v with
              | none => simp [hk, hv] at hs
              | some vs =>
                simp only [hk, hv, Option.some.injEq] at hs
                subst hs
                rw [ih h _ _ hk, ih h _ _ hv]
                cases hc : ks.complete <;> simp [Shape.complete, hc]
          | _ => simp at hs
      · cases meta with
        | none => cases hs; simp [GarterType_IsComplete_fuel, Shape.complete]
        | some mt =>
          cases mt with
          | type t =>
            simp only at hs ⊢
            cases ht : GarterType_shape_fuel n h t with
            | none => simp [ht] at hs
            | some ts =>
              simp only [ht, Option.map_some', Option.some.injEq] at hs
              subst hs
              rw [ih h _ _ ht]
              rfl
          | _ => simp at hs
      · cases hs
        cases meta <;> rfl

theorem GarterType_shape_fuel_of_IsComplete :
    ∀ (n : Nat) (h : Heap) (p : TypePtr),
      GarterType_IsComplete_fuel n h (some p) = some true →
      ∃ s, GarterType_shape_fuel n h p = some s ∧ s.complete = true := by
  intro n
  induction n with
  | zero => intro h p hb; simp [GarterType_IsComplete_fuel] at hb
  | succ n ih =>
    intro h p hb
    unfold GarterType_IsComplete_fuel at hb
    unfold GarterType_shape_fuel
    cases hd : h.deref p with
    | none => simp [hd] at hb
    | some o =>
      obtain ⟨kind, meta⟩ := o
      simp only [hd] at hb ⊢
      cases kind <;> simp only at hb ⊢
      · exact ⟨_, rfl, rfl⟩
      · exact ⟨_, rfl, rfl⟩
      · exact ⟨_, rfl, rfl⟩
      · exact ⟨_, rfl, rfl⟩
      · cases meta with
        | none => simp at hb
        | some mt =>
          cases mt with
          | tuple k v =>
            simp only at hb ⊢
            cases hk : GarterType_IsComplete_fuel n h (some k) with
            | none => simp [hk] at hb
            | some bk =>
              rw [hk] at hb
              cases bk
              · simp at hb
              · obtain ⟨ks, hks, hkc⟩ := ih h _ hk
                obtain ⟨vs, hvs, hvc⟩ := ih h _ hb
                exact ⟨.dictOf ks vs, by simp [hks, hvs], by simp [Shape.complete, hkc, hvc]⟩
          | _ => simp at hb
      · cases meta with
        | none => simp [GarterType_IsComplete_fuel] at hb
        | some mt =>
          cases mt with
          | type t =>
            simp only at hb ⊢
            obtain ⟨ts, hts, htc⟩ := ih h _ hb
            exact ⟨.listOf ts, by simp [hts], by simp [Shape.complete, htc]⟩
          | _ => simp at hb
      · cases meta with
        | none => simp at hb
        | some mt => exact ⟨_, rfl, rfl⟩

theorem GarterType_shape_fuel_grows :
    ∀ (n : Nat) (h h2 : Heap) (p : TypePtr) (s : Shape), h.grows h2 →
      GarterType_shape_fuel n h p = some s → s.complete = true →
      GarterType_shape_fuel n h2 p = some s := by
  intro n
  induction n with
  | zero => intro h h2 p s _ hs; simp [GarterType_shape_fuel] at hs
  | succ n ih =>
    intro h h2 p s hg hs hc
    unfold GarterType_shape_fuel at hs ⊢
    cases hd : h.deref p with
    | none => simp [hd] at hs
    | some o =>
      obtain ⟨o2, hd2, hk2, hm2⟩ := Heap.grows_deref hg p o hd
      obtain ⟨kind, meta⟩ := o
      obtain ⟨kind2, meta2⟩ := o2
      simp only at hk2
      subst hk2
      simp only [hd, hd2] at hs ⊢
      cases kind2 <;> simp only at hs ⊢ <;> try exact hs
      · cases meta with
        | none => cases hs; simp [Shape.complete] at hc
        | some mt =>
          have e := hm2 rfl
          cases e
          cases mt with
          | tuple k v =>
            simp only at hs ⊢
            cases hk : GarterType_shape_fuel n h k with
            | none => simp [hk] at hs
            | some ks =>
              cases hv : GarterType_shape_fuel n h v with
              | none => simp [hk, hv] at hs
              | some vs =>
                simp only [hk, hv, Option.some.injEq] at hs
                subst hs
                simp only [Shape.complete, Bool.and_eq_true] at hc
                rw [ih h h2 _ _ hg hk hc.1, ih h h2 _ _ hg hv hc.2]
          | _ => simp at hs
      · cases meta with
        | none => cases hs; simp [Shape.complete] at hc
        | some mt =>
          have e := hm2 rfl
          cases e
          cases mt with
          | type t =>
            simp only at hs ⊢
            cases ht : GarterType_shape_fuel n h t with
            | none => simp [ht] at hs
            | some ts =>
              simp only [ht, Option.map_some', Option.some.injEq] at hs
              subst hs
              simp only [Shape.complete] at hc
              rw [ih h h2 _ _ hg ht hc]
              rfl
          | _ => simp at hs
      · cases meta with
        | none => cases hs; simp [Shape.complete] at hc
        | some mt =>
          have e := hm2 rfl
          cases e
          exact hs

theorem GarterType_shape_grows {h h2 : Heap} (hg : h.grows h2) (p : TypePtr)
    (hb : GarterType_IsComplete h (some p) = some true) :
    GarterType_shape h2 p = GarterType_shape h p ∧
      ∃ s, GarterType_shape h p = some s ∧ s.complete = true := by
  unfold GarterType_IsComplete at hb
  unfold GarterType_shape
  obtain ⟨s, hs, hc⟩ := GarterType_shape_fuel_of_IsComplete _ h p hb
  have h2s := GarterType_shape_fuel_grows _ h h2 p s hg
    (GarterType_shape_fuel_mono _ h p s hs (h2.length + 1) (by have := hg.1; omega)) hc
  exact ⟨by rw [h2s, hs], s, hs, hc⟩

theorem GarterType_shape_fuel_New_list (h : Heap) (m : TypePtr) (s : Shape)
    (n : Nat)
    (hs : GarterType_shape_fuel n h m = some s) (hc : s.complete = true) :
    GarterType_shape_fuel (n + 1) (GarterType_New h .GT_LIST (some (.type m))).2
      (GarterType_New h .GT_LIST (some (.type m))).1 = some (.listOf s) := by
  have hg := GarterType_New_grows h .GT_LIST (some (.type m))
  have h2 := GarterType_shape_fuel_grows _ _ _ _ _ hg hs hc
  unfold GarterType_shape_fuel
  simp only [GarterType_New, Heap.deref] at h2 ⊢
  simp [h2]

theorem GarterType_shape_fuel_New_dict (h : Heap) (k v : TypePtr)
    (ks vs : Shape) (n : Nat)
    (hk : GarterType_shape_fuel n h k = some ks) (hkc : ks.complete = true)
    (hv : GarterType_shape_fuel n h v = some vs) (hvc : vs.complete = true) :
    GarterType_shape_fuel (n + 1) (GarterType_New h .GT_DICT (some (.tuple k v))).2
      (GarterType_New h .GT_DICT (some (.tuple k v))).1 = some (.dictOf ks vs) := by
  have hg := GarterType_New_grows h .GT_DICT (some (.tuple k v))
  have h2 := GarterType_shape_fuel_grows _ _ _ _ _ hg hk hkc
  have h3 := GarterType_shape_fuel_grows _ _ _ _ _ hg hv hvc
  unfold GarterType_shape_fuel
  simp only [GarterType_New, Heap.deref] at h2 h3 ⊢
  simp [h2, h3]

/-- What `validate_type` guarantees: the heap has grown, and a returned type has
a complete structure that is read within the bound of `GarterType_shape`. -/
theorem validate_type_post (scope : GarterScope) :
    ∀ (e : expr) (h : Heap),
      (validate_type scope h e).post (fun h2 => h.grows h2) ∧
      ∀ T h2, validate_type scope h e = .ok T h2 →
        ∃ s, GarterType_shape_fuel (h2.length + 1) h2 T = some s ∧
          s.complete = true
  | .Name name, h => by
    unfold validate_type
    refine ⟨?_, ?_⟩
    · split_ifs <;> exact Heap.grows_refl h
    · intro T h2 heq
      split_ifs at heq <;> cases heq <;>
        first
        | exact ⟨.int, rfl, rfl⟩
        | exact ⟨.float, rfl, rfl⟩
        | exact ⟨.str, rfl, rfl⟩
        | exact ⟨.bool, rfl, rfl⟩
  | .List elts, h => by
    match elts with
    | [] => exact ⟨by simp [validate_type, Res.post, Heap.grows_refl], by simp [validate_type]⟩
    | _ :: _ :: _ => exact ⟨by simp [validate_type, Res.post, Heap.grows_refl], by simp [validate_type]⟩
    | [elt] =>
      have ih := validate_type_post scope elt h
      unfold validate_type
      cases hr : validate_type scope h elt with
      | crash => exact ⟨trivial, by simp⟩
      | fail d h1 =>
        rw [hr] at ih
        exact ⟨ih.1, by simp⟩
      | ok meta h1 =>
        rw [hr] at ih
        obtain ⟨s, hs, hc⟩ := ih.2 meta h1 rfl
        refine ⟨Heap.grows_trans ih.1 (GarterType_New_grows _ _ _), ?_⟩
        intro T h2 heq
        simp only [Res.ok.injEq] at heq
        obtain ⟨rfl, rfl⟩ := heq
        refine ⟨.listOf s, ?_, by simpa [Shape.complete] using hc⟩
        have := GarterType_shape_fuel_New_list h1 meta s (h1.length + 1) hs hc
        simpa [GarterType_New] using this
  | .Dict keys values, h => by
    match keys, values with
    | [], _ => exact ⟨by simp [validate_type, Res.post, Heap.grows_refl], by simp [validate_type]⟩
    | _ :: _ :: _, _ => exact ⟨by simp [validate_type, Res.post, Heap.grows_refl], by simp [validate_type]⟩
    | [_], [] => exact ⟨by simp [validate_type, Res.post, Heap.grows_refl], by simp [validate_type]⟩
    | [_], _ :: _ :: _ => exact ⟨by simp [validate_type, Res.post, Heap.grows_refl], by simp [validate_type]⟩
    | [none], [_] => exact ⟨by simp [validate_type, Res.post, Heap.grows_refl], by simp [validate_type]⟩
    | [some key], [value] =>
      have ihk := validate_type_post scope key h
      simp only [validate_type]
      cases hr : validate_type scope h key with
      | crash => exact ⟨trivial, by simp⟩
      | fail d h1 =>
        rw [hr] at ihk
        exact ⟨ihk.1, by simp⟩
      | ok key_type h1 =>
        rw [hr] at ihk
        have ihv := validate_type_post scope value h1
        dsimp only
        cases hr2 : validate_type scope h1 value with
        | crash => exact ⟨trivial, by simp⟩
        | fail d h2 =>
          rw [hr2] at ihv
          exact ⟨Heap.grows_trans ihk.1 ihv.1, by simp⟩
        | ok value_type h2 =>
          rw [hr2] at ihv
          obtain ⟨ks, hks, hkc⟩ := ihk.2 key_type h1 rfl
          obtain ⟨vs, hvs, hvc⟩ := ihv.2 value_type h2 rfl
          have g12 : h1.grows h2 := ihv.1
          refine ⟨Heap.grows_trans ihk.1
            (Heap.grows_trans g12 (GarterType_New_grows _ _ _)), ?_⟩
          intro T h3 heq
          simp only [Res.ok.injEq] at heq
          obtain ⟨rfl, rfl⟩ := heq
          refine ⟨.dictOf ks vs, ?_, by simp [Shape.complete, hkc, hvc]⟩
          have hks2 := GarterType_shape_fuel_grows _ _ _ _ _ g12
            (GarterType_shape_fuel_mono _ _ _ _ hks (h2.length + 1)
              (by have := g12.1; omega)) hkc
          have := GarterType_shape_fuel_New_dict h2 key_type value_type ks vs
            (h2.length + 1) hks2 hkc hvs hvc
          simpa [GarterType_New] using this
  | .BoolOp _ _, h => ⟨by simp [validate_type, Res.post, Heap.grows_refl], by simp [validate_type]⟩
  | .BinOp _ _ _, h => ⟨by simp [validate_type, Res.post, Heap.grows_refl], by simp [validate_type]⟩
  | .UnaryOp _ _, h => ⟨by simp [validate_type, Res.post, Heap.grows_refl], by simp [validate_type]⟩
  | .IfExp _ _ _, h => ⟨by simp [validate_type, Res.post, Heap.grows_refl], by simp [validate_type]⟩
  | .Num _, h => ⟨by simp [validate_type, Res.post, Heap.grows_refl], by simp [validate_type]⟩
  | .Str, h => ⟨by simp [validate_type, Res.post, Heap.grows_refl], by simp [validate_type]⟩
  | .JoinedStr, h => ⟨by simp [validate_type, Res.post, Heap.grows_refl], by simp [validate_type]⟩
  | .NameConstant _, h => ⟨by simp [validate_type, Res.post, Heap.grows_refl], by simp [validate_type]⟩
  | .Ellipsis, h => ⟨by simp [validate_type, Res.post, Heap.grows_refl], by simp [validate_type]⟩
  | .Other _, h => ⟨by simp [validate_type, Res.post, Heap.grows_refl], by simp [validate_type]⟩

theorem Res_post_mono {α : Type} {P Q : Heap → Prop} (hPQ : ∀ h, P h → Q h)
    (r : Res α) (hr : r.post P) : r.post Q := by
  cases r with
  | ok v h => exact hPQ h hr
  | fail d h => exact hPQ h hr
  | crash => trivial

theorem validate_unaryop_expr_post (P : Heap → Prop) (op : unaryop)
    (operand_type : Res TypePtr) (hp : operand_type.post P) :
    (validate_unaryop_expr op operand_type).post P := by
  unfold validate_unaryop_expr
  cases operand_type with
  | crash => trivial
  | fail d h1 => exact hp
  | ok t h1 =>
    dsimp only
    cases GarterType_Kind h1 t with
    | none => trivial
    | some k =>
      dsimp only
      cases op <;> dsimp only <;> split_ifs <;> exact hp

theorem validate_binop_expr_grows (h : Heap) (lhs_type : Res TypePtr)
    (op : operator) (rhs : Heap → Res TypePtr)
    (hl : lhs_type.post (fun h1 => h.grows h1))
    (hr : ∀ h1, (rhs h1).post (fun h2 => h1.grows h2)) :
    (validate_binop_expr lhs_type op rhs).post (fun h2 => h.grows h2) := by
  unfold validate_binop_expr
  cases lhs_type with
  | crash => trivial
  | fail d h1 => exact hl
  | ok lt h1 =>
    dsimp only
    have hr1 := hr h1
    cases hrr : rhs h1 with
    | crash => trivial
    | fail d h2 =>
      rw [hrr] at hr1
      exact Heap.grows_trans hl hr1
    | ok rt h2 =>
      rw [hrr] at hr1
      have g2 : h.grows h2 := Heap.grows_trans hl hr1
      dsimp only
      cases GarterType_Kind h2 lt with
      | none => trivial
      | some lk =>
        cases GarterType_Kind h2 rt with
        | none => trivial
        | some rk =>
          dsimp only
          cases op <;> dsimp only <;> (try split_ifs) <;> try exact g2
          cases he : GarterType_Equal h2 lt rt with
          | none => trivial
          | some p =>
            obtain ⟨b, h3⟩ := p
            have g3 := (GarterType_Equal_grows _ _ _ _ _ he).1
            cases b <;> exact Heap.grows_trans g2 g3

theorem validate_if_expr_grows (h : Heap) (test : Res TypePtr)
    (body : Heap → Res TypePtr) (orelse : Option (Heap → Res TypePtr))
    (ht : test.post (fun h1 => h.grows h1))
    (hb : ∀ h1, (body h1).post (fun h2 => h1.grows h2))
    (ho : ∀ f, orelse = some f → ∀ h1, (f h1).post (fun h2 => h1.grows h2)) :
    (validate_if_expr test body orelse).post (fun h2 => h.grows h2) := by
  unfold validate_if_expr
  cases test with
  | crash => trivial
  | fail d h1 => exact ht
  | ok t h1 =>
    dsimp only
    cases GarterType_Kind h1 t with
    | none => trivial
    | some k =>
      dsimp only
      split_ifs
      · exact ht
      · have hb1 := hb h1
        cases hbb : body h1 with
        | crash => trivial
        | fail d h2 =>
          rw [hbb] at hb1
          exact Heap.grows_trans ht hb1
        | ok bt h2 =>
          rw [hbb] at hb1
          have g2 : h.grows h2 := Heap.grows_trans ht hb1
          dsimp only
          cases orelse with
          | none => exact g2
          | some f =>
            dsimp only
            have ho1 := ho f rfl h2
            cases hoo : f h2 with
            | crash => trivial
            | fail d h3 =>
              rw [hoo] at ho1
              exact Heap.grows_trans g2 ho1
            | ok ot h3 =>
              rw [hoo] at ho1
              have g3 : h.grows h3 := Heap.grows_trans g2 ho1
              dsimp only
              cases he : GarterType_Equal h3 bt ot with
              | none => trivial
              | some p =>
                obtain ⟨b, h4⟩ := p
                have g4 := (GarterType_Equal_grows _ _ _ _ _ he).1
                cases b <;> exact Heap.grows_trans g3 g4

theorem validate_list_expr_grows (h : Heap) (loop : Res (Option TypePtr))
    (hl : loop.post (fun h1 => h.grows h1)) :
    (validate_list_expr loop).post (fun h2 => h.grows h2) := by
  unfold validate_list_expr
  cases loop with
  | crash => trivial
  | fail d h1 => exact hl
  | ok t h1 => exact Heap.grows_trans hl (GarterType_New_grows _ _ _)

mutual
theorem validate_expr_grows (scope : GarterScope) :
    ∀ (e : expr) (h : Heap),
      (validate_expr scope h e).post (fun h2 => h.grows h2)
  | .Num n, h => by
    cases n <;> exact Heap.grows_refl h
  | .JoinedStr, h => Heap.grows_refl h
  | .Str, h => Heap.grows_refl h
  | .Name name, h => by
    unfold validate_expr
    split <;> exact Heap.grows_refl h
  | .BoolOp _ values, h => by
    have ih := validate_expr_BoolOp_loop_grows scope values h
    unfold validate_expr
    cases hr : validate_expr_BoolOp_loop scope h values with
    | crash => trivial
    | fail d h1 => rw [hr] at ih; exact ih
    | ok u h1 => rw [hr] at ih; exact ih
  | .NameConstant value, h => by
    unfold validate_expr
    split_ifs <;> exact Heap.grows_refl h
  | .List elts, h => by
    unfold validate_expr
    exact validate_list_expr_grows h _ (validate_list_expr_loop_grows scope elts h none 0)
  | .Dict _ _, h => Heap.grows_refl h
  | .BinOp left op right, h => by
    unfold validate_expr
    exact validate_binop_expr_grows h _ op _ (validate_expr_grows scope left h)
      (fun h1 => validate_expr_grows scope right h1)
  | .UnaryOp op operand, h => by
    unfold validate_expr
    exact validate_unaryop_expr_post _ op _ (validate_expr_grows scope operand h)
  | .IfExp test body none, h => by
    unfold validate_expr
    exact validate_if_expr_grows h _ _ none (validate_expr_grows scope test h)
      (fun h1 => validate_expr_grows scope body h1) (by simp)
  | .IfExp test body (some orelse), h => by
    unfold validate_expr
    refine validate_if_expr_grows h _ _ _ (validate_expr_grows scope test h)
      (fun h1 => validate_expr_grows scope body h1) ?_
    intro f hf h1
    cases hf
    exact validate_expr_grows scope orelse h1
  | .Ellipsis, h => Heap.grows_refl h
  | .Other _, h => Heap.grows_refl h
theorem validate_expr_BoolOp_loop_grows (scope : GarterScope) :
    ∀ (values : List expr) (h : Heap),
      (validate_expr_BoolOp_loop scope h values).post (fun h2 => h.grows h2)
  | [], h => Heap.grows_refl h
  | operand :: rest, h => by
    have ih := validate_expr_grows scope operand h
    unfold validate_expr_BoolOp_loop
    cases hr : validate_expr scope h operand with
    | crash => trivial
    | fail d h1 => rw [hr] at ih; exact ih
    | ok ty h1 =>
      rw [hr] at ih
      dsimp only
      cases GarterType_Kind h1 ty with
      | none => trivial
      | some k =>
        dsimp only
        split_ifs
        · exact ih
        · exact Res_post_mono (fun h2 hg => Heap.grows_trans ih hg) _
            (validate_expr_BoolOp_loop_grows scope rest h1)
theorem validate_list_expr_loop_grows (scope : GarterScope) :
    ∀ (elts : List expr) (h : Heap) (elt_type : Option TypePtr) (i : Nat),
      (validate_list_expr_loop scope h elt_type i elts).post
        (fun h2 => h.grows h2)
  | [], h, _, _ => Heap.grows_refl h
  | elt :: rest, h, elt_type, i => by
    have ih := validate_expr_grows scope elt h
    unfold validate_list_expr_loop
    cases elt_type with
    | none =>
      dsimp only
      cases hr : validate_expr scope h elt with
      | crash => trivial
      | fail d h1 => rw [hr] at ih; exact ih
      | ok ty h1 =>
        rw [hr] at ih
        exact Res_post_mono (fun h2 hg => Heap.grows_trans ih hg) _
          (validate_list_expr_loop_grows scope rest h1 (some ty) (i + 1))
    | some et =>
      dsimp only
      cases hr : validate_expr scope h elt with
      | crash => trivial
      | fail d h1 => trivial
      | ok ty h1 =>
        rw [hr] at ih
        dsimp only
        cases he : GarterType_Equal h1 ty et with
        | none => trivial
        | some p =>
          obtain ⟨b, h2⟩ := p
          have g2 := (GarterType_Equal_grows _ _ _ _ _ he).1
          cases b
          · exact Heap.grows_trans ih g2
          · exact Res_post_mono
              (fun h3 hg => Heap.grows_trans (Heap.grows_trans ih g2) hg) _
              (validate_list_expr_loop_grows scope rest h2 (some et) (i + 1))
end

theorem PyDict_GetItem_append (items added : Items) (name : String) :
    PyDict_GetItem (items ++ added) name =
      match PyDict_GetItem items name with
      | some t => some t
      | none => PyDict_GetItem added name := by
  unfold PyDict_GetItem
  induction items with
  | nil => simp [List.lookup]
  | cons kv rest ih =>
    obtain ⟨k, v⟩ := kv
    simp only [List.cons_append, List.lookup]
    cases hk : (name == k) with
    | true => rfl
    | false => exact ih

theorem PyDict_Contains_append (items added : Items) (name : String) :
    PyDict_Contains (items ++ added) name =
      (PyDict_Contains items name || PyDict_Contains added name) := by
  unfold PyDict_Contains
  have := PyDict_GetItem_append items added name
  unfold PyDict_GetItem at this
  rw [this]
  cases List.lookup name items <;> simp

theorem GarterScope_Items_setItems (scope : GarterScope) (items : Items) :
    GarterScope_Items (scope.setItems items) = items := by
  cases scope; rfl

theorem GarterScope_setItems_setItems (scope : GarterScope) (i1 i2 : Items) :
    (scope.setItems i1).setItems i2 = scope.setItems i2 := by
  cases scope; rfl

theorem GarterScope_setItems_Items (scope : GarterScope) :
    scope.setItems (GarterScope_Items scope) = scope := by
  cases scope; rfl

theorem declares_of_grows (scope : GarterScope) {h h2 : Heap} (hg : h.grows h2) :
    declares scope h scope h2 :=
  ⟨hg, [], by simp [GarterScope_setItems_Items], by simp⟩

theorem declares_refl (scope : GarterScope) (h : Heap) : declares scope h scope h :=
  declares_of_grows scope (Heap.grows_refl h)

theorem declares_trans {s1 s2 s3 : GarterScope} {h1 h2 h3 : Heap}
    (d12 : declares s1 h1 s2 h2) (d23 : declares s2 h2 s3 h3) :
    declares s1 h1 s3 h3 := by
  obtain ⟨g12, a1, e1, p1⟩ := d12
  obtain ⟨g23, a2, e2, p2⟩ := d23
  refine ⟨Heap.grows_trans g12 g23, a1 ++ a2, ?_, ?_⟩
  · rw [e2, e1, GarterScope_Items_setItems, GarterScope_setItems_setItems,
      List.append_assoc]
  · intro kv hkv
    rcases List.mem_append.mp hkv with hm | hm
    · exact ⟨(p1 kv hm).1, GarterType_IsComplete_grows g23 _ (p1 kv hm).2⟩
    · have := p2 kv hm
      rw [e1, GarterScope_Items_setItems, PyDict_Contains_append] at this
      refine ⟨?_, this.2⟩
      have h3 := this.1
      simp only [Bool.or_eq_false_iff] at h3
      exact h3.1

theorem StmtRes_post_mono {P Q : GarterScope → Heap → Prop}
    (hPQ : ∀ s h, P s h → Q s h) (r : StmtRes) (hr : r.post P) : r.post Q := by
  cases r with
  | ok s h => exact hPQ s h hr
  | fail d s h => exact hPQ s h hr
  | crash => trivial

theorem validate_decl_target_ok (scope : GarterScope) (h : Heap) (e : expr)
    (type : TypePtr) (scope1 : GarterScope) (h1 : Heap)
    (hr : validate_decl_target scope h e type = .ok scope1 h1) :
    h1 = h ∧ ∃ name, e = .Name name ∧
      PyDict_Contains (GarterScope_Items scope) name = false ∧
      scope1 = scope.setItems (GarterScope_Items scope ++ [(name, type)]) := by
  unfold validate_decl_target at hr
  split at hr
  · rename_i name
    split_ifs at hr with hc
    simp only [StmtRes.ok.injEq] at hr
    obtain ⟨rfl, rfl⟩ := hr
    refine ⟨rfl, name, rfl, by simpa using hc, ?_⟩
    simp [PyDict_SetItem, hc]
  · cases hr

theorem validate_decl_target_fail (scope : GarterScope) (h : Heap) (e : expr)
    (type : TypePtr) (d : Diag) (scope1 : GarterScope) (h1 : Heap)
    (hr : validate_decl_target scope h e type = .fail d scope1 h1) :
    h1 = h ∧ scope1 = scope := by
  unfold validate_decl_target at hr
  split at hr
  · split_ifs at hr
    simp only [StmtRes.fail.injEq] at hr
    exact ⟨hr.2.2.symm, hr.2.1.symm⟩
  · simp only [StmtRes.fail.injEq] at hr
    exact ⟨hr.2.2.symm, hr.2.1.symm⟩

theorem validate_assign_stmt_target_type_grows (scope : GarterScope) (h1 : Heap)
    (type : expr) (value_type : TypePtr) :
    (validate_assign_stmt_target_type scope h1 type value_type).post
      (fun h2 => h1.grows h2) := by
  unfold validate_assign_stmt_target_type
  split
  · exact Heap.grows_refl h1
  · exact (validate_type_post scope type h1).1

theorem validate_assign_stmt_declares (scope : GarterScope) (h : Heap)
    (targets : List expr) (value : expr) (type : Option expr) (groot : Bool) :
    (validate_assign_stmt scope h targets value type groot).post
      (declares scope h) := by
  unfold validate_assign_stmt
  split
  · rename_i target
    have hv := validate_expr_grows scope value h
    cases hrv : validate_expr scope h value with
    | crash => trivial
    | fail d h1 => rw [hrv] at hv; exact declares_of_grows scope hv
    | ok value_type h1 =>
      rw [hrv] at hv
      have g1 : h.grows h1 := hv
      dsimp only
      cases type with
      | some type =>
        dsimp only
        have ht := validate_assign_stmt_target_type_grows scope h1 type value_type
        cases hrt : validate_assign_stmt_target_type scope h1 type value_type with
        | crash => trivial
        | fail d h2 =>
          rw [hrt] at ht
          exact declares_of_grows scope (Heap.grows_trans g1 ht)
        | ok target_type h2 =>
          rw [hrt] at ht
          have g2 : h.grows h2 := Heap.grows_trans g1 ht
          dsimp only
          cases hc : GarterType_IsComplete h2 (some target_type) with
          | none => trivial
          | some b =>
            cases b with
            | false => exact declares_of_grows scope g2
            | true =>
              dsimp only
              cases hd : validate_decl_target scope h2 target target_type with
              | crash => trivial
              | fail d scope1 h3 =>
                obtain ⟨rfl, rfl⟩ := validate_decl_target_fail _ _ _ _ _ _ _ hd
                exact declares_of_grows _ g2
              | ok scope1 h3 =>
                obtain ⟨rfl, name, _, hnc, rfl⟩ :=
                  validate_decl_target_ok _ _ _ _ _ _ hd
                have key : ∀ h4, h3.grows h4 →
                    declares scope h (scope.setItems
                      (GarterScope_Items scope ++ [(name, target_type)])) h4 := by
                  intro h4 g34
                  refine ⟨Heap.grows_trans g2 g34, [(name, target_type)], rfl, ?_⟩
                  intro kv hkv
                  simp only [List.mem_singleton] at hkv
                  subst hkv
                  exact ⟨hnc, GarterType_IsComplete_grows g34 _ hc⟩
                dsimp only
                cases groot with
                | false => exact key _ (Heap.grows_refl _)
                | true =>
                  simp only [Bool.not_true, Bool.false_eq_true, ↓reduceIte]
                  cases he : GarterType_Equal h3 target_type value_type with
                  | none => trivial
                  | some p =>
                    obtain ⟨b, h4⟩ := p
                    have g4 := (GarterType_Equal_grows _ _ _ _ _ he).1
                    cases b <;> exact key _ g4
      | none =>
        dsimp only
        have ht := validate_expr_grows scope target h1
        cases hrt : validate_expr scope h1 target with
        | crash => trivial
        | fail d h2 =>
          rw [hrt] at ht
          exact declares_of_grows scope (Heap.grows_trans g1 ht)
        | ok target_type h2 =>
          rw [hrt] at ht
          have g2 : h.grows h2 := Heap.grows_trans g1 ht
          dsimp only
          cases he : GarterType_Equal h2 target_type value_type with
          | none => trivial
          | some p =>
            obtain ⟨b, h3⟩ := p
            have g3 := (GarterType_Equal_grows _ _ _ _ _ he).1
            cases b <;> exact declares_of_grows scope (Heap.grows_trans g2 g3)
  · exact declares_refl scope h

mutual
theorem validate_stmt_declares (sroot : Bool) :
    ∀ (s : stmt) (scope : GarterScope) (h : Heap),
      (validate_stmt scope h sroot s).post (declares scope h)
  | .FunctionDef, scope, h => declares_refl scope h
  | .ClassDef, scope, h => declares_refl scope h
  | .Return, scope, h => declares_refl scope h
  | .Assign targets value type, scope, h => by
    unfold validate_stmt
    exact validate_assign_stmt_declares scope h targets value type sroot
  | .AugAssign target op value, scope, h => by
    unfold validate_stmt
    exact validate_assign_stmt_declares scope h _ _ _ sroot
  | .If test body orelse, scope, h => by
    unfold validate_stmt
    have ht := validate_expr_grows scope test h
    cases hrt : validate_expr scope h test with
    | crash => trivial
    | fail d h1 => rw [hrt] at ht; exact declares_of_grows scope ht
    | ok t h1 =>
      rw [hrt] at ht
      dsimp only
      cases GarterType_Kind h1 t with
      | none => trivial
      | some k =>
        dsimp only
        split_ifs
        · exact declares_of_grows scope ht
        · have d1 : declares scope h scope h1 := declares_of_grows scope ht
          have hb := validate_stmts_declares false body scope h1
          cases hrb : validate_stmts scope h1 false body with
          | crash => trivial
          | fail d scope2 h2 => rw [hrb] at hb; exact declares_trans d1 hb
          | ok scope2 h2 =>
            rw [hrb] at hb
            have d2 := declares_trans d1 hb
            exact StmtRes_post_mono (fun s3 h3 d3 => declares_trans d2 d3) _
              (validate_stmts_declares false orelse scope2 h2)
  | .For, scope, h => declares_refl scope h
  | .While, scope, h => declares_refl scope h
  | .Assert, scope, h => declares_refl scope h
  | .Global, scope, h => declares_refl scope h
  | .Nonlocal, scope, h => declares_refl scope h
  | .Expr value, scope, h => by
    unfold validate_stmt
    have hv := validate_expr_grows scope value h
    cases hrv : validate_expr scope h value with
    | crash => trivial
    | fail d h1 => rw [hrv] at hv; exact declares_of_grows scope hv
    | ok t h1 => rw [hrv] at hv; exact declares_of_grows scope hv
  | .Break, scope, h => declares_refl scope h
  | .Continue, scope, h => declares_refl scope h
  | .Other _, scope, h => declares_refl scope h
theorem validate_stmts_declares (sroot : Bool) :
    ∀ (seq : List stmt) (scope : GarterScope) (h : Heap),
      (validate_stmts scope h sroot seq).post (declares scope h)
  | [], scope, h => declares_refl scope h
  | s :: rest, scope, h => by
    unfold validate_stmts
    have hs := validate_stmt_declares sroot s scope h
    cases hrs : validate_stmt scope h sroot s with
    | crash => trivial
    | fail d scope1 h1 => rw [hrs] at hs; exact hs
    | ok scope1 h1 =>
      rw [hrs] at hs
      exact StmtRes_post_mono (fun s2 h2 d2 => declares_trans hs d2) _
        (validate_stmts_declares sroot rest scope1 h1)
end

theorem validate_mod_declares (scope : GarterScope) (h : Heap) (m : mod) :
    (validate_mod scope h m).post (declares scope h) := by
  cases m with
  | Module body => exact validate_stmts_declares true body scope h
  | Interactive body => exact validate_stmts_declares true body scope h
  | Expression body =>
    unfold validate_mod
    dsimp only
    have hv := validate_expr_grows scope body h
    cases hrv : validate_expr scope h body with
    | crash => trivial
    | fail d h1 => rw [hrv] at hv; exact declares_of_grows scope hv
    | ok t h1 => rw [hrv] at hv; exact declares_of_grows scope hv
  | Suite _ => exact declares_refl scope h
  | Other _ => exact declares_refl scope h

/-- What a returning call of `Garter_Validate` on a scope object does: the heap
has grown; a rejected call leaves the scope object as it was, an accepted call
has appended bindings of names that were not bound, to complete types. -/
theorem Garter_Validate_spec (m : mod) (filename : PyObject)
    (scope : GarterScope) (h : Heap) (out : Outcome)
    (hv : Garter_Validate m filename (.Scope scope) h = some out) :
    h.grows out.heap ∧
    ((out.success = false ∧ out.scope = .Scope scope) ∨
     (out.success = true ∧ ∃ added : Items,
        out.scope = .Scope (scope.setItems (GarterScope_Items scope ++ added)) ∧
        ∀ kv ∈ added, PyDict_Contains (GarterScope_Items scope) kv.1 = false ∧
          GarterType_IsComplete out.heap (some kv.2) = some true)) := by
  unfold Garter_Validate at hv
  cases filename with
  | Unicode fname =>
    dsimp only at hv
    obtain ⟨up, items, fn⟩ := scope
    cases up with
    | some u => simp [GarterScope_ValidationBegin, GarterScope_Up] at hv
    | none =>
      cases fn with
      | some f =>
        simp [GarterScope_ValidationBegin, GarterScope_Up, GarterScope_FileName,
          GarterScope_Global, GarterScope.filename] at hv
      | none =>
        simp only [GarterScope_ValidationBegin, GarterScope_Up, GarterScope_FileName,
          GarterScope_Global, GarterScope.filename, Option.isNone_none, Bool.and_self,
          ↓reduceIte, PyDict_Copy, GarterScope_Items, GarterScope.setFilename] at hv
        have hd := validate_mod_declares (.mk none items (some fname)) h m
        cases hr : validate_mod (.mk none items (some fname)) h m with
        | crash => simp [hr] at hv
        | ok s2 h2 =>
          rw [hr] at hd hv
          obtain ⟨hg, added, rfl, hadd⟩ := hd
          simp only [GarterScope_ValidationOk, GarterScope_Up, GarterScope.setItems,
            GarterScope_FileName, GarterScope_Global, GarterScope.filename,
            Option.isNone_none, Option.isSome_some, Bool.and_self, ↓reduceIte,
            GarterScope.setFilename, Option.some.injEq] at hv
          subst hv
          exact ⟨hg, Or.inr ⟨rfl, added, rfl, hadd⟩⟩
        | fail d s2 h2 =>
          rw [hr] at hd hv
          obtain ⟨hg, added, rfl, hadd⟩ := hd
          simp only [GarterScope_ValidationFail, GarterScope_ValidationOk,
            GarterScope_Up, GarterScope.setItems,
            GarterScope_FileName, GarterScope_Global, GarterScope.filename,
            Option.isNone_none, Option.isSome_some, Bool.and_self, ↓reduceIte,
            GarterScope.setFilename, Option.some.injEq] at hv
          subst hv
          exact ⟨hg, Or.inl ⟨rfl, rfl⟩⟩
  | Scope s2 =>
    simp only [Option.some.injEq] at hv
    subst hv
    exact ⟨Heap.grows_refl h, Or.inl ⟨rfl, rfl⟩⟩
  | Other =>
    simp only [Option.some.injEq] at hv
    subst hv
    exact ⟨Heap.grows_refl h, Or.inl ⟨rfl, rfl⟩⟩

theorem PyDict_GetItem_mem (items : Items) (name : String) (type : TypePtr)
    (hl : PyDict_GetItem items name = some type) : (name, type) ∈ items := by
  unfold PyDict_GetItem at hl
  induction items with
  | nil => simp [List.lookup] at hl
  | cons kv rest ih =>
    obtain ⟨k, v⟩ := kv
    simp only [List.lookup] at hl
    cases hk : (name == k) with
    | true =>
      rw [hk] at hl
      simp only [Option.some.injEq] at hl
      subst hl
      have : name = k := by simpa using hk
      subst this
      exact List.mem_cons_self _ _
    | false =>
      rw [hk] at hl
      exact List.mem_cons_of_mem _ (ih hl)

theorem bindings_complete_grows {h h2 : Heap} (hg : h.grows h2) (items : Items)
    (hc : bindings_complete h items) : bindings_complete h2 items :=
  fun name type hl => GarterType_IsComplete_grows hg _ (hc name type hl)

theorem bindings_complete_append {h : Heap} (items added : Items)
    (hc : bindings_complete h items)
    (ha : ∀ kv ∈ added, GarterType_IsComplete h (some kv.2) = some true) :
    bindings_complete h (items ++ added) := by
  intro name type hl
  rw [PyDict_GetItem_append] at hl
  cases hi : PyDict_GetItem items name with
  | some t =>
    rw [hi] at hl
    simp only [Option.some.injEq] at hl
    subst hl
    exact hc name t hi
  | none =>
    rw [hi] at hl
    exact ha (name, type) (PyDict_GetItem_mem added name type hl)

/-! ### C1: rollback -/

/-- C1.  When `Garter_Validate` returns 0, the scope object is exactly what it
was before the call: the bindings are the same names bound to the same type
objects, whatever the failed walk had declared.  Moreover, when the bound types
were complete, each of them still has the structure it had. -/
theorem Garter_Validate_rejected_restores_bindings (m : mod)
    (filename scope : PyObject) (h : Heap) (out : Outcome)
    (hv : Garter_Validate m filename scope h = some out)
    (hrej : out.success = false) :
    out.scope = scope ∧
    ∀ s, scope = .Scope s → bindings_complete h (GarterScope_Items s) →
      ∀ name type, PyDict_GetItem (GarterScope_Items s) name = some type →
        GarterType_shape out.heap type = GarterType_shape h type := by
  cases scope with
  | Scope s =>
    obtain ⟨hg, hcase⟩ := Garter_Validate_spec m filename s h out hv
    rcases hcase with ⟨_, hs⟩ | ⟨ht, _⟩
    · refine ⟨hs, ?_⟩
      intro s2 hs2 hc name type hl
      cases hs2
      exact (GarterType_shape_grows hg type (hc name type hl)).1
    · rw [ht] at hrej
      cases hrej
  | Unicode u =>
    simp only [Garter_Validate, Option.some.injEq] at hv
    subst hv
    exact ⟨rfl, by intro s hs; cases hs⟩
  | Other =>
    simp only [Garter_Validate, Option.some.injEq] at hv
    subst hv
    exact ⟨rfl, by intro s hs; cases hs⟩

/-- Witness for C1: `y : int = 1` then `y = 3.0` on a scope binding `x` is
rejected, and the declaration of `y` is gone. -/
theorem Garter_Validate_rejected_restores_bindings_witness :
    ∃ out, Garter_Validate prog_decl_then_mismatch (.Unicode "f")
        (.Scope scope_x_int) [] = some out ∧
      out.success = false ∧ out.error = some .TypeMismatch ∧
      out.scope = .Scope scope_x_int :=
  ⟨⟨false, some .TypeMismatch, .Scope scope_x_int, []⟩, rfl, rfl, rfl,
    (Garter_Validate_rejected_restores_bindings prog_decl_then_mismatch
      (.Unicode "f") (.Scope scope_x_int) [] _ rfl rfl).1⟩

/-! ### C2: completeness of the bound types -/

/-- C2.  In every state reachable from `Garter_NewGlobalScope` by calls of
`Garter_Validate`, accepted or rejected, the scope object is a global scope and
`GarterType_IsComplete` holds of the type of every bound name. -/
theorem Reachable_bindings_complete (scope : PyObject) (h : Heap)
    (hr : Reachable scope h) :
    ∃ s, scope = .Scope s ∧ GarterScope_Up s = none ∧
      ∀ name type, PyDict_GetItem (GarterScope_Items s) name = some type →
        GarterType_IsComplete h (some type) = some true := by
  induction hr with
  | new h0 =>
    refine ⟨GarterScope_New none, rfl, rfl, ?_⟩
    intro name type hl
    simp [GarterScope_New, GarterScope_Items, PyDict_GetItem] at hl
  | validate m filename scope0 h0 out _ hv ih =>
    obtain ⟨s, rfl, hup, hc⟩ := ih
    obtain ⟨hg, hcase⟩ := Garter_Validate_spec m filename s h0 out hv
    rcases hcase with ⟨_, hs⟩ | ⟨_, added, hs, hadd⟩
    · exact ⟨s, hs, hup, bindings_complete_grows hg _ hc⟩
    · refine ⟨_, hs, ?_, ?_⟩
      · cases s; exact hup
      · rw [GarterScope_Items_setItems]
        exact bindings_complete_append _ _ (bindings_complete_grows hg _ hc)
          (fun kv hkv => (hadd kv hkv).2)

/-- Witness for C2: the state after `xs : [int] = [1, 2, 3]`, `xs = xs + [4]`
on a new global scope is reachable, and there `xs` is bound to a complete
type. -/
theorem Reachable_bindings_complete_witness :
    ∃ out, Garter_Validate prog_list_append (.Unicode "f") Garter_NewGlobalScope []
        = some out ∧ out.success = true ∧
      ∃ s, out.scope = .Scope s ∧ GarterScope_Up s = none ∧
        ∀ name type, PyDict_GetItem (GarterScope_Items s) name = some type →
          GarterType_IsComplete out.heap (some type) = some true :=
  ⟨_, rfl, rfl, Reachable_bindings_complete _ _
    (Reachable.validate prog_list_append (.Unicode "f") Garter_NewGlobalScope []
      _ (Reachable.new []) rfl)⟩

/-! ### C3: a variable keeps its type -/

/-- C3.  On a scope whose bound types are complete, a returning call of
`Garter_Validate` leaves every binding in place, bound to the same type object
with the same structure; the bindings after the call are the old ones followed
by bindings of names that were not bound before, and by none when the call was
rejected. -/
theorem Garter_Validate_keeps_bindings (m : mod) (filename : PyObject)
    (scope : GarterScope) (h : Heap) (out : Outcome)
    (hc : bindings_complete h (GarterScope_Items scope))
    (hv : Garter_Validate m filename (.Scope scope) h = some out) :
    ∃ (scope2 : GarterScope) (added : Items),
      out.scope = .Scope scope2 ∧
      GarterScope_Items scope2 = GarterScope_Items scope ++ added ∧
      (out.success = false → added = []) ∧
      (∀ kv ∈ added, PyDict_GetItem (GarterScope_Items scope) kv.1 = none) ∧
      ∀ name type, PyDict_GetItem (GarterScope_Items scope) name = some type →
        PyDict_GetItem (GarterScope_Items scope2) name = some type ∧
        GarterType_shape out.heap type = GarterType_shape h type := by
  obtain ⟨hg, hcase⟩ := Garter_Validate_spec m filename scope h out hv
  have hshape : ∀ name type,
      PyDict_GetItem (GarterScope_Items scope) name = some type →
      GarterType_shape out.heap type = GarterType_shape h type :=
    fun name type hl => (GarterType_shape_grows hg type (hc name type hl)).1
  rcases hcase with ⟨_, hs⟩ | ⟨ht, added, hs, hadd⟩
  · exact ⟨scope, [], hs, by simp, fun _ => rfl, by simp,
      fun name type hl => ⟨hl, hshape name type hl⟩⟩
  · refine ⟨_, added, hs, GarterScope_Items_setItems _ _, ?_, ?_, ?_⟩
    · intro hf
      rw [ht] at hf
      cases hf
    · intro kv hkv
      have := (hadd kv hkv).1
      unfold PyDict_Contains at this
      unfold PyDict_GetItem
      cases hl : List.lookup kv.1 (GarterScope_Items scope) with
      | none => rfl
      | some t => simp [hl] at this
    · intro name type hl
      refine ⟨?_, hshape name type hl⟩
      rw [GarterScope_Items_setItems, PyDict_GetItem_append, hl]

/-- Witness for C3: on the scope binding `x` to int, the accepted program
`y : int = 1` keeps `x` and adds `y`. -/
theorem Garter_Validate_keeps_bindings_witness :
    bindings_complete [] (GarterScope_Items scope_x_int) ∧
    ∃ out, Garter_Validate prog_decl_y (.Unicode "f") (.Scope scope_x_int) []
        = some out ∧ out.success = true ∧
      ∃ (scope2 : GarterScope) (added : Items),
        out.scope = .Scope scope2 ∧
        GarterScope_Items scope2 = GarterScope_Items scope_x_int ++ added ∧
        (out.success = false → added = []) ∧
        (∀ kv ∈ added, PyDict_GetItem (GarterScope_Items scope_x_int) kv.1 = none) ∧
        ∀ name type,
          PyDict_GetItem (GarterScope_Items scope_x_int) name = some type →
          PyDict_GetItem (GarterScope_Items scope2) name = some type ∧
          GarterType_shape out.heap type = GarterType_shape [] type :=
  have hc : bindings_complete [] (GarterScope_Items scope_x_int) := by
    intro name type hl
    have hm := PyDict_GetItem_mem _ _ _ hl
    simp only [scope_x_int, GarterScope_Items, List.mem_singleton, Prod.mk.injEq] at hm
    rw [hm.2]
    rfl
  ⟨hc, _, rfl, rfl,
    Garter_Validate_keeps_bindings prog_decl_y (.Unicode "f") scope_x_int [] _ hc rfl⟩

/-! ### C4 to C7: the Assign rule -/

theorem validate_type_IsComplete (scope : GarterScope) (h : Heap) (e : expr)
    (T : TypePtr) (h2 : Heap) (hT : validate_type scope h e = .ok T h2) :
    GarterType_IsComplete h2 (some T) = some true := by
  obtain ⟨s, hs, hc⟩ := (validate_type_post scope e h).2 T h2 hT
  unfold GarterType_IsComplete
  rw [GarterType_IsComplete_fuel_of_shape _ _ _ _ hs, hc]

theorem GarterType_Equal_self (h : Heap) (a : TypePtr) :
    GarterType_Equal h a a = some (true, h) := by
  simp [GarterType_Equal, GarterType_Equal_fuel]

theorem validate_decl_target_unbound (scope : GarterScope) (h : Heap)
    (x : String) (T : TypePtr)
    (hx : PyDict_Contains (GarterScope_Items scope) x = false) :
    validate_decl_target scope h (.Name x) T =
      .ok (scope.setItems (GarterScope_Items scope ++ [(x, T)])) h := by
  simp [validate_decl_target, hx, PyDict_SetItem]

theorem validate_decl_target_bound (scope : GarterScope) (h : Heap)
    (x : String) (T : TypePtr)
    (hx : PyDict_Contains (GarterScope_Items scope) x = true) :
    validate_decl_target scope h (.Name x) T = .fail (.Redeclared x) scope h := by
  simp [validate_decl_target, hx]

/-- The outcome of a declaration `x : A = rhs` at a statement root, with `x`
unbound, an annotation `A` that is not the ellipsis and elaborates to `T`, and
a right-hand side that judges to `V`: it is decided by `GarterType_Equal`. -/
theorem validate_assign_stmt_annotated_eq (scope : GarterScope) (h : Heap)
    (x : String) (A rhs : expr) (V : TypePtr) (h1 : Heap) (T : TypePtr)
    (h2 : Heap)
    (hx : PyDict_Contains (GarterScope_Items scope) x = false)
    (hA : A ≠ .Ellipsis)
    (hV : validate_expr scope h rhs = .ok V h1)
    (hT : validate_type scope h1 A = .ok T h2) :
    validate_assign_stmt scope h [.Name x] rhs (some A) true =
      match GarterType_Equal h2 T V with
      | none => .crash
      | some (false, h3) =>
        .fail .TypeMismatch
          (scope.setItems (GarterScope_Items scope ++ [(x, T)])) h3
      | some (true, h3) =>
        .ok (scope.setItems (GarterScope_Items scope ++ [(x, T)])) h3 := by
  have htt : validate_assign_stmt_target_type scope h1 A V = .ok T h2 := by
    unfold validate_assign_stmt_target_type
    split
    · exact absurd rfl hA
    · exact hT
  simp only [validate_assign_stmt, hV, htt,
    validate_type_IsComplete scope h1 A T h2 hT,
    validate_decl_target_unbound scope h2 x T hx, Bool.not_true,
    Bool.false_eq_true, ↓reduceIte]

/-- C4.  A declaration `x : A = rhs` judged at a statement root, where `x` is
unbound, the annotation `A` is not the ellipsis and elaborates to `T`, and the
right-hand side judges to `V`, is accepted exactly when `GarterType_Equal(T, V)`
returns true; when it is accepted the bindings are the previous bindings
followed by `x` bound to `T`, and nothing else of the scope has changed. -/
theorem validate_assign_stmt_annotated (scope : GarterScope) (h : Heap)
    (x : String) (A rhs : expr) (V : TypePtr) (h1 : Heap) (T : TypePtr)
    (h2 : Heap)
    (hx : PyDict_GetItem (GarterScope_Items scope) x = none)
    (hA : A ≠ .Ellipsis)
    (hV : validate_expr scope h rhs = .ok V h1)
    (hT : validate_type scope h1 A = .ok T h2) :
    ((∃ scope2 h3,
        validate_assign_stmt scope h [.Name x] rhs (some A) true = .ok scope2 h3) ↔
      ∃ h3, GarterType_Equal h2 T V = some (true, h3)) ∧
    ∀ scope2 h3,
      validate_assign_stmt scope h [.Name x] rhs (some A) true = .ok scope2 h3 →
      scope2 = scope.setItems (GarterScope_Items scope ++ [(x, T)]) ∧
      GarterScope_Items scope2 = GarterScope_Items scope ++ [(x, T)] ∧
      GarterType_Equal h2 T V = some (true, h3) := by
  have hx2 : PyDict_Contains (GarterScope_Items scope) x = false := by
    unfold PyDict_GetItem at hx
    simp [PyDict_Contains, hx]
  rw [validate_assign_stmt_annotated_eq scope h x A rhs V h1 T h2 hx2 hA hV hT]
  cases he : GarterType_Equal h2 T V with
  | none => simp
  | some p =>
    obtain ⟨b, h3⟩ := p
    cases b
    · simp
    · simp only [StmtRes.ok.injEq, exists_and_left, exists_eq', and_true,
        Option.some.injEq, Prod.mk.injEq, true_and, and_imp]
      intro scope2 h4 hs hh
      subst hs hh
      exact ⟨rfl, GarterScope_Items_setItems _ _, rfl⟩

/-- Witness for C4: `x : int = 3` on a new global scope binds `x` to int, and
`xs : [int] = []` is accepted and binds `xs` to a List of int. -/
theorem validate_assign_stmt_annotated_witness :
    (validate_assign_stmt (GarterScope_New none) [] [.Name "x"] (int_lit 3)
        (some (.Name "int")) true
      = .ok (.mk none [("x", GarterType_INT)] none) []) ∧
    (validate_assign_stmt (GarterScope_New none) [] [.Name "xs"] (.List [])
        (some (.List [.Name "int"])) true
      = .ok (.mk none [("xs", .obj 1)] none)
          [⟨.GT_LIST, some (.type .INT)⟩, ⟨.GT_LIST, some (.type .INT)⟩]) ∧
    GarterType_shape [⟨.GT_LIST, some (.type .INT)⟩, ⟨.GT_LIST, some (.type .INT)⟩]
      (.obj 1) = some (.listOf .int) ∧
    ((∃ scope2 h3,
        validate_assign_stmt (GarterScope_New none) [] [.Name "xs"] (.List [])
          (some (.List [.Name "int"])) true = .ok scope2 h3) ↔
      ∃ h3, GarterType_Equal [⟨.GT_LIST, none⟩, ⟨.GT_LIST, some (.type .INT)⟩]
        (.obj 1) (.obj 0) = some (true, h3)) :=
  ⟨rfl, rfl, rfl,
    (validate_assign_stmt_annotated (GarterScope_New none) [] "xs"
      (.List [.Name "int"]) (.List []) (.obj 0) [⟨.GT_LIST, none⟩] (.obj 1)
      [⟨.GT_LIST, none⟩, ⟨.GT_LIST, some (.type .INT)⟩] rfl (by simp) rfl rfl).1⟩

theorem PyDict_Contains_of_GetItem_none (items : Items) (x : String)
    (hx : PyDict_GetItem items x = none) : PyDict_Contains items x = false := by
  unfold PyDict_GetItem at hx
  simp [PyDict_Contains, hx]

theorem PyDict_Contains_of_GetItem_some (items : Items) (x : String)
    (T : TypePtr) (hx : PyDict_GetItem items x = some T) :
    PyDict_Contains items x = true := by
  unfold PyDict_GetItem at hx
  simp [PyDict_Contains, hx]

/-- Counterexample to C5 as stated: with `y` unbound, `y = None` is rejected
with the diagnostic of its right-hand side, "Unrecognized NameConstant", not
with "Undefined identifier". -/
theorem validate_assign_stmt_unbound_rhs_fails :
    PyDict_GetItem (GarterScope_Items (GarterScope_New none)) "y" = none ∧
    validate_assign_stmt (GarterScope_New none) [] [.Name "y"]
        (.NameConstant .Py_None) none true
      = .fail .UnrecognizedConstant (GarterScope_New none) [] ∧
    ¬ ∃ scope2 h2,
      validate_assign_stmt (GarterScope_New none) [] [.Name "y"]
          (.NameConstant .Py_None) none true
        = .fail (.Undefined "y") scope2 h2 := by
  refine ⟨rfl, rfl, ?_⟩
  rintro ⟨scope2, h2, he⟩
  have hr : validate_assign_stmt (GarterScope_New none) [] [.Name "y"]
      (.NameConstant .Py_None) none true
    = .fail .UnrecognizedConstant (GarterScope_New none) [] := rfl
  rw [hr] at he
  cases he

/-- C5, amended.  For an assignment `x = rhs` without annotation: when the
judgment of `rhs` fails, the statement is rejected with that diagnostic; when
it succeeds with `V` and `x` is unbound, the statement is rejected with
"Undefined identifier x"; when it succeeds with `V` and `x` is bound to `T`, the
statement is accepted exactly when `GarterType_Equal(T, V)` returns true and is
rejected with "Incorrect type in assignment" when it returns false.  Whenever
the statement judgment returns, the scope is the one it started with, and when
its bound types were complete each of them still has the structure it had. -/
theorem validate_assign_stmt_reassign (scope : GarterScope) (h : Heap)
    (x : String) (rhs : expr) (sroot : Bool) :
    (∀ d h1, validate_expr scope h rhs = .fail d h1 →
      validate_assign_stmt scope h [.Name x] rhs none sroot = .fail d scope h1) ∧
    (∀ V h1, validate_expr scope h rhs = .ok V h1 →
      (PyDict_GetItem (GarterScope_Items scope) x = none →
        validate_assign_stmt scope h [.Name x] rhs none sroot
          = .fail (.Undefined x) scope h1) ∧
      (∀ T, PyDict_GetItem (GarterScope_Items scope) x = some T →
        validate_assign_stmt scope h [.Name x] rhs none sroot =
          match GarterType_Equal h1 T V with
          | none => .crash
          | some (false, h2) => .fail .TypeMismatch scope h2
          | some (true, h2) => .ok scope h2)) ∧
    (validate_assign_stmt scope h [.Name x] rhs none sroot).post
      (fun scope2 _ => scope2 = scope) ∧
    (bindings_complete h (GarterScope_Items scope) →
      (validate_assign_stmt scope h [.Name x] rhs none sroot).post
        (fun _ h2 => ∀ name type,
          PyDict_GetItem (GarterScope_Items scope) name = some type →
          GarterType_shape h2 type = GarterType_shape h type)) := by
  refine ⟨?_, ?_, ?_, ?_⟩
  rotate_left 3
  · intro hc
    exact StmtRes_post_mono
      (fun _ h2 hd name type hl =>
        (GarterType_shape_grows hd.1 type (hc name type hl)).1) _
      (validate_assign_stmt_declares scope h [.Name x] rhs none sroot)
  · intro d h1 hV
    simp only [validate_assign_stmt, hV]
  · intro V h1 hV
    refine ⟨?_, ?_⟩
    · intro hx
      simp only [validate_assign_stmt, hV, validate_expr, hx]
    · intro T hx
      simp only [validate_assign_stmt, hV, validate_expr, hx]
  · simp only [validate_assign_stmt]
    cases validate_expr scope h rhs with
    | crash => trivial
    | fail d h1 => rfl
    | ok V h1 =>
      dsimp only
      cases validate_expr scope h1 (.Name x) with
      | crash => trivial
      | fail d h2 => rfl
      | ok T h2 =>
        dsimp only
        cases GarterType_Equal h2 T V with
        | none => trivial
        | some p =>
          obtain ⟨b, h3⟩ := p
          cases b <;> rfl

/-- Witness for C5: after `x : int = 3`, the assignment `x = 3.0` is rejected
with "Incorrect type in assignment", and `y = 3` with `y` unbound is rejected
with "Undefined identifier y". -/
theorem validate_assign_stmt_reassign_witness :
    validate_assign_stmt scope_x_int [] [.Name "x"] float_lit none true
      = .fail .TypeMismatch scope_x_int [] ∧
    validate_assign_stmt scope_x_int [] [.Name "y"] (int_lit 3) none true
      = .fail (.Undefined "y") scope_x_int [] :=
  ⟨((validate_assign_stmt_reassign scope_x_int [] "x" float_lit true).2.1
      GarterType_FLOAT [] rfl).2 GarterType_INT rfl,
   ((validate_assign_stmt_reassign scope_x_int [] "y" (int_lit 3) true).2.1
      GarterType_INT [] rfl).1 rfl⟩

/-- Counterexample to C6 as stated: with `x` bound, the declaration `x : ... = []`
has an ellipsis annotation and a right-hand side that judges successfully, and
is rejected with "Incomplete type in declaration", not with the redeclaration
diagnostic. -/
theorem validate_assign_stmt_bound_incomplete :
    PyDict_GetItem (GarterScope_Items scope_x_int) "x" = some GarterType_INT ∧
    validate_expr scope_x_int [] (.List []) = .ok (.obj 0) [⟨.GT_LIST, none⟩] ∧
    validate_assign_stmt scope_x_int [] [.Name "x"] (.List []) (some .Ellipsis) true
      = .fail .IncompleteType scope_x_int [⟨.GT_LIST, none⟩] :=
  ⟨rfl, rfl, rfl⟩

/-- C6, amended.  A declaration (any annotation, any right-hand side, at a
statement root or not) whose target is a name already bound in the scope node
is never accepted; and when the right-hand side judges successfully, the
annotation is the ellipsis or elaborates, and the declared type is complete,
it is rejected with "Variable with name x has already been defined". -/
theorem validate_assign_stmt_redeclared (scope : GarterScope) (h : Heap)
    (x : String) (ty rhs : expr) (sroot : Bool) (T0 : TypePtr)
    (hx : PyDict_GetItem (GarterScope_Items scope) x = some T0) :
    (∀ scope2 h2,
      validate_assign_stmt scope h [.Name x] rhs (some ty) sroot ≠ .ok scope2 h2) ∧
    ∀ V h1 T h2, validate_expr scope h rhs = .ok V h1 →
      validate_assign_stmt_target_type scope h1 ty V = .ok T h2 →
      GarterType_IsComplete h2 (some T) = some true →
      validate_assign_stmt scope h [.Name x] rhs (some ty) sroot
        = .fail (.Redeclared x) scope h2 := by
  have hc := PyDict_Contains_of_GetItem_some _ _ _ hx
  refine ⟨?_, ?_⟩
  · intro scope2 h2
    simp only [validate_assign_stmt]
    cases validate_expr scope h rhs with
    | crash => simp
    | fail d h1 => simp
    | ok V h1 =>
      dsimp only
      cases validate_assign_stmt_target_type scope h1 ty V with
      | crash => simp
      | fail d h2 => simp
      | ok T h3 =>
        dsimp only
        cases GarterType_IsComplete h3 (some T) with
        | none => simp
        | some b =>
          cases b
          · simp
          · simp [validate_decl_target_bound scope h3 x T hc]
  · intro V h1 T h2 hV hT hC
    simp only [validate_assign_stmt, hV, hT, hC,
      validate_decl_target_bound scope h2 x T hc]

/-- Witness for C6: `x : int = 4` after `x : int = 3` is rejected as a
redeclaration. -/
theorem validate_assign_stmt_redeclared_witness :
    PyDict_GetItem (GarterScope_Items scope_x_int) "x" = some GarterType_INT ∧
    validate_assign_stmt scope_x_int [] [.Name "x"] (int_lit 4)
        (some (.Name "int")) true
      = .fail (.Redeclared "x") scope_x_int [] :=
  ⟨rfl, (validate_assign_stmt_redeclared scope_x_int [] "x" (.Name "int")
    (int_lit 4) true GarterType_INT rfl).2 GarterType_INT [] GarterType_INT []
    rfl rfl rfl⟩

/-- C7.  A declaration of an unbound name `x` with the ellipsis as annotation,
judged at a statement root, whose right-hand side judges to `T`: it is accepted
exactly when `GarterType_IsComplete(T)` is true and then binds `x` to `T`,
leaving the heap as the right-hand side left it; when `GarterType_IsComplete(T)`
is false it is rejected with "Incomplete type in declaration". -/
theorem validate_assign_stmt_ellipsis (scope : GarterScope) (h : Heap)
    (x : String) (rhs : expr) (T : TypePtr) (h1 : Heap)
    (hx : PyDict_GetItem (GarterScope_Items scope) x = none)
    (hV : validate_expr scope h rhs = .ok T h1) :
    ((∃ scope2 h2,
        validate_assign_stmt scope h [.Name x] rhs (some .Ellipsis) true
          = .ok scope2 h2) ↔
      GarterType_IsComplete h1 (some T) = some true) ∧
    (GarterType_IsComplete h1 (some T) = some true →
      validate_assign_stmt scope h [.Name x] rhs (some .Ellipsis) true
        = .ok (scope.setItems (GarterScope_Items scope ++ [(x, T)])) h1) ∧
    (GarterType_IsComplete h1 (some T) = some false →
      validate_assign_stmt scope h [.Name x] rhs (some .Ellipsis) true
        = .fail .IncompleteType scope h1) := by
  have hc := PyDict_Contains_of_GetItem_none _ _ hx
  have key : validate_assign_stmt scope h [.Name x] rhs (some .Ellipsis) true =
      match GarterType_IsComplete h1 (some T) with
      | none => .crash
      | some false => .fail .IncompleteType scope h1
      | some true => .ok (scope.setItems (GarterScope_Items scope ++ [(x, T)])) h1 := by
    simp only [validate_assign_stmt, hV, validate_assign_stmt_target_type]
    cases hC : GarterType_IsComplete h1 (some T) with
    | none => rfl
    | some b =>
      cases b
      · rfl
      · simp only [validate_decl_target_unbound scope h1 x T hc, Bool.not_true,
          Bool.false_eq_true, ↓reduceIte, GarterType_Equal_self]
  rw [key]
  cases hC : GarterType_IsComplete h1 (some T) with
  | none => simp
  | some b => cases b <;> simp

/-- Witness for C7: `x : ... = 3` binds `x` to int, after which `x = 5` is
accepted; `x : ... = []` is rejected with "Incomplete type in declaration". -/
theorem validate_assign_stmt_ellipsis_witness :
    validate_assign_stmt (GarterScope_New none) [] [.Name "x"] (int_lit 3)
        (some .Ellipsis) true = .ok scope_x_int [] ∧
    validate_assign_stmt scope_x_int [] [.Name "x"] (int_lit 5) none true
      = .ok scope_x_int [] ∧
    validate_assign_stmt (GarterScope_New none) [] [.Name "x"] (.List [])
        (some .Ellipsis) true
      = .fail .IncompleteType (GarterScope_New none) [⟨.GT_LIST, none⟩] :=
  ⟨(validate_assign_stmt_ellipsis (GarterScope_New none) [] "x" (int_lit 3)
      GarterType_INT [] rfl rfl).2.1 rfl,
   rfl,
   (validate_assign_stmt_ellipsis (GarterScope_New none) [] "x" (.List [])
      (.obj 0) [⟨.GT_LIST, none⟩] rfl rfl).2.2 rfl⟩

/-! ### C8 to C10: `GarterType_Equal` -/

/-- C8.  For two type objects of the same kind LIST (or DICT) of which the
first has a NULL `meta`: when the `meta` of the second is present,
`GarterType_Equal` returns true in either argument order, the first object now
holds exactly the `meta` of the second, and the second object and every other
object are unchanged; when the `meta` of the second is NULL too,
`GarterType_Equal` returns true and changes nothing. -/
theorem GarterType_Equal_late_binds (h : Heap) (x y : Nat)
    (kind : GarterTypeKind) (hk : kind = .GT_LIST ∨ kind = .GT_DICT)
    (hx : h[x]? = some ⟨kind, none⟩) :
    (∀ m, h[y]? = some ⟨kind, some m⟩ →
      GarterType_Equal h (.obj x) (.obj y)
        = some (true, h.set x ⟨kind, some m⟩) ∧
      GarterType_Equal h (.obj y) (.obj x)
        = some (true, h.set x ⟨kind, some m⟩) ∧
      (h.set x ⟨kind, some m⟩)[x]? = some ⟨kind, some m⟩ ∧
      (h.set x ⟨kind, some m⟩)[y]? = h[y]? ∧
      ∀ z, z ≠ x → (h.set x ⟨kind, some m⟩)[z]? = h[z]?) ∧
    (h[y]? = some ⟨kind, none⟩ →
      GarterType_Equal h (.obj x) (.obj y) = some (true, h) ∧
      GarterType_Equal h (.obj y) (.obj x) = some (true, h)) := by
  have hlt : x < h.length := by
    by_contra hc
    rw [List.getElem?_eq_none (by omega)] at hx
    cases hx
  refine ⟨?_, ?_⟩
  · intro m hy
    have hxy : x ≠ y := by
      intro e
      subst e
      rw [hx] at hy
      cases hy
    have hyx : y ≠ x := fun e => hxy e.symm
    refine ⟨?_, ?_, ?_, ?_, ?_⟩
    · rcases hk with rfl | rfl <;>
        simp [GarterType_Equal, GarterType_Equal_fuel, Heap.deref, hx, hy, hxy,
          GarterType_LateBindMeta]
    · rcases hk with rfl | rfl <;>
        simp [GarterType_Equal, GarterType_Equal_fuel, Heap.deref, hx, hy, hyx,
          GarterType_LateBindMeta]
    · rw [List.getElem?_set_self hlt]
    · rw [List.getElem?_set_ne hxy]
    · intro z hz
      rw [List.getElem?_set_ne (fun e => hz e.symm)]
  · intro hy
    by_cases hxy : x = y
    · subst hxy
      exact ⟨GarterType_Equal_self _ _, GarterType_Equal_self _ _⟩
    · have hyx : y ≠ x := fun e => hxy e.symm
      rcases hk with rfl | rfl <;>
        simp [GarterType_Equal, GarterType_Equal_fuel, Heap.deref, hx, hy, hxy, hyx]

/-- Witness for C8: the type of `[]` compared with the type of `[3]`. -/
theorem GarterType_Equal_late_binds_witness :
    GarterType_Equal [⟨.GT_LIST, none⟩, ⟨.GT_LIST, some (.type .INT)⟩]
        (.obj 0) (.obj 1)
      = some (true, [⟨.GT_LIST, some (.type .INT)⟩, ⟨.GT_LIST, some (.type .INT)⟩]) ∧
    GarterType_Equal [⟨.GT_LIST, none⟩, ⟨.GT_LIST, some (.type .INT)⟩]
        (.obj 1) (.obj 0)
      = some (true, [⟨.GT_LIST, some (.type .INT)⟩, ⟨.GT_LIST, some (.type .INT)⟩]) :=
  have w := (GarterType_Equal_late_binds
    [⟨.GT_LIST, none⟩, ⟨.GT_LIST, some (.type .INT)⟩] 0 1 .GT_LIST (Or.inl rfl)
    rfl).1 (.type .INT) rfl
  ⟨w.1, w.2.1⟩

theorem GarterType_Equal_fuel_symm :
    ∀ (n : Nat) (h : Heap) (a b : TypePtr),
      GarterType_Equal_fuel n h a b = GarterType_Equal_fuel n h b a := by
  intro n
  induction n with
  | zero => intro h a b; rfl
  | succ n ih =>
    intro h a b
    unfold GarterType_Equal_fuel
    by_cases hab : a = b
    · subst hab; rfl
    · have hba : ¬ b = a := fun e => hab e.symm
      simp only [hab, hba, ↓reduceIte]
      cases hda : h.deref a with
      | none => cases hdb : h.deref b <;> rfl
      | some oa =>
        cases hdb : h.deref b with
        | none => rfl
        | some ob =>
          obtain ⟨ka, ma⟩ := oa
          obtain ⟨kb, mb⟩ := ob
          dsimp only
          by_cases hk : ka = kb
          · subst hk
            simp only [ne_eq, not_true_eq_false, ↓reduceIte]
            cases ka <;> dsimp only
            · cases ma with
              | none => cases mb <;> simp
              | some ma2 =>
                cases mb with
                | none => simp
                | some mb2 =>
                  cases ma2 <;> cases mb2 <;> dsimp only
                  rename_i ak av bk bv
                  rw [ih h ak bk]
                  cases GarterType_Equal_fuel n h bk ak with
                  | none => rfl
                  | some p =>
                    obtain ⟨km, h1⟩ := p
                    dsimp only
                    rw [ih h1 av bv]
            · cases ma with
              | none => cases mb <;> simp
              | some ma2 =>
                cases mb with
                | none => simp
                | some mb2 =>
                  cases ma2 <;> cases mb2 <;> dsimp only
                  rename_i am bm
                  exact ih h am bm
            · congr 2
              simp only [decide_eq_decide]
              exact eq_comm
          · have hk2 : ¬ kb = ka := fun e => hk e.symm
            simp only [ne_eq, hk, hk2, not_false_eq_true, ↓reduceIte]

/-- C10.  `GarterType_Equal(a, b)` and `GarterType_Equal(b, a)` do the same: the
same verdict and the same heap afterwards, so the same final state of `a`, of
`b` and of every other object (and when one crashes, so does the other). -/
theorem GarterType_Equal_symm (h : Heap) (a b : TypePtr) :
    GarterType_Equal h a b = GarterType_Equal h b a :=
  GarterType_Equal_fuel_symm _ h a b

/-! #### Separate type objects -/

theorem GarterType_cells_fuel_head (n : Nat) (h : Heap) (addr : Nat)
    (c : List Nat) (hc : GarterType_cells_fuel n h (.obj addr) = some c) :
    ∃ t, c = addr :: t := by
  cases n with
  | zero => simp [GarterType_cells_fuel] at hc
  | succ n =>
    unfold GarterType_cells_fuel at hc
    dsimp only at hc
    cases ho : h[addr]? with
    | none => simp [ho] at hc
    | some o =>
      obtain ⟨kind, meta⟩ := o
      simp only [ho] at hc
      cases kind <;> dsimp only at hc <;>
        first
        | (cases hc; exact ⟨_, rfl⟩)
        | skip
      · cases meta with
        | none => cases hc; exact ⟨_, rfl⟩
        | some mt =>
          cases mt with
          | tuple k v =>
            dsimp only at hc
            cases hk : GarterType_cells_fuel n h k with
            | none => simp [hk] at hc
            | some ck =>
              cases hv : GarterType_cells_fuel n h v with
              | none => simp [hk, hv] at hc
              | some cv =>
                simp only [hk, hv, Option.some.injEq] at hc
                exact ⟨_, hc.symm⟩
          | _ => simp at hc
      · cases meta with
        | none => cases hc; exact ⟨_, rfl⟩
        | some mt =>
          cases mt with
          | type t =>
            dsimp only at hc
            cases ht : GarterType_cells_fuel n h t with
            | none => simp [ht] at hc
            | some ct =>
              simp only [ht, Option.map_some', Option.some.injEq] at hc
              exact ⟨_, hc.symm⟩
          | _ => simp at hc

/-- Reading the cells and the structure below a pointer only looks at the
cells it lists. -/
theorem GarterType_cells_fuel_frame :
    ∀ (n : Nat) (h h2 : Heap) (p : TypePtr) (c : List Nat),
      GarterType_cells_fuel n h p = some c →
      (∀ x ∈ c, h2[x]? = h[x]?) →
      GarterType_cells_fuel n h2 p = some c ∧
      GarterType_shape_fuel n h2 p = GarterType_shape_fuel n h p ∧
      ∃ s, GarterType_shape_fuel n h p = some s := by
  intro n
  induction n with
  | zero => intro h h2 p c hc; simp [GarterType_cells_fuel] at hc
  | succ n ih =>
    intro h h2 p c hc hag
    cases p with
    | obj addr =>
      obtain ⟨t, rfl⟩ := GarterType_cells_fuel_head _ _ _ _ hc
      have hx := hag addr (List.mem_cons_self _ _)
      unfold GarterType_cells_fuel at hc ⊢
      unfold GarterType_shape_fuel
      dsimp only [Heap.deref] at hc ⊢
      cases ho : h[addr]? with
      | none => simp [ho] at hc
      | some o =>
        obtain ⟨kind, meta⟩ := o
        rw [ho] at hx
        simp only [ho, hx] at hc ⊢
        cases kind <;> dsimp only at hc ⊢ <;>
          first
          | exact ⟨hc, rfl, _, rfl⟩
          | skip
        · cases meta with
          | none => exact ⟨hc, rfl, _, rfl⟩
          | some mt =>
            cases mt with
            | tuple k v =>
              dsimp only at hc ⊢
              cases hk : GarterType_cells_fuel n h k with
              | none => simp [hk] at hc
              | some ck =>
                cases hv : GarterType_cells_fuel n h v with
                | none => simp [hk, hv] at hc
                | some cv =>
                  simp only [hk, hv, Option.some.injEq, List.cons.injEq, true_and] at hc
                  subst hc
                  obtain ⟨k1, k2, ks, k3⟩ := ih h h2 k ck hk
                    (fun x hx => hag x (List.mem_cons_of_mem _ (List.mem_append_left _ hx)))
                  obtain ⟨v1, v2, vs, v3⟩ := ih h h2 v cv hv
                    (fun x hx => hag x (List.mem_cons_of_mem _ (List.mem_append_right _ hx)))
                  rw [k1, v1, k2, v2, k3, v3]
                  exact ⟨rfl, rfl, _, rfl⟩
            | _ => simp at hc
        · cases meta with
          | none => exact ⟨hc, rfl, _, rfl⟩
          | some mt =>
            cases mt with
            | type m =>
              dsimp only at hc ⊢
              cases hm : GarterType_cells_fuel n h m with
              | none => simp [hm] at hc
              | some cm =>
                simp only [hm, Option.map_some', Option.some.injEq, List.cons.injEq,
                  true_and] at hc
                subst hc
                obtain ⟨m1, m2, ms, m3⟩ := ih h h2 m cm hm
                  (fun x hx => hag x (List.mem_cons_of_mem _ hx))
                rw [m1, m2, m3]
                exact ⟨rfl, rfl, _, rfl⟩
            | _ => simp at hc
    | INT => exact ⟨by simpa [GarterType_cells_fuel] using hc, rfl, _, rfl⟩
    | FLOAT => exact ⟨by simpa [GarterType_cells_fuel] using hc, rfl, _, rfl⟩
    | BOOL => exact ⟨by simpa [GarterType_cells_fuel] using hc, rfl, _, rfl⟩
    | STR => exact ⟨by simpa [GarterType_cells_fuel] using hc, rfl, _, rfl⟩

theorem GarterType_cells_fuel_mono :
    ∀ (n : Nat) (h : Heap) (p : TypePtr) (c : List Nat),
      GarterType_cells_fuel n h p = some c →
      ∀ m, n ≤ m → GarterType_cells_fuel m h p = some c := by
  intro n
  induction n with
  | zero => intro h p c hc; simp [GarterType_cells_fuel] at hc
  | succ n ih =>
    intro h p c hc m hm
    obtain ⟨m, rfl⟩ : ∃ k, m = k + 1 := ⟨m - 1, by omega⟩
    have hnm : n ≤ m := by omega
    unfold GarterType_cells_fuel at hc ⊢
    cases p with
    | obj addr =>
      dsimp only at hc ⊢
      cases ho : h[addr]? with
      | none => simp [ho] at hc
      | some o =>
        obtain ⟨kind, meta⟩ := o
        simp only [ho] at hc ⊢
        cases kind <;> dsimp only at hc ⊢ <;> try exact hc
        · cases meta with
          | none => exact hc
          | some mt =>
            cases mt with
            | tuple k v =>
              dsimp only at hc ⊢
              cases hk : GarterType_cells_fuel n h k with
              | none => simp [hk] at hc
              | some ck =>
                cases hv : GarterType_cells_fuel n h v with
                | none => simp [hk, hv] at hc
                | some cv =>
                  rw [ih h _ _ hk m hnm, ih h _ _ hv m hnm]
                  simpa [hk, hv] using hc
            | _ => simp at hc
        · cases meta with
          | none => exact hc
          | some mt =>
            cases mt with
            | type t =>
              dsimp only at hc ⊢
              cases ht : GarterType_cells_fuel n h t with
              | none => simp [ht] at hc
              | some ct =>
                rw [ih h _ _ ht m hnm]
                simpa [ht] using hc
            | _ => simp at hc
    | _ => exact hc

theorem GarterType_cells_fuel_deref (n : Nat) (h : Heap) (p : TypePtr)
    (c : List Nat) (hc : GarterType_cells_fuel n h p = some c) :
    ∃ o, h.deref p = some o := by
  cases n with
  | zero => simp [GarterType_cells_fuel] at hc
  | succ n =>
    cases p with
    | obj addr =>
      unfold GarterType_cells_fuel at hc
      dsimp only at hc
      cases ho : h[addr]? with
      | none => simp [ho] at hc
      | some o => exact ⟨o, ho⟩
    | _ => exact ⟨_, rfl⟩

theorem GarterType_shape_fuel_congr (n : Nat) (h : Heap) (p q : TypePtr)
    (hpq : h.deref p = h.deref q) :
    GarterType_shape_fuel (n + 1) h p = GarterType_shape_fuel (n + 1) h q := by
  unfold GarterType_shape_fuel
  rw [hpq]

theorem GarterType_cells_fuel_congr (n : Nat) (h : Heap) (x y : Nat)
    (t : List Nat) (hxy : h[x]? = h[y]?)
    (hy : GarterType_cells_fuel (n + 1) h (.obj y) = some (y :: t)) :
    GarterType_cells_fuel (n + 1) h (.obj x) = some (x :: t) := by
  unfold GarterType_cells_fuel at hy ⊢
  dsimp only at hy ⊢
  rw [hxy]
  cases ho : h[y]? with
  | none => simp [ho] at hy
  | some o =>
    obtain ⟨kind, meta⟩ := o
    simp only [ho] at hy ⊢
    cases kind <;> dsimp only at hy ⊢ <;>
      first
      | (simp only [Option.some.injEq, List.cons.injEq, true_and] at hy; subst hy; rfl)
      | skip
    · cases meta with
      | none =>
        simp only [Option.some.injEq, List.cons.injEq, true_and] at hy
        subst hy; rfl
      | some mt =>
        cases mt with
        | tuple k v =>
          dsimp only at hy ⊢
          cases hk : GarterType_cells_fuel n h k with
          | none => simp [hk] at hy
          | some ck =>
            cases hv : GarterType_cells_fuel n h v with
            | none => simp [hk, hv] at hy
            | some cv =>
              simp only [hk, hv, Option.some.injEq, List.cons.injEq, true_and] at hy
              subst hy; rfl
        | _ => simp at hy
    · cases meta with
      | none =>
        simp only [Option.some.injEq, List.cons.injEq, true_and] at hy
        subst hy; rfl
      | some mt =>
        cases mt with
        | type m =>
          dsimp only at hy ⊢
          cases hm : GarterType_cells_fuel n h m with
          | none => simp [hm] at hy
          | some cm =>
            simp only [hm, Option.map_some', Option.some.injEq, List.cons.injEq,
              true_and] at hy
            subst hy; rfl
        | _ => simp at hy

/-- The effect of a late binding on separate objects: the object at `x`, whose
`meta` was NULL, now has the cells and the structure of the object at `y`. -/
theorem GarterType_LateBindMeta_separate (n : Nat) (h : Heap) (x y : Nat)
    (kind : GarterTypeKind) (m : Meta) (cb : List Nat)
    (hx : h[x]? = some ⟨kind, none⟩) (hy : h[y]? = some ⟨kind, some m⟩)
    (hcb : GarterType_cells_fuel (n + 1) h (.obj y) = some cb)
    (hxcb : x ∉ cb) :
    GarterType_LateBindMeta h (.obj x) m = h.set x ⟨kind, some m⟩ ∧
    (∀ z, z ≠ x → (h.set x ⟨kind, some m⟩)[z]? = h[z]?) ∧
    GarterType_cells_fuel (n + 1) (h.set x ⟨kind, some m⟩) (.obj y) = some cb ∧
    (∃ t, cb = y :: t ∧
      GarterType_cells_fuel (n + 1) (h.set x ⟨kind, some m⟩) (.obj x)
        = some (x :: t)) ∧
    GarterType_shape_fuel (n + 1) (h.set x ⟨kind, some m⟩) (.obj x)
      = GarterType_shape_fuel (n + 1) (h.set x ⟨kind, some m⟩) (.obj y) := by
  have hlt : x < h.length := by
    by_contra hc
    rw [List.getElem?_eq_none (by omega)] at hx
    cases hx
  have hfr : ∀ z, z ≠ x → (h.set x ⟨kind, some m⟩)[z]? = h[z]? :=
    fun z hz => List.getElem?_set_ne (fun e => hz e.symm)
  have hag : ∀ z ∈ cb, (h.set x ⟨kind, some m⟩)[z]? = h[z]? :=
    fun z hz => hfr z (fun e => hxcb (e ▸ hz))
  obtain ⟨hc2, _, _⟩ := GarterType_cells_fuel_frame _ h _ _ cb hcb hag
  obtain ⟨t, rfl⟩ := GarterType_cells_fuel_head _ _ _ _ hcb
  have hxy : x ≠ y := fun e => hxcb (e ▸ List.mem_cons_self _ _)
  have hx2 : (h.set x ⟨kind, some m⟩)[x]? = some ⟨kind, some m⟩ :=
    List.getElem?_set_self hlt
  have hy2 : (h.set x ⟨kind, some m⟩)[y]? = some ⟨kind, some m⟩ := by
    rw [hfr y (fun e => hxy e.symm), hy]
  refine ⟨by simp [GarterType_LateBindMeta, hx], hfr, hc2, ⟨t, rfl, ?_⟩, ?_⟩
  · exact GarterType_cells_fuel_congr n _ x y t (by rw [hx2, hy2]) hc2
  · exact GarterType_shape_fuel_congr n _ _ _ (by simp only [Heap.deref]; rw [hx2, hy2])

theorem GarterType_cells_fuel_list_inv (n : Nat) (h : Heap) (x : Nat) (m : Meta)
    (c : List Nat) (hx : h[x]? = some ⟨.GT_LIST, some m⟩)
    (hc : GarterType_cells_fuel (n + 1) h (.obj x) = some c) :
    ∃ am t, m = .type am ∧ c = x :: t ∧ GarterType_cells_fuel n h am = some t := by
  unfold GarterType_cells_fuel at hc
  simp only [hx] at hc
  cases m with
  | type am =>
    dsimp only at hc
    cases hm : GarterType_cells_fuel n h am with
    | none => simp [hm] at hc
    | some t =>
      simp only [hm, Option.map_some', Option.some.injEq] at hc
      exact ⟨am, t, rfl, hc.symm, hm⟩
  | _ => simp at hc

theorem GarterType_cells_fuel_dict_inv (n : Nat) (h : Heap) (x : Nat) (m : Meta)
    (c : List Nat) (hx : h[x]? = some ⟨.GT_DICT, some m⟩)
    (hc : GarterType_cells_fuel (n + 1) h (.obj x) = some c) :
    ∃ k v ck cv, m = .tuple k v ∧ c = x :: (ck ++ cv) ∧
      GarterType_cells_fuel n h k = some ck ∧
      GarterType_cells_fuel n h v = some cv := by
  unfold GarterType_cells_fuel at hc
  simp only [hx] at hc
  cases m with
  | tuple k v =>
    dsimp only at hc
    cases hk : GarterType_cells_fuel n h k with
    | none => simp [hk] at hc
    | some ck =>
      cases hv : GarterType_cells_fuel n h v with
      | none => simp [hk, hv] at hc
      | some cv =>
        simp only [hk, hv, Option.some.injEq] at hc
        exact ⟨k, v, ck, cv, rfl, hc.symm, hk, hv⟩
  | _ => simp at hc

theorem GarterType_cells_fuel_list_intro (n : Nat) (h : Heap) (x : Nat)
    (am : TypePtr) (t : List Nat)
    (hx : h[x]? = some ⟨.GT_LIST, some (.type am)⟩)
    (hm : GarterType_cells_fuel n h am = some t) :
    GarterType_cells_fuel (n + 1) h (.obj x) = some (x :: t) := by
  unfold GarterType_cells_fuel
  simp [hx, hm]

theorem GarterType_cells_fuel_dict_intro (n : Nat) (h : Heap) (x : Nat)
    (k v : TypePtr) (ck cv : List Nat)
    (hx : h[x]? = some ⟨.GT_DICT, some (.tuple k v)⟩)
    (hk : GarterType_cells_fuel n h k = some ck)
    (hv : GarterType_cells_fuel n h v = some cv) :
    GarterType_cells_fuel (n + 1) h (.obj x) = some (x :: (ck ++ cv)) := by
  unfold GarterType_cells_fuel
  simp [hx, hk, hv]

theorem GarterType_shape_fuel_list_eq (n : Nat) (h : Heap) (x : Nat)
    (am : TypePtr) (hx : h[x]? = some ⟨.GT_LIST, some (.type am)⟩) :
    GarterType_shape_fuel (n + 1) h (.obj x)
      = (GarterType_shape_fuel n h am).map Shape.listOf := by
  simp only [GarterType_shape_fuel, Heap.deref, hx]

theorem GarterType_shape_fuel_dict_eq (n : Nat) (h : Heap) (x : Nat)
    (k v : TypePtr) (hx : h[x]? = some ⟨.GT_DICT, some (.tuple k v)⟩) :
    GarterType_shape_fuel (n + 1) h (.obj x)
      = match GarterType_shape_fuel n h k, GarterType_shape_fuel n h v with
        | some ks, some vs => some (.dictOf ks vs)
        | _, _ => none := by
  simp only [GarterType_shape_fuel, Heap.deref, hx]

/-- `GarterType_Equal` on two separate type objects (no heap object below `a`
or `b` is reached twice): the call returns, only cells below `a` or `b` have
changed, what is below `a` and `b` afterwards is made of those cells, and when
the verdict is true both have the same structure afterwards. -/
theorem GarterType_Equal_fuel_separate :
    ∀ (n : Nat) (h : Heap) (a b : TypePtr) (ca cb : List Nat),
      GarterType_cells_fuel n h a = some ca →
      GarterType_cells_fuel n h b = some cb →
      ca.Nodup → cb.Nodup → (∀ z ∈ ca, z ∉ cb) →
      ∃ r h2, GarterType_Equal_fuel n h a b = some (r, h2) ∧
        (∀ z, z ∉ ca → z ∉ cb → h2[z]? = h[z]?) ∧
        (∃ ca2, GarterType_cells_fuel n h2 a = some ca2 ∧
          ∀ z ∈ ca2, z ∈ ca ∨ z ∈ cb) ∧
        (∃ cb2, GarterType_cells_fuel n h2 b = some cb2 ∧
          ∀ z ∈ cb2, z ∈ ca ∨ z ∈ cb) ∧
        (r = true →
          GarterType_shape_fuel n h2 a = GarterType_shape_fuel n h2 b) := by
  intro n
  induction n with
  | zero => intro h a b ca cb hca; simp [GarterType_cells_fuel] at hca
  | succ n ih =>
    intro h a b ca cb hca hcb hna hnb hd
    have nochange : ∀ r, GarterType_Equal_fuel (n + 1) h a b = some (r, h) →
        (r = true → GarterType_shape_fuel (n + 1) h a
          = GarterType_shape_fuel (n + 1) h b) →
        ∃ r h2, GarterType_Equal_fuel (n + 1) h a b = some (r, h2) ∧
          (∀ z, z ∉ ca → z ∉ cb → h2[z]? = h[z]?) ∧
          (∃ ca2, GarterType_cells_fuel (n + 1) h2 a = some ca2 ∧
            ∀ z ∈ ca2, z ∈ ca ∨ z ∈ cb) ∧
          (∃ cb2, GarterType_cells_fuel (n + 1) h2 b = some cb2 ∧
            ∀ z ∈ cb2, z ∈ ca ∨ z ∈ cb) ∧
          (r = true → GarterType_shape_fuel (n + 1) h2 a
            = GarterType_shape_fuel (n + 1) h2 b) :=
      fun r he hs => ⟨r, h, he, fun _ _ _ => rfl, ⟨ca, hca, fun _ hz => Or.inl hz⟩,
        ⟨cb, hcb, fun _ hz => Or.inr hz⟩, hs⟩
    by_cases hab : a = b
    · subst hab
      exact nochange true (by simp [GarterType_Equal_fuel]) (fun _ => rfl)
    obtain ⟨oa, hoa⟩ := GarterType_cells_fuel_deref _ _ _ _ hca
    obtain ⟨ob, hob⟩ := GarterType_cells_fuel_deref _ _ _ _ hcb
    obtain ⟨ka, ma⟩ := oa
    obtain ⟨kb, mb⟩ := ob
    by_cases hk : ka = kb
    swap
    · exact nochange false (by simp [GarterType_Equal_fuel, hab, hoa, hob, hk])
        (by simp)
    subst hk
    cases ka
    · exact nochange true (by simp [GarterType_Equal_fuel, hab, hoa, hob])
        (fun _ => by simp [GarterType_shape_fuel, hoa, hob])
    · exact nochange true (by simp [GarterType_Equal_fuel, hab, hoa, hob])
        (fun _ => by simp [GarterType_shape_fuel, hoa, hob])
    · exact nochange true (by simp [GarterType_Equal_fuel, hab, hoa, hob])
        (fun _ => by simp [GarterType_shape_fuel, hoa, hob])
    · exact nochange true (by simp [GarterType_Equal_fuel, hab, hoa, hob])
        (fun _ => by simp [GarterType_shape_fuel, hoa, hob])
    · -- GT_DICT
      cases a with
      | obj x =>
        cases b with
        | obj y =>
          simp only [Heap.deref] at hoa hob
          have hxy : x ≠ y := fun e => hab (by rw [e])
          obtain ⟨ta, rfl⟩ := GarterType_cells_fuel_head _ _ _ _ hca
          obtain ⟨tb, rfl⟩ := GarterType_cells_fuel_head _ _ _ _ hcb
          have hxcb : x ∉ y :: tb := hd x (List.mem_cons_self _ _)
          have hyca : y ∉ x :: ta := fun hm => hd y hm (List.mem_cons_self _ _)
          cases ma with
          | none =>
            cases mb with
            | none =>
              exact nochange true (by simp [GarterType_Equal_fuel, hab, Heap.deref, hoa, hob])
                (fun _ => by simp [GarterType_shape_fuel, Heap.deref, hoa, hob])
            | some m =>
              obtain ⟨hl, hfr, hc2, ⟨t, ht, hcx⟩, hs⟩ :=
                GarterType_LateBindMeta_separate n h x y _ m _ hoa hob hcb hxcb
              refine ⟨true, _, by simp [GarterType_Equal_fuel, hab, Heap.deref, hoa, hob, hl],
                fun z hz _ => hfr z (fun e => hz (e ▸ List.mem_cons_self _ _)),
                ⟨_, hcx, ?_⟩, ⟨_, hc2, fun _ hz => Or.inr hz⟩, fun _ => hs⟩
              intro z hz
              rcases List.mem_cons.mp hz with rfl | hzt
              · exact Or.inl (List.mem_cons_self _ _)
              · exact Or.inr (ht ▸ List.mem_cons_of_mem _ hzt)
          | some m =>
            cases mb with
            | none =>
              obtain ⟨hl, hfr, hc2, ⟨t, ht, hcx⟩, hs⟩ :=
                GarterType_LateBindMeta_separate n h y x _ m _ hob hoa hca hyca
              refine ⟨true, _, by simp [GarterType_Equal_fuel, hab, Heap.deref, hoa, hob, hl],
                fun z _ hz => hfr z (fun e => hz (e ▸ List.mem_cons_self _ _)),
                ⟨_, hc2, fun _ hz => Or.inl hz⟩, ⟨_, hcx, ?_⟩, fun _ => hs.symm⟩
              intro z hz
              rcases List.mem_cons.mp hz with rfl | hzt
              · exact Or.inr (List.mem_cons_self _ _)
              · exact Or.inl (ht ▸ List.mem_cons_of_mem _ hzt)
            | some m2 =>
              obtain ⟨ak, av, cak, cav, rfl, hta, hcak, hcav⟩ :=
                GarterType_cells_fuel_dict_inv n h x m _ hoa hca
              obtain ⟨bk, bv, cbk, cbv, rfl, htb, hcbk, hcbv⟩ :=
                GarterType_cells_fuel_dict_inv n h y m2 _ hob hcb
              simp only [List.cons.injEq, true_and] at hta htb
              subst hta htb
              rw [List.nodup_cons, List.nodup_append] at hna hnb
              obtain ⟨hxa, hnak, hnav, hda⟩ := hna
              obtain ⟨hyb, hnbk, hnbv, hdb⟩ := hnb
              have hdkk : ∀ z ∈ cak, z ∉ cbk := fun z hz hzb =>
                hd z (List.mem_cons_of_mem _ (List.mem_append_left _ hz))
                  (List.mem_cons_of_mem _ (List.mem_append_left _ hzb))
              have hdvv : ∀ z ∈ cav, z ∉ cbv := fun z hz hzb =>
                hd z (List.mem_cons_of_mem _ (List.mem_append_right _ hz))
                  (List.mem_cons_of_mem _ (List.mem_append_right _ hzb))
              have hdkv : ∀ z ∈ cak, z ∉ cbv := fun z hz hzb =>
                hd z (List.mem_cons_of_mem _ (List.mem_append_left _ hz))
                  (List.mem_cons_of_mem _ (List.mem_append_right _ hzb))
              have hdvk : ∀ z ∈ cav, z ∉ cbk := fun z hz hzb =>
                hd z (List.mem_cons_of_mem _ (List.mem_append_right _ hz))
                  (List.mem_cons_of_mem _ (List.mem_append_left _ hzb))
              obtain ⟨r1, h1, he1, hfr1, ⟨cak2, hcak2, hsk⟩, ⟨cbk2, hcbk2, hsbk⟩, hs1⟩ :=
                ih h ak bk cak cbk hcak hcbk hnak hnbk hdkk
              have hagv : ∀ z ∈ cav, h1[z]? = h[z]? := fun z hz =>
                hfr1 z (fun hzk => hda hzk hz) (hdvk z hz)
              have hagbv : ∀ z ∈ cbv, h1[z]? = h[z]? := fun z hz =>
                hfr1 z (fun hzk => hdkv z hzk hz) (fun hzk => hdb hzk hz)
              obtain ⟨hcav1, _, _⟩ := GarterType_cells_fuel_frame n h h1 av cav hcav hagv
              obtain ⟨hcbv1, _, _⟩ := GarterType_cells_fuel_frame n h h1 bv cbv hcbv hagbv
              obtain ⟨r2, h2, he2, hfr2, ⟨cav2, hcav2, hsv⟩, ⟨cbv2, hcbv2, hsbv⟩, hs2⟩ :=
                ih h1 av bv cav cbv hcav1 hcbv1 hnav hnbv hdvv
              have hkfree : ∀ z, (z ∈ cak ∨ z ∈ cbk) → h2[z]? = h1[z]? := by
                intro z hz
                rcases hz with hz | hz
                · exact hfr2 z (fun hzv => hda hz hzv) (hdkv z hz)
                · exact hfr2 z (fun hzv => hdvk z hzv hz) (fun hzv => hdb hz hzv)
              obtain ⟨hcak3, hsak3, _⟩ := GarterType_cells_fuel_frame n h1 h2 ak cak2 hcak2
                (fun z hz => hkfree z (hsk z hz))
              obtain ⟨hcbk3, hsbk3, _⟩ := GarterType_cells_fuel_frame n h1 h2 bk cbk2 hcbk2
                (fun z hz => hkfree z (hsbk z hz))
              have hxmem : ∀ l1 l2 : List Nat, x ∉ l1 ++ l2 → x ∉ l1 ∧ x ∉ l2 :=
                fun l1 l2 hn => ⟨fun hm => hn (List.mem_append_left _ hm),
                  fun hm => hn (List.mem_append_right _ hm)⟩
              have hxb : x ∉ cbk ++ cbv := fun hm => hxcb (List.mem_cons_of_mem _ hm)
              have hya : y ∉ cak ++ cav := fun hm => hyca (List.mem_cons_of_mem _ hm)
              have hx2 : h2[x]? = h[x]? := by
                rw [hfr2 x (fun hm => hxa (List.mem_append_right _ hm))
                  (fun hm => hxb (List.mem_append_right _ hm)),
                  hfr1 x (fun hm => hxa (List.mem_append_left _ hm))
                  (fun hm => hxb (List.mem_append_left _ hm))]
              have hy2 : h2[y]? = h[y]? := by
                rw [hfr2 y (fun hm => hya (List.mem_append_right _ hm))
                  (fun hm => hyb (List.mem_append_right _ hm)),
                  hfr1 y (fun hm => hya (List.mem_append_left _ hm))
                  (fun hm => hyb (List.mem_append_left _ hm))]
              rw [hoa] at hx2
              rw [hob] at hy2
              refine ⟨r1 && r2, h2, ?_, ?_, ⟨x :: (cak2 ++ cav2),
                GarterType_cells_fuel_dict_intro n h2 x ak av _ _ hx2 hcak3 hcav2, ?_⟩,
                ⟨y :: (cbk2 ++ cbv2),
                GarterType_cells_fuel_dict_intro n h2 y bk bv _ _ hy2 hcbk3 hcbv2, ?_⟩, ?_⟩
              · simp [GarterType_Equal_fuel, hab, Heap.deref, hoa, hob, he1, he2]
              · intro z hza hzb
                rw [hfr2 z (fun hm => hza (List.mem_cons_of_mem _ (List.mem_append_right _ hm)))
                  (fun hm => hzb (List.mem_cons_of_mem _ (List.mem_append_right _ hm))),
                  hfr1 z (fun hm => hza (List.mem_cons_of_mem _ (List.mem_append_left _ hm)))
                  (fun hm => hzb (List.mem_cons_of_mem _ (List.mem_append_left _ hm)))]
              · intro z hz
                rcases List.mem_cons.mp hz with rfl | hzt
                · exact Or.inl (List.mem_cons_self _ _)
                · rcases List.mem_append.mp hzt with hzk | hzv
                  · rcases hsk z hzk with hm | hm
                    · exact Or.inl (List.mem_cons_of_mem _ (List.mem_append_left _ hm))
                    · exact Or.inr (List.mem_cons_of_mem _ (List.mem_append_left _ hm))
                  · rcases hsv z hzv with hm | hm
                    · exact Or.inl (List.mem_cons_of_mem _ (List.mem_append_right _ hm))
                    · exact Or.inr (List.mem_cons_of_mem _ (List.mem_append_right _ hm))
              · intro z hz
                rcases List.mem_cons.mp hz with rfl | hzt
                · exact Or.inr (List.mem_cons_self _ _)
                · rcases List.mem_append.mp hzt with hzk | hzv
                  · rcases hsbk z hzk with hm | hm
                    · exact Or.inl (List.mem_cons_of_mem _ (List.mem_append_left _ hm))
                    · exact Or.inr (List.mem_cons_of_mem _ (List.mem_append_left _ hm))
                  · rcases hsbv z hzv with hm | hm
                    · exact Or.inl (List.mem_cons_of_mem _ (List.mem_append_right _ hm))
                    · exact Or.inr (List.mem_cons_of_mem _ (List.mem_append_right _ hm))
              · intro hr
                simp only [Bool.and_eq_true] at hr
                rw [GarterType_shape_fuel_dict_eq n h2 x ak av hx2,
                  GarterType_shape_fuel_dict_eq n h2 y bk bv hy2,
                  hsak3, hsbk3, hs1 hr.1, hs2 hr.2]
        | _ => simp [Heap.deref] at hob
      | _ => simp [Heap.deref] at hoa
    · -- GT_LIST
      cases a with
      | obj x =>
        cases b with
        | obj y =>
          simp only [Heap.deref] at hoa hob
          have hxy : x ≠ y := fun e => hab (by rw [e])
          obtain ⟨ta, rfl⟩ := GarterType_cells_fuel_head _ _ _ _ hca
          obtain ⟨tb, rfl⟩ := GarterType_cells_fuel_head _ _ _ _ hcb
          have hxcb : x ∉ y :: tb := hd x (List.mem_cons_self _ _)
          have hyca : y ∉ x :: ta := fun hm => hd y hm (List.mem_cons_self _ _)
          cases ma with
          | none =>
            cases mb with
            | none =>
              exact nochange true (by simp [GarterType_Equal_fuel, hab, Heap.deref, hoa, hob])
                (fun _ => by simp [GarterType_shape_fuel, Heap.deref, hoa, hob])
            | some m =>
              obtain ⟨hl, hfr, hc2, ⟨t, ht, hcx⟩, hs⟩ :=
                GarterType_LateBindMeta_separate n h x y _ m _ hoa hob hcb hxcb
              refine ⟨true, _, by simp [GarterType_Equal_fuel, hab, Heap.deref, hoa, hob, hl],
                fun z hz _ => hfr z (fun e => hz (e ▸ List.mem_cons_self _ _)),
                ⟨_, hcx, ?_⟩, ⟨_, hc2, fun _ hz => Or.inr hz⟩, fun _ => hs⟩
              intro z hz
              rcases List.mem_cons.mp hz with rfl | hzt
              · exact Or.inl (List.mem_cons_self _ _)
              · exact Or.inr (ht ▸ List.mem_cons_of_mem _ hzt)
          | some m =>
            cases mb with
            | none =>
              obtain ⟨hl, hfr, hc2, ⟨t, ht, hcx⟩, hs⟩ :=
                GarterType_LateBindMeta_separate n h y x _ m _ hob hoa hca hyca
              refine ⟨true, _, by simp [GarterType_Equal_fuel, hab, Heap.deref, hoa, hob, hl],
                fun z _ hz => hfr z (fun e => hz (e ▸ List.mem_cons_self _ _)),
                ⟨_, hc2, fun _ hz => Or.inl hz⟩, ⟨_, hcx, ?_⟩, fun _ => hs.symm⟩
              intro z hz
              rcases List.mem_cons.mp hz with rfl | hzt
              · exact Or.inr (List.mem_cons_self _ _)
              · exact Or.inl (ht ▸ List.mem_cons_of_mem _ hzt)
            | some m2 =>
              obtain ⟨am, ca1, rfl, hta, hcam⟩ :=
                GarterType_cells_fuel_list_inv n h x m _ hoa hca
              obtain ⟨bm, cb1, rfl, htb, hcbm⟩ :=
                GarterType_cells_fuel_list_inv n h y m2 _ hob hcb
              simp only [List.cons.injEq, true_and] at hta htb
              subst hta htb
              rw [List.nodup_cons] at hna hnb
              obtain ⟨hxa, hna1⟩ := hna
              obtain ⟨hyb, hnb1⟩ := hnb
              have hd1 : ∀ z ∈ ta, z ∉ tb := fun z hz hzb =>
                hd z (List.mem_cons_of_mem _ hz) (List.mem_cons_of_mem _ hzb)
              obtain ⟨r, h2, he, hfr, ⟨ca2, hca2, hsa⟩, ⟨cb2, hcb2, hsb⟩, hs⟩ :=
                ih h am bm ta tb hcam hcbm hna1 hnb1 hd1
              have hx2 : h2[x]? = h[x]? :=
                hfr x hxa (fun hm => hxcb (List.mem_cons_of_mem _ hm))
              have hy2 : h2[y]? = h[y]? :=
                hfr y (fun hm => hyca (List.mem_cons_of_mem _ hm)) hyb
              rw [hoa] at hx2
              rw [hob] at hy2
              refine ⟨r, h2, ?_, ?_, ⟨x :: ca2,
                GarterType_cells_fuel_list_intro n h2 x am _ hx2 hca2, ?_⟩,
                ⟨y :: cb2,
                GarterType_cells_fuel_list_intro n h2 y bm _ hy2 hcb2, ?_⟩, ?_⟩
              · simp [GarterType_Equal_fuel, hab, Heap.deref, hoa, hob, he]
              · intro z hza hzb
                exact hfr z (fun hm => hza (List.mem_cons_of_mem _ hm))
                  (fun hm => hzb (List.mem_cons_of_mem _ hm))
              · intro z hz
                rcases List.mem_cons.mp hz with rfl | hzt
                · exact Or.inl (List.mem_cons_self _ _)
                · rcases hsa z hzt with hm | hm
                  · exact Or.inl (List.mem_cons_of_mem _ hm)
                  · exact Or.inr (List.mem_cons_of_mem _ hm)
              · intro z hz
                rcases List.mem_cons.mp hz with rfl | hzt
                · exact Or.inr (List.mem_cons_self _ _)
                · rcases hsb z hzt with hm | hm
                  · exact Or.inl (List.mem_cons_of_mem _ hm)
                  · exact Or.inr (List.mem_cons_of_mem _ hm)
              · intro hr
                rw [GarterType_shape_fuel_list_eq n h2 x am hx2,
                  GarterType_shape_fuel_list_eq n h2 y bm hy2, hs hr]
        | _ => simp [Heap.deref] at hob
      | _ => simp [Heap.deref] at hoa
    · exact nochange (decide (ma = mb))
        (by simp [GarterType_Equal_fuel, hab, hoa, hob])
        (fun hr => by
          have : ma = mb := by simpa using hr
          simp [GarterType_shape_fuel, hoa, hob, this])

theorem GarterType_New_getElem_old (h : Heap) (kind : GarterTypeKind)
    (meta : Option Meta) (z : Nat) (hz : z < h.length) :
    (GarterType_New h kind meta).2[z]? = h[z]? := by
  simp only [GarterType_New]
  exact List.getElem?_append_left hz

theorem GarterType_New_getElem_new (h : Heap) (kind : GarterTypeKind)
    (meta : Option Meta) :
    (GarterType_New h kind meta).2[h.length]? = some ⟨kind, meta⟩ := by
  simp [GarterType_New]

/-- What `Shape.build` makes: the old objects are untouched, the new type is
made of new cells, none of them used twice, and reads back as the structure it
was built from. -/
theorem Shape_build_spec :
    ∀ (s : Shape) (h : Heap),
      h.length + s.depth ≤ (Shape.build h s).2.length ∧
      (∀ z, z < h.length → (Shape.build h s).2[z]? = h[z]?) ∧
      ∃ c, c.Nodup ∧
        (∀ z ∈ c, h.length ≤ z ∧ z < (Shape.build h s).2.length) ∧
        ∀ n, s.depth + 1 ≤ n →
          GarterType_cells_fuel n (Shape.build h s).2 (Shape.build h s).1 = some c ∧
          GarterType_shape_fuel n (Shape.build h s).2 (Shape.build h s).1 = some s := by
  intro s
  induction s with
  | int =>
    intro h
    refine ⟨Nat.le_refl _, fun _ _ => rfl, [], List.nodup_nil, by simp, ?_⟩
    intro n hn
    obtain ⟨n, rfl⟩ : ∃ k, n = k + 1 := ⟨n - 1, by omega⟩
    exact ⟨rfl, rfl⟩
  | float =>
    intro h
    refine ⟨Nat.le_refl _, fun _ _ => rfl, [], List.nodup_nil, by simp, ?_⟩
    intro n hn
    obtain ⟨n, rfl⟩ : ∃ k, n = k + 1 := ⟨n - 1, by omega⟩
    exact ⟨rfl, rfl⟩
  | bool =>
    intro h
    refine ⟨Nat.le_refl _, fun _ _ => rfl, [], List.nodup_nil, by simp, ?_⟩
    intro n hn
    obtain ⟨n, rfl⟩ : ∃ k, n = k + 1 := ⟨n - 1, by omega⟩
    exact ⟨rfl, rfl⟩
  | str =>
    intro h
    refine ⟨Nat.le_refl _, fun _ _ => rfl, [], List.nodup_nil, by simp, ?_⟩
    intro n hn
    obtain ⟨n, rfl⟩ : ∃ k, n = k + 1 := ⟨n - 1, by omega⟩
    exact ⟨rfl, rfl⟩
  | listUnbound =>
    intro h
    refine ⟨by simp [Shape.build, GarterType_New, Shape.depth],
      fun z hz => GarterType_New_getElem_old h _ _ z hz, [h.length],
      List.nodup_singleton _, by simp [Shape.build, GarterType_New], ?_⟩
    intro n hn
    obtain ⟨n, rfl⟩ : ∃ k, n = k + 1 := ⟨n - 1, by omega⟩
    simp [Shape.build, GarterType_New, GarterType_cells_fuel,
      GarterType_shape_fuel, Heap.deref]
  | dictUnbound =>
    intro h
    refine ⟨by simp [Shape.build, GarterType_New, Shape.depth],
      fun z hz => GarterType_New_getElem_old h _ _ z hz, [h.length],
      List.nodup_singleton _, by simp [Shape.build, GarterType_New], ?_⟩
    intro n hn
    obtain ⟨n, rfl⟩ : ∃ k, n = k + 1 := ⟨n - 1, by omega⟩
    simp [Shape.build, GarterType_New, GarterType_cells_fuel,
      GarterType_shape_fuel, Heap.deref]
  | cls identity =>
    intro h
    refine ⟨by simp [Shape.build, GarterType_New, Shape.depth],
      fun z hz => GarterType_New_getElem_old h _ _ z hz, [h.length],
      List.nodup_singleton _, by simp [Shape.build, GarterType_New], ?_⟩
    intro n hn
    obtain ⟨n, rfl⟩ : ∃ k, n = k + 1 := ⟨n - 1, by omega⟩
    simp [Shape.build, GarterType_New, GarterType_cells_fuel,
      GarterType_shape_fuel, Heap.deref]
  | listOf elt ih =>
    intro h
    obtain ⟨hlen, hold, c, hnd, hrange, hread⟩ := ih h
    generalize hr : Shape.build h elt = r at hlen hold hrange hread
    obtain ⟨p0, h0⟩ := r
    simp only at hlen hold hrange hread
    have hb : Shape.build h (.listOf elt)
        = GarterType_New h0 .GT_LIST (some (.type p0)) := by
      simp [Shape.build, hr]
    rw [hb]
    have hlen2 : (GarterType_New h0 .GT_LIST (some (.type p0))).2.length
        = h0.length + 1 := by simp [GarterType_New]
    refine ⟨by rw [hlen2]; simp only [Shape.depth]; omega, ?_, h0.length :: c, ?_, ?_, ?_⟩
    · intro z hz
      rw [GarterType_New_getElem_old h0 _ _ z (by omega)]
      exact hold z hz
    · rw [List.nodup_cons]
      exact ⟨fun hm => by have := (hrange _ hm).2; omega, hnd⟩
    · intro z hz
      rw [hlen2]
      rcases List.mem_cons.mp hz with rfl | hm
      · omega
      · have := hrange z hm
        omega
    · intro n hn
      simp only [Shape.depth] at hn
      obtain ⟨n, rfl⟩ : ∃ k, n = k + 1 := ⟨n - 1, by omega⟩
      obtain ⟨hc0, hs0⟩ := hread n (by omega)
      obtain ⟨hc1, hs1, _⟩ := GarterType_cells_fuel_frame n h0
        (GarterType_New h0 .GT_LIST (some (.type p0))).2 p0 c hc0
        (fun z hz => GarterType_New_getElem_old h0 _ _ z (hrange z hz).2)
      have hx := GarterType_New_getElem_new h0 .GT_LIST (some (.type p0))
      refine ⟨GarterType_cells_fuel_list_intro n _ _ p0 c hx hc1, ?_⟩
      simp only [GarterType_New] at hx hs1 ⊢
      rw [GarterType_shape_fuel_list_eq n _ _ p0 hx, hs1, hs0]
      rfl
  | dictOf key value ihk ihv =>
    intro h
    obtain ⟨hlenk, holdk, ck, hndk, hrangek, hreadk⟩ := ihk h
    generalize hrk : Shape.build h key = rk at hlenk holdk hrangek hreadk
    obtain ⟨pk, hk⟩ := rk
    simp only at hlenk holdk hrangek hreadk
    obtain ⟨hlenv, holdv, cv, hndv, hrangev, hreadv⟩ := ihv hk
    generalize hrv : Shape.build hk value = rv at hlenv holdv hrangev hreadv
    obtain ⟨pv, hv⟩ := rv
    simp only at hlenv holdv hrangev hreadv
    have hb : Shape.build h (.dictOf key value)
        = GarterType_New hv .GT_DICT (some (.tuple pk pv)) := by
      simp [Shape.build, hrk, hrv]
    rw [hb]
    have hlen2 : (GarterType_New hv .GT_DICT (some (.tuple pk pv))).2.length
        = hv.length + 1 := by simp [GarterType_New]
    refine ⟨by rw [hlen2]; simp only [Shape.depth]; omega, ?_,
      hv.length :: (ck ++ cv), ?_, ?_, ?_⟩
    · intro z hz
      rw [GarterType_New_getElem_old hv _ _ z (by omega), holdv z (by omega)]
      exact holdk z hz
    · rw [List.nodup_cons, List.nodup_append]
      refine ⟨?_, hndk, hndv, ?_⟩
      · intro hm
        rcases List.mem_append.mp hm with hm | hm
        · have := (hrangek _ hm).2; omega
        · have := (hrangev _ hm).2; omega
      · intro z hzk hzv
        have := (hrangek z hzk).2
        have := (hrangev z hzv).1
        omega
    · intro z hz
      rw [hlen2]
      rcases List.mem_cons.mp hz with rfl | hm
      · omega
      · rcases List.mem_append.mp hm with hm | hm
        · have := hrangek z hm
          omega
        · have := hrangev z hm
          omega
    · intro n hn
      simp only [Shape.depth] at hn
      obtain ⟨n, rfl⟩ : ∃ k, n = k + 1 := ⟨n - 1, by omega⟩
      obtain ⟨hck0, hsk0⟩ := hreadk n (by omega)
      obtain ⟨hcv0, hsv0⟩ := hreadv n (by omega)
      obtain ⟨hck1, hsk1, _⟩ := GarterType_cells_fuel_frame n hk
        (GarterType_New hv .GT_DICT (some (.tuple pk pv))).2 pk ck hck0
        (fun z hz => by
          rw [GarterType_New_getElem_old hv _ _ z (by have := (hrangek z hz).2; omega)]
          exact holdv z (hrangek z hz).2)
      obtain ⟨hcv1, hsv1, _⟩ := GarterType_cells_fuel_frame n hv
        (GarterType_New hv .GT_DICT (some (.tuple pk pv))).2 pv cv hcv0
        (fun z hz => GarterType_New_getElem_old hv _ _ z (hrangev z hz).2)
      have hx := GarterType_New_getElem_new hv .GT_DICT (some (.tuple pk pv))
      refine ⟨GarterType_cells_fuel_dict_intro n _ _ pk pv ck cv hx hck1 hcv1, ?_⟩
      simp only [GarterType_New] at hx hsk1 hsv1 ⊢
      rw [GarterType_shape_fuel_dict_eq n _ _ pk pv hx, hsk1, hsv1, hsk0, hsv0]

/-- The two types of `Shape.build_pair` read back as the structures they were
built from and are separate objects. -/
theorem Shape_build_pair_spec (h : Heap) (sa sb : Shape) :
    ∃ ca cb,
      GarterType_cells_fuel ((Shape.build_pair h sa sb).2.2.length + 1)
        (Shape.build_pair h sa sb).2.2 (Shape.build_pair h sa sb).1 = some ca ∧
      GarterType_cells_fuel ((Shape.build_pair h sa sb).2.2.length + 1)
        (Shape.build_pair h sa sb).2.2 (Shape.build_pair h sa sb).2.1 = some cb ∧
      ca.Nodup ∧ cb.Nodup ∧ (∀ z ∈ ca, z ∉ cb) ∧
      GarterType_shape (Shape.build_pair h sa sb).2.2
        (Shape.build_pair h sa sb).1 = some sa ∧
      GarterType_shape (Shape.build_pair h sa sb).2.2
        (Shape.build_pair h sa sb).2.1 = some sb := by
  obtain ⟨hlena, _, ca, hnda, hrangea, hreada⟩ := Shape_build_spec sa h
  obtain ⟨hlenb, holdb, cb, hndb, hrangeb, hreadb⟩ :=
    Shape_build_spec sb (Shape.build h sa).2
  simp only [Shape.build_pair, GarterType_shape]
  generalize Shape.build h sa = ra at *
  obtain ⟨a, h1⟩ := ra
  generalize hrb : Shape.build h1 sb = rb at *
  obtain ⟨b, h2⟩ := rb
  simp only at *
  obtain ⟨hca, hsa⟩ := hreada (h2.length + 1) (by omega)
  obtain ⟨hcb, hsb⟩ := hreadb (h2.length + 1) (by omega)
  obtain ⟨hca2, hsa2, _⟩ := GarterType_cells_fuel_frame _ h1 h2 a ca hca
    (fun z hz => holdb z (hrangea z hz).2)
  refine ⟨ca, cb, hca2, hcb, hnda, hndb, ?_, by rw [hsa2, hsa], hsb⟩
  intro z hza hzb
  have := (hrangea z hza).2
  have := (hrangeb z hzb).1
  omega

/-- C9.  Take any two type structures `sa` and `sb`, as separate type objects
`a` and `b`.  Then `GarterType_Equal(a, b)` returns, and when it returns true
the objects `a` and `b` have one and the same structure afterwards, so
`GarterType_IsComplete` gives the same answer on both; a side that was
complete before the call still has its structure, so the other side, mutated
or not, is complete afterwards. -/
theorem GarterType_Equal_true_same_shape (h : Heap) (sa sb : Shape) :
    GarterType_shape (Shape.build_pair h sa sb).2.2
      (Shape.build_pair h sa sb).1 = some sa ∧
    GarterType_shape (Shape.build_pair h sa sb).2.2
      (Shape.build_pair h sa sb).2.1 = some sb ∧
    ∃ r h3,
      GarterType_Equal (Shape.build_pair h sa sb).2.2
        (Shape.build_pair h sa sb).1 (Shape.build_pair h sa sb).2.1
        = some (r, h3) ∧
      (r = true → ∃ s,
        GarterType_shape h3 (Shape.build_pair h sa sb).1 = some s ∧
        GarterType_shape h3 (Shape.build_pair h sa sb).2.1 = some s ∧
        GarterType_IsComplete h3 (some (Shape.build_pair h sa sb).1)
          = some s.complete ∧
        GarterType_IsComplete h3 (some (Shape.build_pair h sa sb).2.1)
          = some s.complete ∧
        (sa.complete = true → s = sa) ∧ (sb.complete = true → s = sb)) := by
  obtain ⟨ca, cb, hca, hcb, hnda, hndb, hdis, hsa, hsb⟩ :=
    Shape_build_pair_spec h sa sb
  generalize Shape.build_pair h sa sb = bp at *
  obtain ⟨a, b, h2⟩ := bp
  simp only at *
  refine ⟨hsa, hsb, ?_⟩
  obtain ⟨r, h3, he, _, ⟨ca2, hca2, _⟩, ⟨cb2, hcb2, _⟩, hs⟩ :=
    GarterType_Equal_fuel_separate _ h2 a b ca cb hca hcb hnda hndb hdis
  obtain ⟨hg, hlen⟩ := GarterType_Equal_fuel_grows _ _ _ _ _ _ he
  refine ⟨r, h3, he, ?_⟩
  intro hr
  obtain ⟨_, _, s, hs3⟩ := GarterType_cells_fuel_frame _ h3 h3 a ca2 hca2
    (fun _ _ => rfl)
  have hsb3 := hs hr
  rw [hs3] at hsb3
  have hA : GarterType_shape h3 a = some s := by
    unfold GarterType_shape
    rw [hlen]
    exact hs3
  have hB : GarterType_shape h3 b = some s := by
    unfold GarterType_shape
    rw [hlen]
    exact hsb3.symm
  refine ⟨s, hA, hB, ?_, ?_, ?_, ?_⟩
  · unfold GarterType_IsComplete
    exact GarterType_IsComplete_fuel_of_shape _ _ _ _ hA
  · unfold GarterType_IsComplete
    exact GarterType_IsComplete_fuel_of_shape _ _ _ _ hB
  · intro hc
    have hic : GarterType_IsComplete h2 (some a) = some true := by
      unfold GarterType_IsComplete
      rw [GarterType_IsComplete_fuel_of_shape _ _ _ _ hsa, hc]
    have := (GarterType_shape_grows hg a hic).1
    rw [hA, hsa] at this
    exact Option.some.inj this
  · intro hc
    have hic : GarterType_IsComplete h2 (some b) = some true := by
      unfold GarterType_IsComplete
      rw [GarterType_IsComplete_fuel_of_shape _ _ _ _ hsb, hc]
    have := (GarterType_shape_grows hg b hic).1
    rw [hB, hsb] at this
    exact Option.some.inj this

/-- Witness for C9: the type of `[]` against the type of `[3]`; afterwards both
are a List of int, and complete. -/
theorem GarterType_Equal_true_same_shape_witness :
    Shape.build_pair [] .listUnbound (.listOf .int)
      = (.obj 0, .obj 1, [⟨.GT_LIST, none⟩, ⟨.GT_LIST, some (.type .INT)⟩]) ∧
    GarterType_Equal [⟨.GT_LIST, none⟩, ⟨.GT_LIST, some (.type .INT)⟩]
        (.obj 0) (.obj 1)
      = some (true, [⟨.GT_LIST, some (.type .INT)⟩, ⟨.GT_LIST, some (.type .INT)⟩]) ∧
    GarterType_shape [⟨.GT_LIST, some (.type .INT)⟩, ⟨.GT_LIST, some (.type .INT)⟩]
        (.obj 0) = some (.listOf .int) ∧
    GarterType_shape (Shape.build_pair [] .listUnbound (.listOf .int)).2.2
      (Shape.build_pair [] .listUnbound (.listOf .int)).1 = some .listUnbound :=
  ⟨rfl, rfl, rfl,
    (GarterType_Equal_true_same_shape [] .listUnbound (.listOf .int)).1⟩

/-! ### C13: `GarterType_Equal` is not transitive -/

/-- C13.  `GarterType_Equal` is not transitive: with `a` a List of int, `b` a
List without payload and `c` a List of str, all three in one heap,
`GarterType_Equal(a, b)` and `GarterType_Equal(b, c)`, each run on that
original heap, return true, and `GarterType_Equal(a, c)` returns false. -/
theorem GarterType_Equal_not_transitive :
    ∃ (h : Heap) (a b c : TypePtr),
      GarterType_shape h a = some (.listOf .int) ∧
      GarterType_shape h b = some .listUnbound ∧
      GarterType_shape h c = some (.listOf .str) ∧
      (∃ h2, GarterType_Equal h a b = some (true, h2)) ∧
      (∃ h2, GarterType_Equal h b c = some (true, h2)) ∧
      GarterType_Equal h a c = some (false, h) :=
  ⟨[⟨.GT_LIST, some (.type .INT)⟩, ⟨.GT_LIST, none⟩, ⟨.GT_LIST, some (.type .STR)⟩],
    .obj 0, .obj 1, .obj 2, rfl, rfl, rfl, ⟨_, rfl⟩, ⟨_, rfl⟩, rfl⟩

/-! ### C14 to C20: expression judgments -/

/-- The judgment of a BinOp whose operands judge to `L` and `R`. -/
theorem validate_expr_BinOp_eq (scope : GarterScope) (h : Heap)
    (left right : expr) (op : operator) (L R : TypePtr) (h1 h2 : Heap)
    (hL : validate_expr scope h left = .ok L h1)
    (hR : validate_expr scope h1 right = .ok R h2) :
    validate_expr scope h (.BinOp left op right)
      = validate_binop_expr (.ok L h1) op (fun _ => .ok R h2) := by
  simp only [validate_expr, hL, validate_binop_expr, hR]

/-- C14.  Binary `+` on operands that judge to `L` of kind `lk` and `R` of kind
`rk`: the result is int when both kinds are INT; float when each kind is INT
or FLOAT and at least one is FLOAT; str when both are STR; when `lk` is LIST,
the result is `L` itself, as late-bound, exactly when `GarterType_Equal(L, R)`
returns true, and a rejection when it returns false; every other combination
is rejected. -/
theorem validate_binop_expr_Add (scope : GarterScope) (h : Heap)
    (left right : expr) (L R : TypePtr) (h1 h2 : Heap)
    (lk rk : GarterTypeKind)
    (hL : validate_expr scope h left = .ok L h1)
    (hR : validate_expr scope h1 right = .ok R h2)
    (hlk : GarterType_Kind h2 L = some lk)
    (hrk : GarterType_Kind h2 R = some rk) :
    (lk = .GT_INT ∧ rk = .GT_INT →
      validate_expr scope h (.BinOp left .Add right) = .ok GarterType_INT h2) ∧
    ((lk = .GT_INT ∨ lk = .GT_FLOAT) ∧ (rk = .GT_INT ∨ rk = .GT_FLOAT) ∧
        (lk = .GT_FLOAT ∨ rk = .GT_FLOAT) →
      validate_expr scope h (.BinOp left .Add right) = .ok GarterType_FLOAT h2) ∧
    (lk = .GT_STR ∧ rk = .GT_STR →
      validate_expr scope h (.BinOp left .Add right) = .ok GarterType_STR h2) ∧
    (lk = .GT_LIST →
      validate_expr scope h (.BinOp left .Add right) =
        match GarterType_Equal h2 L R with
        | none => .crash
        | some (true, h3) => .ok L h3
        | some (false, h3) => .fail (.InvalidBinaryOperands .Add) h3) ∧
    (¬ (lk = .GT_INT ∧ rk = .GT_INT) →
      ¬ ((lk = .GT_INT ∨ lk = .GT_FLOAT) ∧ (rk = .GT_INT ∨ rk = .GT_FLOAT)) →
      ¬ (lk = .GT_STR ∧ rk = .GT_STR) → lk ≠ .GT_LIST →
      validate_expr scope h (.BinOp left .Add right)
        = .fail (.InvalidBinaryOperands .Add) h2) := by
  rw [validate_expr_BinOp_eq scope h left right .Add L R h1 h2 hL hR]
  simp only [validate_binop_expr, hlk, hrk]
  refine ⟨?_, ?_, ?_, ?_, ?_⟩
  · rintro ⟨rfl, rfl⟩
    simp [both_int]
  · rintro ⟨hl, hr, hf⟩
    rcases hl with rfl | rfl <;> rcases hr with rfl | rfl <;>
      simp [both_int, float_mix] at hf ⊢
  · rintro ⟨rfl, rfl⟩
    simp [both_int, float_mix]
  · rintro rfl
    simp only [both_int, float_mix]
    cases rk <;> simp
  · intro h1 h2 h3 h4
    cases lk <;> cases rk <;> simp [both_int, float_mix] at h1 h2 h3 h4 ⊢

/-- Witness for C14: with `xs` bound to a List of int, `xs + [4]` has the type
of `xs`, a List of int. -/
theorem validate_binop_expr_Add_witness :
    validate_expr (.mk none [("xs", .obj 0)] none) [⟨.GT_LIST, some (.type .INT)⟩]
        (.BinOp (.Name "xs") .Add (.List [int_lit 4]))
      = .ok (.obj 0)
          [⟨.GT_LIST, some (.type .INT)⟩, ⟨.GT_LIST, some (.type .INT)⟩] ∧
    GarterType_shape [⟨.GT_LIST, some (.type .INT)⟩, ⟨.GT_LIST, some (.type .INT)⟩]
      (.obj 0) = some (.listOf .int) :=
  ⟨(validate_binop_expr_Add (.mk none [("xs", .obj 0)] none)
      [⟨.GT_LIST, some (.type .INT)⟩] (.Name "xs") (.List [int_lit 4])
      (.obj 0) (.obj 1) [⟨.GT_LIST, some (.type .INT)⟩]
      [⟨.GT_LIST, some (.type .INT)⟩, ⟨.GT_LIST, some (.type .INT)⟩]
      .GT_LIST .GT_LIST rfl rfl rfl rfl).2.2.2.1 rfl,
   rfl⟩

/-- C15.  Division on operands that judge to `L` of kind `lk` and `R` of kind
`rk`: when each kind is INT or FLOAT, `/` is accepted with type float and `//`
is accepted with type int, whatever the two kinds are; otherwise both are
rejected. -/
theorem validate_binop_expr_division (scope : GarterScope) (h : Heap)
    (left right : expr) (L R : TypePtr) (h1 h2 : Heap)
    (lk rk : GarterTypeKind)
    (hL : validate_expr scope h left = .ok L h1)
    (hR : validate_expr scope h1 right = .ok R h2)
    (hlk : GarterType_Kind h2 L = some lk)
    (hrk : GarterType_Kind h2 R = some rk) :
    ((lk = .GT_INT ∨ lk = .GT_FLOAT) ∧ (rk = .GT_INT ∨ rk = .GT_FLOAT) →
      validate_expr scope h (.BinOp left .Div right) = .ok GarterType_FLOAT h2 ∧
      validate_expr scope h (.BinOp left .FloorDiv right)
        = .ok GarterType_INT h2) ∧
    (¬ ((lk = .GT_INT ∨ lk = .GT_FLOAT) ∧ (rk = .GT_INT ∨ rk = .GT_FLOAT)) →
      validate_expr scope h (.BinOp left .Div right)
        = .fail (.InvalidBinaryOperands .Div) h2 ∧
      validate_expr scope h (.BinOp left .FloorDiv right)
        = .fail (.InvalidBinaryOperands .FloorDiv) h2) := by
  rw [validate_expr_BinOp_eq scope h left right .Div L R h1 h2 hL hR,
    validate_expr_BinOp_eq scope h left right .FloorDiv L R h1 h2 hL hR]
  simp only [validate_binop_expr, hlk, hrk]
  refine ⟨?_, ?_⟩
  · rintro ⟨hl, hr⟩
    rcases hl with rfl | rfl <;> rcases hr with rfl | rfl <;> simp [both_numeric]
  · intro hn
    cases lk <;> cases rk <;> simp [both_numeric] at hn ⊢

/-- Witness for C15: `3 / 3` has type float and `3.0 // 3.0` has type int. -/
theorem validate_binop_expr_division_witness :
    validate_expr (GarterScope_New none) [] (.BinOp (int_lit 3) .Div (int_lit 3))
      = .ok GarterType_FLOAT [] ∧
    validate_expr (GarterScope_New none) [] (.BinOp float_lit .FloorDiv float_lit)
      = .ok GarterType_INT [] :=
  ⟨((validate_binop_expr_division (GarterScope_New none) [] (int_lit 3)
      (int_lit 3) GarterType_INT GarterType_INT [] [] .GT_INT .GT_INT
      rfl rfl rfl rfl).1 ⟨Or.inl rfl, Or.inl rfl⟩).1,
   ((validate_binop_expr_division (GarterScope_New none) [] float_lit
      float_lit GarterType_FLOAT GarterType_FLOAT [] [] .GT_FLOAT .GT_FLOAT
      rfl rfl rfl rfl).1 ⟨Or.inr rfl, Or.inr rfl⟩).2⟩

/-- C16.  The remaining binary operators on operands that judge to `L` of kind
`lk` and `R` of kind `rk`.  `-`, `*`, `%`, `**`: int when both kinds are INT,
float when each kind is INT or FLOAT and not both are INT, rejected otherwise.
`<<`, `>>`, `|`, `^`, `&`: int when both kinds are INT, rejected otherwise.
`@`: rejected. -/
theorem validate_binop_expr_table (scope : GarterScope) (h : Heap)
    (left right : expr) (L R : TypePtr) (h1 h2 : Heap)
    (lk rk : GarterTypeKind)
    (hL : validate_expr scope h left = .ok L h1)
    (hR : validate_expr scope h1 right = .ok R h2)
    (hlk : GarterType_Kind h2 L = some lk)
    (hrk : GarterType_Kind h2 R = some rk) :
    (∀ op, op = .Sub ∨ op = .Mult ∨ op = .Mod ∨ op = .Pow →
      (lk = .GT_INT ∧ rk = .GT_INT →
        validate_expr scope h (.BinOp left op right) = .ok GarterType_INT h2) ∧
      ((lk = .GT_INT ∨ lk = .GT_FLOAT) ∧ (rk = .GT_INT ∨ rk = .GT_FLOAT) ∧
          ¬ (lk = .GT_INT ∧ rk = .GT_INT) →
        validate_expr scope h (.BinOp left op right) = .ok GarterType_FLOAT h2) ∧
      (¬ ((lk = .GT_INT ∨ lk = .GT_FLOAT) ∧ (rk = .GT_INT ∨ rk = .GT_FLOAT)) →
        ∃ d, validate_expr scope h (.BinOp left op right) = .fail d h2)) ∧
    (∀ op, op = .LShift ∨ op = .RShift ∨ op = .BitOr ∨ op = .BitXor ∨
        op = .BitAnd →
      (lk = .GT_INT ∧ rk = .GT_INT →
        validate_expr scope h (.BinOp left op right) = .ok GarterType_INT h2) ∧
      (¬ (lk = .GT_INT ∧ rk = .GT_INT) →
        validate_expr scope h (.BinOp left op right)
          = .fail (.InvalidBinaryOperands op) h2)) ∧
    validate_expr scope h (.BinOp left .MatMult right)
      = .fail .MatMultUnsupported h2 := by
  have key := fun op => validate_expr_BinOp_eq scope h left right op L R h1 h2 hL hR
  refine ⟨?_, ?_, ?_⟩
  · intro op hop
    rw [key op]
    simp only [validate_binop_expr, hlk, hrk]
    refine ⟨?_, ?_, ?_⟩
    · rintro ⟨rfl, rfl⟩
      rcases hop with rfl | rfl | rfl | rfl <;> simp [both_int]
    · rintro ⟨hl, hr, hn⟩
      rcases hop with rfl | rfl | rfl | rfl <;>
        rcases hl with rfl | rfl <;> rcases hr with rfl | rfl <;>
          simp [both_int, float_mix] at hn ⊢
    · intro hn
      rcases hop with rfl | rfl | rfl | rfl
      · exact ⟨.InvalidBinaryOperands .Sub, by
          cases lk <;> cases rk <;> simp [both_int, float_mix] at hn ⊢⟩
      · exact ⟨.InvalidBinaryOperands .Sub, by
          cases lk <;> cases rk <;> simp [both_int, float_mix] at hn ⊢⟩
      · exact ⟨.InvalidBinaryOperands .Mod, by
          cases lk <;> cases rk <;> simp [both_int, float_mix] at hn ⊢⟩
      · exact ⟨.InvalidBinaryOperands .Pow, by
          cases lk <;> cases rk <;> simp [both_int, float_mix] at hn ⊢⟩
  · intro op hop
    rw [key op]
    simp only [validate_binop_expr, hlk, hrk]
    refine ⟨?_, ?_⟩
    · rintro ⟨rfl, rfl⟩
      rcases hop with rfl | rfl | rfl | rfl | rfl <;> simp [both_int]
    · intro hn
      rcases hop with rfl | rfl | rfl | rfl | rfl <;>
        cases lk <;> cases rk <;> simp [both_int] at hn ⊢
  · rw [key .MatMult]
    simp only [validate_binop_expr, hlk, hrk]

/-- Witness for C16: `3 - 3.0` has type float, `3 << 3` has type int, and
`3 @ 3` is rejected. -/
theorem validate_binop_expr_table_witness :
    validate_expr (GarterScope_New none) [] (.BinOp (int_lit 3) .Sub float_lit)
      = .ok GarterType_FLOAT [] ∧
    validate_expr (GarterScope_New none) [] (.BinOp (int_lit 3) .LShift (int_lit 3))
      = .ok GarterType_INT [] ∧
    validate_expr (GarterScope_New none) [] (.BinOp (int_lit 3) .MatMult (int_lit 3))
      = .fail .MatMultUnsupported [] :=
  ⟨((validate_binop_expr_table (GarterScope_New none) [] (int_lit 3) float_lit
      GarterType_INT GarterType_FLOAT [] [] .GT_INT .GT_FLOAT
      rfl rfl rfl rfl).1 .Sub (Or.inl rfl)).2.1
        ⟨Or.inl rfl, Or.inr rfl, by decide⟩,
   ((validate_binop_expr_table (GarterScope_New none) [] (int_lit 3) (int_lit 3)
      GarterType_INT GarterType_INT [] [] .GT_INT .GT_INT
      rfl rfl rfl rfl).2.1 .LShift (Or.inl rfl)).1 ⟨rfl, rfl⟩,
   (validate_binop_expr_table (GarterScope_New none) [] (int_lit 3) (int_lit 3)
      GarterType_INT GarterType_INT [] [] .GT_INT .GT_INT
      rfl rfl rfl rfl).2.2⟩

/-- C17.  The unary operators.  A failing operand makes the UnaryOp fail with
the operand's diagnostic.  When the operand judges to `T` of kind `k`: `~` is
accepted exactly when `k` is INT and yields int; `not` is accepted exactly when
`k` is BOOL and yields bool; unary `+` and unary `-` are accepted exactly when
`k` is INT or FLOAT and yield `T` itself; in every other case the UnaryOp is
rejected. -/
theorem validate_unaryop_expr_table (scope : GarterScope) (h : Heap)
    (op : unaryop) (operand : expr) :
    (∀ d h1, validate_expr scope h operand = .fail d h1 →
      validate_expr scope h (.UnaryOp op operand) = .fail d h1) ∧
    ∀ T h1 k, validate_expr scope h operand = .ok T h1 →
      GarterType_Kind h1 T = some k →
      (op = .Invert →
        (k = .GT_INT →
          validate_expr scope h (.UnaryOp op operand) = .ok GarterType_INT h1) ∧
        (k ≠ .GT_INT →
          ∃ d, validate_expr scope h (.UnaryOp op operand) = .fail d h1)) ∧
      (op = .Not →
        (k = .GT_BOOL →
          validate_expr scope h (.UnaryOp op operand) = .ok GarterType_BOOL h1) ∧
        (k ≠ .GT_BOOL →
          ∃ d, validate_expr scope h (.UnaryOp op operand) = .fail d h1)) ∧
      (op = .UAdd ∨ op = .USub →
        (k = .GT_INT ∨ k = .GT_FLOAT →
          validate_expr scope h (.UnaryOp op operand) = .ok T h1) ∧
        (¬ (k = .GT_INT ∨ k = .GT_FLOAT) →
          ∃ d, validate_expr scope h (.UnaryOp op operand) = .fail d h1)) := by
  refine ⟨?_, ?_⟩
  · intro d h1 hf
    simp only [validate_expr, hf, validate_unaryop_expr]
  · intro T h1 k hT hk
    have key : validate_expr scope h (.UnaryOp op operand)
        = validate_unaryop_expr op (.ok T h1) := by
      simp only [validate_expr, hT]
    rw [key]
    simp only [validate_unaryop_expr, hk]
    refine ⟨?_, ?_, ?_⟩
    · rintro rfl
      exact ⟨fun hk => by simp [hk],
        fun hk => ⟨.InvalidUnaryOperand .Invert, by simp [hk]⟩⟩
    · rintro rfl
      exact ⟨fun hk => by simp [hk],
        fun hk => ⟨.InvalidUnaryOperand .Not, by simp [hk]⟩⟩
    · rintro (rfl | rfl)
      · exact ⟨fun hk => by simp [hk],
          fun hk => ⟨.InvalidUnaryOperand .UAdd, by simp [hk]⟩⟩
      · exact ⟨fun hk => by simp [hk],
          fun hk => ⟨.InvalidUnaryOperand .USub, by simp [hk]⟩⟩

/-- Witness for C17: `-3` has type int, and `not 3` is rejected. -/
theorem validate_unaryop_expr_table_witness :
    validate_expr (GarterScope_New none) [] (.UnaryOp .USub (int_lit 3))
      = .ok GarterType_INT [] ∧
    ∃ d, validate_expr (GarterScope_New none) [] (.UnaryOp .Not (int_lit 3))
      = .fail d [] :=
  have w := (validate_unaryop_expr_table (GarterScope_New none) [] .USub
    (int_lit 3)).2 GarterType_INT [] .GT_INT rfl rfl
  have w2 := (validate_unaryop_expr_table (GarterScope_New none) [] .Not
    (int_lit 3)).2 GarterType_INT [] .GT_INT rfl rfl
  ⟨(w.2.2 (Or.inr rfl)).1 (Or.inl rfl), (w2.2.1 rfl).2 (by decide)⟩

/-- C18.  The conditional expression.  With an else-arm, the judgment succeeds
with type `T` and heap `hf` exactly when the test judges to a type of kind
BOOL, the body judges to `T`, the else-arm judges to some `E`, and
`GarterType_Equal(T, E)` returns true leaving the heap `hf`: the result is the
body's type, as that call late-bound it.  Without an else-arm and with a test
of kind BOOL, the judgment is the judgment of the body, unchecked. -/
theorem validate_if_expr_rule (scope : GarterScope) (h : Heap)
    (test body orelse : expr) :
    (∀ T hf, validate_expr scope h (.IfExp test body (some orelse)) = .ok T hf ↔
      ∃ t h1 h2 E h3, validate_expr scope h test = .ok t h1 ∧
        GarterType_Kind h1 t = some .GT_BOOL ∧
        validate_expr scope h1 body = .ok T h2 ∧
        validate_expr scope h2 orelse = .ok E h3 ∧
        GarterType_Equal h3 T E = some (true, hf)) ∧
    (∀ t h1, validate_expr scope h test = .ok t h1 →
      GarterType_Kind h1 t = some .GT_BOOL →
      validate_expr scope h (.IfExp test body none) = validate_expr scope h1 body) := by
  refine ⟨?_, ?_⟩
  · intro T hf
    simp only [validate_expr, validate_if_expr]
    constructor
    · intro hres
      cases ht : validate_expr scope h test with
      | crash => simp [ht] at hres
      | fail d h1 => simp [ht] at hres
      | ok t h1 =>
        simp only [ht] at hres
        cases hk : GarterType_Kind h1 t with
        | none => simp [hk] at hres
        | some k =>
          simp only [hk] at hres
          by_cases hb : k = .GT_BOOL
          · subst hb
            simp only [ne_eq, not_true_eq_false, ↓reduceIte] at hres
            cases hbd : validate_expr scope h1 body with
            | crash => simp [hbd] at hres
            | fail d h2 => simp [hbd] at hres
            | ok B h2 =>
              simp only [hbd] at hres
              cases ho : validate_expr scope h2 orelse with
              | crash => simp [ho] at hres
              | fail d h3 => simp [ho] at hres
              | ok E h3 =>
                simp only [ho] at hres
                cases he : GarterType_Equal h3 B E with
                | none => simp [he] at hres
                | some p =>
                  obtain ⟨b, h4⟩ := p
                  cases b
                  · simp [he] at hres
                  · simp only [he, Res.ok.injEq] at hres
                    obtain ⟨rfl, rfl⟩ := hres
                    exact ⟨t, h1, h2, E, h3, rfl, hk, hbd, ho, he⟩
          · simp [hb] at hres
    · rintro ⟨t, h1, h2, E, h3, ht, hk, hbd, ho, he⟩
      simp only [ht, hk, ne_eq, not_true_eq_false, ↓reduceIte, hbd, ho, he]
  · intro t h1 ht hk
    simp only [validate_expr, validate_if_expr, ht, hk, ne_eq, not_true_eq_false,
      ↓reduceIte]
    cases validate_expr scope h1 body <;> rfl

/-- Witness for C18: `[] if True else [3]` has the type of its body, late-bound
to a List of int, and `3 if True else 3.0` is rejected. -/
theorem validate_if_expr_rule_witness :
    validate_expr (GarterScope_New none) []
        (.IfExp (.NameConstant .Py_True) (.List []) (some (.List [int_lit 3])))
      = .ok (.obj 0)
          [⟨.GT_LIST, some (.type .INT)⟩, ⟨.GT_LIST, some (.type .INT)⟩] ∧
    validate_expr (GarterScope_New none) []
        (.IfExp (.NameConstant .Py_True) (int_lit 3) (some float_lit))
      = .fail .ElseArmMismatch [] :=
  ⟨((validate_if_expr_rule (GarterScope_New none) [] (.NameConstant .Py_True)
      (.List []) (.List [int_lit 3])).1 (.obj 0)
      [⟨.GT_LIST, some (.type .INT)⟩, ⟨.GT_LIST, some (.type .INT)⟩]).mpr
      ⟨GarterType_BOOL, [], [⟨.GT_LIST, none⟩], .obj 1,
        [⟨.GT_LIST, none⟩, ⟨.GT_LIST, some (.type .INT)⟩], rfl, rfl, rfl, rfl, rfl⟩,
   rfl⟩

/-- C20.  The judgment of a Dict expression fails, whatever its keys and
values.  Hence an Assign whose value is a Dict literal is rejected, whatever
its targets and annotation and wherever it stands, for example the declaration
`d : {str: int} = {}`; and an AugAssign whose value is a Dict literal is never
accepted. -/
theorem validate_dict_expr_rejects (scope : GarterScope) (h : Heap)
    (keys : List (Option expr)) (values : List expr) :
    validate_expr scope h (.Dict keys values) = .fail .DictExprUnimplemented h ∧
    (∀ targets type sroot, ∃ d,
      validate_stmt scope h sroot (.Assign targets (.Dict keys values) type)
        = .fail d scope h) ∧
    (∀ target op sroot scope2 h2,
      validate_stmt scope h sroot (.AugAssign target op (.Dict keys values))
        ≠ .ok scope2 h2) ∧
    validate_stmt (GarterScope_New none) [] true
        (decl_stmt "d" (.Dict [some (.Name "str")] [.Name "int"]) (.Dict [] []))
      = .fail .DictExprUnimplemented (GarterScope_New none) [] := by
  have hd : ∀ h1, validate_expr scope h1 (.Dict keys values)
      = .fail .DictExprUnimplemented h1 := by
    intro h1
    simp only [validate_expr, validate_dict_expr]
  refine ⟨hd h, ?_, ?_, rfl⟩
  · intro targets type sroot
    simp only [validate_stmt, validate_assign_stmt]
    split
    · exact ⟨.DictExprUnimplemented, rfl⟩
    · exact ⟨.MultipleTargets, rfl⟩
  · intro target op sroot scope2 h2
    simp only [validate_stmt, validate_assign_stmt, validate_expr,
      validate_binop_expr, validate_dict_expr]
    cases validate_expr scope h target <;> simp

/-! ### C11 to C12: what `GarterType_Equal` changes -/

theorem Heap.fills_refl (h : Heap) : h.fills h :=
  ⟨rfl, fun _ _ ho => Or.inl ho⟩

theorem Heap.fills_trans {h1 h2 h3 : Heap} (f12 : h1.fills h2)
    (f23 : h2.fills h3) : h1.fills h3 := by
  refine ⟨f23.1.trans f12.1, fun addr o ho => ?_⟩
  rcases f12.2 addr o ho with h2o | ⟨hm, hk, m, h2o⟩
  · exact f23.2 addr o h2o
  · rcases f23.2 addr _ h2o with h3o | ⟨hm3, _⟩
    · exact Or.inr ⟨hm, hk, m, h3o⟩
    · cases hm3

theorem GarterType_LateBindMeta_fills (h : Heap) (obj : TypePtr) (meta : Meta)
    (o : GarterType) (ho : h.deref obj = some o) (hm : o.meta = none)
    (hk : o.kind = .GT_LIST ∨ o.kind = .GT_DICT) :
    h.fills (GarterType_LateBindMeta h obj meta) := by
  refine ⟨GarterType_LateBindMeta_length _ _ _, fun addr o1 ho1 => ?_⟩
  unfold GarterType_LateBindMeta
  cases obj with
  | obj a =>
    simp only [Heap.deref] at ho
    simp only [ho]
    by_cases hEq : a = addr
    · subst hEq
      rw [ho] at ho1
      cases ho1
      have hlt : a < h.length := by
        by_contra hc
        rw [List.getElem?_eq_none (by omega)] at ho
        cases ho
      exact Or.inr ⟨hm, hk, meta, List.getElem?_set_self hlt⟩
    · left
      rw [List.getElem?_set_ne hEq]
      exact ho1
  | _ => exact Or.inl ho1

theorem GarterType_Equal_fuel_fills :
    ∀ (fuel : Nat) (h : Heap) (a b : TypePtr) (r : Bool) (h2 : Heap),
      GarterType_Equal_fuel fuel h a b = some (r, h2) → h.fills h2 := by
  intro fuel
  induction fuel with
  | zero => intro h a b r h2 heq; simp [GarterType_Equal_fuel] at heq
  | succ n ih =>
    intro h a b r h2 heq
    unfold GarterType_Equal_fuel at heq
    split at heq
    · cases heq; exact Heap.fills_refl _
    · split at heq
      · rename_i oa ob hoa hob
        split at heq
        · cases heq; exact Heap.fills_refl _
        · rename_i hkk
          have hkeq : oa.kind = ob.kind := by
            by_contra hc
            exact hkk hc
          split at heq
          · rename_i hkd
            split at heq
            · cases heq; exact Heap.fills_refl _
            · rename_i hma hmb
              cases heq
              exact GarterType_LateBindMeta_fills h a _ oa hoa hma (Or.inr hkd)
            · rename_i hma hmb
              cases heq
              exact GarterType_LateBindMeta_fills h b _ ob hob hmb
                (Or.inr (hkeq ▸ hkd))
            · split at heq
              · cases heq
              · rename_i km h1 hk
                split at heq
                · cases heq
                · rename_i vm h3 hv
                  cases heq
                  exact Heap.fills_trans (ih _ _ _ _ _ hk) (ih _ _ _ _ _ hv)
            · cases heq
          · rename_i hkd
            split at heq
            · cases heq; exact Heap.fills_refl _
            · rename_i hma hmb
              cases heq
              exact GarterType_LateBindMeta_fills h a _ oa hoa hma (Or.inl hkd)
            · rename_i hma hmb
              cases heq
              exact GarterType_LateBindMeta_fills h b _ ob hob hmb
                (Or.inl (hkeq ▸ hkd))
            · exact ih _ _ _ _ _ heq
            · cases heq
          · cases heq; exact Heap.fills_refl _
          · cases heq; exact Heap.fills_refl _
      · cases heq

theorem Shape_refines_refl : ∀ (s : Shape), s.refines s = true := by
  intro s
  induction s with
  | listOf elt ih => simpa [Shape.refines] using ih
  | dictOf key value ihk ihv => simp [Shape.refines, ihk, ihv]
  | _ => simp [Shape.refines]

theorem Heap.fills_deref {h1 h2 : Heap} (hf : h1.fills h2) (p : TypePtr)
    (o : GarterType) (ho : h1.deref p = some o) :
    h2.deref p = some o ∨
    (o.meta = none ∧ (o.kind = .GT_LIST ∨ o.kind = .GT_DICT) ∧
      ∃ m, h2.deref p = some ⟨o.kind, some m⟩) := by
  cases p with
  | obj a => exact hf.2 a o ho
  | _ =>
    simp only [Heap.deref] at ho ⊢
    exact Or.inl ho

theorem GarterType_shape_fuel_fills :
    ∀ (n : Nat) (h h2 : Heap) (p : TypePtr) (s s2 : Shape), h.fills h2 →
      GarterType_shape_fuel n h p = some s →
      GarterType_shape_fuel n h2 p = some s2 → s.refines s2 = true := by
  intro n
  induction n with
  | zero => intro h h2 p s s2 _ hs; simp [GarterType_shape_fuel] at hs
  | succ n ih =>
    intro h h2 p s s2 hf hs hs2
    unfold GarterType_shape_fuel at hs hs2
    cases hd : h.deref p with
    | none => simp [hd] at hs
    | some o =>
      obtain ⟨kind, meta⟩ := o
      simp only [hd] at hs
      rcases Heap.fills_deref hf p _ hd with hd2 | ⟨hm, hk, m, hd2⟩
      · simp only [hd2] at hs2
        cases kind <;> dsimp only at hs hs2
        · cases hs; cases hs2; rfl
        · cases hs; cases hs2; rfl
        · cases hs; cases hs2; rfl
        · cases hs; cases hs2; rfl
        · cases meta with
          | none => cases hs; cases hs2; rfl
          | some mt =>
            cases mt with
            | tuple k v =>
              dsimp only at hs hs2
              cases hk1 : GarterType_shape_fuel n h k with
              | none => simp [hk1] at hs
              | some ks =>
                cases hv1 : GarterType_shape_fuel n h v with
                | none => simp [hk1, hv1] at hs
                | some vs =>
                  cases hk2 : GarterType_shape_fuel n h2 k with
                  | none => simp [hk2] at hs2
                  | some ks2 =>
                    cases hv2 : GarterType_shape_fuel n h2 v with
                    | none => simp [hk2, hv2] at hs2
                    | some vs2 =>
                      simp only [hk1, hv1, Option.some.injEq] at hs
                      simp only [hk2, hv2, Option.some.injEq] at hs2
                      subst hs hs2
                      simp [Shape.refines, ih h h2 k ks ks2 hf hk1 hk2,
                        ih h h2 v vs vs2 hf hv1 hv2]
            | _ => simp at hs
        · cases meta with
          | none => cases hs; cases hs2; rfl
          | some mt =>
            cases mt with
            | type t =>
              dsimp only at hs hs2
              cases ht1 : GarterType_shape_fuel n h t with
              | none => simp [ht1] at hs
              | some ts =>
                cases ht2 : GarterType_shape_fuel n h2 t with
                | none => simp [ht2] at hs2
                | some ts2 =>
                  simp only [ht1, Option.map_some', Option.some.injEq] at hs
                  simp only [ht2, Option.map_some', Option.some.injEq] at hs2
                  subst hs hs2
                  simpa [Shape.refines] using ih h h2 t ts ts2 hf ht1 ht2
            | _ => simp at hs
        · cases hs; cases hs2
          simp [Shape.refines]
      · simp only at hm hk
        subst hm
        simp only [hd2] at hs2
        rcases hk with rfl | rfl
        · dsimp only at hs hs2
          cases hs
          cases m with
          | type t =>
            dsimp only at hs2
            cases ht2 : GarterType_shape_fuel n h2 t with
            | none => simp [ht2] at hs2
            | some ts2 =>
              simp only [ht2, Option.map_some', Option.some.injEq] at hs2
              subst hs2
              rfl
          | _ => simp at hs2
        · dsimp only at hs hs2
          cases hs
          cases m with
          | tuple k v =>
            dsimp only at hs2
            cases hk2 : GarterType_shape_fuel n h2 k with
            | none => simp [hk2] at hs2
            | some ks2 =>
              cases hv2 : GarterType_shape_fuel n h2 v with
              | none => simp [hk2, hv2] at hs2
              | some vs2 =>
                simp only [hk2, hv2, Option.some.injEq] at hs2
                subst hs2
                rfl
          | _ => simp at hs2

/-- C12.  Whatever `GarterType_Equal(a, b)` returns, it only fills in: every
object of the heap, those of `a` and `b` included, is afterwards what it was
before, or was a LIST or DICT object with a NULL `meta` that now has one.  So
the structure of a type after the call is its structure before with absent
payloads filled in, and a type that was complete before the call has exactly
the structure it had. -/
theorem GarterType_Equal_fills (h : Heap) (a b : TypePtr) (r : Bool) (h2 : Heap)
    (he : GarterType_Equal h a b = some (r, h2)) :
    h2.length = h.length ∧
    (∀ (addr : Nat) (o : GarterType), h[addr]? = some o →
      h2[addr]? = some o ∨
      (o.meta = none ∧ (o.kind = .GT_LIST ∨ o.kind = .GT_DICT) ∧
        ∃ m, h2[addr]? = some ⟨o.kind, some m⟩)) ∧
    (∀ p s s2, GarterType_shape h p = some s → GarterType_shape h2 p = some s2 →
      s.refines s2 = true) ∧
    (∀ p, GarterType_IsComplete h (some p) = some true →
      GarterType_shape h2 p = GarterType_shape h p) := by
  have hf := GarterType_Equal_fuel_fills _ h a b r h2 he
  have hg := (GarterType_Equal_grows h a b r h2 he).1
  refine ⟨hf.1, hf.2, ?_, ?_⟩
  · intro p s s2 hs hs2
    unfold GarterType_shape at hs hs2
    rw [hf.1] at hs2
    exact GarterType_shape_fuel_fills _ h h2 p s s2 hf hs hs2
  · intro p hc
    exact (GarterType_shape_grows hg p hc).1

/-- Witness for C12: a Dict from int to an empty List against a Dict from str
to a List of int.  The verdict is false, and still the empty List has been
late-bound: the first Dict went from `{int: [?]}` to `{int: [int]}`. -/
theorem GarterType_Equal_fills_witness :
    GarterType_Equal
        [⟨.GT_LIST, none⟩, ⟨.GT_DICT, some (.tuple .INT (.obj 0))⟩,
          ⟨.GT_LIST, some (.type .INT)⟩, ⟨.GT_DICT, some (.tuple .STR (.obj 2))⟩]
        (.obj 1) (.obj 3)
      = some (false,
        [⟨.GT_LIST, some (.type .INT)⟩, ⟨.GT_DICT, some (.tuple .INT (.obj 0))⟩,
          ⟨.GT_LIST, some (.type .INT)⟩, ⟨.GT_DICT, some (.tuple .STR (.obj 2))⟩]) ∧
    Shape.refines (.dictOf .int .listUnbound) (.dictOf .int (.listOf .int)) = true :=
  ⟨rfl,
    (GarterType_Equal_fills
      [⟨.GT_LIST, none⟩, ⟨.GT_DICT, some (.tuple .INT (.obj 0))⟩,
        ⟨.GT_LIST, some (.type .INT)⟩, ⟨.GT_DICT, some (.tuple .STR (.obj 2))⟩]
      (.obj 1) (.obj 3) false _ rfl).2.2.1 (.obj 1) _ _ rfl rfl⟩

/-! ### C19: list literals -/

theorem GarterType_shape_fuel_kind (n : Nat) (h : Heap) (p : TypePtr) (s : Shape)
    (hs : GarterType_shape_fuel n h p = some s) :
    GarterType_Kind h p = some s.kind := by
  cases n with
  | zero => simp [GarterType_shape_fuel] at hs
  | succ n =>
    unfold GarterType_shape_fuel at hs
    unfold GarterType_Kind
    cases hd : h.deref p with
    | none => simp [hd] at hs
    | some o =>
      obtain ⟨kind, meta⟩ := o
      simp only [hd, Option.map_some'] at hs ⊢
      cases kind <;> dsimp only at hs ⊢
      · cases hs; rfl
      · cases hs; rfl
      · cases hs; rfl
      · cases hs; rfl
      · cases meta with
        | none => cases hs; rfl
        | some mt =>
          cases mt with
          | tuple k v =>
            dsimp only at hs
            cases hk : GarterType_shape_fuel n h k with
            | none => simp [hk] at hs
            | some ks =>
              cases hv : GarterType_shape_fuel n h v with
              | none => simp [hk, hv] at hs
              | some vs =>
                simp only [hk, hv, Option.some.injEq] at hs
                subst hs; rfl
          | _ => simp at hs
      · cases meta with
        | none => cases hs; rfl
        | some mt =>
          cases mt with
          | type t =>
            dsimp only at hs
            cases ht : GarterType_shape_fuel n h t with
            | none => simp [ht] at hs
            | some ts =>
              simp only [ht, Option.map_some', Option.some.injEq] at hs
              subst hs; rfl
          | _ => simp at hs
      · cases hs; rfl

/-- On complete types `GarterType_Equal` is structural equality and changes
nothing. -/
theorem GarterType_Equal_fuel_complete :
    ∀ (n : Nat) (h : Heap) (a b : TypePtr) (sa sb : Shape),
      GarterType_shape_fuel n h a = some sa →
      GarterType_shape_fuel n h b = some sb →
      sa.complete = true → sb.complete = true →
      GarterType_Equal_fuel n h a b = some (decide (sa = sb), h) := by
  intro n
  induction n with
  | zero => intro h a b sa sb hsa; simp [GarterType_shape_fuel] at hsa
  | succ n ih =>
    intro h a b sa sb hsa hsb hca hcb
    by_cases hab : a = b
    · subst hab
      rw [hsa] at hsb
      cases hsb
      simp [GarterType_Equal_fuel]
    have hka := GarterType_shape_fuel_kind _ _ _ _ hsa
    have hkb := GarterType_shape_fuel_kind _ _ _ _ hsb
    unfold GarterType_Kind at hka hkb
    unfold GarterType_shape_fuel at hsa hsb
    unfold GarterType_Equal_fuel
    cases hda : h.deref a with
    | none => simp [hda] at hsa
    | some oa =>
      cases hdb : h.deref b with
      | none => simp [hdb] at hsb
      | some ob =>
        obtain ⟨ka, ma⟩ := oa
        obtain ⟨kb, mb⟩ := ob
        simp only [hda, hdb, Option.map_some', Option.some.injEq] at hsa hsb hka hkb
        simp only [hab, ↓reduceIte]
        by_cases hk : ka = kb
        swap
        · have hne : sa ≠ sb := by
            intro e
            apply hk
            rw [hka, hkb, e]
          simp [hk, hne]
        subst hk
        simp only [ne_eq, not_true_eq_false, ↓reduceIte]
        cases ka <;> dsimp only at hsa hsb ⊢
        · cases hsa; cases hsb; rfl
        · cases hsa; cases hsb; rfl
        · cases hsa; cases hsb; rfl
        · cases hsa; cases hsb; rfl
        · cases ma with
          | none => cases hsa; simp [Shape.complete] at hca
          | some mta =>
            cases mb with
            | none => cases hsb; simp [Shape.complete] at hcb
            | some mtb =>
              cases mta with
              | tuple ak av =>
                cases mtb with
                | tuple bk bv =>
                  dsimp only at hsa hsb ⊢
                  cases hak : GarterType_shape_fuel n h ak with
                  | none => simp [hak] at hsa
                  | some sak =>
                    cases hav : GarterType_shape_fuel n h av with
                    | none => simp [hak, hav] at hsa
                    | some sav =>
                      cases hbk : GarterType_shape_fuel n h bk with
                      | none => simp [hbk] at hsb
                      | some sbk =>
                        cases hbv : GarterType_shape_fuel n h bv with
                        | none => simp [hbk, hbv] at hsb
                        | some sbv =>
                          simp only [hak, hav, Option.some.injEq] at hsa
                          simp only [hbk, hbv, Option.some.injEq] at hsb
                          subst hsa hsb
                          simp only [Shape.complete, Bool.and_eq_true] at hca hcb
                          rw [ih h ak bk sak sbk hak hbk hca.1 hcb.1]
                          dsimp only
                          rw [ih h av bv sav sbv hav hbv hca.2 hcb.2]
                          simp only [Shape.dictOf.injEq, Option.some.injEq,
                            Prod.mk.injEq, and_true]
                          by_cases e1 : sak = sbk <;> by_cases e2 : sav = sbv <;>
                            simp [e1, e2]
                | _ => simp at hsb
              | _ => simp at hsa
        · cases ma with
          | none => cases hsa; simp [Shape.complete] at hca
          | some mta =>
            cases mb with
            | none => cases hsb; simp [Shape.complete] at hcb
            | some mtb =>
              cases mta with
              | type am =>
                cases mtb with
                | type bm =>
                  dsimp only at hsa hsb ⊢
                  cases ham : GarterType_shape_fuel n h am with
                  | none => simp [ham] at hsa
                  | some sam =>
                    cases hbm : GarterType_shape_fuel n h bm with
                    | none => simp [hbm] at hsb
                    | some sbm =>
                      simp only [ham, Option.map_some', Option.some.injEq] at hsa
                      simp only [hbm, Option.map_some', Option.some.injEq] at hsb
                      subst hsa hsb
                      simp only [Shape.complete] at hca hcb
                      rw [ih h am bm sam sbm ham hbm hca hcb]
                      simp
                | _ => simp at hsb
              | _ => simp at hsa
        · cases hsa; cases hsb
          simp

/-- On two types for which `GarterType_IsComplete` is true, `GarterType_Equal`
returns whether their structures are the same, and leaves the heap as it
is. -/
theorem GarterType_Equal_complete (h : Heap) (a b : TypePtr)
    (hca : GarterType_IsComplete h (some a) = some true)
    (hcb : GarterType_IsComplete h (some b) = some true) :
    GarterType_Equal h a b
      = some (decide (GarterType_shape h a = GarterType_shape h b), h) := by
  unfold GarterType_IsComplete at hca hcb
  obtain ⟨sa, hsa, hsac⟩ := GarterType_shape_fuel_of_IsComplete _ h a hca
  obtain ⟨sb, hsb, hsbc⟩ := GarterType_shape_fuel_of_IsComplete _ h b hcb
  unfold GarterType_Equal GarterType_shape
  rw [GarterType_Equal_fuel_complete _ h a b sa sb hsa hsb hsac hsbc, hsa, hsb]
  simp

theorem judge_complete_seq_grows (scope : GarterScope) :
    ∀ (es : List expr) (h : Heap) (ts : List TypePtr) (h2 : Heap),
      judge_complete_seq scope h es = some (ts, h2) → h.grows h2 := by
  intro es
  induction es with
  | nil =>
    intro h ts h2 hj
    simp only [judge_complete_seq, Option.some.injEq, Prod.mk.injEq] at hj
    rw [← hj.2]
    exact Heap.grows_refl h
  | cons e rest ih =>
    intro h ts h2 hj
    unfold judge_complete_seq at hj
    have hg := validate_expr_grows scope e h
    cases hv : validate_expr scope h e with
    | crash => simp [hv] at hj
    | fail d h1 => simp [hv] at hj
    | ok t h1 =>
      rw [hv] at hg
      simp only [hv] at hj
      cases hc : GarterType_IsComplete h1 (some t) with
      | none => simp [hc] at hj
      | some c =>
        cases c with
        | false => simp [hc] at hj
        | true =>
          simp only [hc] at hj
          cases hr : judge_complete_seq scope h1 rest with
          | none => simp [hr] at hj
          | some p =>
            obtain ⟨ts1, h3⟩ := p
            simp only [hr, Option.some.injEq, Prod.mk.injEq] at hj
            rw [← hj.2]
            exact Heap.grows_trans hg (ih h1 ts1 h3 hr)

/-- The loop of `validate_list_expr` once the element type is set, over
elements that are each judged with a complete type: it ends with the same
element type when every element has its structure, and reports a mismatch
otherwise. -/
theorem validate_list_expr_loop_complete (scope : GarterScope) :
    ∀ (rest : List expr) (h : Heap) (et : TypePtr) (i : Nat)
      (ts : List TypePtr) (h2 : Heap),
      GarterType_IsComplete h (some et) = some true →
      judge_complete_seq scope h rest = some (ts, h2) →
      ((∀ t ∈ ts, GarterType_shape h2 t = GarterType_shape h2 et) →
        validate_list_expr_loop scope h (some et) i rest = .ok (some et) h2) ∧
      (¬ (∀ t ∈ ts, GarterType_shape h2 t = GarterType_shape h2 et) →
        ∃ j hj, i ≤ j ∧ j < i + rest.length ∧
          validate_list_expr_loop scope h (some et) i rest
            = .fail (.ListElementMismatch j) hj) := by
  intro rest
  induction rest with
  | nil =>
    intro h et i ts h2 hc hj
    simp only [judge_complete_seq, Option.some.injEq, Prod.mk.injEq] at hj
    obtain ⟨e1, e2⟩ := hj
    subst e1 e2
    constructor
    · intro _
      simp [validate_list_expr_loop]
    · intro hn
      exact absurd (by simp) hn
  | cons e rest ih =>
    intro h et i ts h2 hc hj
    unfold judge_complete_seq at hj
    have hg := validate_expr_grows scope e h
    cases hv : validate_expr scope h e with
    | crash => simp [hv] at hj
    | fail d h1 => simp [hv] at hj
    | ok t h1 =>
      rw [hv] at hg
      simp only [hv] at hj
      cases hct : GarterType_IsComplete h1 (some t) with
      | none => simp [hct] at hj
      | some c =>
        cases c with
        | false => simp [hct] at hj
        | true =>
          simp only [hct] at hj
          cases hr : judge_complete_seq scope h1 rest with
          | none => simp [hr] at hj
          | some p =>
            obtain ⟨ts1, h3⟩ := p
            simp only [hr, Option.some.injEq, Prod.mk.injEq] at hj
            obtain ⟨e1, e2⟩ := hj
            subst e1 e2
            have hg2 := judge_complete_seq_grows scope rest h1 ts1 h3 hr
            have hce : GarterType_IsComplete h1 (some et) = some true :=
              GarterType_IsComplete_grows hg _ hc
            have hst := (GarterType_shape_grows hg2 t hct).1
            have hse := (GarterType_shape_grows hg2 et hce).1
            have heq := GarterType_Equal_complete h1 t et hct hce
            have hi := ih h1 et (i + 1) ts1 h3 hce hr
            unfold validate_list_expr_loop
            simp only [hv, heq]
            by_cases hs : GarterType_shape h1 t = GarterType_shape h1 et
            · simp only [hs, decide_True]
              constructor
              · intro hall
                exact hi.1 (fun t1 ht1 => hall t1 (List.mem_cons_of_mem _ ht1))
              · intro hn
                have hn2 : ¬ (∀ t1 ∈ ts1,
                    GarterType_shape h3 t1 = GarterType_shape h3 et) := by
                  intro hall
                  apply hn
                  intro t1 ht1
                  rcases List.mem_cons.mp ht1 with e | hm
                  · subst e
                    rw [hst, hse, hs]
                  · exact hall t1 hm
                obtain ⟨j, hj, h1j, h2j, hl⟩ := hi.2 hn2
                refine ⟨j, hj, by omega, ?_, hl⟩
                simp only [List.length_cons]
                omega
            · simp only [hs, decide_False]
              constructor
              · intro hall
                exfalso
                apply hs
                have := hall t (List.mem_cons_self _ _)
                rw [hst, hse] at this
                exact this
              · intro _
                refine ⟨i, h1, le_refl _, ?_, rfl⟩
                simp only [List.length_cons]
                omega

/-- C19: list literals are homogeneous.  The empty literal is accepted with a
new LIST type whose payload is absent, an incomplete type.  For a literal with
elements `e :: rest` whose judgments, one after the other, all succeed with
complete types `t1 :: ts`, the literal is accepted when every element type has
the structure `s1` of `t1`, and then its type is a new `List(t1)` of structure
`listOf s1`; it is rejected with a mismatch at some later element
otherwise. -/
theorem validate_list_expr_homogeneous (scope : GarterScope) (h : Heap)
    (e : expr) (rest : List expr) (t1 : TypePtr) (ts : List TypePtr) (h2 : Heap)
    (hj : judge_complete_seq scope h (e :: rest) = some (t1 :: ts, h2)) :
    (validate_expr scope h (.List [])
        = .ok (.obj h.length) (h ++ [⟨.GT_LIST, none⟩]) ∧
      GarterType_IsComplete (h ++ [⟨.GT_LIST, none⟩]) (some (.obj h.length))
        = some false ∧
      GarterType_shape (h ++ [⟨.GT_LIST, none⟩]) (.obj h.length)
        = some .listUnbound) ∧
    ∃ s1, GarterType_shape h2 t1 = some s1 ∧ s1.complete = true ∧
      ((∀ t ∈ ts, GarterType_shape h2 t = some s1) →
        validate_expr scope h (.List (e :: rest))
          = .ok (.obj h2.length) (h2 ++ [⟨.GT_LIST, some (.type t1)⟩]) ∧
        GarterType_shape (h2 ++ [⟨.GT_LIST, some (.type t1)⟩]) (.obj h2.length)
          = some (.listOf s1)) ∧
      (¬ (∀ t ∈ ts, GarterType_shape h2 t = some s1) →
        ∃ j hf, 1 ≤ j ∧ j < (e :: rest).length ∧
          validate_expr scope h (.List (e :: rest))
            = .fail (.ListElementMismatch j) hf) := by
  constructor
  · refine ⟨?_, ?_, ?_⟩
    · simp [validate_expr, validate_list_expr_loop, validate_list_expr,
        GarterType_New]
    · simp [GarterType_IsComplete, GarterType_IsComplete_fuel, Heap.deref]
    · simp [GarterType_shape, GarterType_shape_fuel, Heap.deref]
  · unfold judge_complete_seq at hj
    cases hv : validate_expr scope h e with
    | crash => simp [hv] at hj
    | fail d h1 => simp [hv] at hj
    | ok t h1 =>
      simp only [hv] at hj
      cases hct : GarterType_IsComplete h1 (some t) with
      | none => simp [hct] at hj
      | some c =>
        cases c with
        | false => simp [hct] at hj
        | true =>
          simp only [hct] at hj
          cases hr : judge_complete_seq scope h1 rest with
          | none => simp [hr] at hj
          | some p =>
            obtain ⟨ts1, h3⟩ := p
            simp only [hr, Option.some.injEq, Prod.mk.injEq, List.cons.injEq] at hj
            obtain ⟨⟨e1, e2⟩, e3⟩ := hj
            subst e1 e2 e3
            have hg2 := judge_complete_seq_grows scope rest h1 ts1 h3 hr
            obtain ⟨hst, s1, hs1, hc1⟩ := GarterType_shape_grows hg2 t hct
            have hs3 : GarterType_shape h3 t = some s1 := by rw [hst, hs1]
            have hl := validate_list_expr_loop_complete scope rest h1 t 1 ts1 h3 hct hr
            rw [hs3] at hl
            refine ⟨s1, hs3, hc1, ?_, ?_⟩
            · intro hall
              have e := hl.1 hall
              constructor
              · simp only [validate_expr]
                unfold validate_list_expr_loop
                simp only [hv, zero_add, e]
                simp [validate_list_expr, GarterType_New]
              · have hn := GarterType_shape_fuel_New_list h3 t s1 (h3.length + 1)
                  hs3 hc1
                simp only [GarterType_New] at hn
                simp only [GarterType_shape, List.length_append, List.length_singleton]
                exact hn
            · intro hn
              obtain ⟨j, hf, h1j, h2j, e⟩ := hl.2 hn
              refine ⟨j, hf, h1j, ?_, ?_⟩
              · simp only [List.length_cons]
                omega
              · simp only [validate_expr]
                unfold validate_list_expr_loop
                simp only [hv, zero_add, e]
                simp [validate_list_expr]

theorem validate_list_expr_homogeneous_witness :
    judge_complete_seq scope_x_int [] [int_lit 1, .Name "x", int_lit 3]
        = some ([GarterType_INT, GarterType_INT, GarterType_INT], []) ∧
      validate_expr scope_x_int [] (.List [int_lit 1, .Name "x", int_lit 3])
        = .ok (.obj 0) [⟨.GT_LIST, some (.type GarterType_INT)⟩] ∧
      GarterType_shape [⟨.GT_LIST, some (.type GarterType_INT)⟩] (.obj 0)
        = some (.listOf .int) := by
  have hj : judge_complete_seq scope_x_int [] [int_lit 1, .Name "x", int_lit 3]
      = some ([GarterType_INT, GarterType_INT, GarterType_INT], []) := by decide
  obtain ⟨_, s1, hs1, _, hok, _⟩ :=
    validate_list_expr_homogeneous scope_x_int [] (int_lit 1)
      [.Name "x", int_lit 3] GarterType_INT [GarterType_INT, GarterType_INT] [] hj
  have e1 : GarterType_shape [] GarterType_INT = some .int := by decide
  rw [e1] at hs1
  cases hs1
  have hall : ∀ t ∈ [GarterType_INT, GarterType_INT],
      GarterType_shape [] t = some .int := by
    intro t ht
    simp only [List.mem_cons, List.mem_singleton, List.not_mem_nil, or_false,
      or_self] at ht
    subst ht
    exact e1
  exact ⟨hj, hok hall⟩

/-! ### C11: a second `GarterType_Equal` changes nothing -/

theorem Heap.deref_agree (n : Nat) (h g : Heap) (p : TypePtr) (c : List Nat)
    (hc : GarterType_cells_fuel n h p = some c)
    (hag : ∀ z ∈ c, g[z]? = h[z]?) : g.deref p = h.deref p := by
  cases p with
  | obj addr =>
    obtain ⟨t, rfl⟩ := GarterType_cells_fuel_head _ _ _ _ hc
    simp only [Heap.deref]
    exact hag addr (List.mem_cons_self _ _)
  | _ => rfl

/-- On two separate type objects, after `GarterType_Equal(a, b)` has returned,
the same call on any heap that holds what is below `a` and `b` as the first
call left it returns the same verdict and changes nothing. -/
theorem GarterType_Equal_fuel_idem :
    ∀ (n : Nat) (h : Heap) (a b : TypePtr) (ca cb : List Nat),
      GarterType_cells_fuel n h a = some ca →
      GarterType_cells_fuel n h b = some cb →
      ca.Nodup → cb.Nodup → (∀ z ∈ ca, z ∉ cb) →
      ∀ (r : Bool) (h2 : Heap), GarterType_Equal_fuel n h a b = some (r, h2) →
      ∀ (g : Heap), (∀ z, z ∈ ca ∨ z ∈ cb → g[z]? = h2[z]?) →
        GarterType_Equal_fuel n g a b = some (r, g) := by
  intro n
  induction n with
  | zero => intro h a b ca cb hca; simp [GarterType_cells_fuel] at hca
  | succ n ih =>
    intro h a b ca cb hca hcb hna hnb hd r h2 he g hag
    by_cases hab : a = b
    · subst hab
      simp only [GarterType_Equal_fuel, ↓reduceIte, Option.some.injEq,
        Prod.mk.injEq] at he ⊢
      exact ⟨he.1, trivial⟩
    obtain ⟨oa, hoa⟩ := GarterType_cells_fuel_deref _ _ _ _ hca
    obtain ⟨ob, hob⟩ := GarterType_cells_fuel_deref _ _ _ _ hcb
    have nochange : ∀ r0 : Bool,
        (∀ k : Heap, k.deref a = some oa → k.deref b = some ob →
          GarterType_Equal_fuel (n + 1) k a b = some (r0, k)) →
        GarterType_Equal_fuel (n + 1) g a b = some (r, g) := by
      intro r0 hgen
      rw [hgen h hoa hob] at he
      simp only [Option.some.injEq, Prod.mk.injEq] at he
      obtain ⟨e1, e2⟩ := he
      subst e1 e2
      have hga : g.deref a = some oa := by
        rw [← hoa]
        exact Heap.deref_agree _ h g a ca hca (fun z hz => hag z (Or.inl hz))
      have hgb : g.deref b = some ob := by
        rw [← hob]
        exact Heap.deref_agree _ h g b cb hcb (fun z hz => hag z (Or.inr hz))
      exact hgen g hga hgb
    obtain ⟨ka, ma⟩ := oa
    obtain ⟨kb, mb⟩ := ob
    by_cases hk : ka = kb
    swap
    · exact nochange false
        (fun k h1 h2 => by simp [GarterType_Equal_fuel, hab, h1, h2, hk])
    subst hk
    cases ka
    · exact nochange true
        (fun k h1 h2 => by simp [GarterType_Equal_fuel, hab, h1, h2])
    · exact nochange true
        (fun k h1 h2 => by simp [GarterType_Equal_fuel, hab, h1, h2])
    · exact nochange true
        (fun k h1 h2 => by simp [GarterType_Equal_fuel, hab, h1, h2])
    · exact nochange true
        (fun k h1 h2 => by simp [GarterType_Equal_fuel, hab, h1, h2])
    · -- GT_DICT
      cases a with
      | obj x =>
        cases b with
        | obj y =>
          simp only [Heap.deref] at hoa hob
          have hxy : x ≠ y := fun e => hab (by rw [e])
          obtain ⟨ta, rfl⟩ := GarterType_cells_fuel_head _ _ _ _ hca
          obtain ⟨tb, rfl⟩ := GarterType_cells_fuel_head _ _ _ _ hcb
          have hxcb : x ∉ y :: tb := hd x (List.mem_cons_self _ _)
          have hyca : y ∉ x :: ta := fun hm => hd y hm (List.mem_cons_self _ _)
          have hgx := hag x (Or.inl (List.mem_cons_self _ _))
          have hgy := hag y (Or.inr (List.mem_cons_self _ _))
          have hxlt : x < h.length := by
            rcases Nat.lt_or_ge x h.length with hlt | hge
            · exact hlt
            · rw [List.getElem?_eq_none hge] at hoa
              cases hoa
          have hylt : y < h.length := by
            rcases Nat.lt_or_ge y h.length with hlt | hge
            · exact hlt
            · rw [List.getElem?_eq_none hge] at hob
              cases hob
          cases ma with
          | none =>
            cases mb with
            | none =>
              exact nochange true (fun k h1 h2 => by
                simp only [Heap.deref] at h1 h2
                simp [GarterType_Equal_fuel, hab, Heap.deref, h1, h2])
            | some m =>
              obtain ⟨hl, hfr, _, _, _⟩ :=
                GarterType_LateBindMeta_separate n h x y _ m _ hoa hob hcb hxcb
              obtain ⟨bk, bv, cbk, cbv, rfl, _, hcbk, _⟩ :=
                GarterType_cells_fuel_dict_inv n h y m _ hob hcb
              simp only [GarterType_Equal_fuel, hab, ↓reduceIte, Heap.deref, hoa, hob,
                ne_eq, not_true_eq_false, hl, Option.some.injEq, Prod.mk.injEq] at he
              obtain ⟨e1, e2⟩ := he
              subst e1 e2
              rw [List.getElem?_set_self hxlt] at hgx
              rw [hfr y (fun e => hxy e.symm), hob] at hgy
              cases n with
              | zero => simp [GarterType_cells_fuel] at hcbk
              | succ n =>
                simp [GarterType_Equal_fuel, hab, Heap.deref, hgx, hgy]
          | some m =>
            cases mb with
            | none =>
              obtain ⟨hl, hfr, _, _, _⟩ :=
                GarterType_LateBindMeta_separate n h y x _ m _ hob hoa hca hyca
              obtain ⟨ak, av, cak, cav, rfl, _, hcak, _⟩ :=
                GarterType_cells_fuel_dict_inv n h x m _ hoa hca
              simp only [GarterType_Equal_fuel, hab, ↓reduceIte, Heap.deref, hoa, hob,
                ne_eq, not_true_eq_false, hl, Option.some.injEq, Prod.mk.injEq] at he
              obtain ⟨e1, e2⟩ := he
              subst e1 e2
              rw [List.getElem?_set_self hylt] at hgy
              rw [hfr x hxy, hoa] at hgx
              cases n with
              | zero => simp [GarterType_cells_fuel] at hcak
              | succ n =>
                simp [GarterType_Equal_fuel, hab, Heap.deref, hgx, hgy]
            | some m2 =>
              obtain ⟨ak, av, cak, cav, rfl, hta, hcak, hcav⟩ :=
                GarterType_cells_fuel_dict_inv n h x m _ hoa hca
              obtain ⟨bk, bv, cbk, cbv, rfl, htb, hcbk, hcbv⟩ :=
                GarterType_cells_fuel_dict_inv n h y m2 _ hob hcb
              simp only [List.cons.injEq, true_and] at hta htb
              subst hta htb
              rw [List.nodup_cons, List.nodup_append] at hna hnb
              obtain ⟨hxa, hnak, hnav, hda⟩ := hna
              obtain ⟨hyb, hnbk, hnbv, hdb⟩ := hnb
              have hdkk : ∀ z ∈ cak, z ∉ cbk := fun z hz hzb =>
                hd z (List.mem_cons_of_mem _ (List.mem_append_left _ hz))
                  (List.mem_cons_of_mem _ (List.mem_append_left _ hzb))
              have hdvv : ∀ z ∈ cav, z ∉ cbv := fun z hz hzb =>
                hd z (List.mem_cons_of_mem _ (List.mem_append_right _ hz))
                  (List.mem_cons_of_mem _ (List.mem_append_right _ hzb))
              have hdkv : ∀ z ∈ cak, z ∉ cbv := fun z hz hzb =>
                hd z (List.mem_cons_of_mem _ (List.mem_append_left _ hz))
                  (List.mem_cons_of_mem _ (List.mem_append_right _ hzb))
              have hdvk : ∀ z ∈ cav, z ∉ cbk := fun z hz hzb =>
                hd z (List.mem_cons_of_mem _ (List.mem_append_right _ hz))
                  (List.mem_cons_of_mem _ (List.mem_append_left _ hzb))
              obtain ⟨r1, h1, he1, hfr1, _, _, _⟩ :=
                GarterType_Equal_fuel_separate n h ak bk cak cbk hcak hcbk hnak hnbk hdkk
              have hagv : ∀ z ∈ cav, h1[z]? = h[z]? := fun z hz =>
                hfr1 z (fun hzk => hda hzk hz) (hdvk z hz)
              have hagbv : ∀ z ∈ cbv, h1[z]? = h[z]? := fun z hz =>
                hfr1 z (fun hzk => hdkv z hzk hz) (fun hzk => hdb hzk hz)
              obtain ⟨hcav1, _, _⟩ := GarterType_cells_fuel_frame n h h1 av cav hcav hagv
              obtain ⟨hcbv1, _, _⟩ := GarterType_cells_fuel_frame n h h1 bv cbv hcbv hagbv
              obtain ⟨r2, h3, he2, hfr2, _, _, _⟩ :=
                GarterType_Equal_fuel_separate n h1 av bv cav cbv hcav1 hcbv1 hnav hnbv hdvv
              simp only [GarterType_Equal_fuel, hab, ↓reduceIte, Heap.deref, hoa, hob,
                ne_eq, not_true_eq_false, he1, he2, Option.some.injEq,
                Prod.mk.injEq] at he
              obtain ⟨e1, e2⟩ := he
              subst e1 e2
              have hkfree : ∀ z, (z ∈ cak ∨ z ∈ cbk) → h3[z]? = h1[z]? := by
                intro z hz
                rcases hz with hz | hz
                · exact hfr2 z (fun hzv => hda hz hzv) (hdkv z hz)
                · exact hfr2 z (fun hzv => hdvk z hzv hz) (fun hzv => hdb hz hzv)
              have hxb : x ∉ cbk ++ cbv := fun hm => hxcb (List.mem_cons_of_mem _ hm)
              have hya : y ∉ cak ++ cav := fun hm => hyca (List.mem_cons_of_mem _ hm)
              have hx2 : h3[x]? = h[x]? := by
                rw [hfr2 x (fun hm => hxa (List.mem_append_right _ hm))
                  (fun hm => hxb (List.mem_append_right _ hm)),
                  hfr1 x (fun hm => hxa (List.mem_append_left _ hm))
                  (fun hm => hxb (List.mem_append_left _ hm))]
              have hy2 : h3[y]? = h[y]? := by
                rw [hfr2 y (fun hm => hya (List.mem_append_right _ hm))
                  (fun hm => hyb (List.mem_append_right _ hm)),
                  hfr1 y (fun hm => hya (List.mem_append_left _ hm))
                  (fun hm => hyb (List.mem_append_left _ hm))]
              rw [hx2, hoa] at hgx
              rw [hy2, hob] at hgy
              have ik := ih h ak bk cak cbk hcak hcbk hnak hnbk hdkk r1 h1 he1 g
                (by
                  intro z hz
                  rw [← hkfree z hz]
                  rcases hz with hz | hz
                  · exact hag z (Or.inl (List.mem_cons_of_mem _ (List.mem_append_left _ hz)))
                  · exact hag z (Or.inr (List.mem_cons_of_mem _ (List.mem_append_left _ hz))))
              have iv := ih h1 av bv cav cbv hcav1 hcbv1 hnav hnbv hdvv r2 h3 he2 g
                (by
                  intro z hz
                  rcases hz with hz | hz
                  · exact hag z (Or.inl (List.mem_cons_of_mem _ (List.mem_append_right _ hz)))
                  · exact hag z (Or.inr (List.mem_cons_of_mem _ (List.mem_append_right _ hz))))
              simp [GarterType_Equal_fuel, hab, Heap.deref, hgx, hgy, ik, iv]
        | _ => simp [Heap.deref] at hob
      | _ => simp [Heap.deref] at hoa
    · -- GT_LIST
      cases a with
      | obj x =>
        cases b with
        | obj y =>
          simp only [Heap.deref] at hoa hob
          have hxy : x ≠ y := fun e => hab (by rw [e])
          obtain ⟨ta, rfl⟩ := GarterType_cells_fuel_head _ _ _ _ hca
          obtain ⟨tb, rfl⟩ := GarterType_cells_fuel_head _ _ _ _ hcb
          have hxcb : x ∉ y :: tb := hd x (List.mem_cons_self _ _)
          have hyca : y ∉ x :: ta := fun hm => hd y hm (List.mem_cons_self _ _)
          have hgx := hag x (Or.inl (List.mem_cons_self _ _))
          have hgy := hag y (Or.inr (List.mem_cons_self _ _))
          have hxlt : x < h.length := by
            rcases Nat.lt_or_ge x h.length with hlt | hge
            · exact hlt
            · rw [List.getElem?_eq_none hge] at hoa
              cases hoa
          have hylt : y < h.length := by
            rcases Nat.lt_or_ge y h.length with hlt | hge
            · exact hlt
            · rw [List.getElem?_eq_none hge] at hob
              cases hob
          cases ma with
          | none =>
            cases mb with
            | none =>
              exact nochange true (fun k h1 h2 => by
                simp only [Heap.deref] at h1 h2
                simp [GarterType_Equal_fuel, hab, Heap.deref, h1, h2])
            | some m =>
              obtain ⟨hl, hfr, _, _, _⟩ :=
                GarterType_LateBindMeta_separate n h x y _ m _ hoa hob hcb hxcb
              obtain ⟨bm, cb1, rfl, _, hcbm⟩ :=
                GarterType_cells_fuel_list_inv n h y m _ hob hcb
              simp only [GarterType_Equal_fuel, hab, ↓reduceIte, Heap.deref, hoa, hob,
                ne_eq, not_true_eq_false, hl, Option.some.injEq, Prod.mk.injEq] at he
              obtain ⟨e1, e2⟩ := he
              subst e1 e2
              rw [List.getElem?_set_self hxlt] at hgx
              rw [hfr y (fun e => hxy e.symm), hob] at hgy
              cases n with
              | zero => simp [GarterType_cells_fuel] at hcbm
              | succ n =>
                simp [GarterType_Equal_fuel, hab, Heap.deref, hgx, hgy]
          | some m =>
            cases mb with
            | none =>
              obtain ⟨hl, hfr, _, _, _⟩ :=
                GarterType_LateBindMeta_separate n h y x _ m _ hob hoa hca hyca
              obtain ⟨am, ca1, rfl, _, hcam⟩ :=
                GarterType_cells_fuel_list_inv n h x m _ hoa hca
              simp only [GarterType_Equal_fuel, hab, ↓reduceIte, Heap.deref, hoa, hob,
                ne_eq, not_true_eq_false, hl, Option.some.injEq, Prod.mk.injEq] at he
              obtain ⟨e1, e2⟩ := he
              subst e1 e2
              rw [List.getElem?_set_self hylt] at hgy
              rw [hfr x hxy, hoa] at hgx
              cases n with
              | zero => simp [GarterType_cells_fuel] at hcam
              | succ n =>
                simp [GarterType_Equal_fuel, hab, Heap.deref, hgx, hgy]
            | some m2 =>
              obtain ⟨am, ca1, rfl, hta, hcam⟩ :=
                GarterType_cells_fuel_list_inv n h x m _ hoa hca
              obtain ⟨bm, cb1, rfl, htb, hcbm⟩ :=
                GarterType_cells_fuel_list_inv n h y m2 _ hob hcb
              simp only [List.cons.injEq, true_and] at hta htb
              subst hta htb
              rw [List.nodup_cons] at hna hnb
              obtain ⟨hxa, hna1⟩ := hna
              obtain ⟨hyb, hnb1⟩ := hnb
              have hd1 : ∀ z ∈ ta, z ∉ tb := fun z hz hzb =>
                hd z (List.mem_cons_of_mem _ hz) (List.mem_cons_of_mem _ hzb)
              obtain ⟨r1, h3, he1, hfr, _, _, _⟩ :=
                GarterType_Equal_fuel_separate n h am bm ta tb hcam hcbm hna1 hnb1 hd1
              simp only [GarterType_Equal_fuel, hab, ↓reduceIte, Heap.deref, hoa, hob,
                ne_eq, not_true_eq_false, he1, Option.some.injEq,
                Prod.mk.injEq] at he
              obtain ⟨e1, e2⟩ := he
              subst e1 e2
              have hx2 : h3[x]? = h[x]? :=
                hfr x hxa (fun hm => hxcb (List.mem_cons_of_mem _ hm))
              have hy2 : h3[y]? = h[y]? :=
                hfr y (fun hm => hyca (List.mem_cons_of_mem _ hm)) hyb
              rw [hx2, hoa] at hgx
              rw [hy2, hob] at hgy
              have im := ih h am bm ta tb hcam hcbm hna1 hnb1 hd1 r1 h3 he1 g
                (by
                  intro z hz
                  rcases hz with hz | hz
                  · exact hag z (Or.inl (List.mem_cons_of_mem _ hz))
                  · exact hag z (Or.inr (List.mem_cons_of_mem _ hz)))
              simp [GarterType_Equal_fuel, hab, Heap.deref, hgx, hgy, im]
        | _ => simp [Heap.deref] at hob
      | _ => simp [Heap.deref] at hoa
    · exact nochange (decide (ma = mb))
        (fun k h1 h2 => by simp [GarterType_Equal_fuel, hab, h1, h2])

/-- C11.  Late binding is idempotent.  Take any two type structures `sa` and
`sb`, as separate type objects `a` and `b`.  Then `GarterType_Equal(a, b)`
returns some verdict `r`, true or false, and a second `GarterType_Equal(a, b)`
on the heap the first call left returns the same `r` and leaves that heap as
it is.  The same holds when `a` and `b` are one object: the call returns true
and changes nothing. -/
theorem GarterType_Equal_idempotent (h : Heap) (sa sb : Shape) :
    GarterType_shape (Shape.build_pair h sa sb).2.2
      (Shape.build_pair h sa sb).1 = some sa ∧
    GarterType_shape (Shape.build_pair h sa sb).2.2
      (Shape.build_pair h sa sb).2.1 = some sb ∧
    (∃ r h3,
      GarterType_Equal (Shape.build_pair h sa sb).2.2
        (Shape.build_pair h sa sb).1 (Shape.build_pair h sa sb).2.1
        = some (r, h3) ∧
      GarterType_Equal h3
        (Shape.build_pair h sa sb).1 (Shape.build_pair h sa sb).2.1
        = some (r, h3)) ∧
    ∀ p, GarterType_Equal h p p = some (true, h) := by
  obtain ⟨ca, cb, hca, hcb, hnda, hndb, hdis, hsa, hsb⟩ :=
    Shape_build_pair_spec h sa sb
  generalize Shape.build_pair h sa sb = bp at *
  obtain ⟨a, b, h2⟩ := bp
  simp only at *
  refine ⟨hsa, hsb, ?_, fun p => GarterType_Equal_self h p⟩
  obtain ⟨r, h3, he, _⟩ :=
    GarterType_Equal_fuel_separate _ h2 a b ca cb hca hcb hnda hndb hdis
  obtain ⟨_, hlen⟩ := GarterType_Equal_fuel_grows _ _ _ _ _ _ he
  refine ⟨r, h3, he, ?_⟩
  unfold GarterType_Equal
  rw [hlen]
  exact GarterType_Equal_fuel_idem _ h2 a b ca cb hca hcb hnda hndb hdis r h3 he h3
    (fun _ _ => rfl)

/-! ### C21: type-annotation elaboration -/

/-- `validate_type` follows `parse_type`: where the reference definition gives
a structure, the code returns a type object of that structure, which is
complete; where it rejects, the code fails with a diagnostic. -/
theorem validate_type_refines (scope : GarterScope) :
    ∀ (e : expr) (h : Heap),
      (∀ s, parse_type e = some s →
        ∃ T h2, validate_type scope h e = .ok T h2 ∧
          GarterType_shape_fuel (h2.length + 1) h2 T = some s ∧
          s.complete = true) ∧
      (parse_type e = none → ∃ d h2, validate_type scope h e = .fail d h2)
  | .Name name, h => by
    simp only [validate_type, parse_type]
    by_cases h1 : name = "int"
    · subst h1
      refine ⟨fun s hs => ?_, by simp⟩
      simp at hs
      subst hs
      exact ⟨GarterType_INT, h, by simp, rfl, rfl⟩
    by_cases h2 : name = "float"
    · subst h2
      refine ⟨fun s hs => ?_, by simp⟩
      simp at hs
      subst hs
      exact ⟨GarterType_FLOAT, h, by simp, rfl, rfl⟩
    by_cases h3 : name = "str"
    · subst h3
      refine ⟨fun s hs => ?_, by simp⟩
      simp at hs
      subst hs
      exact ⟨GarterType_STR, h, by simp, rfl, rfl⟩
    by_cases h4 : name = "bool"
    · subst h4
      refine ⟨fun s hs => ?_, by simp⟩
      simp at hs
      subst hs
      exact ⟨GarterType_BOOL, h, by simp, rfl, rfl⟩
    refine ⟨by simp [h1, h2, h3, h4], fun _ => ⟨.UnknownTypeName name, h, ?_⟩⟩
    simp [h1, h2, h3, h4]
  | .List elts, h => by
    match elts with
    | [] =>
      exact ⟨by simp [parse_type], fun _ => ⟨.ListTypeArity, h, by simp [validate_type]⟩⟩
    | _ :: _ :: _ =>
      exact ⟨by simp [parse_type], fun _ => ⟨.ListTypeArity, h, by simp [validate_type]⟩⟩
    | [elt] =>
      have ih := validate_type_refines scope elt h
      simp only [validate_type, parse_type]
      cases hp : parse_type elt with
      | none =>
        obtain ⟨d, h2, hf⟩ := ih.2 hp
        refine ⟨by simp, fun _ => ⟨d, h2, by simp [hf]⟩⟩
      | some s0 =>
        obtain ⟨meta, h1, hv, hs, hc⟩ := ih.1 s0 hp
        refine ⟨?_, by simp⟩
        intro s heq
        simp only [Option.some.injEq] at heq
        subst heq
        refine ⟨(GarterType_New h1 .GT_LIST (some (.type meta))).1,
          (GarterType_New h1 .GT_LIST (some (.type meta))).2, by simp only [hv], ?_,
          by simpa [Shape.complete] using hc⟩
        have := GarterType_shape_fuel_New_list h1 meta s0 (h1.length + 1) hs hc
        simpa [GarterType_New] using this
  | .Dict keys values, h => by
    match keys, values with
    | [], _ =>
      exact ⟨by simp [parse_type], fun _ => ⟨.DictTypeArity, h, by simp [validate_type]⟩⟩
    | _ :: _ :: _, _ =>
      exact ⟨by simp [parse_type], fun _ => ⟨.DictTypeArity, h, by simp [validate_type]⟩⟩
    | [_], [] =>
      exact ⟨by simp [parse_type], fun _ => ⟨.DictTypeArity, h, by simp [validate_type]⟩⟩
    | [_], _ :: _ :: _ =>
      exact ⟨by simp [parse_type], fun _ => ⟨.DictTypeArity, h, by simp [validate_type]⟩⟩
    | [none], [_] =>
      exact ⟨by simp [parse_type], fun _ => ⟨.NoneAsType, h, by simp [validate_type]⟩⟩
    | [some key], [value] =>
      have ihk := validate_type_refines scope key h
      simp only [validate_type, parse_type]
      cases hpk : parse_type key with
      | none =>
        obtain ⟨d, h2, hf⟩ := ihk.2 hpk
        refine ⟨by simp, fun _ => ⟨d, h2, by simp [hf]⟩⟩
      | some ks =>
        obtain ⟨key_type, h1, hvk, hks, hkc⟩ := ihk.1 ks hpk
        have ihv := validate_type_refines scope value h1
        have g12 := (validate_type_post scope value h1).1
        cases hpv : parse_type value with
        | none =>
          obtain ⟨d, h2, hf⟩ := ihv.2 hpv
          refine ⟨by simp, fun _ => ⟨d, h2, by simp [hvk, hf]⟩⟩
        | some vs =>
          obtain ⟨value_type, h2, hvv, hvs, hvc⟩ := ihv.1 vs hpv
          rw [hvv] at g12
          refine ⟨?_, by simp⟩
          intro s heq
          simp only [Option.some.injEq] at heq
          subst heq
          refine ⟨(GarterType_New h2 .GT_DICT (some (.tuple key_type value_type))).1,
            (GarterType_New h2 .GT_DICT (some (.tuple key_type value_type))).2,
            by simp only [hvk, hvv], ?_, by simp [Shape.complete, hkc, hvc]⟩
          have hks2 := GarterType_shape_fuel_grows _ _ _ _ _ g12
            (GarterType_shape_fuel_mono _ _ _ _ hks (h2.length + 1)
              (by have := g12.1; omega)) hkc
          have := GarterType_shape_fuel_New_dict h2 key_type value_type ks vs
            (h2.length + 1) hks2 hkc hvs hvc
          simpa [GarterType_New] using this
  | .BoolOp _ _, h => ⟨by simp [parse_type], fun _ => ⟨.IllegalTypeForm, h, by simp [validate_type]⟩⟩
  | .BinOp _ _ _, h => ⟨by simp [parse_type], fun _ => ⟨.IllegalTypeForm, h, by simp [validate_type]⟩⟩
  | .UnaryOp _ _, h => ⟨by simp [parse_type], fun _ => ⟨.IllegalTypeForm, h, by simp [validate_type]⟩⟩
  | .IfExp _ _ _, h => ⟨by simp [parse_type], fun _ => ⟨.IllegalTypeForm, h, by simp [validate_type]⟩⟩
  | .Num _, h => ⟨by simp [parse_type], fun _ => ⟨.IllegalTypeForm, h, by simp [validate_type]⟩⟩
  | .Str, h => ⟨by simp [parse_type], fun _ => ⟨.IllegalTypeForm, h, by simp [validate_type]⟩⟩
  | .JoinedStr, h => ⟨by simp [parse_type], fun _ => ⟨.IllegalTypeForm, h, by simp [validate_type]⟩⟩
  | .NameConstant _, h => ⟨by simp [parse_type], fun _ => ⟨.IllegalTypeForm, h, by simp [validate_type]⟩⟩
  | .Ellipsis, h => ⟨by simp [parse_type], fun _ => ⟨.IllegalTypeForm, h, by simp [validate_type]⟩⟩
  | .Other _, h => ⟨by simp [parse_type], fun _ => ⟨.IllegalTypeForm, h, by simp [validate_type]⟩⟩

/-- C21.  `validate_type` is the reference definition `parse_type`: on every
expression, where `parse_type` gives a structure the code returns a type
object of exactly that structure, and where `parse_type` rejects the code
fails.  The names int, float, bool and str give the static scalar types and
any other name fails with "Unrecognized type name"; a List literal of any
arity but one and a Dict literal without exactly one key and one value fail,
and with that arity they elaborate exactly when their parts do; every other
expression form fails with "Illegal type form". -/
theorem validate_type_eq_parse_type (scope : GarterScope) (h : Heap) :
    (∀ e, match parse_type e with
      | some s => ∃ T h2, validate_type scope h e = .ok T h2 ∧
          GarterType_shape h2 T = some s
      | none => ∃ d h2, validate_type scope h e = .fail d h2) ∧
    validate_type scope h (.Name "int") = .ok GarterType_INT h ∧
    validate_type scope h (.Name "float") = .ok GarterType_FLOAT h ∧
    validate_type scope h (.Name "bool") = .ok GarterType_BOOL h ∧
    validate_type scope h (.Name "str") = .ok GarterType_STR h ∧
    (∀ name, name ≠ "int" → name ≠ "float" → name ≠ "bool" → name ≠ "str" →
      validate_type scope h (.Name name) = .fail (.UnknownTypeName name) h) ∧
    (∀ elts, elts.length ≠ 1 →
      validate_type scope h (.List elts) = .fail .ListTypeArity h) ∧
    (∀ elt, (∃ T h2, validate_type scope h (.List [elt]) = .ok T h2) ↔
      ∃ T h2, validate_type scope h elt = .ok T h2) ∧
    (∀ keys values, keys.length ≠ 1 ∨ values.length ≠ 1 →
      validate_type scope h (.Dict keys values) = .fail .DictTypeArity h) ∧
    (∀ key value, (∃ T h2, validate_type scope h (.Dict [some key] [value]) = .ok T h2) ↔
      ∃ K h1 V h2, validate_type scope h key = .ok K h1 ∧
        validate_type scope h1 value = .ok V h2) ∧
    (∀ e, (∀ name, e ≠ .Name name) → (∀ elts, e ≠ .List elts) →
      (∀ keys values, e ≠ .Dict keys values) →
      validate_type scope h e = .fail .IllegalTypeForm h) := by
  refine ⟨?_, by simp [validate_type], by simp [validate_type],
    by simp [validate_type], by simp [validate_type], ?_, ?_, ?_, ?_, ?_, ?_⟩
  · intro e
    have hr := validate_type_refines scope e h
    cases hp : parse_type e with
    | none => exact hr.2 hp
    | some s =>
      obtain ⟨T, h2, hv, hs, _⟩ := hr.1 s hp
      exact ⟨T, h2, hv, hs⟩
  · intro name h1 h2 h3 h4
    simp [validate_type, h1, h2, h3, h4]
  · intro elts hl
    match elts with
    | [] => simp [validate_type]
    | [_] => simp at hl
    | _ :: _ :: _ => simp [validate_type]
  · intro elt
    simp only [validate_type]
    cases validate_type scope h elt <;> simp
  · intro keys values hl
    match keys, values with
    | [], _ => simp [validate_type]
    | _ :: _ :: _, _ => simp [validate_type]
    | [_], [] => simp [validate_type]
    | [_], _ :: _ :: _ => simp [validate_type]
    | [_], [_] => simp at hl
  · intro key value
    simp only [validate_type]
    cases validate_type scope h key with
    | crash => simp
    | fail d h1 => simp
    | ok K h1 =>
      cases hv : validate_type scope h1 value with
      | crash => simp [hv]
      | fail d h2 => simp [hv]
      | ok V h2 =>
        constructor
        · intro _
          exact ⟨K, h1, V, h2, rfl, hv⟩
        · intro _
          exact ⟨(GarterType_New h2 .GT_DICT (some (.tuple K V))).1,
            (GarterType_New h2 .GT_DICT (some (.tuple K V))).2, by simp only [hv]⟩
  · intro e h1 h2 h3
    cases e with
    | Name name => exact absurd rfl (h1 name)
    | List elts => exact absurd rfl (h2 elts)
    | Dict keys values => exact absurd rfl (h3 keys values)
    | _ => simp [validate_type]

/-- Witness for C21: the annotation `{str: [int]}` elaborates to a Dict from
str to List of int, as `parse_type` says. -/
theorem validate_type_eq_parse_type_witness :
    parse_type (.Dict [some (.Name "str")] [.List [.Name "int"]])
      = some (.dictOf .str (.listOf .int)) ∧
    ∃ T h2, validate_type (GarterScope_New none) []
        (.Dict [some (.Name "str")] [.List [.Name "int"]]) = .ok T h2 ∧
      GarterType_shape h2 T = some (.dictOf .str (.listOf .int)) :=
  ⟨by decide, (validate_type_eq_parse_type (GarterScope_New none) []).1
    (.Dict [some (.Name "str")] [.List [.Name "int"]])⟩

/-! ### C22: AugAssign -/

/-- C22.  The judgment of `t op= v` is the judgment of the Assign without
annotation whose single target is `t` and whose value is `BinOp(t, op, v)`:
the same outcome, diagnostic, scope and heap, at a statement root or not.  In
particular, when `x` is not bound in the scope, `x op= v` is rejected with
"Undefined identifier x", and the scope and the heap are as before. -/
theorem validate_stmt_AugAssign (scope : GarterScope) (h : Heap) (sroot : Bool)
    (t : expr) (op : operator) (v : expr) :
    validate_stmt scope h sroot (.AugAssign t op v)
      = validate_stmt scope h sroot (.Assign [t] (.BinOp t op v) none) ∧
    validate_stmt scope h sroot (.AugAssign t op v)
      = validate_assign_stmt scope h [t] (.BinOp t op v) none sroot ∧
    ∀ x, PyDict_GetItem (GarterScope_Items scope) x = none →
      validate_stmt scope h sroot (.AugAssign (.Name x) op v)
        = .fail (.Undefined x) scope h := by
  refine ⟨by simp only [validate_stmt], by simp only [validate_stmt], ?_⟩
  intro x hx
  simp only [validate_stmt, validate_assign_stmt, validate_expr, hx,
    validate_binop_expr]

/-- Witness for C22: on a new global scope `x += 1` is rejected with
"Undefined identifier x", as the Assign `x = x + 1` is. -/
theorem validate_stmt_AugAssign_witness :
    validate_stmt (GarterScope_New none) [] true
        (.AugAssign (.Name "x") .Add (int_lit 1))
      = .fail (.Undefined "x") (GarterScope_New none) [] ∧
    validate_stmt (GarterScope_New none) [] true
        (.Assign [.Name "x"] (.BinOp (.Name "x") .Add (int_lit 1)) none)
      = .fail (.Undefined "x") (GarterScope_New none) [] ∧
    validate_stmt scope_x_int [] true (.AugAssign (.Name "x") .Add (int_lit 1))
      = .ok scope_x_int [] :=
  ⟨(validate_stmt_AugAssign (GarterScope_New none) [] true (.Name "x") .Add
      (int_lit 1)).2.2 "x" rfl, rfl, rfl⟩

/-! ### C24: name resolution -/

/-- Counterexample to C24 as stated: in a scope node without bindings whose
parent binds `x` to int, the judgment of `Name(x)` fails with "Undefined
identifier x"; the parent is not consulted. -/
theorem validate_expr_Name_ignores_parent :
    GarterScope_Up scope_under_x_int = some scope_x_int ∧
    PyDict_GetItem (GarterScope_Items scope_x_int) "x" = some GarterType_INT ∧
    PyDict_GetItem (GarterScope_Items scope_under_x_int) "x" = none ∧
    validate_expr scope_under_x_int [] (.Name "x") = .fail (.Undefined "x") [] :=
  ⟨rfl, rfl, rfl, rfl⟩

/-- C24, amended.  The judgment of `Name(x)` consults the bindings of the
current scope node only: it succeeds with the type bound there when `x` is
bound in that node, and fails with "Undefined identifier x" when it is not,
whatever the parent of the node is or binds; and a scope on which
`Garter_Validate` returns has no parent. -/
theorem validate_expr_Name_current_node (scope : GarterScope) (h : Heap)
    (x : String) :
    (∀ T, PyDict_GetItem (GarterScope_Items scope) x = some T →
      validate_expr scope h (.Name x) = .ok T h) ∧
    (PyDict_GetItem (GarterScope_Items scope) x = none →
      validate_expr scope h (.Name x) = .fail (.Undefined x) h) ∧
    (∀ up items filename,
      validate_expr (.mk up items filename) h (.Name x)
        = validate_expr (.mk none items filename) h (.Name x)) ∧
    (∀ m fname out, Garter_Validate m (.Unicode fname) (.Scope scope) h = some out →
      GarterScope_Up scope = none) := by
  refine ⟨?_, ?_, ?_, ?_⟩
  · intro T hT
    simp only [validate_expr, hT]
  · intro hx
    simp only [validate_expr, hx]
  · intro up items filename
    simp only [validate_expr, GarterScope_Items]
  · intro m fname out hv
    unfold Garter_Validate at hv
    dsimp only at hv
    cases hu : GarterScope_Up scope with
    | none => rfl
    | some up =>
      simp [GarterScope_ValidationBegin, hu] at hv

/-- Witness for C24: `x` judges to int in the scope binding it, and is
undefined in a node under that scope. -/
theorem validate_expr_Name_current_node_witness :
    validate_expr scope_x_int [] (.Name "x") = .ok GarterType_INT [] ∧
    validate_expr scope_under_x_int [] (.Name "x") = .fail (.Undefined "x") [] :=
  ⟨(validate_expr_Name_current_node scope_x_int [] "x").1 GarterType_INT rfl,
    (validate_expr_Name_current_node scope_under_x_int [] "x").2.1 rfl⟩

/-! ### C25: a failing element of a list literal -/

/-- When the element type is set and the judgment of the next element fails,
the loop of `validate_list_expr` hands the NULL result to `GarterType_Equal`,
which dereferences it. -/
theorem validate_list_expr_loop_fail_crash (scope : GarterScope) (h : Heap)
    (et : TypePtr) (i : Nat) (e : expr) (rest : List expr) (d : Diag) (h1 : Heap)
    (hf : validate_expr scope h e = .fail d h1) :
    validate_list_expr_loop scope h (some et) i (e :: rest) = .crash := by
  unfold validate_list_expr_loop
  simp only [hf]

/-- When the judgment of the first element of a list literal fails, the
literal fails with that diagnostic. -/
theorem validate_list_expr_first_fail (scope : GarterScope) (h : Heap)
    (e : expr) (rest : List expr) (d : Diag) (h1 : Heap)
    (hf : validate_expr scope h e = .fail d h1) :
    validate_expr scope h (.List (e :: rest)) = .fail d h1 := by
  simp only [validate_expr]
  unfold validate_list_expr_loop
  simp only [hf, validate_list_expr]

/-- C25, the failing input.  On a new global scope the judgment of `y` fails
with "Undefined identifier y"; the literal `[y, 1]` fails with that
diagnostic, but the judgment of `[1, y]` does not return: the NULL result of
the second element is handed to `GarterType_Equal`. -/
theorem validate_list_expr_later_failure_crashes :
    validate_expr (GarterScope_New none) [] (.Name "y")
      = .fail (.Undefined "y") [] ∧
    validate_expr (GarterScope_New none) [] (.List [.Name "y", int_lit 1])
      = .fail (.Undefined "y") [] ∧
    validate_expr (GarterScope_New none) [] (.List [int_lit 1, .Name "y"])
      = .crash ∧
    Garter_Validate (.Expression (.List [int_lit 1, .Name "y"])) (.Unicode "f")
      Garter_NewGlobalScope [] = none :=
  ⟨rfl, rfl, rfl, rfl⟩

/-! ### C26: the target of a re-assignment -/

/-- Counterexample to C26 as stated: with `a` and `b` bound to int, the
assignment `[a, b] = [1, 2]`, whose single target is a List expression and
which has no annotation, is accepted, and the bindings are as before. -/
theorem validate_assign_stmt_list_target_accepted :
    validate_stmt scope_a_b_int [] true
        (.Assign [.List [.Name "a", .Name "b"]] (.List [int_lit 1, int_lit 2]) none)
      = .ok scope_a_b_int
          [⟨.GT_LIST, some (.type .INT)⟩, ⟨.GT_LIST, some (.type .INT)⟩] :=
  rfl

/-- C26, amended.  The target of an Assign without annotation is judged as an
expression, whatever its form: the statement is accepted exactly when the
value judges to some `V`, the target then judges to some `T`, and
`GarterType_Equal(T, V)` returns true, and the scope is then as before; when
the judgment of the target fails the statement fails with that diagnostic,
and when `GarterType_Equal(T, V)` returns false it fails with "Incorrect type
in assignment". -/
theorem validate_assign_stmt_target_expr (scope : GarterScope) (h : Heap)
    (target value : expr) (groot : Bool) :
    (∀ scope2 h3,
      validate_assign_stmt scope h [target] value none groot = .ok scope2 h3 ↔
      scope2 = scope ∧ ∃ V h1 T h2, validate_expr scope h value = .ok V h1 ∧
        validate_expr scope h1 target = .ok T h2 ∧
        GarterType_Equal h2 T V = some (true, h3)) ∧
    (∀ V h1 d h2, validate_expr scope h value = .ok V h1 →
      validate_expr scope h1 target = .fail d h2 →
      validate_assign_stmt scope h [target] value none groot = .fail d scope h2) ∧
    (∀ V h1 T h2 h3, validate_expr scope h value = .ok V h1 →
      validate_expr scope h1 target = .ok T h2 →
      GarterType_Equal h2 T V = some (false, h3) →
      validate_assign_stmt scope h [target] value none groot
        = .fail .TypeMismatch scope h3) := by
  refine ⟨?_, ?_, ?_⟩
  · intro scope2 h3
    constructor
    · intro hok
      simp only [validate_assign_stmt] at hok
      cases hv : validate_expr scope h value with
      | crash => simp [hv] at hok
      | fail d h1 => simp [hv] at hok
      | ok V h1 =>
        simp only [hv] at hok
        cases ht : validate_expr scope h1 target with
        | crash => simp [ht] at hok
        | fail d h2 => simp [ht] at hok
        | ok T h2 =>
          simp only [ht] at hok
          cases he : GarterType_Equal h2 T V with
          | none => simp [he] at hok
          | some p =>
            obtain ⟨b, h4⟩ := p
            cases b
            · simp [he] at hok
            · simp only [he, StmtRes.ok.injEq] at hok
              obtain ⟨rfl, rfl⟩ := hok
              exact ⟨rfl, V, h1, T, h2, rfl, ht, he⟩
    · rintro ⟨rfl, V, h1, T, h2, hv, ht, he⟩
      simp only [validate_assign_stmt, hv, ht, he]
  · intro V h1 d h2 hv ht
    simp only [validate_assign_stmt, hv, ht]
  · intro V h1 T h2 h3 hv ht he
    simp only [validate_assign_stmt, hv, ht, he]

/-- Witness for C26: with `a` and `b` bound to int, `[a, b] = [1, 2]` is
accepted, and `[a, b] = [1.0]` is rejected with "Incorrect type in
assignment". -/
theorem validate_assign_stmt_target_expr_witness :
    (validate_assign_stmt scope_a_b_int [] [.List [.Name "a", .Name "b"]]
        (.List [int_lit 1, int_lit 2]) none true
      = .ok scope_a_b_int
          [⟨.GT_LIST, some (.type .INT)⟩, ⟨.GT_LIST, some (.type .INT)⟩]) ∧
    (validate_assign_stmt scope_a_b_int [] [.List [.Name "a", .Name "b"]]
        (.List [float_lit]) none true
      = .fail .TypeMismatch scope_a_b_int
          [⟨.GT_LIST, some (.type .FLOAT)⟩, ⟨.GT_LIST, some (.type .INT)⟩]) :=
  ⟨((validate_assign_stmt_target_expr scope_a_b_int []
      (.List [.Name "a", .Name "b"]) (.List [int_lit 1, int_lit 2]) true).1 _ _).2
      ⟨rfl, .obj 0, [⟨.GT_LIST, some (.type .INT)⟩], .obj 1,
        [⟨.GT_LIST, some (.type .INT)⟩, ⟨.GT_LIST, some (.type .INT)⟩],
        rfl, rfl, rfl⟩,
    (validate_assign_stmt_target_expr scope_a_b_int []
      (.List [.Name "a", .Name "b"]) (.List [float_lit]) true).2.2
      (.obj 0) [⟨.GT_LIST, some (.type .FLOAT)⟩] (.obj 1)
      [⟨.GT_LIST, some (.type .FLOAT)⟩, ⟨.GT_LIST, some (.type .INT)⟩] _
      rfl rfl rfl⟩

/-! ### C27: a declaration away from a statement root -/

/-- Counterexample to C27 as stated.  Judged away from a statement root, with
a valid right-hand side and a valid annotation: the declaration `x : int = 4`
of the bound name `x` fails with "Variable with name x has already been
defined", the declaration `[x] : int = 4` fails with the diagnostic for a
complex left-hand side, and the declaration `y : int = 1` of the unbound name
`y` fails with "Declarations must occur at the global level or in function
roots" and leaves `y` bound in the scope. -/
theorem validate_assign_stmt_non_root_examples :
    validate_stmt scope_x_int [] false (decl_stmt "x" (.Name "int") (int_lit 4))
      = .fail (.Redeclared "x") scope_x_int [] ∧
    validate_stmt scope_x_int [] false
        (.Assign [.List [.Name "x"]] (int_lit 4) (some (.Name "int")))
      = .fail .ComplexLHS scope_x_int [] ∧
    validate_stmt scope_x_int [] false (decl_stmt "y" (.Name "int") (int_lit 1))
      = .fail .DeclInNonRoot
          (.mk none [("x", GarterType_INT), ("y", GarterType_INT)] none) [] ∧
    GarterScope_Items (.mk none [("x", GarterType_INT), ("y", GarterType_INT)] none)
      ≠ GarterScope_Items scope_x_int :=
  ⟨rfl, rfl, rfl, by decide⟩

/-- C27, amended.  In the Assign rule the declaration target is examined
before the statement-root requirement.  For a declaration judged away from a
statement root whose right-hand side judges to `V`, whose annotation is the
ellipsis or elaborates, giving the declared type `T`, and whose declared type
is complete: when the target is a name bound in the scope node the statement
fails with "Variable with name x has already been defined" and the scope is
as before; when the target is not a name it fails with the diagnostic for a
complex left-hand side and the scope is as before; when the target is an
unbound name `x` it fails with "Declarations must occur at the global level
or in function roots", and the scope it leaves has the previous bindings
followed by `x` bound to `T`. -/
theorem validate_assign_stmt_non_root (scope : GarterScope) (h : Heap)
    (target value type : expr) (V : TypePtr) (h1 : Heap) (T : TypePtr) (h2 : Heap)
    (hV : validate_expr scope h value = .ok V h1)
    (hT : validate_assign_stmt_target_type scope h1 type V = .ok T h2)
    (hC : GarterType_IsComplete h2 (some T) = some true) :
    (∀ x T0, target = .Name x →
      PyDict_GetItem (GarterScope_Items scope) x = some T0 →
      validate_assign_stmt scope h [target] value (some type) false
        = .fail (.Redeclared x) scope h2) ∧
    ((∀ x, target ≠ .Name x) →
      validate_assign_stmt scope h [target] value (some type) false
        = .fail .ComplexLHS scope h2) ∧
    (∀ x, target = .Name x →
      PyDict_GetItem (GarterScope_Items scope) x = none →
      validate_assign_stmt scope h [target] value (some type) false
        = .fail .DeclInNonRoot
            (scope.setItems (GarterScope_Items scope ++ [(x, T)])) h2 ∧
      GarterScope_Items (scope.setItems (GarterScope_Items scope ++ [(x, T)]))
        = GarterScope_Items scope ++ [(x, T)]) := by
  refine ⟨?_, ?_, ?_⟩
  · intro x T0 ht hx
    subst ht
    simp only [validate_assign_stmt, hV, hT, hC,
      validate_decl_target_bound scope h2 x T (PyDict_Contains_of_GetItem_some _ _ _ hx)]
  · intro hn
    simp only [validate_assign_stmt, hV, hT, hC]
    cases target with
    | Name x => exact absurd rfl (hn x)
    | _ => simp [validate_decl_target]
  · intro x ht hx
    subst ht
    refine ⟨?_, GarterScope_Items_setItems _ _⟩
    simp only [validate_assign_stmt, hV, hT, hC,
      validate_decl_target_unbound scope h2 x T (PyDict_Contains_of_GetItem_none _ _ hx),
      Bool.not_false, ↓reduceIte]

/-- Witness for C27: away from a statement root, on the scope binding `x` to
int, `y : int = 1` fails with "Declarations must occur at the global level or
in function roots" and leaves `y` bound; `Garter_Validate` on the program
`if True: y : int = 1` returns 0 with that diagnostic and the bindings as they
were. -/
theorem validate_assign_stmt_non_root_witness :
    (validate_assign_stmt scope_x_int [] [.Name "y"] (int_lit 1) (some (.Name "int"))
        false
      = .fail .DeclInNonRoot
          (scope_x_int.setItems (GarterScope_Items scope_x_int ++ [("y", GarterType_INT)]))
          []) ∧
    Garter_Validate
        (.Module [.If (.NameConstant .Py_True)
          [decl_stmt "y" (.Name "int") (int_lit 1)] []])
        (.Unicode "f") (.Scope scope_x_int) []
      = some ⟨false, some .DeclInNonRoot, .Scope scope_x_int, []⟩ :=
  ⟨((validate_assign_stmt_non_root scope_x_int [] (.Name "y") (int_lit 1)
      (.Name "int") GarterType_INT [] GarterType_INT [] rfl rfl rfl).2.2 "y" rfl
      rfl).1, rfl⟩

/-! ### C28: `GarterType_Equal` on complete types -/

theorem Shape_same_iff : ∀ (s t : Shape), Shape.same s t = true ↔ s = t := by
  intro s
  induction s with
  | listOf elt ih =>
    intro t
    cases t <;> simp [Shape.same, ih]
  | dictOf key value ihk ihv =>
    intro t
    cases t <;> simp [Shape.same, ihk, ihv]
  | _ =>
    intro t
    cases t <;> simp [Shape.same]

/-- C28.  On two types for which `GarterType_IsComplete` is true,
`GarterType_Equal` returns, its verdict is structural equality of the two
structures (the same tag and recursively identical payloads), and the heap is
left as it is, so neither side is changed.  Two types of different kinds
compare false without any change, complete or not. -/
theorem GarterType_Equal_structural (h : Heap) (a b : TypePtr)
    (hca : GarterType_IsComplete h (some a) = some true)
    (hcb : GarterType_IsComplete h (some b) = some true) :
    (∃ sa sb, GarterType_shape h a = some sa ∧ GarterType_shape h b = some sb ∧
      GarterType_Equal h a b = some (Shape.same sa sb, h) ∧
      (Shape.same sa sb = true ↔ sa = sb) ∧
      (GarterType_Equal h a b = some (true, h) ↔
        GarterType_shape h a = GarterType_shape h b)) ∧
    ∀ (g : Heap) (p q : TypePtr) (kp kq : GarterTypeKind),
      GarterType_Kind g p = some kp → GarterType_Kind g q = some kq → kp ≠ kq →
      GarterType_Equal g p q = some (false, g) := by
  constructor
  · obtain ⟨_, sa, hsa, _⟩ := GarterType_shape_grows (Heap.grows_refl h) a hca
    obtain ⟨_, sb, hsb, _⟩ := GarterType_shape_grows (Heap.grows_refl h) b hcb
    have he := GarterType_Equal_complete h a b hca hcb
    refine ⟨sa, sb, hsa, hsb, ?_, Shape_same_iff sa sb, ?_⟩
    · rw [he, hsa, hsb]
      by_cases e : sa = sb
      · simp [e, (Shape_same_iff sb sb).2 rfl]
      · have : Shape.same sa sb = false := by
          cases hss : Shape.same sa sb with
          | false => rfl
          | true => exact absurd ((Shape_same_iff sa sb).1 hss) e
        simp [e, this]
    · rw [he]
      simp
  · intro g p q kp kq hp hq hne
    unfold GarterType_Kind at hp hq
    cases hdp : g.deref p with
    | none => simp [hdp] at hp
    | some op =>
      cases hdq : g.deref q with
      | none => simp [hdq] at hq
      | some oq =>
        simp only [hdp, hdq, Option.map_some', Option.some.injEq] at hp hq
        have hpq : p ≠ q := by
          rintro rfl
          rw [hdp] at hdq
          cases hdq
          exact hne (hp.symm.trans hq)
        have hk : op.kind ≠ oq.kind := by
          rw [hp, hq]
          exact hne
        simp [GarterType_Equal, GarterType_Equal_fuel, hpq, hdp, hdq, hk]

/-- Witness for C28: a List of int compared with another List of int object is
equal, compared with a List of str it is not, and the heap is unchanged. -/
theorem GarterType_Equal_structural_witness :
    GarterType_Equal
        [⟨.GT_LIST, some (.type .INT)⟩, ⟨.GT_LIST, some (.type .INT)⟩,
          ⟨.GT_LIST, some (.type .STR)⟩] (.obj 0) (.obj 1)
      = some (true, [⟨.GT_LIST, some (.type .INT)⟩, ⟨.GT_LIST, some (.type .INT)⟩,
          ⟨.GT_LIST, some (.type .STR)⟩]) ∧
    GarterType_Equal
        [⟨.GT_LIST, some (.type .INT)⟩, ⟨.GT_LIST, some (.type .INT)⟩,
          ⟨.GT_LIST, some (.type .STR)⟩] (.obj 0) (.obj 2)
      = some (false, [⟨.GT_LIST, some (.type .INT)⟩, ⟨.GT_LIST, some (.type .INT)⟩,
          ⟨.GT_LIST, some (.type .STR)⟩]) ∧
    ∃ sa sb,
      GarterType_shape
        [⟨.GT_LIST, some (.type .INT)⟩, ⟨.GT_LIST, some (.type .INT)⟩,
          ⟨.GT_LIST, some (.type .STR)⟩] (.obj 0) = some sa ∧
      GarterType_shape
        [⟨.GT_LIST, some (.type .INT)⟩, ⟨.GT_LIST, some (.type .INT)⟩,
          ⟨.GT_LIST, some (.type .STR)⟩] (.obj 2) = some sb ∧
      GarterType_Equal
        [⟨.GT_LIST, some (.type .INT)⟩, ⟨.GT_LIST, some (.type .INT)⟩,
          ⟨.GT_LIST, some (.type .STR)⟩] (.obj 0) (.obj 2)
        = some (Shape.same sa sb,
          [⟨.GT_LIST, some (.type .INT)⟩, ⟨.GT_LIST, some (.type .INT)⟩,
            ⟨.GT_LIST, some (.type .STR)⟩]) := by
  refine ⟨rfl, rfl, ?_⟩
  obtain ⟨sa, sb, h1, h2, h3, _⟩ := (GarterType_Equal_structural
    [⟨.GT_LIST, some (.type .INT)⟩, ⟨.GT_LIST, some (.type .INT)⟩,
      ⟨.GT_LIST, some (.type .STR)⟩] (.obj 0) (.obj 2) rfl rfl).1
  exact ⟨sa, sb, h1, h2, h3⟩

/-! ### C29: annotations give complete types -/

theorem validate_unaryop_expr_no_fail (op : unaryop) (operand_type : Res TypePtr)
    (hp : operand_type.no_fail .IncompleteType) :
    (validate_unaryop_expr op operand_type).no_fail .IncompleteType := by
  unfold validate_unaryop_expr
  cases operand_type with
  | crash => trivial
  | fail d h1 => exact hp
  | ok t h1 =>
    dsimp only
    cases GarterType_Kind h1 t with
    | none => trivial
    | some k =>
      dsimp only
      cases op <;> dsimp only <;> split_ifs <;> simp [Res.no_fail]

theorem validate_binop_expr_no_fail (lhs_type : Res TypePtr) (op : operator)
    (rhs : Heap → Res TypePtr) (hl : lhs_type.no_fail .IncompleteType)
    (hr : ∀ h1, (rhs h1).no_fail .IncompleteType) :
    (validate_binop_expr lhs_type op rhs).no_fail .IncompleteType := by
  unfold validate_binop_expr
  cases lhs_type with
  | crash => trivial
  | fail d h1 => exact hl
  | ok lt h1 =>
    dsimp only
    have hr1 := hr h1
    cases hrr : rhs h1 with
    | crash => trivial
    | fail d h2 =>
      rw [hrr] at hr1
      exact hr1
    | ok rt h2 =>
      dsimp only
      cases GarterType_Kind h2 lt with
      | none => trivial
      | some lk =>
        cases GarterType_Kind h2 rt with
        | none => trivial
        | some rk =>
          dsimp only
          cases op <;> dsimp only <;> (try split_ifs) <;>
            (try simp [Res.no_fail])
          cases he : GarterType_Equal h2 lt rt with
          | none => trivial
          | some p =>
            obtain ⟨b, h3⟩ := p
            cases b <;> simp [Res.no_fail]

theorem validate_if_expr_no_fail (test : Res TypePtr)
    (body : Heap → Res TypePtr) (orelse : Option (Heap → Res TypePtr))
    (ht : test.no_fail .IncompleteType)
    (hb : ∀ h1, (body h1).no_fail .IncompleteType)
    (ho : ∀ f, orelse = some f → ∀ h1, (f h1).no_fail .IncompleteType) :
    (validate_if_expr test body orelse).no_fail .IncompleteType := by
  unfold validate_if_expr
  cases test with
  | crash => trivial
  | fail d h1 => exact ht
  | ok t h1 =>
    dsimp only
    cases GarterType_Kind h1 t with
    | none => trivial
    | some k =>
      dsimp only
      split_ifs
      · simp [Res.no_fail]
      · have hb1 := hb h1
        cases hbb : body h1 with
        | crash => trivial
        | fail d h2 =>
          rw [hbb] at hb1
          exact hb1
        | ok bt h2 =>
          dsimp only
          cases orelse with
          | none => trivial
          | some f =>
            dsimp only
            have ho1 := ho f rfl h2
            cases hoo : f h2 with
            | crash => trivial
            | fail d h3 =>
              rw [hoo] at ho1
              exact ho1
            | ok ot h3 =>
              dsimp only
              cases he : GarterType_Equal h3 bt ot with
              | none => trivial
              | some p =>
                obtain ⟨b, h4⟩ := p
                cases b <;> simp [Res.no_fail]

theorem validate_list_expr_no_fail (loop : Res (Option TypePtr))
    (hl : loop.no_fail .IncompleteType) :
    (validate_list_expr loop).no_fail .IncompleteType := by
  unfold validate_list_expr
  cases loop with
  | crash => trivial
  | fail d h1 => exact hl
  | ok t h1 => trivial

mutual
/-- No expression judgment fails with "Incomplete type in declaration". -/
theorem validate_expr_no_fail (scope : GarterScope) :
    ∀ (e : expr) (h : Heap),
      (validate_expr scope h e).no_fail .IncompleteType
  | .Num n, h => by
    cases n <;> simp [validate_expr, Res.no_fail]
  | .JoinedStr, h => trivial
  | .Str, h => trivial
  | .Name name, h => by
    unfold validate_expr
    split <;> simp [Res.no_fail]
  | .BoolOp _ values, h => by
    have ih := validate_expr_BoolOp_loop_no_fail scope values h
    unfold validate_expr
    cases hr : validate_expr_BoolOp_loop scope h values with
    | crash => trivial
    | fail d h1 => rw [hr] at ih; exact ih
    | ok u h1 => trivial
  | .NameConstant value, h => by
    unfold validate_expr
    split_ifs <;> simp [Res.no_fail]
  | .List elts, h => by
    unfold validate_expr
    exact validate_list_expr_no_fail _ (validate_list_expr_loop_no_fail scope elts h none 0)
  | .Dict _ _, h => by simp [validate_expr, validate_dict_expr, Res.no_fail]
  | .BinOp left op right, h => by
    unfold validate_expr
    exact validate_binop_expr_no_fail _ op _ (validate_expr_no_fail scope left h)
      (fun h1 => validate_expr_no_fail scope right h1)
  | .UnaryOp op operand, h => by
    unfold validate_expr
    exact validate_unaryop_expr_no_fail op _ (validate_expr_no_fail scope operand h)
  | .IfExp test body none, h => by
    unfold validate_expr
    exact validate_if_expr_no_fail _ _ none (validate_expr_no_fail scope test h)
      (fun h1 => validate_expr_no_fail scope body h1) (by simp)
  | .IfExp test body (some orelse), h => by
    unfold validate_expr
    refine validate_if_expr_no_fail _ _ _ (validate_expr_no_fail scope test h)
      (fun h1 => validate_expr_no_fail scope body h1) ?_
    intro f hf h1
    cases hf
    exact validate_expr_no_fail scope orelse h1
  | .Ellipsis, h => by simp [validate_expr, Res.no_fail]
  | .Other _, h => by simp [validate_expr, Res.no_fail]
theorem validate_expr_BoolOp_loop_no_fail (scope : GarterScope) :
    ∀ (values : List expr) (h : Heap),
      (validate_expr_BoolOp_loop scope h values).no_fail .IncompleteType
  | [], h => trivial
  | operand :: rest, h => by
    have ih := validate_expr_no_fail scope operand h
    unfold validate_expr_BoolOp_loop
    cases hr : validate_expr scope h operand with
    | crash => trivial
    | fail d h1 => rw [hr] at ih; exact ih
    | ok ty h1 =>
      dsimp only
      cases GarterType_Kind h1 ty with
      | none => trivial
      | some k =>
        dsimp only
        split_ifs
        · simp [Res.no_fail]
        · exact validate_expr_BoolOp_loop_no_fail scope rest h1
theorem validate_list_expr_loop_no_fail (scope : GarterScope) :
    ∀ (elts : List expr) (h : Heap) (elt_type : Option TypePtr) (i : Nat),
      (validate_list_expr_loop scope h elt_type i elts).no_fail .IncompleteType
  | [], h, _, _ => trivial
  | elt :: rest, h, elt_type, i => by
    have ih := validate_expr_no_fail scope elt h
    unfold validate_list_expr_loop
    cases elt_type with
    | none =>
      dsimp only
      cases hr : validate_expr scope h elt with
      | crash => trivial
      | fail d h1 => rw [hr] at ih; exact ih
      | ok ty h1 =>
        exact validate_list_expr_loop_no_fail scope rest h1 (some ty) (i + 1)
    | some et =>
      dsimp only
      cases hr : validate_expr scope h elt with
      | crash => trivial
      | fail d h1 => trivial
      | ok ty h1 =>
        dsimp only
        cases he : GarterType_Equal h1 ty et with
        | none => trivial
        | some p =>
          obtain ⟨b, h2⟩ := p
          cases b
          · simp [Res.no_fail]
          · exact validate_list_expr_loop_no_fail scope rest h2 (some et) (i + 1)
end

/-- `validate_type` does not fail with "Incomplete type in declaration". -/
theorem validate_type_no_fail (scope : GarterScope) :
    ∀ (e : expr) (h : Heap), (validate_type scope h e).no_fail .IncompleteType
  | .Name name, h => by
    unfold validate_type
    split_ifs <;> simp [Res.no_fail]
  | .List elts, h => by
    match elts with
    | [] => simp [validate_type, Res.no_fail]
    | _ :: _ :: _ => simp [validate_type, Res.no_fail]
    | [elt] =>
      have ih := validate_type_no_fail scope elt h
      unfold validate_type
      cases hr : validate_type scope h elt with
      | crash => trivial
      | fail d h1 => rw [hr] at ih; exact ih
      | ok meta h1 => trivial
  | .Dict keys values, h => by
    match keys, values with
    | [], _ => simp [validate_type, Res.no_fail]
    | _ :: _ :: _, _ => simp [validate_type, Res.no_fail]
    | [_], [] => simp [validate_type, Res.no_fail]
    | [_], _ :: _ :: _ => simp [validate_type, Res.no_fail]
    | [none], [_] => simp [validate_type, Res.no_fail]
    | [some key], [value] =>
      have ihk := validate_type_no_fail scope key h
      simp only [validate_type]
      cases hr : validate_type scope h key with
      | crash => trivial
      | fail d h1 => rw [hr] at ihk; exact ihk
      | ok key_type h1 =>
        have ihv := validate_type_no_fail scope value h1
        dsimp only
        cases hr2 : validate_type scope h1 value with
        | crash => trivial
        | fail d h2 => rw [hr2] at ihv; exact ihv
        | ok value_type h2 => trivial
  | .BoolOp _ _, h => by simp [validate_type, Res.no_fail]
  | .BinOp _ _ _, h => by simp [validate_type, Res.no_fail]
  | .UnaryOp _ _, h => by simp [validate_type, Res.no_fail]
  | .IfExp _ _ _, h => by simp [validate_type, Res.no_fail]
  | .Num _, h => by simp [validate_type, Res.no_fail]
  | .Str, h => by simp [validate_type, Res.no_fail]
  | .JoinedStr, h => by simp [validate_type, Res.no_fail]
  | .NameConstant _, h => by simp [validate_type, Res.no_fail]
  | .Ellipsis, h => by simp [validate_type, Res.no_fail]
  | .Other _, h => by simp [validate_type, Res.no_fail]

/-- C29.  Every type returned by `validate_type` is complete.  Hence an
assignment statement that fails with "Incomplete type in declaration" has the
ellipsis as its annotation: with any other annotation, or with none, the
statement does not fail with that diagnostic. -/
theorem validate_type_complete (scope : GarterScope) (h : Heap) :
    (∀ e T h2, validate_type scope h e = .ok T h2 →
      GarterType_IsComplete h2 (some T) = some true) ∧
    (∀ targets value type groot scope2 h2,
      validate_assign_stmt scope h targets value type groot
        = .fail .IncompleteType scope2 h2 →
      type = some .Ellipsis) ∧
    (∀ targets value ann groot scope2 h2, ann ≠ .Ellipsis →
      validate_assign_stmt scope h targets value (some ann) groot
        ≠ .fail .IncompleteType scope2 h2) := by
  have key : ∀ targets value type groot scope2 h2,
      validate_assign_stmt scope h targets value type groot
        = .fail .IncompleteType scope2 h2 →
      type = some .Ellipsis := by
    intro targets value type groot scope2 h2 hf
    unfold validate_assign_stmt at hf
    match targets with
    | [] => simp at hf
    | _ :: _ :: _ => simp at hf
    | [target] =>
      dsimp only at hf
      have hnv := validate_expr_no_fail scope value h
      cases hv : validate_expr scope h value with
      | crash => simp [hv] at hf
      | fail d h1 =>
        rw [hv] at hnv
        simp only [hv, StmtRes.fail.injEq] at hf
        exact absurd hf.1 hnv
      | ok V h1 =>
        simp only [hv] at hf
        cases type with
        | none =>
          dsimp only at hf
          have hnt := validate_expr_no_fail scope target h1
          cases ht : validate_expr scope h1 target with
          | crash => simp [ht] at hf
          | fail d h3 =>
            rw [ht] at hnt
            simp only [ht, StmtRes.fail.injEq] at hf
            exact absurd hf.1 hnt
          | ok T h3 =>
            simp only [ht] at hf
            cases he : GarterType_Equal h3 T V with
            | none => simp [he] at hf
            | some p =>
              obtain ⟨b, h4⟩ := p
              cases b <;> simp [he] at hf
        | some ann =>
          by_cases ha : ann = .Ellipsis
          · rw [ha]
          exfalso
          dsimp only at hf
          have htt : validate_assign_stmt_target_type scope h1 ann V
              = validate_type scope h1 ann := by
            unfold validate_assign_stmt_target_type
            split
            · exact absurd rfl ha
            · rfl
          rw [htt] at hf
          have hnt := validate_type_no_fail scope ann h1
          cases ht : validate_type scope h1 ann with
          | crash => simp [ht] at hf
          | fail d h3 =>
            rw [ht] at hnt
            simp only [ht, StmtRes.fail.injEq] at hf
            exact absurd hf.1 hnt
          | ok T h3 =>
            simp only [ht, validate_type_IsComplete scope h1 ann T h3 ht] at hf
            cases target with
            | Name x =>
              simp only [validate_decl_target] at hf
              by_cases hc : PyDict_Contains (GarterScope_Items scope) x = true
              · simp [hc] at hf
              · cases groot
                · simp [hc] at hf
                · simp only [hc, Bool.false_eq_true, ↓reduceIte, Bool.not_true] at hf
                  cases he : GarterType_Equal h3 T V with
                  | none => simp [he] at hf
                  | some p =>
                    obtain ⟨b, h4⟩ := p
                    cases b <;> simp [he] at hf
            | _ => simp [validate_decl_target] at hf
  refine ⟨fun e T h2 hT => validate_type_IsComplete scope h e T h2 hT, key, ?_⟩
  intro targets value ann groot scope2 h2 ha hf
  have := key targets value (some ann) groot scope2 h2 hf
  simp only [Option.some.injEq] at this
  exact ha this

/-- Witness for C29: the annotation `[[int]]` elaborates to a complete type;
`xs : [int] = []` is accepted, while `xs : ... = []` fails with "Incomplete
type in declaration". -/
theorem validate_type_complete_witness :
    GarterType_IsComplete
        [⟨.GT_LIST, some (.type .INT)⟩, ⟨.GT_LIST, some (.type (.obj 0))⟩]
        (some (.obj 1)) = some true ∧
    validate_assign_stmt (GarterScope_New none) [] [.Name "xs"] (.List [])
        (some .Ellipsis) true
      = .fail .IncompleteType (GarterScope_New none) [⟨.GT_LIST, none⟩] ∧
    (some expr.Ellipsis = some .Ellipsis) :=
  ⟨(validate_type_complete (GarterScope_New none) []).1
      (.List [.List [.Name "int"]]) (.obj 1)
      [⟨.GT_LIST, some (.type .INT)⟩, ⟨.GT_LIST, some (.type (.obj 0))⟩] rfl,
    rfl,
    (validate_type_complete (GarterScope_New none) []).2.1 [.Name "xs"] (.List [])
      (some .Ellipsis) true (GarterScope_New none) [⟨.GT_LIST, none⟩] rfl⟩

/-! ### C23: the If statement -/

/-- Away from a statement root an Assign carrying an annotation is never
accepted. -/
theorem validate_assign_stmt_non_root_not_ok (scope : GarterScope) (h : Heap)
    (targets : List expr) (value ann : expr) (scope2 : GarterScope) (h2 : Heap) :
    validate_assign_stmt scope h targets value (some ann) false ≠ .ok scope2 h2 := by
  unfold validate_assign_stmt
  match targets with
  | [] => simp
  | _ :: _ :: _ => simp
  | [target] =>
    dsimp only
    cases validate_expr scope h value with
    | crash => simp
    | fail d h1 => simp
    | ok V h1 =>
      dsimp only
      cases validate_assign_stmt_target_type scope h1 ann V with
      | crash => simp
      | fail d h3 => simp
      | ok T h3 =>
        dsimp only
        cases GarterType_IsComplete h3 (some T) with
        | none => simp
        | some b =>
          cases b
          · simp
          · dsimp only
            cases validate_decl_target scope h3 target T with
            | crash => simp
            | fail d s4 h4 => simp
            | ok s4 h4 => simp

/-- Away from a statement root, a declaration whose right-hand side judges
successfully, whose annotation is the ellipsis or elaborates, and whose
declared type is complete, fails, with one of three diagnostics. -/
theorem validate_assign_stmt_non_root_fails (scope : GarterScope) (h : Heap)
    (target value ann : expr) (V : TypePtr) (h1 : Heap) (T : TypePtr) (h2 : Heap)
    (hV : validate_expr scope h value = .ok V h1)
    (hT : validate_assign_stmt_target_type scope h1 ann V = .ok T h2)
    (hC : GarterType_IsComplete h2 (some T) = some true) :
    ∃ d scope2, validate_assign_stmt scope h [target] value (some ann) false
        = .fail d scope2 h2 ∧
      (d = .DeclInNonRoot ∨ d = .ComplexLHS ∨ ∃ x, d = .Redeclared x) := by
  simp only [validate_assign_stmt, hV, hT, hC]
  cases target with
  | Name x =>
    simp only [validate_decl_target]
    by_cases hc : PyDict_Contains (GarterScope_Items scope) x = true
    · exact ⟨.Redeclared x, scope, by simp [hc], Or.inr (Or.inr ⟨x, rfl⟩)⟩
    · exact ⟨.DeclInNonRoot,
        scope.setItems (PyDict_SetItem (GarterScope_Items scope) x T),
        by simp [hc], Or.inl rfl⟩
  | _ => exact ⟨.ComplexLHS, scope, by simp [validate_decl_target], Or.inr (Or.inl rfl)⟩

/-- The walk over a statement list whose first part is accepted goes on with
the rest, in the scope and heap the first part left. -/
theorem validate_stmts_append (sroot : Bool) :
    ∀ (pre rest : List stmt) (scope : GarterScope) (h : Heap)
      (scope1 : GarterScope) (h1 : Heap),
      validate_stmts scope h sroot pre = .ok scope1 h1 →
      validate_stmts scope h sroot (pre ++ rest) = validate_stmts scope1 h1 sroot rest := by
  intro pre
  induction pre with
  | nil =>
    intro rest scope h scope1 h1 hp
    simp only [validate_stmts, StmtRes.ok.injEq] at hp
    obtain ⟨rfl, rfl⟩ := hp
    rfl
  | cons s pre ih =>
    intro rest scope h scope1 h1 hp
    simp only [List.cons_append]
    rw [validate_stmts] at hp
    rw [validate_stmts]
    cases hs : validate_stmt scope h sroot s with
    | crash => simp [hs] at hp
    | fail d s2 h2 => simp [hs] at hp
    | ok s2 h2 =>
      simp only [hs] at hp ⊢
      exact ih rest s2 h2 scope1 h1 hp

mutual
/-- Away from a statement root, a statement that is or contains a declaration
is never accepted. -/
theorem validate_stmt_has_decl_not_ok :
    ∀ (s : stmt) (scope : GarterScope) (h : Heap) (scope2 : GarterScope) (h2 : Heap),
      s.has_decl = true → validate_stmt scope h false s ≠ .ok scope2 h2
  | .Assign targets value (some ann), scope, h, scope2, h2, _ => by
    simp only [validate_stmt]
    exact validate_assign_stmt_non_root_not_ok scope h targets value ann scope2 h2
  | .Assign _ _ none, _, _, _, _, hd => by simp [stmt.has_decl] at hd
  | .If test body orelse, scope, h, scope2, h2, hd => by
    simp only [stmt.has_decl, Bool.or_eq_true] at hd
    simp only [validate_stmt]
    cases validate_expr scope h test with
    | crash => simp
    | fail d h1 => simp
    | ok T h1 =>
      dsimp only
      cases GarterType_Kind h1 T with
      | none => simp
      | some k =>
        dsimp only
        split_ifs
        · simp
        · cases hb : validate_stmts scope h1 false body with
          | crash => simp
          | fail d s3 h3 => simp
          | ok s3 h3 =>
            dsimp only
            rcases hd with hd | hd
            · exact absurd hb (validate_stmts_has_decl_not_ok body scope h1 s3 h3 hd)
            · exact validate_stmts_has_decl_not_ok orelse s3 h3 scope2 h2 hd
  | .FunctionDef, _, _, _, _, hd => by simp [stmt.has_decl] at hd
  | .ClassDef, _, _, _, _, hd => by simp [stmt.has_decl] at hd
  | .Return, _, _, _, _, hd => by simp [stmt.has_decl] at hd
  | .AugAssign _ _ _, _, _, _, _, hd => by simp [stmt.has_decl] at hd
  | .For, _, _, _, _, hd => by simp [stmt.has_decl] at hd
  | .While, _, _, _, _, hd => by simp [stmt.has_decl] at hd
  | .Assert, _, _, _, _, hd => by simp [stmt.has_decl] at hd
  | .Global, _, _, _, _, hd => by simp [stmt.has_decl] at hd
  | .Nonlocal, _, _, _, _, hd => by simp [stmt.has_decl] at hd
  | .Expr _, _, _, _, _, hd => by simp [stmt.has_decl] at hd
  | .Break, _, _, _, _, hd => by simp [stmt.has_decl] at hd
  | .Continue, _, _, _, _, hd => by simp [stmt.has_decl] at hd
  | .Other _, _, _, _, _, hd => by simp [stmt.has_decl] at hd
theorem validate_stmts_has_decl_not_ok :
    ∀ (ss : List stmt) (scope : GarterScope) (h : Heap) (scope2 : GarterScope)
      (h2 : Heap),
      stmts_has_decl ss = true → validate_stmts scope h false ss ≠ .ok scope2 h2
  | [], _, _, _, _, hd => by simp [stmts_has_decl] at hd
  | s :: rest, scope, h, scope2, h2, hd => by
    simp only [stmts_has_decl, Bool.or_eq_true] at hd
    unfold validate_stmts
    cases hs : validate_stmt scope h false s with
    | crash => simp
    | fail d s3 h3 => simp
    | ok s3 h3 =>
      dsimp only
      rcases hd with hd | hd
      · exact absurd hs (validate_stmt_has_decl_not_ok s scope h s3 h3 hd)
      · exact validate_stmts_has_decl_not_ok rest s3 h3 scope2 h2 hd
end

/-- The If rule.  An If statement, judged at a statement root or not, is accepted
exactly when its test judges to a type of kind BOOL, the statements of its
body are then accepted, walked with the flag false, and the statements of its
orelse are then accepted, walked with the flag false from where the body left.
A failure of the test, a test that is not Bool, and a failure in the body or
in the orelse make the If fail with that diagnostic.  Consequently an If with
a declaration in its body or orelse, directly or nested in inner Ifs, is never
accepted; and when the walk reaches a declaration that stands in the body (the
test is Bool and the statements before it are accepted) whose right-hand side
judges successfully, whose annotation is the ellipsis or elaborates and whose
declared type is complete, the If fails with a diagnostic. -/
theorem validate_stmt_If (scope : GarterScope) (h : Heap) (sroot : Bool)
    (test : expr) (body orelse : List stmt) :
    (∀ scope2 h2,
      validate_stmt scope h sroot (.If test body orelse) = .ok scope2 h2 ↔
      ∃ T h1 scope1 h3, validate_expr scope h test = .ok T h1 ∧
        GarterType_Kind h1 T = some .GT_BOOL ∧
        validate_stmts scope h1 false body = .ok scope1 h3 ∧
        validate_stmts scope1 h3 false orelse = .ok scope2 h2) ∧
    (∀ d h1, validate_expr scope h test = .fail d h1 →
      validate_stmt scope h sroot (.If test body orelse) = .fail d scope h1) ∧
    (∀ T h1 k, validate_expr scope h test = .ok T h1 →
      GarterType_Kind h1 T = some k → k ≠ .GT_BOOL →
      validate_stmt scope h sroot (.If test body orelse)
        = .fail .IfTestNotBool scope h1) ∧
    (∀ T h1, validate_expr scope h test = .ok T h1 →
      GarterType_Kind h1 T = some .GT_BOOL →
      (∀ d scope1 h3, validate_stmts scope h1 false body = .fail d scope1 h3 →
        validate_stmt scope h sroot (.If test body orelse) = .fail d scope1 h3) ∧
      (∀ scope1 h3 d scope2 h2, validate_stmts scope h1 false body = .ok scope1 h3 →
        validate_stmts scope1 h3 false orelse = .fail d scope2 h2 →
        validate_stmt scope h sroot (.If test body orelse) = .fail d scope2 h2)) ∧
    ((stmts_has_decl body || stmts_has_decl orelse) = true →
      (∀ scope2 h2,
        validate_stmt scope h sroot (.If test body orelse) ≠ .ok scope2 h2) ∧
      (validate_stmt scope h sroot (.If test body orelse) ≠ .crash →
        ∃ d scope2 h2,
          validate_stmt scope h sroot (.If test body orelse) = .fail d scope2 h2)) ∧
    (∀ T h1 pre target value ann post scope1 h3 V h4 Td h5,
      validate_expr scope h test = .ok T h1 →
      GarterType_Kind h1 T = some .GT_BOOL →
      body = pre ++ .Assign [target] value (some ann) :: post →
      validate_stmts scope h1 false pre = .ok scope1 h3 →
      validate_expr scope1 h3 value = .ok V h4 →
      validate_assign_stmt_target_type scope1 h4 ann V = .ok Td h5 →
      GarterType_IsComplete h5 (some Td) = some true →
      ∃ d scope2, validate_stmt scope h sroot (.If test body orelse)
          = .fail d scope2 h5 ∧
        (d = .DeclInNonRoot ∨ d = .ComplexLHS ∨ ∃ x, d = .Redeclared x)) := by
  have hnot : (stmts_has_decl body || stmts_has_decl orelse) = true →
      ∀ scope2 h2,
        validate_stmt scope h sroot (.If test body orelse) ≠ .ok scope2 h2 := by
    intro hd scope2 h2
    simp only [Bool.or_eq_true] at hd
    simp only [validate_stmt]
    cases validate_expr scope h test with
    | crash => simp
    | fail d h1 => simp
    | ok T h1 =>
      dsimp only
      cases GarterType_Kind h1 T with
      | none => simp
      | some k =>
        dsimp only
        split_ifs
        · simp
        · cases hb : validate_stmts scope h1 false body with
          | crash => simp
          | fail d s3 h3 => simp
          | ok s3 h3 =>
            dsimp only
            rcases hd with hd | hd
            · exact absurd hb (validate_stmts_has_decl_not_ok body scope h1 s3 h3 hd)
            · exact validate_stmts_has_decl_not_ok orelse s3 h3 scope2 h2 hd
  refine ⟨?_, ?_, ?_, ?_, ?_, ?_⟩
  · intro scope2 h2
    constructor
    · intro hok
      simp only [validate_stmt] at hok
      cases ht : validate_expr scope h test with
      | crash => simp [ht] at hok
      | fail d h1 => simp [ht] at hok
      | ok T h1 =>
        simp only [ht] at hok
        cases hk : GarterType_Kind h1 T with
        | none => simp [hk] at hok
        | some k =>
          simp only [hk] at hok
          by_cases hb : k = .GT_BOOL
          · subst hb
            simp only [ne_eq, not_true_eq_false, ↓reduceIte] at hok
            cases hbd : validate_stmts scope h1 false body with
            | crash => simp [hbd] at hok
            | fail d s3 h3 => simp [hbd] at hok
            | ok s3 h3 =>
              simp only [hbd] at hok
              exact ⟨T, h1, s3, h3, rfl, hk, hbd, hok⟩
          · simp [hb] at hok
    · rintro ⟨T, h1, scope1, h3, ht, hk, hb, ho⟩
      simp only [validate_stmt, ht, hk, hb, ho, ne_eq, not_true_eq_false, ↓reduceIte]
  · intro d h1 ht
    simp only [validate_stmt, ht]
  · intro T h1 k ht hk hne
    simp only [validate_stmt, ht, hk, ne_eq, hne, not_false_eq_true, ↓reduceIte]
  · intro T h1 ht hk
    refine ⟨?_, ?_⟩
    · intro d scope1 h3 hb
      simp only [validate_stmt, ht, hk, hb, ne_eq, not_true_eq_false, ↓reduceIte]
    · intro scope1 h3 d scope2 h2 hb ho
      simp only [validate_stmt, ht, hk, hb, ho, ne_eq, not_true_eq_false, ↓reduceIte]
  · intro hd
    refine ⟨hnot hd, ?_⟩
    intro hc
    cases hr : validate_stmt scope h sroot (.If test body orelse) with
    | crash => exact absurd hr hc
    | fail d s2 h2 => exact ⟨d, s2, h2, rfl⟩
    | ok s2 h2 => exact absurd hr (hnot hd s2 h2)
  · intro T h1 pre target value ann post scope1 h3 V h4 Td h5 ht hk hbody hpre hV hT hC
    obtain ⟨d, scope2, hf, hd⟩ :=
      validate_assign_stmt_non_root_fails scope1 h3 target value ann V h4 Td h5 hV hT hC
    have hb : validate_stmts scope h1 false body = .fail d scope2 h5 := by
      rw [hbody, validate_stmts_append false pre _ scope h1 scope1 h3 hpre]
      rw [validate_stmts]
      simp only [validate_stmt, hf]
    exact ⟨d, scope2, by
      simp only [validate_stmt, ht, hk, hb, ne_eq, not_true_eq_false, ↓reduceIte], hd⟩

/-- Examples of the If rule: `if True: y : int = 1` is rejected, also as a top-level
statement, and so is `if True: if True: y : int = 1`; `if True: x = 2` is
accepted on the scope binding `x` to int. -/
theorem validate_stmt_If_witness :
    validate_stmt scope_x_int [] true
        (.If (.NameConstant .Py_True) [decl_stmt "y" (.Name "int") (int_lit 1)] [])
      = .fail .DeclInNonRoot
          (.mk none [("x", GarterType_INT), ("y", GarterType_INT)] none) [] ∧
    validate_stmt scope_x_int [] true
        (.If (.NameConstant .Py_True)
          [.If (.NameConstant .Py_True) [decl_stmt "y" (.Name "int") (int_lit 1)] []]
          [])
      = .fail .DeclInNonRoot
          (.mk none [("x", GarterType_INT), ("y", GarterType_INT)] none) [] ∧
    validate_stmt scope_x_int [] true
        (.If (.NameConstant .Py_True) [assign_stmt "x" (int_lit 2)] [])
      = .ok scope_x_int [] ∧
    ∀ scope2 h2, validate_stmt scope_x_int [] true
        (.If (.NameConstant .Py_True)
          [.If (.NameConstant .Py_True) [decl_stmt "y" (.Name "int") (int_lit 1)] []]
          []) ≠ .ok scope2 h2 :=
  ⟨rfl, rfl, rfl,
    ((validate_stmt_If scope_x_int [] true (.NameConstant .Py_True)
      [.If (.NameConstant .Py_True) [decl_stmt "y" (.Name "int") (int_lit 1)] []]
      []).2.2.2.2.1 rfl).1⟩

/-- C23, the failing input.  On a new global scope the If statement
`if True: z : int = [1, y]` holds a declaration that the walk reaches, but its
judgment does not return: the right-hand side `[1, y]` hands the NULL result
of its second element to `GarterType_Equal`, so the statement is not rejected
with a diagnostic, and `Garter_Validate` on the program does not return
either.  With the failing element first, `if True: z : int = [y, 1]` is
rejected with "Undefined identifier y", and `if True: z : int = 1` is rejected
with "Declarations must occur at the global level or in function roots". -/
theorem validate_stmt_If_decl_crashes :
    validate_expr (GarterScope_New none) [] (.List [int_lit 1, .Name "y"])
      = .crash ∧
    validate_stmt (GarterScope_New none) [] true
        (.If (.NameConstant .Py_True)
          [decl_stmt "z" (.Name "int") (.List [int_lit 1, .Name "y"])] [])
      = .crash ∧
    Garter_Validate
        (.Module [.If (.NameConstant .Py_True)
          [decl_stmt "z" (.Name "int") (.List [int_lit 1, .Name "y"])] []])
        (.Unicode "f") Garter_NewGlobalScope []
      = none ∧
    validate_stmt (GarterScope_New none) [] true
        (.If (.NameConstant .Py_True)
          [decl_stmt "z" (.Name "int") (.List [.Name "y", int_lit 1])] [])
      = .fail (.Undefined "y") (GarterScope_New none) [] ∧
    validate_stmt (GarterScope_New none) [] true
        (.If (.NameConstant .Py_True) [decl_stmt "z" (.Name "int") (int_lit 1)] [])
      = .fail .DeclInNonRoot (.mk none [("z", GarterType_INT)] none) [] :=
  ⟨rfl, rfl, rfl, rfl, rfl⟩

/-! ### C30: the order of the elements of a list literal -/

theorem AType_merge_comm (a b : AType) : a.merge b = b.merge a := by
  cases a with
  | complete s =>
    cases b with
    | complete t =>
      simp only [AType.merge]
      by_cases e : s = t
      · subst e; rfl
      · have e2 : ¬ t = s := fun h => e h.symm
        simp [e, e2]
    | chain k => rfl
  | chain k =>
    cases b with
    | complete t => rfl
    | chain m => simp [AType.merge, Nat.max_comm]

theorem Join_op_comm (x y : Join) : x.op y = y.op x := by
  cases x <;> cases y <;> simp [Join.op, AType_merge_comm]

theorem Join_op_nothing (x : Join) : x.op .nothing = x := by
  cases x <;> rfl

theorem Join_op_mismatch (x : Join) : x.op .mismatch = .mismatch := by
  cases x <;> rfl

theorem Join_mismatch_op (x : Join) : Join.op .mismatch x = .mismatch := by
  cases x <;> rfl

theorem Join_op_type (a b : AType) :
    Join.op (.type a) (.type b)
      = match a.merge b with
        | some j => .type j
        | none => .mismatch := rfl

theorem Join_op_assoc (x y z : Join) : (x.op y).op z = x.op (y.op z) := by
  cases x with
  | nothing => simp [Join.op]
  | mismatch => simp [Join_mismatch_op]
  | type a =>
    cases y with
    | nothing => simp [Join.op]
    | mismatch => simp [Join_mismatch_op, Join_op_mismatch]
    | type b =>
      cases z with
      | nothing => simp [Join_op_nothing]
      | mismatch => simp [Join_op_mismatch]
      | type c =>
        cases a <;> cases b <;> cases c <;>
          simp only [Join_op_type, AType.merge] <;>
          (try split_ifs) <;>
          simp_all [Join_op_type, Join_op_mismatch, Join_mismatch_op, AType.merge,
            Nat.max_assoc] <;>
          (try omega) <;>
          (try split_ifs) <;>
          (try subst_vars) <;>
          (try simp_all) <;>
          (try omega)

theorem is_chain_mono {P Q : Nat → Prop} (hPQ : ∀ x, P x → Q x) (h : Heap) :
    ∀ (k : Nat) (T : TypePtr), is_chain P h k T → is_chain Q h k T := by
  intro k
  induction k with
  | zero =>
    rintro T ⟨c, rfl, hp, hc⟩
    exact ⟨c, rfl, hPQ c hp, hc⟩
  | succ k ih =>
    rintro T ⟨c, T2, rfl, hp, hc, h2⟩
    exact ⟨c, T2, rfl, hPQ c hp, hc, ih T2 h2⟩

theorem is_chain_agree {P : Nat → Prop} (h g : Heap)
    (hag : ∀ x, P x → g[x]? = h[x]?) :
    ∀ (k : Nat) (T : TypePtr), is_chain P h k T → is_chain P g k T := by
  intro k
  induction k with
  | zero =>
    rintro T ⟨c, rfl, hp, hc⟩
    exact ⟨c, rfl, hp, by rw [hag c hp]; exact hc⟩
  | succ k ih =>
    rintro T ⟨c, T2, rfl, hp, hc, h2⟩
    exact ⟨c, T2, rfl, hp, by rw [hag c hp]; exact hc, ih T2 h2⟩

theorem getElem_some_lt {h : Heap} {c : Nat} {o : GarterType}
    (hc : h[c]? = some o) : c < h.length := by
  rcases Nat.lt_or_ge c h.length with hlt | hge
  · exact hlt
  · rw [List.getElem?_eq_none hge] at hc
    cases hc

theorem is_chain_lt (P : Nat → Prop) (h : Heap) :
    ∀ (k : Nat) (T : TypePtr), is_chain P h k T →
      is_chain (fun x => P x ∧ x < h.length) h k T := by
  intro k
  induction k with
  | zero =>
    rintro T ⟨c, rfl, hp, hc⟩
    exact ⟨c, rfl, ⟨hp, getElem_some_lt hc⟩, hc⟩
  | succ k ih =>
    rintro T ⟨c, T2, rfl, hp, hc, h2⟩
    exact ⟨c, T2, rfl, ⟨hp, getElem_some_lt hc⟩, hc, ih T2 h2⟩

theorem is_chain_shape (P : Nat → Prop) (h : Heap) :
    ∀ (k : Nat) (T : TypePtr) (n : Nat), is_chain P h k T → k < n →
      GarterType_shape_fuel n h T = some (Shape.chain k) := by
  intro k
  induction k with
  | zero =>
    rintro T n ⟨c, rfl, _, hc⟩ hn
    cases n with
    | zero => omega
    | succ n => simp [GarterType_shape_fuel, Heap.deref, hc, Shape.chain]
  | succ k ih =>
    rintro T n ⟨c, T2, rfl, _, hc, h2⟩ hn
    cases n with
    | zero => omega
    | succ n =>
      simp [GarterType_shape_fuel, Heap.deref, hc, Shape.chain,
        ih T2 n h2 (by omega)]

theorem is_chain_shape_inv (P : Nat → Prop) (h : Heap) :
    ∀ (k : Nat) (T : TypePtr) (N : Nat) (s : Shape), is_chain P h k T →
      GarterType_shape_fuel N h T = some s → s = Shape.chain k := by
  intro k
  induction k with
  | zero =>
    rintro T N s ⟨c, rfl, _, hc⟩ hs
    cases N with
    | zero => simp [GarterType_shape_fuel] at hs
    | succ N =>
      simp [GarterType_shape_fuel, Heap.deref, hc] at hs
      rw [← hs]
      rfl
  | succ k ih =>
    rintro T N s ⟨c, T2, rfl, _, hc, h2⟩ hs
    cases N with
    | zero => simp [GarterType_shape_fuel] at hs
    | succ N =>
      simp only [GarterType_shape_fuel, Heap.deref, hc] at hs
      cases hs2 : GarterType_shape_fuel N h T2 with
      | none => simp [hs2] at hs
      | some s2 =>
        simp only [hs2, Option.map_some', Option.some.injEq] at hs
        rw [← hs, ih T2 N s2 h2 hs2]
        rfl

theorem Shape_chain_not_complete : ∀ (k : Nat), (Shape.chain k).complete = false := by
  intro k
  induction k with
  | zero => rfl
  | succ k ih => simpa [Shape.chain, Shape.complete] using ih

theorem is_chain_kind (P : Nat → Prop) (h : Heap) (k : Nat) (T : TypePtr)
    (hc : is_chain P h k T) : GarterType_Kind h T = some .GT_LIST := by
  cases k with
  | zero =>
    obtain ⟨c, rfl, _, hc⟩ := hc
    simp [GarterType_Kind, Heap.deref, hc]
  | succ k =>
    obtain ⟨c, T2, rfl, _, hc, _⟩ := hc
    simp [GarterType_Kind, Heap.deref, hc]

/-- `GarterType_Equal` on two chains of List objects at separate addresses:
it returns true, fills in at most the last object of the shorter chain, and
afterwards both are chains of the greater length. -/
theorem GarterType_Equal_fuel_chains {Pa Pb : Nat → Prop}
    (hd : ∀ x, Pa x → ¬ Pb x) :
    ∀ (k m n : Nat) (h : Heap) (a b : TypePtr), min k m < n →
      is_chain Pa h k a → is_chain Pb h m b →
      ∃ h2, GarterType_Equal_fuel n h a b = some (true, h2) ∧
        (∀ x, ¬ Pa x → ¬ Pb x → h2[x]? = h[x]?) ∧
        (∀ (x : Nat) (o : GarterType), h[x]? = some o → o.meta ≠ none →
          h2[x]? = some o) ∧
        is_chain (fun x => Pa x ∨ Pb x) h2 (max k m) a ∧
        is_chain (fun x => Pa x ∨ Pb x) h2 (max k m) b := by
  intro k
  induction k with
  | zero =>
    intro m n h a b hn ha hb
    obtain ⟨c, rfl, hpc, hc⟩ := ha
    cases n with
    | zero => omega
    | succ n =>
      cases m with
      | zero =>
        obtain ⟨d, rfl, hpd, hdd⟩ := hb
        have hcd : c ≠ d := by
          rintro rfl
          exact hd c hpc hpd
        refine ⟨h, ?_, fun _ _ _ => rfl, fun _ _ ho _ => ho,
          ⟨c, rfl, Or.inl hpc, hc⟩, ⟨d, rfl, Or.inr hpd, hdd⟩⟩
        simp [GarterType_Equal_fuel, hcd, Heap.deref, hc, hdd]
      | succ m =>
        obtain ⟨d, b2, rfl, hpd, hdd, hb2⟩ := hb
        have hcd : c ≠ d := by
          rintro rfl
          exact hd c hpc hpd
        have hclt := getElem_some_lt hc
        have hag : ∀ x, Pb x → (h.set c ⟨.GT_LIST, some (.type b2)⟩)[x]? = h[x]? := by
          intro x hx
          have : c ≠ x := by
            rintro rfl
            exact hd c hpc hx
          exact List.getElem?_set_ne this
        have hb2' := is_chain_mono (Q := fun x => Pa x ∨ Pb x) (fun x hx => Or.inr hx) _ _ _
          (is_chain_agree h _ hag m b2 hb2)
        refine ⟨h.set c ⟨.GT_LIST, some (.type b2)⟩, ?_, ?_, ?_, ?_, ?_⟩
        · simp [GarterType_Equal_fuel, hcd, Heap.deref, hc, hdd,
            GarterType_LateBindMeta]
        · intro x hx _
          have : c ≠ x := by
            rintro rfl
            exact hx hpc
          exact List.getElem?_set_ne this
        · intro x o ho hm
          have : c ≠ x := by
            rintro rfl
            rw [hc] at ho
            cases ho
            exact hm rfl
          rw [List.getElem?_set_ne this]
          exact ho
        · rw [Nat.zero_max]
          exact ⟨c, b2, rfl, Or.inl hpc, List.getElem?_set_self hclt, hb2'⟩
        · rw [Nat.zero_max]
          exact ⟨d, b2, rfl, Or.inr hpd,
            by rw [List.getElem?_set_ne hcd]; exact hdd, hb2'⟩
  | succ k ih =>
    intro m n h a b hn ha hb
    obtain ⟨c, a2, rfl, hpc, hc, ha2⟩ := ha
    cases n with
    | zero => omega
    | succ n =>
      cases m with
      | zero =>
        obtain ⟨d, rfl, hpd, hdd⟩ := hb
        have hcd : c ≠ d := by
          rintro rfl
          exact hd c hpc hpd
        have hdlt := getElem_some_lt hdd
        have hag : ∀ x, Pa x → (h.set d ⟨.GT_LIST, some (.type a2)⟩)[x]? = h[x]? := by
          intro x hx
          have : d ≠ x := by
            rintro rfl
            exact hd d hx hpd
          exact List.getElem?_set_ne this
        have ha2' := is_chain_mono (Q := fun x => Pa x ∨ Pb x) (fun x hx => Or.inl hx) _ _ _
          (is_chain_agree h _ hag k a2 ha2)
        refine ⟨h.set d ⟨.GT_LIST, some (.type a2)⟩, ?_, ?_, ?_, ?_, ?_⟩
        · simp [GarterType_Equal_fuel, hcd, Heap.deref, hc, hdd,
            GarterType_LateBindMeta]
        · intro x _ hx
          have : d ≠ x := by
            rintro rfl
            exact hx hpd
          exact List.getElem?_set_ne this
        · intro x o ho hm
          have : d ≠ x := by
            rintro rfl
            rw [hdd] at ho
            cases ho
            exact hm rfl
          rw [List.getElem?_set_ne this]
          exact ho
        · rw [Nat.max_zero]
          exact ⟨c, a2, rfl, Or.inl hpc,
            by rw [List.getElem?_set_ne (Ne.symm hcd)]; exact hc, ha2'⟩
        · rw [Nat.max_zero]
          exact ⟨d, a2, rfl, Or.inr hpd, List.getElem?_set_self hdlt, ha2'⟩
      | succ m =>
        obtain ⟨d, b2, rfl, hpd, hdd, hb2⟩ := hb
        have hcd : c ≠ d := by
          rintro rfl
          exact hd c hpc hpd
        obtain ⟨h2, he, hfr, hkeep, hca, hcb⟩ :=
          ih m n h a2 b2 (by simp only [Nat.succ_min_succ] at hn; omega) ha2 hb2
        refine ⟨h2, ?_, hfr, hkeep, ?_, ?_⟩
        · simp [GarterType_Equal_fuel, hcd, Heap.deref, hc, hdd, he]
        · rw [Nat.succ_max_succ]
          exact ⟨c, a2, rfl, Or.inl hpc, hkeep c _ hc (by simp), hca⟩
        · rw [Nat.succ_max_succ]
          exact ⟨d, b2, rfl, Or.inr hpd, hkeep d _ hdd (by simp), hcb⟩

theorem GarterType_Equal_fuel_kind_ne (n : Nat) (h : Heap) (p q : TypePtr)
    (kp kq : GarterTypeKind) (hp : GarterType_Kind h p = some kp)
    (hq : GarterType_Kind h q = some kq) (hne : kp ≠ kq) :
    GarterType_Equal_fuel (n + 1) h p q = some (false, h) := by
  unfold GarterType_Kind at hp hq
  cases hdp : h.deref p with
  | none => simp [hdp] at hp
  | some op =>
    cases hdq : h.deref q with
    | none => simp [hdq] at hq
    | some oq =>
      simp only [hdp, hdq, Option.map_some', Option.some.injEq] at hp hq
      have hpq : p ≠ q := by
        rintro rfl
        rw [hdp] at hdq
        cases hdq
        exact hne (hp.symm.trans hq)
      have hk : op.kind ≠ oq.kind := by
        rw [hp, hq]
        exact hne
      simp [GarterType_Equal_fuel, hpq, hdp, hdq, hk]

theorem GarterType_shape_fuel_listOf_inv (N : Nat) (h : Heap) (b : TypePtr)
    (sb : Shape) (hs : GarterType_shape_fuel N h b = some sb)
    (hl : 0 < sb.list_layers) :
    ∃ N2 y bm sb2, N = N2 + 1 ∧ b = .obj y ∧
      h[y]? = some ⟨.GT_LIST, some (.type bm)⟩ ∧
      GarterType_shape_fuel N2 h bm = some sb2 ∧ sb = .listOf sb2 := by
  cases N with
  | zero => simp [GarterType_shape_fuel] at hs
  | succ N =>
    unfold GarterType_shape_fuel at hs
    cases hd : h.deref b with
    | none => simp [hd] at hs
    | some o =>
      obtain ⟨kind, meta⟩ := o
      simp only [hd] at hs
      cases kind <;> dsimp only at hs
      · cases hs; simp [Shape.list_layers] at hl
      · cases hs; simp [Shape.list_layers] at hl
      · cases hs; simp [Shape.list_layers] at hl
      · cases hs; simp [Shape.list_layers] at hl
      · cases meta with
        | none => cases hs; simp [Shape.list_layers] at hl
        | some mt =>
          cases mt with
          | tuple k v =>
            dsimp only at hs
            cases hk : GarterType_shape_fuel N h k with
            | none => simp [hk] at hs
            | some ks =>
              cases hv : GarterType_shape_fuel N h v with
              | none => simp [hk, hv] at hs
              | some vs =>
                simp only [hk, hv, Option.some.injEq] at hs
                subst hs
                simp [Shape.list_layers] at hl
          | _ => simp at hs
      · cases meta with
        | none => cases hs; simp [Shape.list_layers] at hl
        | some mt =>
          cases mt with
          | type bm =>
            dsimp only at hs
            cases hm : GarterType_shape_fuel N h bm with
            | none => simp [hm] at hs
            | some sb2 =>
              simp only [hm, Option.map_some', Option.some.injEq] at hs
              cases b with
              | obj y =>
                simp only [Heap.deref] at hd
                exact ⟨N, y, bm, sb2, rfl, rfl, hd, hm, hs.symm⟩
              | _ => simp [Heap.deref] at hd
          | _ => simp at hs
      · cases hs; simp [Shape.list_layers] at hl

theorem Shape_kind_of_no_layers (s : Shape) (hc : s.complete = true)
    (hl : s.list_layers = 0) : s.kind ≠ .GT_LIST := by
  cases s <;> simp [Shape.complete, Shape.list_layers, Shape.kind] at hc hl ⊢

/-- `GarterType_Equal` on a chain of `k + 1` List objects and a complete type:
it returns true exactly when the complete type starts with more than `k` List
layers, and then fills in the last object of the chain, which afterwards has
the structure of the complete type; otherwise nothing is changed. -/
theorem GarterType_Equal_fuel_chain_complete {P : Nat → Prop} :
    ∀ (k n : Nat) (h : Heap) (a b : TypePtr) (sb : Shape) (N : Nat), k < n →
      is_chain P h k a → GarterType_shape_fuel N h b = some sb →
      sb.complete = true →
      (k < sb.list_layers →
        ∃ h2, GarterType_Equal_fuel n h a b = some (true, h2) ∧
          (∀ x, ¬ P x → h2[x]? = h[x]?) ∧
          (∀ (x : Nat) (o : GarterType), h[x]? = some o → o.meta ≠ none →
            h2[x]? = some o) ∧
          GarterType_shape_fuel N h2 a = some sb) ∧
      (¬ k < sb.list_layers → GarterType_Equal_fuel n h a b = some (false, h)) := by
  intro k
  induction k with
  | zero =>
    intro n h a b sb N hn ha hsb hcb
    obtain ⟨c, rfl, hpc, hc⟩ := ha
    cases n with
    | zero => omega
    | succ n =>
      constructor
      · intro hl
        obtain ⟨N2, y, bm, sb2, rfl, rfl, hy, hbm, rfl⟩ :=
          GarterType_shape_fuel_listOf_inv N h b sb hsb hl
        have hcy : c ≠ y := by
          rintro rfl
          rw [hc] at hy
          cases hy
        have hclt := getElem_some_lt hc
        have hg : h.grows (h.set c ⟨.GT_LIST, some (.type bm)⟩) := by
          have := GarterType_LateBindMeta_grows h (.obj c) (.type bm) _ hc rfl
          simpa [GarterType_LateBindMeta, hc] using this
        refine ⟨h.set c ⟨.GT_LIST, some (.type bm)⟩, ?_, ?_, ?_, ?_⟩
        · simp [GarterType_Equal_fuel, hcy, Heap.deref, hc, hy,
            GarterType_LateBindMeta]
        · intro x hx
          have : c ≠ x := by
            rintro rfl
            exact hx hpc
          exact List.getElem?_set_ne this
        · intro x o ho hm
          have : c ≠ x := by
            rintro rfl
            rw [hc] at ho
            cases ho
            exact hm rfl
          rw [List.getElem?_set_ne this]
          exact ho
        · have hc2 : sb2.complete = true := by simpa [Shape.complete] using hcb
          have := GarterType_shape_fuel_grows _ _ _ _ _ hg hbm hc2
          simp [GarterType_shape_fuel, Heap.deref, List.getElem?_set_self hclt, this]
      · intro hl
        have hl0 : sb.list_layers = 0 := by omega
        have hkb := GarterType_shape_fuel_kind _ _ _ _ hsb
        have hka : GarterType_Kind h (.obj c) = some .GT_LIST := by
          simp [GarterType_Kind, Heap.deref, hc]
        exact GarterType_Equal_fuel_kind_ne n h _ _ _ _ hka hkb
          (Ne.symm (Shape_kind_of_no_layers sb hcb hl0))
  | succ k ih =>
    intro n h a b sb N hn ha hsb hcb
    have hainv := is_chain_shape_inv P h (k + 1) a
    obtain ⟨c, a2, rfl, hpc, hc, ha2⟩ := ha
    cases n with
    | zero => omega
    | succ n =>
      by_cases hl0 : 0 < sb.list_layers
      · obtain ⟨N2, y, bm, sb2, rfl, rfl, hy, hbm, rfl⟩ :=
          GarterType_shape_fuel_listOf_inv N h b sb hsb hl0
        have hc2 : sb2.complete = true := by simpa [Shape.complete] using hcb
        have hcy : c ≠ y := by
          rintro rfl
          have := hainv (N2 + 1) _ ⟨c, a2, rfl, hpc, hc, ha2⟩ hsb
          rw [this, Shape_chain_not_complete] at hcb
          cases hcb
        obtain ⟨ih1, ih2⟩ := ih n h a2 bm sb2 N2 (by omega) ha2 hbm hc2
        constructor
        · intro hl
          obtain ⟨h2, he, hfr, hkeep, hs2⟩ :=
            ih1 (by simp only [Shape.list_layers] at hl; omega)
          refine ⟨h2, ?_, hfr, hkeep, ?_⟩
          · simp [GarterType_Equal_fuel, hcy, Heap.deref, hc, hy, he]
          · simp [GarterType_shape_fuel, Heap.deref, hkeep c _ hc (by simp), hs2]
        · intro hl
          have he := ih2 (by simp only [Shape.list_layers] at hl; omega)
          simp [GarterType_Equal_fuel, hcy, Heap.deref, hc, hy, he]
      · constructor
        · intro hl
          omega
        · intro _
          have hl1 : sb.list_layers = 0 := by omega
          have hkb := GarterType_shape_fuel_kind _ _ _ _ hsb
          have hka : GarterType_Kind h (.obj c) = some .GT_LIST := by
            simp [GarterType_Kind, Heap.deref, hc]
          exact GarterType_Equal_fuel_kind_ne n h _ _ _ _ hka hkb
            (Ne.symm (Shape_kind_of_no_layers sb hcb hl1))

theorem Realizes_mono {P Q : Nat → Prop} (hPQ : ∀ x, P x → Q x) (h : Heap)
    (T : TypePtr) (a : AType) (hr : Realizes P h T a) : Realizes Q h T a := by
  cases a with
  | complete s => exact hr
  | chain k => exact ⟨is_chain_mono hPQ h k T hr.1, hr.2⟩

theorem Realizes_kind (P : Nat → Prop) (h : Heap) (T : TypePtr) (a : AType)
    (hr : Realizes P h T a) : GarterType_Kind h T = some a.kind := by
  cases a with
  | complete s => exact GarterType_shape_fuel_kind _ _ _ _ hr.1
  | chain k => exact is_chain_kind P h k T hr.1

theorem Realizes_shape (P : Nat → Prop) (h : Heap) (T : TypePtr) (a : AType)
    (hr : Realizes P h T a) : GarterType_shape h T = some a.shape := by
  cases a with
  | complete s => exact hr.1
  | chain k => exact is_chain_shape P h k T _ hr.1 (by have := hr.2; omega)

theorem Realizes_complete_IsComplete (P : Nat → Prop) (h : Heap) (T : TypePtr)
    (s : Shape) (hr : Realizes P h T (.complete s)) :
    GarterType_IsComplete h (some T) = some true := by
  unfold GarterType_IsComplete
  rw [GarterType_IsComplete_fuel_of_shape _ _ _ _ hr.1, hr.2]

theorem Realizes_complete_grows (P Q : Nat → Prop) {h h2 : Heap} (hg : h.grows h2)
    (T : TypePtr) (s : Shape) (hr : Realizes P h T (.complete s)) :
    Realizes Q h2 T (.complete s) := by
  have hic := Realizes_complete_IsComplete P h T s hr
  have := (GarterType_shape_grows hg T hic).1
  exact ⟨by rw [this]; exact hr.1, hr.2⟩

/-- `GarterType_Equal` on two types that are each complete or a chain of List
objects, the chains at separate addresses: the verdict and the type both
sides have afterwards are those of `AType.merge`, and only objects of the
chains are changed. -/
theorem GarterType_Equal_realizes {Pa Pb : Nat → Prop}
    (hd : ∀ x, Pa x → ¬ Pb x) (h : Heap) (a b : TypePtr) (A B : AType)
    (ha : Realizes Pa h a A) (hb : Realizes Pb h b B) :
    (∀ J, A.merge B = some J →
      ∃ h2, GarterType_Equal h a b = some (true, h2) ∧
        (∀ x, ¬ Pa x → ¬ Pb x → h2[x]? = h[x]?) ∧
        Realizes (fun x => Pa x ∨ Pb x) h2 a J ∧
        Realizes (fun x => Pa x ∨ Pb x) h2 b J) ∧
    (A.merge B = none → GarterType_Equal h a b = some (false, h)) := by
  cases A with
  | complete s =>
    cases B with
    | complete t =>
      have he := GarterType_Equal_complete h a b
        (Realizes_complete_IsComplete Pa h a s ha)
        (Realizes_complete_IsComplete Pb h b t hb)
      rw [ha.1, hb.1] at he
      simp only [AType.merge]
      by_cases e : s = t
      · subst e
        refine ⟨?_, by simp⟩
        intro J hJ
        simp only [↓reduceIte, Option.some.injEq] at hJ
        subst hJ
        exact ⟨h, by simpa using he, fun _ _ _ => rfl, ha, hb⟩
      · refine ⟨by simp [e], fun _ => ?_⟩
        simpa [e] using he
    | chain m =>
      obtain ⟨h1, h2⟩ := GarterType_Equal_fuel_chain_complete m (h.length + 1) h b a s
        (h.length + 1) (by have := hb.2; omega) hb.1 ha.1 ha.2
      simp only [AType.merge]
      by_cases hl : m < s.list_layers
      · refine ⟨?_, by simp [hl]⟩
        intro J hJ
        simp only [hl, ↓reduceIte, Option.some.injEq] at hJ
        subst hJ
        obtain ⟨g, he, hfr, _, hs⟩ := h1 hl
        have he2 : GarterType_Equal h a b = some (true, g) := by
          rw [GarterType_Equal_symm]
          exact he
        obtain ⟨hg, hlen⟩ := GarterType_Equal_grows _ _ _ _ _ he2
        refine ⟨g, he2, fun x _ hx => hfr x hx,
          Realizes_complete_grows Pa _ hg a s ha, ?_, ha.2⟩
        unfold GarterType_shape
        rw [hlen]
        exact hs
      · refine ⟨by simp [hl], fun _ => ?_⟩
        rw [GarterType_Equal_symm]
        exact h2 hl
  | chain k =>
    cases B with
    | complete t =>
      obtain ⟨h1, h2⟩ := GarterType_Equal_fuel_chain_complete k (h.length + 1) h a b t
        (h.length + 1) (by have := ha.2; omega) ha.1 hb.1 hb.2
      simp only [AType.merge]
      by_cases hl : k < t.list_layers
      · refine ⟨?_, by simp [hl]⟩
        intro J hJ
        simp only [hl, ↓reduceIte, Option.some.injEq] at hJ
        subst hJ
        obtain ⟨g, he, hfr, _, hs⟩ := h1 hl
        obtain ⟨hg, hlen⟩ := GarterType_Equal_grows _ _ _ _ _ he
        refine ⟨g, he, fun x hx _ => hfr x hx, ⟨?_, hb.2⟩,
          Realizes_complete_grows Pb _ hg b t hb⟩
        unfold GarterType_shape
        rw [hlen]
        exact hs
      · exact ⟨by simp [hl], fun _ => h2 hl⟩
    | chain m =>
      obtain ⟨g, he, hfr, _, hca, hcb⟩ :=
        GarterType_Equal_fuel_chains hd k m (h.length + 1) h a b
          (by have := ha.2; have := Nat.min_le_left k m; omega) ha.1 hb.1
      have he2 : GarterType_Equal h a b = some (true, g) := he
      obtain ⟨hg, hlen⟩ := GarterType_Equal_grows _ _ _ _ _ he2
      simp only [AType.merge]
      refine ⟨?_, by simp⟩
      intro J hJ
      simp only [Option.some.injEq] at hJ
      subst hJ
      have hmax : max k m < g.length := by
        rw [hlen]
        have := ha.2
        have := hb.2
        exact Nat.max_lt.mpr ⟨by omega, by omega⟩
      exact ⟨g, he2, hfr, ⟨hca, hmax⟩, ⟨hcb, hmax⟩⟩

theorem Heap.frame_refl (base : Nat) (h : Heap) : h.frame base h :=
  ⟨le_refl _, fun _ _ => rfl⟩

theorem Heap.frame_trans {base base1 : Nat} {h h1 h2 : Heap}
    (f1 : h.frame base h1) (f2 : h1.frame base1 h2) (hle : base ≤ base1) :
    h.frame base h2 :=
  ⟨le_trans f1.1 f2.1, fun x hx => by rw [f2.2 x (by omega), f1.2 x hx]⟩

theorem Heap.frame_of_agree {base : Nat} {h h2 : Heap}
    (hlen : h2.length = h.length) (hag : ∀ x, x < base → h2[x]? = h[x]?) :
    h.frame base h2 :=
  ⟨by omega, hag⟩

theorem Heap.frame_New (base : Nat) (h : Heap) (kind : GarterTypeKind)
    (meta : Option Meta) (hb : base ≤ h.length) :
    h.frame base (GarterType_New h kind meta).2 := by
  refine ⟨by simp [GarterType_New], ?_⟩
  intro x hx
  exact GarterType_New_getElem_old h kind meta x (by omega)

/-- A realized type stays realized when the objects below the length of the
heap are left as they were; its chain objects lie below that length. -/
theorem Realizes_frame (P : Nat → Prop) {h h2 : Heap} (hg : h.grows h2)
    (hf : h.frame h.length h2) (T : TypePtr) (a : AType)
    (hr : Realizes P h T a) :
    Realizes (fun x => P x ∧ x < h.length) h2 T a := by
  cases a with
  | complete s => exact Realizes_complete_grows P _ hg T s hr
  | chain k =>
    refine ⟨?_, by have := hr.2; have := hf.1; omega⟩
    exact is_chain_agree h h2 (fun x hx => hf.2 x hx.2) k T (is_chain_lt P h k T hr.1)

theorem Realizes_INT (P : Nat → Prop) (h : Heap) :
    Realizes P h GarterType_INT (.complete .int) :=
  ⟨by simp [GarterType_shape, GarterType_shape_fuel, Heap.deref, GarterType_INT], rfl⟩

theorem Realizes_FLOAT (P : Nat → Prop) (h : Heap) :
    Realizes P h GarterType_FLOAT (.complete .float) :=
  ⟨by simp [GarterType_shape, GarterType_shape_fuel, Heap.deref, GarterType_FLOAT], rfl⟩

theorem Realizes_BOOL (P : Nat → Prop) (h : Heap) :
    Realizes P h GarterType_BOOL (.complete .bool) :=
  ⟨by simp [GarterType_shape, GarterType_shape_fuel, Heap.deref, GarterType_BOOL], rfl⟩

theorem Realizes_STR (P : Nat → Prop) (h : Heap) :
    Realizes P h GarterType_STR (.complete .str) :=
  ⟨by simp [GarterType_shape, GarterType_shape_fuel, Heap.deref, GarterType_STR], rfl⟩

/-- A judgment started later, on a heap that kept the objects below `base`,
is a judgment from the earlier heap. -/
theorem Res_sim_trans {α β : Type} {V V2 : Heap → α → β → Prop} {base base1 : Nat}
    {h h1 : Heap} (hg : h.grows h1) (hf : h.frame base h1) (hle : base ≤ base1)
    (r : Res α) (A : ARes β) (hs : r.sim V2 base1 h1 A)
    (hV : ∀ h2 v a, h1.grows h2 → h1.frame base1 h2 → V2 h2 v a → V h2 v a) :
    r.sim V base h A := by
  cases r with
  | crash => cases A <;> exact hs
  | fail d h2 =>
    cases A with
    | fail d2 =>
      exact ⟨hs.1, Heap.grows_trans hg hs.2.1, Heap.frame_trans hf hs.2.2 hle⟩
    | ok a => exact False.elim hs
    | crash => exact False.elim hs
  | ok v h2 =>
    cases A with
    | ok a =>
      exact ⟨Heap.grows_trans hg hs.1, Heap.frame_trans hf hs.2.1 hle,
        hV h2 v a hs.1 hs.2.1 hs.2.2⟩
    | fail d => exact False.elim hs
    | crash => exact False.elim hs

theorem validate_unaryop_expr_sim (P : Nat → Prop) (base : Nat) (h : Heap)
    (op : unaryop) (operand : Res TypePtr) (A : ARes AType)
    (hs : operand.sim (fun h2 T a => Realizes P h2 T a) base h A) :
    (validate_unaryop_expr op operand).sim (fun h2 T a => Realizes P h2 T a)
      base h (shape_unaryop_expr op A) := by
  unfold validate_unaryop_expr shape_unaryop_expr
  cases operand with
  | crash => cases A <;> first | exact hs | exact False.elim hs
  | fail d h1 => cases A <;> first | exact hs | exact False.elim hs
  | ok T h1 =>
    cases A with
    | fail d => exact False.elim hs
    | crash => exact False.elim hs
    | ok a =>
      obtain ⟨hg, hf, hr⟩ := hs
      simp only [Realizes_kind P h1 T a hr]
      cases op <;> dsimp only <;> split_ifs <;>
        first
        | exact ⟨hg, hf, Realizes_INT P h1⟩
        | exact ⟨hg, hf, Realizes_BOOL P h1⟩
        | exact ⟨hg, hf, hr⟩
        | exact ⟨rfl, hg, hf⟩

theorem validate_binop_expr_sim (h : Heap) (lhs : Res TypePtr) (op : operator)
    (rhs : Heap → Res TypePtr) (Al Ar : ARes AType)
    (hl : lhs.sim (fun h2 T a => Realizes (fun c => h.length ≤ c) h2 T a)
      h.length h Al)
    (hr : ∀ h1, h.grows h1 →
      (rhs h1).sim (fun h2 T a => Realizes (fun c => h1.length ≤ c) h2 T a)
        h1.length h1 Ar) :
    (validate_binop_expr lhs op rhs).sim
      (fun h2 T a => Realizes (fun c => h.length ≤ c) h2 T a) h.length h
      (shape_binop_expr Al op Ar) := by
  unfold validate_binop_expr shape_binop_expr
  cases lhs with
  | crash => cases Al <;> first | exact hl | exact False.elim hl
  | fail d h1 => cases Al <;> first | exact hl | exact False.elim hl
  | ok L h1 =>
    cases Al with
    | fail d => exact False.elim hl
    | crash => exact False.elim hl
    | ok la =>
      obtain ⟨g01, f01, hL⟩ := hl
      have hr1 := hr h1 g01
      dsimp only
      cases hrr : rhs h1 with
      | crash =>
        rw [hrr] at hr1
        cases Ar <;> trivial
      | fail d h2 =>
        rw [hrr] at hr1
        cases Ar with
        | fail d2 =>
          exact ⟨hr1.1, Heap.grows_trans g01 hr1.2.1,
            Heap.frame_trans f01 hr1.2.2 f01.1⟩
        | ok a => exact False.elim hr1
        | crash => exact False.elim hr1
      | ok R h2 =>
        rw [hrr] at hr1
        cases Ar with
        | fail d => exact False.elim hr1
        | crash => exact False.elim hr1
        | ok ra =>
          obtain ⟨g12, f12, hR⟩ := hr1
          have g02 := Heap.grows_trans g01 g12
          have f02 : h.frame h.length h2 := Heap.frame_trans f01 f12 f01.1
          have hL2 := Realizes_frame _ g12 f12 L la hL
          dsimp only
          simp only [Realizes_kind _ h2 L la hL2, Realizes_kind _ h2 R ra hR]
          cases op <;> dsimp only <;> (try split_ifs) <;>
            first
            | exact ⟨g02, f02, Realizes_INT _ h2⟩
            | exact ⟨g02, f02, Realizes_FLOAT _ h2⟩
            | exact ⟨g02, f02, Realizes_STR _ h2⟩
            | exact ⟨rfl, g02, f02⟩
            | skip
          have hd : ∀ x, (h.length ≤ x ∧ x < h1.length) → ¬ (h1.length ≤ x) := by
            intro x hx
            omega
          obtain ⟨e1, e2⟩ := GarterType_Equal_realizes hd h2 L R la ra hL2 hR
          cases hm : la.merge ra with
          | none =>
            rw [e2 hm]
            exact ⟨rfl, g02, f02⟩
          | some J =>
            obtain ⟨h3, he, hfr, hLJ, _⟩ := e1 J hm
            obtain ⟨g23, hlen⟩ := GarterType_Equal_grows _ _ _ _ _ he
            rw [he]
            refine ⟨Heap.grows_trans g02 g23, ?_, ?_⟩
            · refine Heap.frame_trans f02 (Heap.frame_of_agree hlen ?_) (le_refl _)
              intro x hx
              exact hfr x (by omega) (by have := f01.1; omega)
            · refine Realizes_mono ?_ h3 L J hLJ
              intro x hx
              have := f01.1
              rcases hx with hx | hx <;> omega

theorem validate_if_expr_sim (h : Heap) (test : Res TypePtr)
    (body : Heap → Res TypePtr) (orelse : Option (Heap → Res TypePtr))
    (At Ab : ARes AType) (Ao : Option (ARes AType))
    (ht : test.sim (fun h2 T a => Realizes (fun c => h.length ≤ c) h2 T a)
      h.length h At)
    (hb : ∀ h1, h.grows h1 →
      (body h1).sim (fun h2 T a => Realizes (fun c => h1.length ≤ c) h2 T a)
        h1.length h1 Ab)
    (ho : match orelse, Ao with
      | none, none => True
      | some f, some A => ∀ h1, h.grows h1 →
        (f h1).sim (fun h2 T a => Realizes (fun c => h1.length ≤ c) h2 T a)
          h1.length h1 A
      | _, _ => False) :
    (validate_if_expr test body orelse).sim
      (fun h2 T a => Realizes (fun c => h.length ≤ c) h2 T a) h.length h
      (shape_if_expr At Ab Ao) := by
  unfold validate_if_expr shape_if_expr
  cases test with
  | crash => cases At <;> first | exact ht | exact False.elim ht
  | fail d h1 => cases At <;> first | exact ht | exact False.elim ht
  | ok T h1 =>
    cases At with
    | fail d => exact False.elim ht
    | crash => exact False.elim ht
    | ok ta =>
      obtain ⟨g01, f01, hT⟩ := ht
      dsimp only
      simp only [Realizes_kind _ h1 T ta hT]
      by_cases hk : ta.kind = .GT_BOOL
      swap
      · simp only [ne_eq, hk, not_false_eq_true, ↓reduceIte]
        exact ⟨rfl, g01, f01⟩
      simp only [ne_eq, hk, not_true_eq_false, ↓reduceIte]
      have hb1 := hb h1 g01
      cases hbb : body h1 with
      | crash =>
        rw [hbb] at hb1
        cases Ab <;> trivial
      | fail d h2 =>
        rw [hbb] at hb1
        cases Ab with
        | fail d2 =>
          exact ⟨hb1.1, Heap.grows_trans g01 hb1.2.1,
            Heap.frame_trans f01 hb1.2.2 f01.1⟩
        | ok a => exact False.elim hb1
        | crash => exact False.elim hb1
      | ok B h2 =>
        rw [hbb] at hb1
        cases Ab with
        | fail d => exact False.elim hb1
        | crash => exact False.elim hb1
        | ok ba =>
          obtain ⟨g12, f12, hB⟩ := hb1
          have g02 := Heap.grows_trans g01 g12
          have f02 : h.frame h.length h2 := Heap.frame_trans f01 f12 f01.1
          dsimp only
          cases orelse with
          | none =>
            cases Ao with
            | some A => exact False.elim ho
            | none =>
              refine ⟨g02, f02, Realizes_mono ?_ h2 B ba hB⟩
              intro x hx
              have := f01.1
              omega
          | some f =>
            cases Ao with
            | none => exact False.elim ho
            | some A =>
              have ho1 := ho h2 g02
              dsimp only at ho1 ⊢
              cases hoo : f h2 with
              | crash =>
                rw [hoo] at ho1
                cases A <;> trivial
              | fail d h3 =>
                rw [hoo] at ho1
                cases A with
                | fail d2 =>
                  exact ⟨ho1.1, Heap.grows_trans g02 ho1.2.1,
                    Heap.frame_trans f02 ho1.2.2 f02.1⟩
                | ok a => exact False.elim ho1
                | crash => exact False.elim ho1
              | ok E h3 =>
                rw [hoo] at ho1
                cases A with
                | fail d => exact False.elim ho1
                | crash => exact False.elim ho1
                | ok ea =>
                  obtain ⟨g23, f23, hE⟩ := ho1
                  have g03 := Heap.grows_trans g02 g23
                  have f03 : h.frame h.length h3 := Heap.frame_trans f02 f23 f02.1
                  have hB3 := Realizes_frame _ g23 f23 B ba hB
                  have hd : ∀ x, (h1.length ≤ x ∧ x < h2.length) →
                      ¬ (h2.length ≤ x) := by
                    intro x hx
                    omega
                  obtain ⟨e1, e2⟩ := GarterType_Equal_realizes hd h3 B E ba ea hB3 hE
                  dsimp only
                  cases hm : ba.merge ea with
                  | none =>
                    rw [e2 hm]
                    exact ⟨rfl, g03, f03⟩
                  | some J =>
                    obtain ⟨h4, he, hfr, hBJ, _⟩ := e1 J hm
                    obtain ⟨g34, hlen⟩ := GarterType_Equal_grows _ _ _ _ _ he
                    rw [he]
                    refine ⟨Heap.grows_trans g03 g34, ?_, ?_⟩
                    · refine Heap.frame_trans f03 (Heap.frame_of_agree hlen ?_) (le_refl _)
                      intro x hx
                      have := f01.1
                      have := f12.1
                      exact hfr x (by omega) (by omega)
                    · refine Realizes_mono ?_ h4 B J hBJ
                      intro x hx
                      have := f01.1
                      have := f12.1
                      rcases hx with hx | hx <;> omega

theorem validate_list_expr_sim (base : Nat) (h : Heap)
    (loop : Res (Option TypePtr)) (A : ARes (Option AType)) (hb : base ≤ h.length)
    (hs : loop.sim (fun h2 ot oa => Realizes_opt (fun c => base ≤ c) h2 ot oa)
      base h A) :
    (validate_list_expr loop).sim
      (fun h2 T a => Realizes (fun c => base ≤ c) h2 T a) base h
      (shape_list_expr A) := by
  unfold validate_list_expr shape_list_expr
  cases loop with
  | crash => cases A <;> first | exact hs | exact False.elim hs
  | fail d h1 => cases A <;> first | exact hs | exact False.elim hs
  | ok ot h1 =>
    cases A with
    | fail d => exact False.elim hs
    | crash => exact False.elim hs
    | ok oa =>
      obtain ⟨g01, f01, hR⟩ := hs
      have hb1 : base ≤ h1.length := le_trans hb f01.1
      have gN := GarterType_New_grows h1 .GT_LIST (ot.map Meta.type)
      have fN := Heap.frame_New base h1 .GT_LIST (ot.map Meta.type) hb1
      have g0N := Heap.grows_trans g01 gN
      have f0N := Heap.frame_trans f01 fN (le_refl _)
      cases ot with
      | none =>
        cases oa with
        | some a => exact False.elim hR
        | none =>
          refine ⟨g0N, f0N, ⟨h1.length, rfl, hb1, ?_⟩, by simp [GarterType_New]⟩
          simp [GarterType_New]
      | some T =>
        cases oa with
        | none => exact False.elim hR
        | some a =>
          have hR : Realizes (fun c => base ≤ c) h1 T a := hR
          cases a with
          | complete s =>
            refine ⟨g0N, f0N, ?_, by simpa [Shape.complete] using hR.2⟩
            have := GarterType_shape_fuel_New_list h1 T s (h1.length + 1) hR.1 hR.2
            simpa [GarterType_shape, GarterType_New] using this
          | chain k =>
            refine ⟨g0N, f0N, ⟨h1.length, T, rfl, hb1, by simp [GarterType_New], ?_⟩,
              by have := hR.2; simp [GarterType_New]; omega⟩
            refine is_chain_mono (fun x hx => hx.1) _ k T
              (is_chain_agree h1 _ ?_ k T (is_chain_lt _ h1 k T hR.1))
            intro x hx
            exact GarterType_New_getElem_old h1 _ _ x hx.2

theorem Heap.frame_mono {base base1 : Nat} {h h2 : Heap} (hle : base ≤ base1)
    (hf : h.frame base1 h2) : h.frame base h2 :=
  ⟨hf.1, fun x hx => hf.2 x (by omega)⟩

mutual
/-- In a scope whose bound types are complete in `h0`, the expression
judgment on any heap grown from `h0` goes as the judgment on structures says,
changes no object that was there, and returns a type that is complete or a
chain of new List objects. -/
theorem validate_expr_sim (scope : GarterScope) (h0 : Heap)
    (hb : bindings_complete h0 (GarterScope_Items scope)) :
    ∀ (e : expr) (h : Heap), h0.grows h →
      (validate_expr scope h e).sim
        (fun h2 T a => Realizes (fun c => h.length ≤ c) h2 T a) h.length h
        (shape_expr scope h0 e)
  | .Num n, h, _ => by
    cases n
    · exact ⟨Heap.grows_refl h, Heap.frame_refl _ h, Realizes_INT _ h⟩
    · exact ⟨Heap.grows_refl h, Heap.frame_refl _ h, Realizes_FLOAT _ h⟩
    · exact ⟨rfl, Heap.grows_refl h, Heap.frame_refl _ h⟩
  | .JoinedStr, h, _ => ⟨Heap.grows_refl h, Heap.frame_refl _ h, Realizes_STR _ h⟩
  | .Str, h, _ => ⟨Heap.grows_refl h, Heap.frame_refl _ h, Realizes_STR _ h⟩
  | .Name name, h, hg => by
    unfold validate_expr shape_expr
    cases hx : PyDict_GetItem (GarterScope_Items scope) name with
    | none => exact ⟨rfl, Heap.grows_refl h, Heap.frame_refl _ h⟩
    | some ret =>
      have hc := hb name ret hx
      obtain ⟨_, s, hs, hsc⟩ := GarterType_shape_grows (Heap.grows_refl h0) ret hc
      simp only [hs]
      exact ⟨Heap.grows_refl h, Heap.frame_refl _ h,
        Realizes_complete_grows (fun _ => True) _ hg ret s ⟨hs, hsc⟩⟩
  | .BoolOp _ values, h, hg => by
    have ih := validate_expr_BoolOp_loop_sim scope h0 hb values h hg
    unfold validate_expr shape_expr
    cases hr : validate_expr_BoolOp_loop scope h values with
    | crash =>
      rw [hr] at ih
      cases hA : shape_expr_BoolOp_loop scope h0 values <;> rw [hA] at ih <;>
        trivial
    | fail d h1 =>
      rw [hr] at ih
      cases hA : shape_expr_BoolOp_loop scope h0 values <;> rw [hA] at ih <;>
        exact ih
    | ok u h1 =>
      rw [hr] at ih
      cases hA : shape_expr_BoolOp_loop scope h0 values <;> rw [hA] at ih <;>
        first | exact ⟨ih.1, ih.2.1, Realizes_BOOL _ h1⟩ | exact False.elim ih
  | .NameConstant value, h, _ => by
    unfold validate_expr shape_expr
    split_ifs
    · exact ⟨Heap.grows_refl h, Heap.frame_refl _ h, Realizes_BOOL _ h⟩
    · exact ⟨rfl, Heap.grows_refl h, Heap.frame_refl _ h⟩
  | .List elts, h, hg => by
    unfold validate_expr shape_expr
    exact validate_list_expr_sim h.length h _ _ (le_refl _)
      (validate_list_expr_loop_sim scope h0 hb elts h none none 0 h.length hg
        (le_refl _) trivial)
  | .Dict _ _, h, _ => ⟨rfl, Heap.grows_refl h, Heap.frame_refl _ h⟩
  | .BinOp left op right, h, hg => by
    unfold validate_expr shape_expr
    exact validate_binop_expr_sim h _ op _ _ _
      (validate_expr_sim scope h0 hb left h hg)
      (fun h1 g1 => validate_expr_sim scope h0 hb right h1 (Heap.grows_trans hg g1))
  | .UnaryOp op operand, h, hg => by
    unfold validate_expr shape_expr
    exact validate_unaryop_expr_sim _ _ h op _ _
      (validate_expr_sim scope h0 hb operand h hg)
  | .IfExp test body none, h, hg => by
    unfold validate_expr shape_expr
    exact validate_if_expr_sim h _ _ none _ _ none
      (validate_expr_sim scope h0 hb test h hg)
      (fun h1 g1 => validate_expr_sim scope h0 hb body h1 (Heap.grows_trans hg g1))
      trivial
  | .IfExp test body (some orelse), h, hg => by
    unfold validate_expr shape_expr
    exact validate_if_expr_sim h _ _ (some _) _ _ (some _)
      (validate_expr_sim scope h0 hb test h hg)
      (fun h1 g1 => validate_expr_sim scope h0 hb body h1 (Heap.grows_trans hg g1))
      (fun h1 g1 => validate_expr_sim scope h0 hb orelse h1 (Heap.grows_trans hg g1))
  | .Ellipsis, h, _ => ⟨rfl, Heap.grows_refl h, Heap.frame_refl _ h⟩
  | .Other _, h, _ => ⟨rfl, Heap.grows_refl h, Heap.frame_refl _ h⟩
theorem validate_expr_BoolOp_loop_sim (scope : GarterScope) (h0 : Heap)
    (hb : bindings_complete h0 (GarterScope_Items scope)) :
    ∀ (values : List expr) (h : Heap), h0.grows h →
      (validate_expr_BoolOp_loop scope h values).sim
        (fun _ (_ : Unit) (_ : Unit) => True) h.length h
        (shape_expr_BoolOp_loop scope h0 values)
  | [], h, _ => ⟨Heap.grows_refl h, Heap.frame_refl _ h, trivial⟩
  | operand :: rest, h, hg => by
    have ih := validate_expr_sim scope h0 hb operand h hg
    unfold validate_expr_BoolOp_loop shape_expr_BoolOp_loop
    cases hr : validate_expr scope h operand with
    | crash =>
      rw [hr] at ih
      cases hA : shape_expr scope h0 operand <;> rw [hA] at ih <;>
        trivial
    | fail d h1 =>
      rw [hr] at ih
      cases hA : shape_expr scope h0 operand with
      | crash => rw [hA] at ih; exact False.elim ih
      | ok a => rw [hA] at ih; exact False.elim ih
      | fail d2 => rw [hA] at ih; exact ih
    | ok ty h1 =>
      rw [hr] at ih
      cases hA : shape_expr scope h0 operand with
      | crash => rw [hA] at ih; exact False.elim ih
      | fail d => rw [hA] at ih; exact False.elim ih
      | ok a =>
        rw [hA] at ih
        obtain ⟨g01, f01, hT⟩ := ih
        dsimp only
        simp only [Realizes_kind _ h1 ty a hT]
        by_cases hk : a.kind = .GT_BOOL
        · simp only [ne_eq, hk, not_true_eq_false, ↓reduceIte]
          exact Res_sim_trans g01 f01 f01.1 _ _
            (validate_expr_BoolOp_loop_sim scope h0 hb rest h1
              (Heap.grows_trans hg g01))
            (fun _ _ _ _ _ _ => trivial)
        · simp only [ne_eq, hk, not_false_eq_true, ↓reduceIte]
          exact ⟨rfl, g01, f01⟩
theorem validate_list_expr_loop_sim (scope : GarterScope) (h0 : Heap)
    (hb : bindings_complete h0 (GarterScope_Items scope)) :
    ∀ (elts : List expr) (h : Heap) (elt_type : Option TypePtr)
      (elt : Option AType) (i : Nat) (base : Nat), h0.grows h → base ≤ h.length →
      Realizes_opt (fun c => base ≤ c) h elt_type elt →
      (validate_list_expr_loop scope h elt_type i elts).sim
        (fun h2 ot oa => Realizes_opt (fun c => base ≤ c) h2 ot oa) base h
        (shape_list_expr_loop scope h0 elt i elts)
  | [], h, elt_type, elt, _, base, _, _, hR => by
    unfold validate_list_expr_loop shape_list_expr_loop
    exact ⟨Heap.grows_refl h, Heap.frame_refl _ h, hR⟩
  | e :: rest, h, elt_type, elt, i, base, hg, hle, hR => by
    have ih := validate_expr_sim scope h0 hb e h hg
    unfold validate_list_expr_loop shape_list_expr_loop
    cases elt_type with
    | none =>
      cases elt with
      | some a => exact False.elim hR
      | none =>
        dsimp only
        cases hr : validate_expr scope h e with
        | crash =>
          rw [hr] at ih
          cases hA : shape_expr scope h0 e <;> rw [hA] at ih <;>
            trivial
        | fail d h1 =>
          rw [hr] at ih
          cases hA : shape_expr scope h0 e with
          | crash => rw [hA] at ih; exact False.elim ih
          | ok a => rw [hA] at ih; exact False.elim ih
          | fail d2 =>
            rw [hA] at ih
            exact ⟨ih.1, ih.2.1, Heap.frame_mono hle ih.2.2⟩
        | ok ty h1 =>
          rw [hr] at ih
          cases hA : shape_expr scope h0 e with
          | crash => rw [hA] at ih; exact False.elim ih
          | fail d => rw [hA] at ih; exact False.elim ih
          | ok a =>
            rw [hA] at ih
            obtain ⟨g01, f01, hT⟩ := ih
            have hT2 : Realizes_opt (fun c => base ≤ c) h1 (some ty) (some a) :=
              Realizes_mono (fun x hx => by omega) h1 ty a hT
            exact Res_sim_trans g01 (Heap.frame_mono hle f01) (le_refl _) _ _
              (validate_list_expr_loop_sim scope h0 hb rest h1 (some ty) (some a)
                (i + 1) base (Heap.grows_trans hg g01) (le_trans hle f01.1) hT2)
              (fun _ _ _ _ _ hv => hv)
    | some et =>
      cases elt with
      | none => exact False.elim hR
      | some acc =>
        have hR : Realizes (fun c => base ≤ c) h et acc := hR
        dsimp only
        cases hr : validate_expr scope h e with
        | crash =>
          rw [hr] at ih
          cases hA : shape_expr scope h0 e <;> rw [hA] at ih <;>
            trivial
        | fail d h1 =>
          rw [hr] at ih
          cases hA : shape_expr scope h0 e with
          | crash => rw [hA] at ih; exact False.elim ih
          | ok a => rw [hA] at ih; exact False.elim ih
          | fail d2 => trivial
        | ok ty h1 =>
          rw [hr] at ih
          cases hA : shape_expr scope h0 e with
          | crash => rw [hA] at ih; exact False.elim ih
          | fail d => rw [hA] at ih; exact False.elim ih
          | ok a =>
            rw [hA] at ih
            obtain ⟨g01, f01, hT⟩ := ih
            have hE := Realizes_frame _ g01 f01 et acc hR
            have hd : ∀ x, h.length ≤ x → ¬ (base ≤ x ∧ x < h.length) := by
              intro x hx
              omega
            obtain ⟨e1, e2⟩ := GarterType_Equal_realizes hd h1 ty et a acc hT hE
            dsimp only
            cases hm : a.merge acc with
            | none =>
              rw [e2 hm]
              exact ⟨rfl, g01, Heap.frame_mono hle f01⟩
            | some J =>
              obtain ⟨h2, he, hfr, _, hEJ⟩ := e1 J hm
              obtain ⟨g12, hlen⟩ := GarterType_Equal_grows _ _ _ _ _ he
              rw [he]
              have f12 : h1.frame base h2 := Heap.frame_of_agree hlen
                (fun x hx => hfr x (by omega) (by omega))
              have g02 := Heap.grows_trans g01 g12
              have f02 := Heap.frame_trans (Heap.frame_mono hle f01) f12 (le_refl _)
              have hEJ2 : Realizes_opt (fun c => base ≤ c) h2 (some et) (some J) :=
                Realizes_mono (fun x hx => by rcases hx with hx | hx <;> omega)
                  h2 et J hEJ
              exact Res_sim_trans g02 f02 (le_refl _) _ _
                (validate_list_expr_loop_sim scope h0 hb rest h2 (some et) (some J)
                  (i + 1) base (Heap.grows_trans hg g02)
                  (by have := f01.1; omega) hEJ2)
                (fun _ _ _ _ _ hv => hv)
end

theorem Join_foldl_mismatch (l : List Join) :
    List.foldl Join.op .mismatch l = .mismatch := by
  induction l with
  | nil => rfl
  | cons x l ih => simp only [List.foldl, Join_mismatch_op, ih]

/-- With every element judged successfully on structures, the loop of
`validate_list_expr` on structures ends with the type all comparisons
together give, or reports a mismatch when they give none. -/
theorem shape_list_expr_loop_join (scope : GarterScope) (h0 : Heap) :
    ∀ (es : List expr) (acc : AType) (i : Nat),
      (∀ e ∈ es, ∃ a, shape_expr scope h0 e = .ok a) →
      (∀ J, List.foldl Join.op (.type acc) (es.map (shape_join scope h0)) = .type J →
        shape_list_expr_loop scope h0 (some acc) i es = .ok (some J)) ∧
      (List.foldl Join.op (.type acc) (es.map (shape_join scope h0)) = .mismatch →
        ∃ j, shape_list_expr_loop scope h0 (some acc) i es
          = .fail (.ListElementMismatch j)) ∧
      List.foldl Join.op (.type acc) (es.map (shape_join scope h0)) ≠ .nothing := by
  intro es
  induction es with
  | nil =>
    intro acc i _
    refine ⟨?_, ?_, ?_⟩
    · intro J hJ
      simp only [List.map_nil, List.foldl_nil, Join.type.injEq] at hJ
      subst hJ
      simp [shape_list_expr_loop]
    · intro hm
      simp at hm
    · simp
  | cons e rest ih =>
    intro acc i hall
    obtain ⟨a, ha⟩ := hall e (List.mem_cons_self _ _)
    have hrest : ∀ e2 ∈ rest, ∃ a, shape_expr scope h0 e2 = .ok a :=
      fun e2 he2 => hall e2 (List.mem_cons_of_mem _ he2)
    have hj : shape_join scope h0 e = .type a := by
      simp [shape_join, ha]
    simp only [List.map_cons, List.foldl_cons, hj, Join_op_type]
    rw [shape_list_expr_loop]
    simp only [ha, AType_merge_comm a acc]
    cases hm : acc.merge a with
    | none =>
      simp only [Join_foldl_mismatch]
      exact ⟨by simp, fun _ => ⟨i, rfl⟩, by simp⟩
    | some J => exact ih J (i + 1) hrest

theorem Join_op_right_comm (z x y : Join) :
    Join.op (Join.op z x) y = Join.op (Join.op z y) x := by
  rw [Join_op_assoc, Join_op_comm x y, ← Join_op_assoc]

/-- What all comparisons together give does not depend on the order of the
elements. -/
theorem shape_join_perm (scope : GarterScope) (h0 : Heap) (es es2 : List expr)
    (hp : es.Perm es2) :
    List.foldl Join.op .nothing (es.map (shape_join scope h0))
      = List.foldl Join.op .nothing (es2.map (shape_join scope h0)) :=
  List.Perm.foldl_eq' (hp.map _) (fun x _ y _ z => Join_op_right_comm z x y) _

/-- The judgment on structures of a list literal whose elements are all judged
successfully on structures. -/
theorem shape_expr_List_join (scope : GarterScope) (h0 : Heap) (es : List expr)
    (hall : ∀ e ∈ es, ∃ a, shape_expr scope h0 e = .ok a) :
    (List.foldl Join.op .nothing (es.map (shape_join scope h0)) = .nothing →
      shape_expr scope h0 (.List es) = .ok (.chain 0)) ∧
    (∀ J, List.foldl Join.op .nothing (es.map (shape_join scope h0)) = .type J →
      shape_expr scope h0 (.List es) = .ok J.list) ∧
    (List.foldl Join.op .nothing (es.map (shape_join scope h0)) = .mismatch →
      ∃ j, shape_expr scope h0 (.List es) = .fail (.ListElementMismatch j)) := by
  cases es with
  | nil =>
    refine ⟨fun _ => ?_, ?_, ?_⟩
    · simp [shape_expr, shape_list_expr_loop, shape_list_expr]
    · intro J hJ
      simp at hJ
    · intro hm
      simp at hm
  | cons e rest =>
    obtain ⟨a, ha⟩ := hall e (List.mem_cons_self _ _)
    have hrest : ∀ e2 ∈ rest, ∃ a, shape_expr scope h0 e2 = .ok a :=
      fun e2 he2 => hall e2 (List.mem_cons_of_mem _ he2)
    have hj : shape_join scope h0 e = .type a := by
      simp [shape_join, ha]
    obtain ⟨l1, l2, l3⟩ := shape_list_expr_loop_join scope h0 rest a 1 hrest
    have hloop : shape_list_expr_loop scope h0 none 0 (e :: rest)
        = shape_list_expr_loop scope h0 (some a) 1 rest := by
      rw [shape_list_expr_loop]
      simp only [ha, zero_add]
    simp only [List.map_cons, List.foldl_cons, hj, Join.op]
    refine ⟨fun hn => absurd hn l3, ?_, ?_⟩
    · intro J hJ
      simp only [shape_expr, hloop, l1 J hJ, shape_list_expr]
    · intro hm
      obtain ⟨j, hj2⟩ := l2 hm
      exact ⟨j, by simp only [shape_expr, hloop, hj2, shape_list_expr]⟩

theorem Res_sim_of_ok {α β : Type} {V : Heap → α → β → Prop} {base : Nat} {h : Heap}
    {r : Res α} {A : ARes β} (hs : r.sim V base h A) (v : α) (h1 : Heap)
    (hr : r = .ok v h1) : ∃ a, A = .ok a ∧ V h1 v a := by
  subst hr
  cases A with
  | ok a => exact ⟨a, rfl, hs.2.2⟩
  | fail d => exact False.elim hs
  | crash => exact False.elim hs

theorem Res_sim_to_ok {α β : Type} {V : Heap → α → β → Prop} {base : Nat} {h : Heap}
    {r : Res α} {A : ARes β} (hs : r.sim V base h A) (a : β) (hA : A = .ok a) :
    ∃ v h1, r = .ok v h1 ∧ V h1 v a := by
  subst hA
  cases r with
  | ok v h1 => exact ⟨v, h1, rfl, hs.2.2⟩
  | fail d h1 => exact False.elim hs
  | crash => exact False.elim hs

theorem Res_sim_to_fail {α β : Type} {V : Heap → α → β → Prop} {base : Nat} {h : Heap}
    {r : Res α} {A : ARes β} (hs : r.sim V base h A) (d : Diag) (hA : A = .fail d) :
    ∃ h1, r = .fail d h1 := by
  subst hA
  cases r with
  | ok v h1 => exact False.elim hs
  | fail d2 h1 =>
    have : d2 = d := hs.1
    subst this
    exact ⟨h1, rfl⟩
  | crash => exact False.elim hs

/-- C30.  In a scope whose bound types are complete (as in every state
`Garter_Validate` can reach), take a list literal every element of which is
judged successfully, and any reordering of its elements.  Then the reordered
literal is accepted exactly when the original is; when they are accepted the
two result types have the same structure; and when they are not, both are
rejected for an element of an inconsistent type. -/
theorem validate_list_expr_perm (scope : GarterScope) (h : Heap)
    (es es2 : List expr)
    (hb : bindings_complete h (GarterScope_Items scope))
    (hp : es.Perm es2)
    (hall : ∀ e ∈ es, ∃ T h1, validate_expr scope h e = .ok T h1) :
    ((∃ T h1, validate_expr scope h (.List es) = .ok T h1) ↔
      ∃ T2 h2, validate_expr scope h (.List es2) = .ok T2 h2) ∧
    (∀ T h1 T2 h2, validate_expr scope h (.List es) = .ok T h1 →
      validate_expr scope h (.List es2) = .ok T2 h2 →
      ∃ s, GarterType_shape h1 T = some s ∧ GarterType_shape h2 T2 = some s) ∧
    ((¬ ∃ T h1, validate_expr scope h (.List es) = .ok T h1) →
      (∃ j h1, validate_expr scope h (.List es) = .fail (.ListElementMismatch j) h1) ∧
      ∃ j h2, validate_expr scope h (.List es2) = .fail (.ListElementMismatch j) h2) := by
  have hA : ∀ e ∈ es, ∃ a, shape_expr scope h e = .ok a := by
    intro e he
    obtain ⟨T, h1, hv⟩ := hall e he
    obtain ⟨a, ha, _⟩ := Res_sim_of_ok
      (validate_expr_sim scope h hb e h (Heap.grows_refl h)) T h1 hv
    exact ⟨a, ha⟩
  have hA2 : ∀ e ∈ es2, ∃ a, shape_expr scope h e = .ok a :=
    fun e he => hA e (hp.symm.subset he)
  have hperm := shape_join_perm scope h es es2 hp
  obtain ⟨n1, t1, m1⟩ := shape_expr_List_join scope h es hA
  obtain ⟨n2, t2, m2⟩ := shape_expr_List_join scope h es2 hA2
  rw [← hperm] at n2 t2 m2
  have s1 := validate_expr_sim scope h hb (.List es) h (Heap.grows_refl h)
  have s2 := validate_expr_sim scope h hb (.List es2) h (Heap.grows_refl h)
  have key : ∀ A, shape_expr scope h (.List es) = .ok A →
      shape_expr scope h (.List es2) = .ok A →
      ((∃ T h1, validate_expr scope h (.List es) = .ok T h1) ↔
        ∃ T2 h2, validate_expr scope h (.List es2) = .ok T2 h2) ∧
      (∀ T h1 T2 h2, validate_expr scope h (.List es) = .ok T h1 →
        validate_expr scope h (.List es2) = .ok T2 h2 →
        ∃ s, GarterType_shape h1 T = some s ∧ GarterType_shape h2 T2 = some s) ∧
      ((¬ ∃ T h1, validate_expr scope h (.List es) = .ok T h1) →
        (∃ j h1, validate_expr scope h (.List es)
          = .fail (.ListElementMismatch j) h1) ∧
        ∃ j h2, validate_expr scope h (.List es2)
          = .fail (.ListElementMismatch j) h2) := by
    intro A e1 e2
    obtain ⟨T, h1, hv1, hR1⟩ := Res_sim_to_ok s1 A e1
    obtain ⟨T2, h2, hv2, hR2⟩ := Res_sim_to_ok s2 A e2
    refine ⟨⟨fun _ => ⟨T2, h2, hv2⟩, fun _ => ⟨T, h1, hv1⟩⟩, ?_, ?_⟩
    · intro T' h1' T2' h2' hv1' hv2'
      rw [hv1] at hv1'
      rw [hv2] at hv2'
      cases hv1'
      cases hv2'
      exact ⟨A.shape, Realizes_shape _ _ _ _ hR1, Realizes_shape _ _ _ _ hR2⟩
    · intro hn
      exact absurd ⟨T, h1, hv1⟩ hn
  cases hj : List.foldl Join.op .nothing (es.map (shape_join scope h)) with
  | nothing => exact key _ (n1 hj) (n2 hj)
  | type J => exact key _ (t1 J hj) (t2 J hj)
  | mismatch =>
    obtain ⟨j1, e1⟩ := m1 hj
    obtain ⟨j2, e2⟩ := m2 hj
    obtain ⟨h1, hv1⟩ := Res_sim_to_fail s1 _ e1
    obtain ⟨h2, hv2⟩ := Res_sim_to_fail s2 _ e2
    refine ⟨⟨?_, ?_⟩, ?_, fun _ => ⟨⟨j1, h1, hv1⟩, ⟨j2, h2, hv2⟩⟩⟩
    · rintro ⟨T, g, hv⟩
      rw [hv1] at hv
      cases hv
    · rintro ⟨T, g, hv⟩
      rw [hv2] at hv
      cases hv
    · intro T g T2 g2 hv
      rw [hv1] at hv
      cases hv

/-- Witness for C30: on a new global scope `[[], [1]]` and `[[1], []]` are both
accepted with a type of structure List of List of int, and `[[], [1], ["a"]]`
and its reversal `[["a"], [1], []]` are both rejected. -/
theorem validate_list_expr_perm_witness :
    validate_expr (GarterScope_New none) [] (.List [.List [], .List [int_lit 1]])
      = .ok (.obj 2)
          [⟨.GT_LIST, some (.type .INT)⟩, ⟨.GT_LIST, some (.type .INT)⟩,
            ⟨.GT_LIST, some (.type (.obj 0))⟩] ∧
    validate_expr (GarterScope_New none) [] (.List [.List [int_lit 1], .List []])
      = .ok (.obj 2)
          [⟨.GT_LIST, some (.type .INT)⟩, ⟨.GT_LIST, some (.type .INT)⟩,
            ⟨.GT_LIST, some (.type (.obj 0))⟩] ∧
    GarterType_shape
        [⟨.GT_LIST, some (.type .INT)⟩, ⟨.GT_LIST, some (.type .INT)⟩,
          ⟨.GT_LIST, some (.type (.obj 0))⟩] (.obj 2)
      = some (.listOf (.listOf .int)) ∧
    validate_expr (GarterScope_New none) []
        (.List [.List [], .List [int_lit 1], .List [.Str]])
      = .fail (.ListElementMismatch 2)
          [⟨.GT_LIST, some (.type .INT)⟩, ⟨.GT_LIST, some (.type .INT)⟩,
            ⟨.GT_LIST, some (.type .STR)⟩] ∧
    validate_expr (GarterScope_New none) []
        (.List [.List [.Str], .List [int_lit 1], .List []])
      = .fail (.ListElementMismatch 1)
          [⟨.GT_LIST, some (.type .STR)⟩, ⟨.GT_LIST, some (.type .INT)⟩] ∧
    ((∃ T h1, validate_expr (GarterScope_New none) []
        (.List [.List [], .List [int_lit 1], .List [.Str]]) = .ok T h1) ↔
      ∃ T2 h2, validate_expr (GarterScope_New none) []
        (.List [.List [.Str], .List [int_lit 1], .List []]) = .ok T2 h2) :=
  ⟨rfl, rfl, rfl, rfl, rfl,
    (validate_list_expr_perm (GarterScope_New none) []
      [.List [], .List [int_lit 1], .List [.Str]]
      [.List [.Str], .List [int_lit 1], .List []]
      (fun name type hx => by
        simp [GarterScope_New, GarterScope_Items, PyDict_GetItem] at hx)
      (List.reverse_perm _).symm
      (fun e he => by
        simp only [List.mem_cons, List.mem_singleton, List.not_mem_nil, or_false] at he
        rcases he with rfl | rfl | rfl
        · exact ⟨_, _, rfl⟩
        · exact ⟨_, _, rfl⟩
        · exact ⟨_, _, rfl⟩)).1⟩

end Garter
